import Mathlib

/-!
Buffer allocator of the datastore (`searchlib/datastore/bufferstate.cpp`).

A shallow embedding of `BufferTypeBase` (per-type sizing policy and aggregate
statistics), `BufferState::FreeListList` (anchor of the circular list of buffers
with free slots) and `BufferState` (one buffer and its life cycle).

Conventions of the embedding.

* Objects live in a `Store`; a C++ pointer to an object is the index of the object
  in the store and `none` is the null pointer.  A pointer to the `_usedElems`
  member of a buffer is the index of that buffer.
* `size_t` and `uint64_t` are natural numbers reduced modulo `2^64`, `uint32_t`
  modulo `2^32`, at every operation that can wrap.
* A failed `assert` ends the run with `Fault.assertion line`, where `line` is the
  line of the `assert` in `bufferstate.cpp`; the operations return
  `Except Fault _`.
* The raw element memory is owned through `vespalib::alloc::Alloc`; a block is
  modelled by its address, and the store records which blocks are currently
  owned by some `Alloc`.  The element hooks of the concrete type (initialising
  reserved elements, destroying elements, copying on resize) act on the
  contents of that memory only and leave the modelled state untouched; the
  contents are modelled where an operation is stated to copy them
  (`fallbackResize`).
* `fallbackResize` is embedded a second time as the sequence of its writes and
  fences in the order of the source (`BufferState.fallbackResizeEvents`), for the
  statement about what can be observed while it runs; the two embeddings are
  proved to agree (`fallbackResizeEvents_refines`).
* The owner of a buffer, which is not part of `bufferstate.cpp`, writes the used
  count of an active buffer through the pending reference; such a write is a step
  of its own (`Step.used`) in the sequences the bookkeeping statements range over.
-/

namespace search.datastore

/-- Largest value of `size_t` (`std::numeric_limits<size_t>::max()`). -/
def SIZE_MAX : Nat := 2 ^ 64 - 1

/-- Addition of two `size_t` values. -/
def add64 (a b : Nat) : Nat := (a + b) % 2 ^ 64

/-- Subtraction of two `size_t` values. -/
def sub64 (a b : Nat) : Nat := (a + (2 ^ 64 - b % 2 ^ 64)) % 2 ^ 64

/-- Multiplication of two `size_t` values. -/
def mul64 (a b : Nat) : Nat := (a * b) % 2 ^ 64

/-- Increment of a `uint32_t` counter. -/
def inc32 (a : Nat) : Nat := (a + 1) % 2 ^ 32

/-- Decrement of a `uint32_t` counter. -/
def dec32 (a : Nat) : Nat := (a + (2 ^ 32 - 1)) % 2 ^ 32

/-- Ways in which a run ends without returning. -/
inductive Fault where
  /-- The `assert` at this line of `bufferstate.cpp` failed. -/
  | assertion (line : Nat)
  /-- Division or remainder by zero at this line. -/
  | divisionByZero (line : Nat)
  /-- A null pointer was dereferenced at this line. -/
  | nullDereference (line : Nat)
  deriving DecidableEq, Repr

deriving instance DecidableEq for Except

/-- Replace the value of a map at one index. -/
def upd {α : Type} (f : Nat → α) (i : Nat) (v : α) : Nat → α :=
  fun j => if j = i then v else f j

/-- Members of `BufferTypeBase`. -/
structure BufferTypeBase where
  _clusterSize : Nat
  _minClusters : Nat
  _maxClusters : Nat
  _activeBuffers : Nat
  _holdBuffers : Nat
  _activeUsedElems : Nat
  _holdUsedElems : Nat
  /-- Pointer to the `_usedElems` member of a buffer, or null. -/
  _lastUsedElems : Option Nat
  deriving DecidableEq, Repr

/-- Members of `BufferState::FreeListList`. -/
structure FreeListList where
  _head : Option Nat
  deriving DecidableEq, Repr

/-- The enumeration `BufferState::State`. -/
inductive State where
  | FREE
  | ACTIVE
  | HOLD
  deriving DecidableEq, Repr

/-- Members of `BufferState`. -/
structure BufferState where
  _usedElems : Nat
  _allocElems : Nat
  _deadElems : Nat
  _state : State
  _disableElemHoldList : Bool
  _holdElems : Nat
  _freeList : List Nat
  _freeListList : Option Nat
  _nextHasFree : Option Nat
  _prevHasFree : Option Nat
  _typeHandler : Option Nat
  _typeId : Nat
  _clusterSize : Nat
  _compacting : Bool
  /-- Address of the block owned by the `Alloc` member, `none` when it is empty. -/
  _buffer : Option Nat
  deriving DecidableEq, Repr

/-- The objects the allocator works on. -/
structure Store where
  types : Nat → BufferTypeBase
  lists : Nat → FreeListList
  buffers : Nat → BufferState
  /-- Addresses of the memory blocks currently owned by some `Alloc`. -/
  allocated : List Nat

/-- Store with the type entry `th` replaced. -/
def Store.setType (w : Store) (th : Nat) (t : BufferTypeBase) : Store :=
  { w with types := upd w.types th t }

/-- Store with the anchor `a` replaced. -/
def Store.setList (w : Store) (a : Nat) (l : FreeListList) : Store :=
  { w with lists := upd w.lists a l }

/-- Store with the buffer `b` replaced. -/
def Store.setBuffer (w : Store) (b : Nat) (s : BufferState) : Store :=
  { w with buffers := upd w.buffers b s }

/-- Model of `BufferTypeBase::BufferTypeBase(clusterSize, minClusters, maxClusters)`. -/
def BufferTypeBase.new (clusterSize minClusters maxClusters : Nat) : BufferTypeBase :=
  { _clusterSize := clusterSize
    _minClusters := min minClusters maxClusters
    _maxClusters := maxClusters
    _activeBuffers := 0
    _holdBuffers := 0
    _activeUsedElems := 0
    _holdUsedElems := 0
    _lastUsedElems := none }

/-- Model of `BufferTypeBase::getReservedElements(bufferId)`. -/
def getReservedElements (t : BufferTypeBase) (bufferId : Nat) : Nat :=
  if bufferId = 0 then t._clusterSize else 0

/-- Model of `BufferTypeBase::flushLastUsed()` on the type entry `th`. -/
def flushLastUsed (w : Store) (th : Nat) : Store :=
  match (w.types th)._lastUsedElems with
  | none => w
  | some p =>
    w.setType th { w.types th with
      _activeUsedElems := add64 (w.types th)._activeUsedElems (w.buffers p)._usedElems
      _lastUsedElems := none }

/-- The local `usedElems` of `calcClustersToAlloc` (lines 94 to 96): the aggregate
plus the count behind the pending pointer, when there is one. -/
def effectiveUsedElems (w : Store) (th : Nat) : Nat :=
  match (w.types th)._lastUsedElems with
  | none => (w.types th)._activeUsedElems
  | some p => add64 (w.types th)._activeUsedElems (w.buffers p)._usedElems

/-- Model of `BufferTypeBase::calcClustersToAlloc(bufferId, sizeNeeded, clusterRefSize)` on the
type entry `th`. -/
def calcClustersToAlloc (w : Store) (th : Nat) (bufferId sizeNeeded clusterRefSize : Nat) :
    Except Fault Nat :=
  let t := w.types th
  let reservedElements := getReservedElements t bufferId
  let usedElems := effectiveUsedElems w th
  if t._clusterSize = 0 then .error (.divisionByZero 97) else
  if ¬ (usedElems % t._clusterSize = 0) then .error (.assertion 97) else
  let maxClusters := SIZE_MAX / t._clusterSize
  let maxClusters2 := clusterRefSize
  let maxClusters := if maxClusters > maxClusters2 then maxClusters2 else maxClusters
  let maxClusters := if maxClusters > t._maxClusters then t._maxClusters else maxClusters
  let minClusters := t._minClusters
  let minClusters := if minClusters > maxClusters then maxClusters else minClusters
  let usedClusters := usedElems / t._clusterSize
  let needClusters :=
    sub64 (add64 (add64 sizeNeeded reservedElements) t._clusterSize) 1 / t._clusterSize
  let wantClusters := add64 usedClusters minClusters
  let wantClusters := if wantClusters < needClusters then needClusters else wantClusters
  let wantClusters := if wantClusters > maxClusters then maxClusters else wantClusters
  if ¬ (wantClusters ≥ needClusters) then .error (.assertion 114) else
  .ok wantClusters

/-- Model of `BufferTypeBase::onActive(bufferId, usedElems, deadElems, buffer)` on the type entry
`th`; `usedElems` points to the `_usedElems` member of buffer `usedElems` and
`deadElems` refers to the `_deadElems` member of buffer `deadElems`. -/
def BufferTypeBase.onActive (w : Store) (th : Nat) (bufferId : Nat) (usedElems : Nat)
    (deadElems : Nat) (_buffer : Option Nat) : Store :=
  let w := flushLastUsed w th
  let w := w.setType th { w.types th with
    _activeBuffers := inc32 (w.types th)._activeBuffers
    _lastUsedElems := some usedElems }
  let reservedElements := getReservedElements (w.types th) bufferId
  if reservedElements ≠ 0 then
    let w := w.setBuffer usedElems { w.buffers usedElems with _usedElems := reservedElements }
    w.setBuffer deadElems { w.buffers deadElems with _deadElems := reservedElements }
  else w

/-- Model of `BufferTypeBase::onHold(usedElems)` on the type entry `th`; `usedElems` points to the
`_usedElems` member of buffer `usedElems`. -/
def BufferTypeBase.onHold (w : Store) (th : Nat) (usedElems : Nat) : Except Fault Store :=
  let w := if some usedElems = (w.types th)._lastUsedElems then flushLastUsed w th else w
  let w := w.setType th { w.types th with
    _activeBuffers := dec32 (w.types th)._activeBuffers }
  let w := w.setType th { w.types th with
    _holdBuffers := inc32 (w.types th)._holdBuffers }
  if ¬ ((w.types th)._activeUsedElems ≥ (w.buffers usedElems)._usedElems) then .error (.assertion 73) else
  let w := w.setType th { w.types th with
    _activeUsedElems := sub64 (w.types th)._activeUsedElems (w.buffers usedElems)._usedElems }
  let w := w.setType th { w.types th with
    _holdUsedElems := add64 (w.types th)._holdUsedElems (w.buffers usedElems)._usedElems }
  .ok w

/-- Model of `BufferTypeBase::onFree(usedElems)` on the type entry `th`. -/
def BufferTypeBase.onFree (w : Store) (th : Nat) (usedElems : Nat) : Except Fault Store :=
  let w := w.setType th { w.types th with
    _holdBuffers := dec32 (w.types th)._holdBuffers }
  if ¬ ((w.types th)._holdUsedElems ≥ usedElems) then .error (.assertion 83) else
  .ok (w.setType th { w.types th with
    _holdUsedElems := sub64 (w.types th)._holdUsedElems usedElems })

/-- Model of `BufferState::BufferState()`: a freshly constructed buffer. -/
def BufferState.new : BufferState :=
  { _usedElems := 0
    _allocElems := 0
    _deadElems := 0
    _state := .FREE
    _disableElemHoldList := false
    _holdElems := 0
    _freeList := []
    _freeListList := none
    _nextHasFree := none
    _prevHasFree := none
    _typeHandler := none
    _typeId := 0
    _clusterSize := 0
    _compacting := false
    _buffer := none }

/-- The test `_freeListList != NULL && _freeListList->_head == this`, the negation of
the condition asserted at lines 174, 209 and 236. -/
def isHeadOfOwnList (w : Store) (self : Nat) : Bool :=
  match (w.buffers self)._freeListList with
  | none => false
  | some a => (w.lists a)._head == some self

/-- Model of `BufferState::addToFreeListList()` on buffer `self`. -/
def addToFreeListList (w : Store) (self : Nat) : Except Fault Store :=
  match (w.buffers self)._freeListList with
  | none => .error (.assertion 281)
  | some a =>
    if (w.lists a)._head = some self then .error (.assertion 281) else
    if (w.buffers self)._nextHasFree ≠ none then .error (.assertion 282) else
    if (w.buffers self)._prevHasFree ≠ none then .error (.assertion 283) else
    match (w.lists a)._head with
    | some head =>
      let w := w.setBuffer self { w.buffers self with _nextHasFree := some head }
      let w := w.setBuffer self { w.buffers self with
        _prevHasFree := (w.buffers head)._prevHasFree }
      let w := w.setBuffer head { w.buffers head with _prevHasFree := some self }
      match (w.buffers self)._prevHasFree with
      | none => .error (.nullDereference 288)
      | some prev =>
        let w := w.setBuffer prev { w.buffers prev with _nextHasFree := some self }
        .ok (w.setList a { w.lists a with _head := some self })
    | none =>
      let w := w.setBuffer self { w.buffers self with _nextHasFree := some self }
      let w := w.setBuffer self { w.buffers self with _prevHasFree := some self }
      .ok (w.setList a { w.lists a with _head := some self })

/-- Model of `BufferState::removeFromFreeListList()` on buffer `self`. -/
def removeFromFreeListList (w : Store) (self : Nat) : Except Fault Store :=
  match (w.buffers self)._freeListList with
  | none => .error (.assertion 300)
  | some a =>
  match (w.buffers self)._nextHasFree with
  | none => .error (.assertion 301)
  | some next =>
  match (w.buffers self)._prevHasFree with
  | none => .error (.assertion 302)
  | some prev =>
    if next = self then
      if prev ≠ self then .error (.assertion 304) else
      if (w.lists a)._head ≠ some self then .error (.assertion 305) else
      let w := w.setList a { w.lists a with _head := none }
      .ok (w.setBuffer self { w.buffers self with
        _nextHasFree := none, _prevHasFree := none })
    else
      if prev = self then .error (.assertion 308) else
      let w := w.setList a { w.lists a with _head := some next }
      let w := w.setBuffer next { w.buffers next with _prevHasFree := some prev }
      let w := w.setBuffer prev { w.buffers prev with _nextHasFree := some next }
      .ok (w.setBuffer self { w.buffers self with
        _nextHasFree := none, _prevHasFree := none })

/-- Model of `BufferState::setFreeListList(freeListList)` on buffer `self`. -/
def setFreeListList (w : Store) (self : Nat) (freeListList : Option Nat) :
    Except Fault Store :=
  if (w.buffers self)._state = .FREE ∧ freeListList ≠ none then .ok w else
  if freeListList = (w.buffers self)._freeListList then .ok w else
  match (if (w.buffers self)._freeListList ≠ none ∧ (w.buffers self)._freeList ≠ [] then
      removeFromFreeListList w self else .ok w : Except Fault Store) with
  | .error e => .error e
  | .ok w =>
    let w := w.setBuffer self { w.buffers self with _freeListList := freeListList }
    if (w.buffers self)._freeList ≠ [] then
      if freeListList ≠ none then addToFreeListList w self
      else .ok (w.setBuffer self { w.buffers self with _freeList := [] })
    else .ok w

/-- Model of `BufferState::onActive(bufferId, typeId, typeHandler, sizeNeeded, maxClusters, buffer)`
on buffer `self`.  `buffer` is the caller's pointer on entry and the second component of
the result is that pointer on return.  `elementSize` is what
`typeHandler->elementSize()` returns and `create bytes` is the address of the block that
`Alloc::create(bytes)` hands out (`none` for a null pointer). -/
def BufferState.onActive (w : Store) (self : Nat) (bufferId typeId typeHandler : Nat)
    (sizeNeeded maxClusters : Nat) (buffer : Option Nat)
    (elementSize : Nat) (create : Nat → Option Nat) : Except Fault (Store × Option Nat) :=
  if buffer ≠ none then .error (.assertion 163) else
  if (w.buffers self)._buffer ≠ none then .error (.assertion 164) else
  if (w.buffers self)._state ≠ .FREE then .error (.assertion 165) else
  if (w.buffers self)._typeHandler ≠ none then .error (.assertion 166) else
  if (w.buffers self)._allocElems ≠ 0 then .error (.assertion 167) else
  if (w.buffers self)._usedElems ≠ 0 then .error (.assertion 168) else
  if (w.buffers self)._deadElems ≠ 0 then .error (.assertion 169) else
  if (w.buffers self)._holdElems ≠ 0 then .error (.assertion 170) else
  if (w.buffers self)._freeList ≠ [] then .error (.assertion 171) else
  if (w.buffers self)._nextHasFree ≠ none then .error (.assertion 172) else
  if (w.buffers self)._prevHasFree ≠ none then .error (.assertion 173) else
  if isHeadOfOwnList w self then .error (.assertion 174) else
  let reservedElements := getReservedElements (w.types typeHandler) bufferId
  match calcClustersToAlloc w typeHandler bufferId sizeNeeded maxClusters with
  | .error e => .error e
  | .ok allocClusters =>
    let allocSize := mul64 allocClusters (w.types typeHandler)._clusterSize
    if ¬ (allocSize ≥ add64 reservedElements sizeNeeded) then .error (.assertion 179) else
    let created := create (mul64 allocSize elementSize)
    let w := { w.setBuffer self { w.buffers self with _buffer := created } with
      allocated := created.toList ++ w.allocated }
    let buffer := (w.buffers self)._buffer
    if buffer = none then .error (.assertion 182) else
    let w := w.setBuffer self { w.buffers self with
      _allocElems := allocSize
      _state := .ACTIVE
      _typeHandler := some typeHandler
      _typeId := typeId }
    let w := w.setBuffer self { w.buffers self with
      _clusterSize := (w.types typeHandler)._clusterSize }
    .ok (BufferTypeBase.onActive w typeHandler bufferId self self buffer, buffer)

/-- Model of `BufferState::onHold()` on buffer `self`. -/
def BufferState.onHold (w : Store) (self : Nat) : Except Fault Store :=
  if (w.buffers self)._state ≠ .ACTIVE then .error (.assertion 195) else
  match (w.buffers self)._typeHandler with
  | none => .error (.assertion 196)
  | some typeHandler =>
    let w := w.setBuffer self { w.buffers self with _state := .HOLD, _compacting := false }
    if ¬ ((w.buffers self)._deadElems ≤ (w.buffers self)._usedElems) then
      .error (.assertion 199) else
    if ¬ ((w.buffers self)._holdElems
        ≤ sub64 (w.buffers self)._usedElems (w.buffers self)._deadElems) then
      .error (.assertion 200) else
    let w := w.setBuffer self { w.buffers self with
      _holdElems := sub64 (w.buffers self)._usedElems (w.buffers self)._deadElems }
    match BufferTypeBase.onHold w typeHandler self with
    | .error e => .error e
    | .ok w =>
      match (if (w.buffers self)._freeList ≠ [] then
          match removeFromFreeListList w self with
          | .error e => .error e
          | .ok w => .ok (w.setBuffer self { w.buffers self with _freeList := [] })
        else .ok w : Except Fault Store) with
      | .error e => .error e
      | .ok w =>
        if (w.buffers self)._nextHasFree ≠ none then .error (.assertion 207) else
        if (w.buffers self)._prevHasFree ≠ none then .error (.assertion 208) else
        if isHeadOfOwnList w self then .error (.assertion 209) else
        setFreeListList w self none

/-- Model of `BufferState::onFree(buffer)` on buffer `self`.  `buffer` is the caller's pointer on
entry and the second component of the result is that pointer on return.  The block that
the `Alloc` member owned is released when the temporary of line 223 is destroyed. -/
def BufferState.onFree (w : Store) (self : Nat) (buffer : Option Nat) :
    Except Fault (Store × Option Nat) :=
  if buffer ≠ (w.buffers self)._buffer then .error (.assertion 217) else
  if (w.buffers self)._state ≠ .HOLD then .error (.assertion 218) else
  match (w.buffers self)._typeHandler with
  | none => .error (.assertion 219)
  | some typeHandler =>
    if ¬ ((w.buffers self)._deadElems ≤ (w.buffers self)._usedElems) then
      .error (.assertion 220) else
    if ¬ ((w.buffers self)._holdElems
        = sub64 (w.buffers self)._usedElems (w.buffers self)._deadElems) then
      .error (.assertion 221) else
    let w := { w.setBuffer self { w.buffers self with _buffer := none } with
      allocated := w.allocated.filter (fun p => some p ≠ (w.buffers self)._buffer) }
    match BufferTypeBase.onFree w typeHandler (w.buffers self)._usedElems with
    | .error e => .error e
    | .ok w =>
      let buffer : Option Nat := none
      let w := w.setBuffer self { w.buffers self with
        _usedElems := 0
        _allocElems := 0
        _deadElems := 0
        _holdElems := 0
        _state := .FREE
        _typeHandler := none
        _clusterSize := 0 }
      if (w.buffers self)._freeList ≠ [] then .error (.assertion 233) else
      if (w.buffers self)._nextHasFree ≠ none then .error (.assertion 234) else
      if (w.buffers self)._prevHasFree ≠ none then .error (.assertion 235) else
      if isHeadOfOwnList w self then .error (.assertion 236) else
      match setFreeListList w self none with
      | .error e => .error e
      | .ok w =>
        .ok (w.setBuffer self { w.buffers self with _disableElemHoldList := false }, buffer)

/-- The buffers met when following `_nextHasFree` from `start` for at most `fuel`
steps. -/
def followNext (w : Store) : Nat → Option Nat → List Nat
  | 0, _ => []
  | _ + 1, none => []
  | fuel + 1, some b => b :: followNext w fuel (w.buffers b)._nextHasFree

/-! ## Quantities the statements about the sizing algorithm refer to -/

/-- The bound of step 2 of the sizing algorithm: the smallest of the overflow ceiling
`SIZE_MAX / cluster_size`, the caller's `cluster_ref_limit` and `max_clusters`. -/
def maxAddressableClusters (t : BufferTypeBase) (clusterRefSize : Nat) : Nat :=
  min (min (SIZE_MAX / t._clusterSize) clusterRefSize) t._maxClusters

/-- The local `needClusters` of `calcClustersToAlloc` (line 108), as the code computes
it in `size_t` arithmetic. -/
def needClusters (t : BufferTypeBase) (bufferId sizeNeeded : Nat) : Nat :=
  sub64 (add64 (add64 sizeNeeded (getReservedElements t bufferId)) t._clusterSize) 1
    / t._clusterSize

/-- The ceiling of `a / b` over the natural numbers. -/
def ceilDiv (a b : Nat) : Nat := (a + b - 1) / b

/-- The `needed` of step 4 of the sizing algorithm, over the natural numbers:
`ceil((size_needed + reserved_elements(buffer_id)) / cluster_size)`. -/
def neededClusters (t : BufferTypeBase) (bufferId sizeNeeded : Nat) : Nat :=
  ceilDiv (sizeNeeded + getReservedElements t bufferId) t._clusterSize

/-- A store in which every type entry is `t`, every anchor is empty and every buffer is
freshly constructed. -/
def Store.fresh (t : BufferTypeBase) : Store :=
  { types := fun _ => t
    lists := fun _ => { _head := none }
    buffers := fun _ => BufferState.new
    allocated := [] }

/-- Scenario A: a fresh type entry with `cluster_size = 1`, `min_clusters = 4`,
`max_clusters = 1000`. -/
def scenarioA : Store := Store.fresh (BufferTypeBase.new 1 4 1000)

/-- The type entry of scenario A with the aggregate used count at `SIZE_MAX`. -/
def scenarioAFull : Store :=
  Store.fresh { BufferTypeBase.new 1 4 1000 with _activeUsedElems := 2 ^ 64 - 1 }

/-- A fresh type entry with `cluster_size = 8`, `min_clusters = 0`, `max_clusters = 1000`. -/
def eightNoMin : Store := Store.fresh (BufferTypeBase.new 8 0 1000)

/-! ## Predicates and scenarios the statements about the buffer refer to -/

/-- The state of a buffer that `BufferState::onActive` asserts at lines 164 to 174: state
`FREE`, no memory, no type handler, all counts zero, empty free list, no links, and not
the head of an anchor. -/
@[reducible] def FreeBuffer (w : Store) (self : Nat) : Prop :=
  (w.buffers self)._state = .FREE ∧ (w.buffers self)._buffer = none ∧
  (w.buffers self)._typeHandler = none ∧ (w.buffers self)._allocElems = 0 ∧
  (w.buffers self)._usedElems = 0 ∧ (w.buffers self)._deadElems = 0 ∧
  (w.buffers self)._holdElems = 0 ∧ (w.buffers self)._freeList = [] ∧
  (w.buffers self)._nextHasFree = none ∧ (w.buffers self)._prevHasFree = none ∧
  isHeadOfOwnList w self = false

/-- Free-list bookkeeping of one buffer as the data model describes it: with an empty
local free list the buffer has no links and is not the head of its anchor; with a
non-empty one it has an anchor and both links, a buffer that is its own successor is its
own predecessor and the head of its anchor, and a buffer with another successor has
another predecessor. -/
@[reducible] def LinksOk (w : Store) (self : Nat) : Prop :=
  ((w.buffers self)._freeList = [] →
    (w.buffers self)._nextHasFree = none ∧ (w.buffers self)._prevHasFree = none ∧
    isHeadOfOwnList w self = false) ∧
  ((w.buffers self)._freeList ≠ [] →
    (w.buffers self)._freeListList ≠ none ∧
    (w.buffers self)._nextHasFree ≠ none ∧ (w.buffers self)._prevHasFree ≠ none ∧
    ((w.buffers self)._nextHasFree = some self →
      (w.buffers self)._prevHasFree = some self ∧ isHeadOfOwnList w self = true) ∧
    ((w.buffers self)._nextHasFree ≠ some self →
      (w.buffers self)._prevHasFree ≠ some self))

/-- In a well-formed circular list only the predecessor of `self` has `self` as its
successor and only the successor of `self` has `self` as its predecessor. -/
def OnlyNeighboursRefer (w : Store) (self : Nat) : Prop :=
  ∀ x, x ≠ self →
    ((w.buffers x)._nextHasFree = some self → (w.buffers self)._prevHasFree = some x) ∧
    ((w.buffers x)._prevHasFree = some self → (w.buffers self)._nextHasFree = some x)

/-- The used count of buffer `self` is part of the active aggregate of type entry `th`:
either it is the pending count (and folding it in does not wrap), or it has been folded
in already. -/
@[reducible] def CountedByType (w : Store) (th self : Nat) : Prop :=
  ((w.types th)._lastUsedElems = some self ∧
    (w.types th)._activeUsedElems + (w.buffers self)._usedElems < 2 ^ 64) ∨
  ((w.types th)._lastUsedElems ≠ some self ∧
    (w.buffers self)._usedElems ≤ (w.types th)._activeUsedElems)

/-- A buffer in state `HOLD` as the data model describes it: bound to type entry `th`,
`dead_elems ≤ used_elems`, its used count contained in the hold aggregate of the type
entry, an empty free list, no links, and not the head of an anchor. -/
@[reducible] def HoldBuffer (w : Store) (self th : Nat) : Prop :=
  (w.buffers self)._state = .HOLD ∧ (w.buffers self)._typeHandler = some th ∧
  (w.buffers self)._deadElems ≤ (w.buffers self)._usedElems ∧
  (w.buffers self)._usedElems < 2 ^ 64 ∧
  (w.buffers self)._usedElems ≤ (w.types th)._holdUsedElems ∧
  (w.buffers self)._freeList = [] ∧ (w.buffers self)._nextHasFree = none ∧
  (w.buffers self)._prevHasFree = none ∧ isHeadOfOwnList w self = false

/-- The conditions `BufferState::onFree` asserts, for the buffer `self` bound to the type
entry `th` and called with the pointer `buffer`. -/
@[reducible] def OnFreeGuards (w : Store) (self th : Nat) (buffer : Option Nat) : Prop :=
  buffer = (w.buffers self)._buffer ∧ (w.buffers self)._state = .HOLD ∧
  (w.buffers self)._typeHandler = some th ∧
  (w.buffers self)._deadElems ≤ (w.buffers self)._usedElems ∧
  (w.buffers self)._holdElems
    = sub64 (w.buffers self)._usedElems (w.buffers self)._deadElems ∧
  (w.buffers self)._usedElems ≤ (w.types th)._holdUsedElems ∧
  (w.buffers self)._freeList = [] ∧ (w.buffers self)._nextHasFree = none ∧
  (w.buffers self)._prevHasFree = none ∧ isHeadOfOwnList w self = false

/-- Lines 203 to 211 of `BufferState::onHold`: the part after the type entry has been
notified. -/
def onHoldTail (w : Store) (self : Nat) : Except Fault Store :=
  match (if (w.buffers self)._freeList ≠ [] then
      match removeFromFreeListList w self with
      | .error e => .error e
      | .ok w => .ok (w.setBuffer self { w.buffers self with _freeList := [] })
    else .ok w : Except Fault Store) with
  | .error e => .error e
  | .ok w =>
    if (w.buffers self)._nextHasFree ≠ none then .error (.assertion 207) else
    if (w.buffers self)._prevHasFree ≠ none then .error (.assertion 208) else
    if isHeadOfOwnList w self then .error (.assertion 209) else
    setFreeListList w self none

/-- An allocator that hands out the block at address 4096 for every request. -/
def always4096 : Nat → Option Nat := fun _ => some 4096

/-- The store of a successful run, `d` for a run that ended in a fault. -/
def storeOf (r : Except Fault (Store × Option Nat)) (d : Store) : Store :=
  match r with
  | .ok (w, _) => w
  | .error _ => d

/-- Scenario B: a fresh type entry with `cluster_size = 8`, `min_clusters = 4`,
`max_clusters = 1000`. -/
def scenarioB : Store := Store.fresh (BufferTypeBase.new 8 4 1000)

/-- Scenario B after buffer 0 has been activated with `buffer_id = 0` for 10 elements. -/
def scenarioBActive : Store :=
  storeOf (BufferState.onActive scenarioB 0 0 7 0 10 (2 ^ 32) none 4 always4096) scenarioB

/-- Scenario C: buffers 0 and 1 of one type are `ACTIVE`, both have freed elements and
form the circular list of anchor 0, whose head is buffer 0; the used count of buffer 1 is
the pending one. -/
def scenarioC : Store :=
  { types := fun _ => { BufferTypeBase.new 1 4 1000 with
      _activeBuffers := 2, _activeUsedElems := 10, _lastUsedElems := some 1 }
    lists := fun a => if a = 0 then { _head := some 0 } else { _head := none }
    buffers := fun b =>
      if b = 0 then
        { BufferState.new with
          _usedElems := 10, _allocElems := 16, _deadElems := 2, _state := .ACTIVE
          _freeList := [3, 5, 7], _freeListList := some 0
          _nextHasFree := some 1, _prevHasFree := some 1
          _typeHandler := some 0, _clusterSize := 1, _buffer := some 4096 }
      else if b = 1 then
        { BufferState.new with
          _usedElems := 4, _allocElems := 8, _state := .ACTIVE
          _freeList := [1], _freeListList := some 0
          _nextHasFree := some 0, _prevHasFree := some 0
          _typeHandler := some 0, _clusterSize := 1, _buffer := some 8192 }
      else BufferState.new
    allocated := [4096, 8192] }

/-- Scenario B after the activated buffer 0 has been put on hold. -/
def scenarioHeld : Store :=
  { types := fun _ => { BufferTypeBase.new 8 4 1000 with
      _holdBuffers := 1, _holdUsedElems := 8 }
    lists := fun _ => { _head := none }
    buffers := fun b =>
      if b = 0 then
        { BufferState.new with
          _usedElems := 8, _allocElems := 32, _deadElems := 8, _state := .HOLD
          _typeHandler := some 0, _typeId := 7, _clusterSize := 8, _buffer := some 4096 }
      else BufferState.new
    allocated := [4096] }

/-! ## Further operations of the buffer, sequences of operations and the predicates
the statements about them refer to -/

/-- Model of `BufferState::dropBuffer(buffer)` on buffer `self`.  `buffer` is the caller's
pointer on entry and the second component of the result is that pointer on return. -/
def BufferState.dropBuffer (w : Store) (self : Nat) (buffer : Option Nat) :
    Except Fault (Store × Option Nat) :=
  if (w.buffers self)._state = .FREE then
    if buffer ≠ none then .error (.assertion 246) else
    .ok (w, buffer)
  else
  if buffer = none then .error (.assertion 249) else
  match (if (w.buffers self)._state = .ACTIVE then BufferState.onHold w self
      else .ok w : Except Fault Store) with
  | .error e => .error e
  | .ok w =>
    match (if (w.buffers self)._state = .HOLD then BufferState.onFree w self buffer
        else .ok (w, buffer) : Except Fault (Store × Option Nat)) with
    | .error e => .error e
    | .ok (w, buffer) =>
      if (w.buffers self)._state ≠ .FREE then .error (.assertion 254) else
      if buffer ≠ none then .error (.assertion 255) else
      .ok (w, buffer)

/-- Model of `BufferState::disableElemHoldList()` on buffer `self`. -/
def BufferState.disableElemHoldList (w : Store) (self : Nat) : Store :=
  w.setBuffer self { w.buffers self with _disableElemHoldList := true }

/-- Contents of the raw element memory: `mem a i` is element `i` of the block at
address `a`. -/
abbrev Memory := Nat → Nat → Nat

/-- Modelled from the spec: the element hook `fallbackCopy(newBuffer, oldBuffer, numElems)`
of the concrete element type, which is not part of `bufferstate.cpp`.  It transfers
`numElems` elements from the old to the new memory; with an element to copy and a null
pointer on either side the run ends at line 342. -/
def fallbackCopy (mem : Memory) (newBuffer oldBuffer : Option Nat) (numElems : Nat) :
    Except Fault Memory :=
  if numElems = 0 then .ok mem else
  match newBuffer, oldBuffer with
  | some d, some s => .ok (fun a i => if a = d ∧ i < numElems then mem s i else mem a i)
  | _, _ => .error (.nullDereference 342)

/-- Model of `BufferState::fallbackResize(bufferId, sizeNeeded, maxClusters, buffer,
holdBuffer)` on buffer `self`.  `buffer` and `holdBuffer` are the caller's pointer and
hold slot on entry; the result holds the store, the memory contents, the caller's
pointer and the hold slot on return.  `elementSize th` is what `elementSize()` of the
type entry `th` returns and `create bytes` is the address of the block that
`Alloc::create(bytes)` hands out (`none` for a null pointer).  The fences of lines 344
and 348 order the writes for concurrent readers and do not change the state. -/
def BufferState.fallbackResize (w : Store) (mem : Memory) (self bufferId : Nat)
    (sizeNeeded maxClusters : Nat) (buffer holdBuffer : Option Nat)
    (elementSize : Nat → Nat) (create : Nat → Option Nat) :
    Except Fault (Store × Memory × Option Nat × Option Nat) :=
  if (w.buffers self)._state ≠ .ACTIVE then .error (.assertion 332) else
  match (w.buffers self)._typeHandler with
  | none => .error (.assertion 333)
  | some typeHandler =>
    if holdBuffer ≠ none then .error (.assertion 334) else
    match calcClustersToAlloc w typeHandler bufferId sizeNeeded maxClusters with
    | .error e => .error e
    | .ok allocClusters =>
      let allocSize := mul64 allocClusters (w.types typeHandler)._clusterSize
      if ¬ (allocSize ≥ add64 (w.buffers self)._usedElems sizeNeeded) then
        .error (.assertion 339) else
      if ¬ (allocSize > (w.buffers self)._allocElems) then .error (.assertion 340) else
      let newBuffer := create (mul64 allocSize (elementSize typeHandler))
      let w := { w with allocated := newBuffer.toList ++ w.allocated }
      match fallbackCopy mem newBuffer buffer (w.buffers self)._usedElems with
      | .error e => .error e
      | .ok mem =>
        let swapped := (w.buffers self)._buffer
        let w := w.setBuffer self { w.buffers self with _buffer := holdBuffer }
        let holdBuffer := swapped
        let w := w.setBuffer self { w.buffers self with _buffer := newBuffer }
        let buffer := (w.buffers self)._buffer
        let w := w.setBuffer self { w.buffers self with _allocElems := allocSize }
        .ok (w, mem, buffer, holdBuffer)

/-- The operations of a buffer, with their arguments.  An operation that allocates
carries the element size and the answers of the allocator for that call. -/
inductive BufferOp where
  | onActive (self bufferId typeId typeHandler sizeNeeded maxClusters : Nat)
      (buffer : Option Nat) (elementSize : Nat) (create : Nat → Option Nat)
  | onHold (self : Nat)
  | onFree (self : Nat) (buffer : Option Nat)
  | dropBuffer (self : Nat) (buffer : Option Nat)
  | setFreeListList (self : Nat) (freeListList : Option Nat)
  | fallbackResize (self bufferId sizeNeeded maxClusters : Nat)
      (buffer holdBuffer : Option Nat) (elementSize : Nat → Nat) (create : Nat → Option Nat)
  | disableElemHoldList (self : Nat)

/-- The buffer an operation is called on. -/
def BufferOp.target : BufferOp → Nat
  | .onActive self _ _ _ _ _ _ _ _ => self
  | .onHold self => self
  | .onFree self _ => self
  | .dropBuffer self _ => self
  | .setFreeListList self _ => self
  | .fallbackResize self _ _ _ _ _ _ _ => self
  | .disableElemHoldList self => self

/-- Run one operation on the store and the memory contents. -/
def BufferOp.run (op : BufferOp) (w : Store) (mem : Memory) : Except Fault (Store × Memory) :=
  match op with
  | .onActive self bufferId typeId typeHandler sizeNeeded maxClusters buffer elementSize
      create =>
    match BufferState.onActive w self bufferId typeId typeHandler sizeNeeded maxClusters
        buffer elementSize create with
    | .error e => .error e
    | .ok (w, _) => .ok (w, mem)
  | .onHold self =>
    match BufferState.onHold w self with
    | .error e => .error e
    | .ok w => .ok (w, mem)
  | .onFree self buffer =>
    match BufferState.onFree w self buffer with
    | .error e => .error e
    | .ok (w, _) => .ok (w, mem)
  | .dropBuffer self buffer =>
    match BufferState.dropBuffer w self buffer with
    | .error e => .error e
    | .ok (w, _) => .ok (w, mem)
  | .setFreeListList self freeListList =>
    match search.datastore.setFreeListList w self freeListList with
    | .error e => .error e
    | .ok w => .ok (w, mem)
  | .fallbackResize self bufferId sizeNeeded maxClusters buffer holdBuffer elementSize
      create =>
    match BufferState.fallbackResize w mem self bufferId sizeNeeded maxClusters buffer
        holdBuffer elementSize create with
    | .error e => .error e
    | .ok (w, mem, _, _) => .ok (w, mem)
  | .disableElemHoldList self => .ok (BufferState.disableElemHoldList w self, mem)

/-- The store a successful operation passes through between its start and its end:
`dropBuffer` on an `ACTIVE` buffer first calls `onHold` and then `onFree`, every other
operation changes the state at most once. -/
def BufferOp.between (op : BufferOp) (w : Store) : List Store :=
  match op with
  | .dropBuffer self _ =>
    if (w.buffers self)._state = .ACTIVE then
      match BufferState.onHold w self with
      | .ok w1 => [w1]
      | .error _ => []
    else []
  | _ => []

/-- Run a sequence of operations; the result lists the store before the first operation
and the stores reached by each operation, in order. -/
def runAll : List BufferOp → Store → Memory → Except Fault (List Store)
  | [], w, _ => .ok [w]
  | op :: ops, w, mem =>
    match op.run w mem with
    | .error e => .error e
    | .ok (w1, mem1) =>
      match runAll ops w1 mem1 with
      | .error e => .error e
      | .ok ws => .ok (w :: (op.between w ++ ws))

/-- A buffer with its two free-list links cleared: what the operations on the circular
list leave untouched in every buffer. -/
def sansLinks (b : BufferState) : BufferState :=
  { b with _nextHasFree := none, _prevHasFree := none }

/-- The two operations on the circular list of an anchor. -/
inductive LinkOp where
  | add (b : Nat)
  | remove (b : Nat)
  deriving DecidableEq, Repr

/-- Run one operation on the circular list. -/
def LinkOp.run : LinkOp → Store → Except Fault Store
  | .add b, w => addToFreeListList w b
  | .remove b, w => removeFromFreeListList w b

/-- Run a sequence of operations on the circular list. -/
def runLinks : List LinkOp → Store → Except Fault Store
  | [], w => .ok w
  | op :: ops, w =>
    match op.run w with
    | .error e => .error e
    | .ok w1 => runLinks ops w1

/-- The buffers that a sequence of operations leaves linked, the one linked most recently
first. -/
def linkedOrder (ops : List LinkOp) : List Nat :=
  ops.foldl (fun l op =>
    match op with
    | .add b => b :: l
    | .remove b => l.erase b) []

/-- The head of anchor `a` after a run, `none` also for a run that ended in a fault. -/
def headAfter (r : Except Fault Store) (a : Nat) : Option Nat :=
  match r with
  | .ok w => (w.lists a)._head
  | .error _ => none

/-- The store after a run, `d` for a run that ended in a fault. -/
def storeAfter (r : Except Fault Store) (d : Store) : Store :=
  match r with
  | .ok w => w
  | .error _ => d

/-- A store in which every buffer is `ACTIVE`, has one freed element and names anchor 0,
and no buffer is linked yet. -/
def linkStore : Store :=
  { Store.fresh (BufferTypeBase.new 1 4 1000) with
    buffers := fun _ => { BufferState.new with
      _state := .ACTIVE, _freeList := [1], _freeListList := some 0 } }

/-- A buffer with all its free-list fields cleared: what `setFreeListList` leaves
untouched in every buffer. -/
def sansFreeList (b : BufferState) : BufferState :=
  { sansLinks b with _freeList := [], _freeListList := none }

/-- Scenario D: buffer 0 is `ACTIVE` with `used_elems = 100` in an allocation of 100
elements at address 4096; its type has `cluster_size = 1`, `min_clusters = 4`,
`max_clusters = 1000` and the used count of buffer 0 is the pending one. -/
def scenarioD : Store :=
  { Store.fresh { BufferTypeBase.new 1 4 1000 with
      _activeBuffers := 1, _lastUsedElems := some 0 } with
    buffers := fun b =>
      if b = 0 then
        { BufferState.new with
          _usedElems := 100, _allocElems := 100, _state := .ACTIVE
          _typeHandler := some 0, _clusterSize := 1, _buffer := some 4096 }
      else BufferState.new
    allocated := [4096] }

/-- Memory contents in which element `i` of the block at 4096 is `1000 + i`. -/
def memoryD : Memory := fun a i => if a = 4096 then 1000 + i else 0

/-- An allocator that hands out the block at address 8192 for every request. -/
def always8192 : Nat → Option Nat := fun _ => some 8192

/-- A buffer 0 that is `ACTIVE` with `used_elems = 128` in an allocation of 256 elements;
its type has `cluster_size = 64`, `min_clusters = 4`, `max_clusters = 1000` and the used
count of buffer 0 is the pending one. -/
def scenarioWide : Store :=
  { Store.fresh { BufferTypeBase.new 64 4 1000 with
      _activeBuffers := 1, _lastUsedElems := some 0 } with
    buffers := fun b =>
      if b = 0 then
        { BufferState.new with
          _usedElems := 128, _allocElems := 256, _state := .ACTIVE
          _typeHandler := some 0, _clusterSize := 64, _buffer := some 4096 }
      else BufferState.new
    allocated := [4096] }

/-- The store of a successful `fallbackResize`, `d` for a run that ended in a fault. -/
def resizedStore (r : Except Fault (Store × Memory × Option Nat × Option Nat)) (d : Store) :
    Store :=
  match r with
  | .ok (w, _, _, _) => w
  | .error _ => d

/-- The memory contents after a successful `fallbackResize`, `d` for a run that ended in
a fault. -/
def resizedMemory (r : Except Fault (Store × Memory × Option Nat × Option Nat))
    (d : Memory) : Memory :=
  match r with
  | .ok (_, mem, _, _) => mem
  | .error _ => d

/-- The state changes of the life cycle of a buffer: `FREE` to `ACTIVE`, `ACTIVE` to
`HOLD` and `HOLD` to `FREE`. -/
def lifeCycleStep (s t : State) : Prop :=
  (s = .FREE ∧ t = .ACTIVE) ∨ (s = .ACTIVE ∧ t = .HOLD) ∨ (s = .HOLD ∧ t = .FREE)

/-- Between two stores, the state of every buffer is unchanged or has made one step of
the life cycle. -/
def stateStep (a b : Store) : Prop :=
  ∀ x, (b.buffers x)._state = (a.buffers x)._state ∨
    lifeCycleStep (a.buffers x)._state (b.buffers x)._state

/-- The stores of a successful sequence of operations, none for a sequence that ended in
a fault. -/
def storesOf (r : Except Fault (List Store)) : List Store :=
  match r with
  | .ok ws => ws
  | .error _ => []

/-- The counts of a buffer are ordered: `dead_elems ≤ used_elems ≤ alloc_elems`. -/
def CountsOrdered (b : BufferState) : Prop :=
  b._deadElems ≤ b._usedElems ∧ b._usedElems ≤ b._allocElems

/-- The allocator an operation is called with returns the empty allocation (null
pointer) for a request of zero bytes; only `onActive` depends on it. -/
def BufferOp.emptyRequestIsNull : BufferOp → Prop
  | .onActive _ _ _ _ _ _ _ _ create => create 0 = none
  | _ => True

/-- The request of an operation does not wrap: for `onActive` the sum
`reservedElements + sizeNeeded` of line 179 is below `2^64`; no other operation forms
such a sum before it allocates for a buffer without elements. -/
def BufferOp.requestDoesNotWrap : BufferOp → Store → Prop
  | .onActive _ bufferId _ typeHandler sizeNeeded _ _ _ _, w =>
    getReservedElements (w.types typeHandler) bufferId + sizeNeeded < 2 ^ 64
  | _, _ => True

/-- An allocator that hands out the block at address 4096 for every request of at least
one byte and the empty allocation for a request of zero bytes. -/
def alloc4096 : Nat → Option Nat := fun n => if n = 0 then none else some 4096

/-- The store of a successful operation, `d` for an operation that ended in a fault. -/
def ranStore (r : Except Fault (Store × Memory)) (d : Store) : Store :=
  match r with
  | .ok (w, _) => w
  | .error _ => d

/-- The links of the circular lists are consistent: `y` is the successor of `x` exactly
when `x` is the predecessor of `y`. -/
def DoublyLinked (w : Store) : Prop :=
  ∀ x y, (w.buffers x)._nextHasFree = some y ↔ (w.buffers y)._prevHasFree = some x

/-- Free-list membership of one buffer: both links are non-null exactly when the buffer
is `ACTIVE`, its local free list is non-empty and its anchor is set; and the local free
list is non-empty only while the buffer is `ACTIVE`. -/
def MemberOk (b : BufferState) : Prop :=
  ((b._nextHasFree ≠ none ∧ b._prevHasFree ≠ none) ↔
    (b._state = .ACTIVE ∧ b._freeList ≠ [] ∧ b._freeListList ≠ none)) ∧
  (b._freeList ≠ [] → b._state = .ACTIVE)

/-- The free-list membership invariant of a store. -/
def WellLinked (w : Store) : Prop :=
  DoublyLinked w ∧ ∀ x, MemberOk (w.buffers x)

/-- The buffer a list operation is called on. -/
def LinkOp.buffer : LinkOp → Nat
  | .add b => b
  | .remove b => b

/-- Every `removeFromFreeListList` of the sequence removes the buffer that was linked
most recently among the buffers linked at that time; `l` lists the buffers linked
before the sequence, the one linked most recently first. -/
def removesHeadOnly : List LinkOp → List Nat → Bool
  | [], _ => true
  | .add b :: ops, l => removesHeadOnly ops (b :: l)
  | .remove b :: ops, l => l.head? == some b && removesHeadOnly ops l.tail

/-- The links `nx` (successor) and `pv` (predecessor) join `x` and the buffers of the
list in this order, and join the last of them back to `first`. -/
def Seg (nx pv : Nat → Option Nat) : Nat → List Nat → Nat → Prop
  | x, [], first => nx x = some first ∧ pv first = some x
  | x, y :: t, first => nx x = some y ∧ pv y = some x ∧ Seg nx pv y t first

/-- The circular list of anchor `a` consists of the buffers of `l`, in this order from
the head of the anchor. -/
def Ring (w : Store) (a : Nat) (l : List Nat) : Prop :=
  match l with
  | [] => (w.lists a)._head = none
  | m :: t =>
    (w.lists a)._head = some m ∧
    Seg (fun j => (w.buffers j)._nextHasFree) (fun j => (w.buffers j)._prevHasFree) m t m ∧
    (m :: t).Nodup

/-! ## The bookkeeping of a type entry over sequences of steps, well-formed lists and
the steps of `fallbackResize` -/

/-- The count behind the pending pointer of the type entry `th`, zero when no counter is
pending. -/
def pendingCount (w : Store) (th : Nat) : Nat :=
  match (w.types th)._lastUsedElems with
  | none => 0
  | some p => (w.buffers p)._usedElems

/-- The value of `_activeUsedElems` when the assertion of line 73 is evaluated: lines 69
and 70 of `BufferTypeBase::onHold` have folded the pending count in if the counter of
buffer `self` was the pending one. -/
def flushedActiveUsed (w : Store) (th self : Nat) : Nat :=
  if some self = (w.types th)._lastUsedElems then
    add64 (w.types th)._activeUsedElems (w.buffers self)._usedElems
  else (w.types th)._activeUsedElems

/-- The three values of a type entry that its constructor fixes: `cluster_size`,
`min_clusters` and `max_clusters`. -/
def BufferTypeBase.limits (t : BufferTypeBase) : Nat × Nat × Nat :=
  (t._clusterSize, t._minClusters, t._maxClusters)

/-- Model of `BufferTypeBase::~BufferTypeBase()`: the five assertions of lines 28 to
32. -/
def BufferTypeBase.delete (t : BufferTypeBase) : Except Fault Unit :=
  if ¬ (t._activeBuffers = 0) then .error (.assertion 28) else
  if ¬ (t._holdBuffers = 0) then .error (.assertion 29) else
  if ¬ (t._activeUsedElems = 0) then .error (.assertion 30) else
  if ¬ (t._holdUsedElems = 0) then .error (.assertion 31) else
  if ¬ (t._lastUsedElems = none) then .error (.assertion 32) else
  .ok ()

/-- Modelled from the spec: a step of the owner of a collection of buffers.  It is
either a call of an operation of `bufferstate.cpp` or a write of the owner to
`used_elems` of a buffer; the owner appends elements to an `ACTIVE` buffer through
functions of the header, which are not part of `bufferstate.cpp`. -/
inductive Step where
  | call (op : BufferOp)
  | used (b n : Nat)

/-- Run one step of the owner. -/
def Step.run : Step → Store → Memory → Except Fault (Store × Memory)
  | .call op, w, mem => op.run w mem
  | .used b n, w, mem => .ok (w.setBuffer b { w.buffers b with _usedElems := n }, mem)

/-- The store a successful step passes through between its start and its end. -/
def Step.between : Step → Store → List Store
  | .call op, w => op.between w
  | .used _ _, _ => []

/-- Run a sequence of steps of the owner; the result lists the store before the first
step and the stores reached by each step, in order. -/
def drive : List Step → Store → Memory → Except Fault (List Store)
  | [], w, _ => .ok [w]
  | s :: rest, w, mem =>
    match s.run w mem with
    | .error e => .error e
    | .ok (w1, mem1) =>
      match drive rest w1 mem1 with
      | .error e => .error e
      | .ok ws => .ok (w :: (s.between w ++ ws))

/-- A step that is allowed for a collection of buffers `0, …, N - 1` driven against
the type entry `th`: `onActive` binds a buffer of the collection to `th`, and the owner
writes `used_elems` only of the buffer whose counter is the pending one. -/
def Step.permitted (th N : Nat) : Step → Store → Bool
  | .call (.onActive self _ _ typeHandler _ _ _ _ _), _ =>
    decide (typeHandler = th ∧ self < N)
  | .call _, _ => true
  | .used b _, w => decide ((w.types th)._lastUsedElems = some b)

/-- Every step of the sequence is allowed when it is taken. -/
def permitted (th N : Nat) : List Step → Store → Memory → Bool
  | [], _, _ => true
  | s :: rest, w, mem =>
    s.permitted th N w &&
      match s.run w mem with
      | .error _ => true
      | .ok (w1, mem1) => permitted th N rest w1 mem1

/-- Buffer `b` is in state `s` and bound to the type entry `th`. -/
def boundIn (w : Store) (th : Nat) (s : State) (b : Nat) : Bool :=
  decide ((w.buffers b)._state = s ∧ (w.buffers b)._typeHandler = some th)

/-- The number of buffers among `0, …, N - 1` that are in state `s` and bound to the
type entry `th`. -/
def countBound (w : Store) (th N : Nat) (s : State) : Nat :=
  ((List.range N).map (fun b => if boundIn w th s b then 1 else 0)).sum

/-- The sum of `used_elems` over the buffers among `0, …, N - 1` that are in state `s`
and bound to the type entry `th`. -/
def sumUsed (w : Store) (th N : Nat) (s : State) : Nat :=
  ((List.range N).map (fun b => if boundIn w th s b then (w.buffers b)._usedElems else 0)).sum

/-- The bookkeeping of the type entry `th` agrees with the buffers `0, …, N - 1`: no
other buffer is in use, every buffer in use is bound to `th`, the pending counter
belongs to an `ACTIVE` buffer, and the counters and aggregates of the entry are the
numbers and sums over the buffers, in the arithmetic of the counters. -/
structure Accounted (th N : Nat) (w : Store) : Prop where
  free_above : ∀ b, N ≤ b → (w.buffers b)._state = .FREE
  bound : ∀ b, (w.buffers b)._state ≠ .FREE → (w.buffers b)._typeHandler = some th
  pending_active : ∀ p, (w.types th)._lastUsedElems = some p →
    (w.buffers p)._state = .ACTIVE
  active_lt : (w.types th)._activeBuffers < 2 ^ 32
  hold_lt : (w.types th)._holdBuffers < 2 ^ 32
  active_count : Nat.ModEq (2 ^ 32) (w.types th)._activeBuffers (countBound w th N .ACTIVE)
  hold_count : Nat.ModEq (2 ^ 32) (w.types th)._holdBuffers (countBound w th N .HOLD)
  activeUsed_lt : (w.types th)._activeUsedElems < 2 ^ 64
  holdUsed_lt : (w.types th)._holdUsedElems < 2 ^ 64
  active_sum : Nat.ModEq (2 ^ 64) ((w.types th)._activeUsedElems + pendingCount w th)
    (sumUsed w th N .ACTIVE)
  hold_sum : Nat.ModEq (2 ^ 64) (w.types th)._holdUsedElems (sumUsed w th N .HOLD)

/-- The store at position `i` of a list of stores, `d` when there is none. -/
def storeAt (ws : List Store) (i : Nat) (d : Store) : Store :=
  (ws[i]?).getD d

/-- A life of two buffers against one type entry: buffer 0 is activated and filled with
6 elements, buffer 1 is activated, buffer 0 is held, buffer 1 is dropped and buffer 0 is
freed. -/
def lifeSteps : List Step :=
  [ .call (.onActive 0 1 7 0 10 (2 ^ 32) none 4 always4096),
    .used 0 6,
    .call (.onActive 1 2 7 0 10 (2 ^ 32) none 4 always8192),
    .call (.onHold 0),
    .call (.dropBuffer 1 (some 8192)),
    .call (.onFree 0 (some 4096)) ]

/-- The type handler of a buffer is null exactly while the buffer is `FREE`, and while
it is bound the `cluster_size` of the buffer is that of the handler. -/
def HandlerBound (w : Store) (b : BufferState) : Prop :=
  (b._typeHandler = none ↔ b._state = .FREE) ∧
  (∀ th, b._typeHandler = some th → b._clusterSize = (w.types th)._clusterSize)

/-- The circular list of anchor `a` is well formed with the members `l`: the members
form one cycle from the head of the anchor, every member names the anchor, and every
buffer that names the anchor and is not a member has both links null. -/
def WellFormedList (w : Store) (a : Nat) (l : List Nat) : Prop :=
  Ring w a l ∧
  (∀ x, x ∈ l → (w.buffers x)._freeListList = some a) ∧
  (∀ x, (w.buffers x)._freeListList = some a → x ∉ l →
    (w.buffers x)._nextHasFree = none ∧ (w.buffers x)._prevHasFree = none)

/-- What the threads share of a buffer that is being resized: the store, the contents
of the memory, the caller's pointer (the pointer that readers load) and the caller's hold
slot. -/
structure Shared where
  store : Store
  mem : Memory
  buffer : Option Nat
  holdBuffer : Option Nat

/-- The steps of `BufferState::fallbackResize` after its assertions, one for each write
to shared state, and its two fences: the allocation of line 341, the copy of one element
by the hook of line 342, the swap of line 343, the fences of lines 344 and 348, and the
assignments of lines 345, 346 and 347. -/
inductive Event where
  | create (p : Option Nat)
  | copy (d s i : Nat)
  | swapHold (self : Nat)
  | fence
  | setBuffer (self : Nat) (p : Option Nat)
  | publish (self : Nat)
  | setAllocElems (self n : Nat)
  deriving DecidableEq, Repr

/-- The effect of one step of `fallbackResize` on the shared state. -/
def Event.apply : Event → Shared → Shared
  | .create p, sh =>
    { sh with store := { sh.store with allocated := p.toList ++ sh.store.allocated } }
  | .copy d s i, sh =>
    { sh with mem := fun a j => if a = d ∧ j = i then sh.mem s i else sh.mem a j }
  | .swapHold self, sh =>
    { sh with
      store := sh.store.setBuffer self { sh.store.buffers self with _buffer := sh.holdBuffer }
      holdBuffer := (sh.store.buffers self)._buffer }
  | .fence, sh => sh
  | .setBuffer self p, sh =>
    { sh with store := sh.store.setBuffer self { sh.store.buffers self with _buffer := p } }
  | .publish self, sh => { sh with buffer := (sh.store.buffers self)._buffer }
  | .setAllocElems self n, sh =>
    { sh with
      store := sh.store.setBuffer self { sh.store.buffers self with _allocElems := n } }

/-- The shared state after a sequence of steps. -/
def replay (es : List Event) (sh : Shared) : Shared :=
  es.foldl (fun s e => e.apply s) sh

/-- Modelled from the spec: the copy hook `fallbackCopy(newBuffer, oldBuffer, numElems)`
of the concrete element type as the sequence of its writes, one element after the other;
with an element to copy and a null pointer on either side the run ends at line 342. -/
def copyEvents (newBuffer oldBuffer : Option Nat) (numElems : Nat) :
    Except Fault (List Event) :=
  if numElems = 0 then .ok [] else
  match newBuffer, oldBuffer with
  | some d, some s => .ok ((List.range numElems).map (fun i => Event.copy d s i))
  | _, _ => .error (.nullDereference 342)

/-- Model of `BufferState::fallbackResize(bufferId, sizeNeeded, maxClusters, buffer,
holdBuffer)` on buffer `self` as the sequence of its steps: the assertions of lines 332
to 340, and then the writes and fences of lines 341 to 348 in the order of the source. -/
def BufferState.fallbackResizeEvents (w : Store) (self bufferId : Nat)
    (sizeNeeded maxClusters : Nat) (buffer holdBuffer : Option Nat)
    (elementSize : Nat → Nat) (create : Nat → Option Nat) : Except Fault (List Event) :=
  if (w.buffers self)._state ≠ .ACTIVE then .error (.assertion 332) else
  match (w.buffers self)._typeHandler with
  | none => .error (.assertion 333)
  | some typeHandler =>
    if holdBuffer ≠ none then .error (.assertion 334) else
    match calcClustersToAlloc w typeHandler bufferId sizeNeeded maxClusters with
    | .error e => .error e
    | .ok allocClusters =>
      let allocSize := mul64 allocClusters (w.types typeHandler)._clusterSize
      if ¬ (allocSize ≥ add64 (w.buffers self)._usedElems sizeNeeded) then
        .error (.assertion 339) else
      if ¬ (allocSize > (w.buffers self)._allocElems) then .error (.assertion 340) else
      let newBuffer := create (mul64 allocSize (elementSize typeHandler))
      match copyEvents newBuffer buffer (w.buffers self)._usedElems with
      | .error e => .error e
      | .ok copies =>
        .ok (.create newBuffer :: copies ++
          [.swapHold self, .fence, .setBuffer self newBuffer, .publish self,
            .setAllocElems self allocSize, .fence])

/-- Modelled from the spec: the steps that a release fence has made visible.  Of the
steps a thread has taken so far, another thread that observes the last of them is
guaranteed to observe those up to the last fence. -/
def releasedPrefix (es : List Event) : List Event :=
  (es.reverse.dropWhile (fun e => decide (e ≠ Event.fence))).reverse

/-- What the caller of `fallbackResize` finds on return: the store, the memory contents,
its pointer and its hold slot. -/
def Shared.result (sh : Shared) : Store × Memory × Option Nat × Option Nat :=
  (sh.store, sh.mem, sh.buffer, sh.holdBuffer)

/-- The steps of a run of `fallbackResize` that passed its assertions, none for a run
that ended in a fault. -/
def stepsOf (r : Except Fault (List Event)) : List Event :=
  match r with
  | .ok es => es
  | .error _ => []

/-! ## The pending reference over sequences of steps -/

/-- The pending reference of every type entry is null or points to the used count of a
buffer that is `ACTIVE` and bound to that entry. -/
def PendingIsActive (w : Store) : Prop :=
  ∀ th p, (w.types th)._lastUsedElems = some p →
    (w.buffers p)._state = .ACTIVE ∧ (w.buffers p)._typeHandler = some th

/-! ## General facts about the store and the sizing algorithm -/

/-- Reading the index that was written. -/
@[simp] theorem upd_same {α : Type} (f : Nat → α) (i : Nat) (v : α) : upd f i v i = v := by
  simp [upd]

/-- Reading another index than the one written. -/
theorem upd_ne {α : Type} (f : Nat → α) (i j : Nat) (v : α) (h : j ≠ i) :
    upd f i v j = f j := by
  simp [upd, h]

/-- Writing one index twice keeps the second value. -/
@[simp] theorem upd_upd_same {α : Type} (f : Nat → α) (i : Nat) (v v2 : α) :
    upd (upd f i v) i v2 = upd f i v2 := by
  funext j
  by_cases h : j = i <;> simp [upd, h]

/-- A pointer that is not null points to an object. -/
theorem exists_of_ne_none {o : Option Nat} (h : o ≠ none) : ∃ a, o = some a := by
  cases o with
  | none => exact absurd rfl h
  | some a => exact ⟨a, rfl⟩

theorem ite_gt_eq_min (a b : Nat) : (if a > b then b else a) = min a b := by
  split_ifs <;> omega

theorem ite_lt_eq_max (a b : Nat) : (if a < b then b else a) = max a b := by
  split_ifs <;> omega

/-- The value `ceilDiv a b` is the least `n` with `a ≤ n * b`. -/
theorem ceilDiv_le_iff (a b n : Nat) (hb : 0 < b) : ceilDiv a b ≤ n ↔ a ≤ n * b := by
  unfold ceilDiv
  rw [← Nat.lt_succ_iff, Nat.div_lt_iff_lt_mul hb, Nat.succ_mul]
  omega

/-- The sizing algorithm in closed form, in terms of the quantities the code computes. -/
theorem calcClustersToAlloc_eq (w : Store) (th bufferId sizeNeeded clusterRefSize : Nat)
    (hcs : (w.types th)._clusterSize ≠ 0)
    (hU : effectiveUsedElems w th % (w.types th)._clusterSize = 0) :
    calcClustersToAlloc w th bufferId sizeNeeded clusterRefSize =
      if needClusters (w.types th) bufferId sizeNeeded
          ≤ maxAddressableClusters (w.types th) clusterRefSize then
        .ok (min (max (add64 (effectiveUsedElems w th / (w.types th)._clusterSize)
              (min (w.types th)._minClusters
                (maxAddressableClusters (w.types th) clusterRefSize)))
            (needClusters (w.types th) bufferId sizeNeeded))
          (maxAddressableClusters (w.types th) clusterRefSize))
      else .error (.assertion 114) := by
  simp only [calcClustersToAlloc, needClusters, maxAddressableClusters, hcs, hU, if_false,
    not_true_eq_false]
  simp only [ite_gt_eq_min, ite_lt_eq_max]
  generalize sub64 _ 1 / _ = need
  generalize (min (min (SIZE_MAX / _) clusterRefSize) _ : Nat) = M
  generalize add64 _ _ = want
  by_cases h : need ≤ M
  · have h1 : min (max want need) M ≥ need := by omega
    simp [h, h1]
  · have h1 : ¬ (min (max want need) M ≥ need) := by omega
    simp [h, h1]

/-- A returned value presupposes a positive cluster size and a used count that is a
multiple of it. -/
theorem calcClustersToAlloc_ok_inv (w : Store) (th bufferId sizeNeeded clusterRefSize r : Nat)
    (h : calcClustersToAlloc w th bufferId sizeNeeded clusterRefSize = .ok r) :
    (w.types th)._clusterSize ≠ 0 ∧
      effectiveUsedElems w th % (w.types th)._clusterSize = 0 := by
  unfold calcClustersToAlloc at h
  by_cases hcs : (w.types th)._clusterSize = 0
  · simp [hcs] at h
  · by_cases hU : effectiveUsedElems w th % (w.types th)._clusterSize = 0
    · exact ⟨hcs, hU⟩
    · simp [hcs, hU] at h

/-- Line 108 without wrap-around. -/
theorem sub64_add64_one (s r c : Nat) (hc : 0 < c) (h : s + r + c - 1 < 2 ^ 64) :
    sub64 (add64 (add64 s r) c) 1 = s + r + c - 1 := by
  simp only [sub64, add64]
  omega

/-- Without wrap-around the code's `needClusters` is the ceiling of step 4. -/
theorem needClusters_eq (t : BufferTypeBase) (bufferId sizeNeeded : Nat)
    (hcs : 0 < t._clusterSize)
    (hnowrap : sizeNeeded + getReservedElements t bufferId + t._clusterSize - 1 < 2 ^ 64) :
    needClusters t bufferId sizeNeeded = neededClusters t bufferId sizeNeeded := by
  unfold needClusters neededClusters ceilDiv
  rw [sub64_add64_one _ _ _ hcs hnowrap]

/-- The code's `needClusters` grows with `sizeNeeded` as long as the larger request does
not wrap. -/
theorem needClusters_mono (t : BufferTypeBase) (bufferId s1 s2 : Nat) (h12 : s1 ≤ s2)
    (hcs : 0 < t._clusterSize)
    (hnowrap : s2 + getReservedElements t bufferId + t._clusterSize - 1 < 2 ^ 64) :
    needClusters t bufferId s1 ≤ needClusters t bufferId s2 := by
  rw [needClusters_eq t bufferId s1 hcs (by omega), needClusters_eq t bufferId s2 hcs hnowrap]
  unfold neededClusters ceilDiv
  exact Nat.div_le_div_right (by omega)

/-- Every returned value is within the bound of step 2. -/
theorem calcClustersToAlloc_le_max (w : Store) (th bufferId sizeNeeded clusterRefSize r : Nat)
    (h : calcClustersToAlloc w th bufferId sizeNeeded clusterRefSize = .ok r) :
    r ≤ maxAddressableClusters (w.types th) clusterRefSize := by
  obtain ⟨hcs, hU⟩ := calcClustersToAlloc_ok_inv w th bufferId sizeNeeded clusterRefSize r h
  rw [calcClustersToAlloc_eq w th bufferId sizeNeeded clusterRefSize hcs hU] at h
  split_ifs at h with hn
  simp only [Except.ok.injEq] at h
  omega

/-- The element count of a returned cluster count does not wrap. -/
theorem calcClustersToAlloc_mul64 (w : Store)
    (th bufferId sizeNeeded clusterRefSize r : Nat)
    (h : calcClustersToAlloc w th bufferId sizeNeeded clusterRefSize = .ok r) :
    mul64 r (w.types th)._clusterSize = r * (w.types th)._clusterSize := by
  have hle := calcClustersToAlloc_le_max w th bufferId sizeNeeded clusterRefSize r h
  obtain ⟨hcs, -⟩ := calcClustersToAlloc_ok_inv w th bufferId sizeNeeded clusterRefSize r h
  unfold maxAddressableClusters at hle
  have h1 : r ≤ SIZE_MAX / (w.types th)._clusterSize := by omega
  have h2 : r * (w.types th)._clusterSize ≤ SIZE_MAX :=
    (Nat.le_div_iff_mul_le (Nat.pos_of_ne_zero hcs)).mp h1
  unfold mul64
  apply Nat.mod_eq_of_lt
  unfold SIZE_MAX at h2
  omega

/-- Flushing the pending count changes no buffer. -/
theorem flushLastUsed_buffers (w : Store) (th : Nat) :
    (flushLastUsed w th).buffers = w.buffers := by
  unfold flushLastUsed
  split <;> rfl

/-- Flushing the pending count changes no memory ownership. -/
theorem flushLastUsed_allocated (w : Store) (th : Nat) :
    (flushLastUsed w th).allocated = w.allocated := by
  unfold flushLastUsed
  split <;> rfl

/-- Flushing the pending count changes no anchor. -/
theorem flushLastUsed_lists (w : Store) (th : Nat) :
    (flushLastUsed w th).lists = w.lists := by
  unfold flushLastUsed
  split <;> rfl

/-- Flushing the pending count changes no cluster size. -/
theorem flushLastUsed_clusterSize (w : Store) (th x : Nat) :
    ((flushLastUsed w th).types x)._clusterSize = (w.types x)._clusterSize := by
  unfold flushLastUsed
  split
  · rfl
  · simp only [Store.setType, upd]
    split_ifs with h
    · rw [h]
    · rfl

/-- Effect of `BufferTypeBase::onActive` on the buffers: only the used and dead counts of
the activated buffer are written, and only when there are reserved elements. -/
theorem typeOnActive_buffers (w : Store) (th bufferId self x : Nat) (buffer : Option Nat) :
    (BufferTypeBase.onActive w th bufferId self self buffer).buffers x =
      if x = self ∧ getReservedElements (w.types th) bufferId ≠ 0 then
        { w.buffers self with
          _usedElems := getReservedElements (w.types th) bufferId
          _deadElems := getReservedElements (w.types th) bufferId }
      else w.buffers x := by
  have hres : getReservedElements
      (upd (flushLastUsed w th).types th
        { (flushLastUsed w th).types th with
          _activeBuffers := inc32 ((flushLastUsed w th).types th)._activeBuffers
          _lastUsedElems := some self } th) bufferId
      = getReservedElements (w.types th) bufferId := by
    simp [getReservedElements, upd, flushLastUsed_clusterSize]
  simp only [BufferTypeBase.onActive, Store.setType, Store.setBuffer, hres]
  by_cases hr : getReservedElements (w.types th) bufferId = 0
  · simp [hr, flushLastUsed_buffers]
  · by_cases hx : x = self
    · simp [hr, hx, upd, flushLastUsed_buffers]
    · simp [hr, hx, upd, flushLastUsed_buffers]

/-- The notification of the type entry changes no memory ownership. -/
theorem typeOnActive_allocated (w : Store) (th bufferId self : Nat) (buffer : Option Nat) :
    (BufferTypeBase.onActive w th bufferId self self buffer).allocated = w.allocated := by
  simp only [BufferTypeBase.onActive, Store.setType, Store.setBuffer]
  split_ifs <;> simp [flushLastUsed_allocated]

/-- The notification of the type entry changes no cluster size. -/
theorem typeOnActive_clusterSize (w : Store) (th bufferId self x : Nat) (buffer : Option Nat) :
    ((BufferTypeBase.onActive w th bufferId self self buffer).types x)._clusterSize
      = (w.types x)._clusterSize := by
  have key : ∀ v : Store, ((v.setType th { v.types th with
      _activeBuffers := inc32 (v.types th)._activeBuffers
      _lastUsedElems := some self }).types x)._clusterSize = (v.types x)._clusterSize := by
    intro v
    by_cases hx : x = th
    · simp [Store.setType, hx]
    · simp [Store.setType, upd_ne _ _ _ _ hx]
  simp only [BufferTypeBase.onActive]
  split_ifs
  · simp only [Store.setBuffer]
    exact (key _).trans (flushLastUsed_clusterSize w th x)
  · exact (key _).trans (flushLastUsed_clusterSize w th x)

/-- Result of a successful `BufferState::onActive`, before the type entry is notified. -/
theorem onActive_eq (w : Store) (self bufferId typeId typeHandler : Nat)
    (sizeNeeded maxClusters elementSize : Nat) (create : Nat → Option Nat) (c p : Nat)
    (hfree : FreeBuffer w self)
    (hcalc : calcClustersToAlloc w typeHandler bufferId sizeNeeded maxClusters = .ok c)
    (hsize : add64 (getReservedElements (w.types typeHandler) bufferId) sizeNeeded
      ≤ c * (w.types typeHandler)._clusterSize)
    (hcreate : create (mul64 (c * (w.types typeHandler)._clusterSize) elementSize) = some p) :
    BufferState.onActive w self bufferId typeId typeHandler sizeNeeded maxClusters none
        elementSize create =
      .ok (BufferTypeBase.onActive
        { w with
          buffers := upd w.buffers self { w.buffers self with
            _buffer := some p
            _allocElems := c * (w.types typeHandler)._clusterSize
            _state := .ACTIVE
            _typeHandler := some typeHandler
            _typeId := typeId
            _clusterSize := (w.types typeHandler)._clusterSize }
          allocated := p :: w.allocated }
        typeHandler bufferId self self (some p), some p) := by
  obtain ⟨h1, h2, h3, h4, h5, h6, h7, h8, h9, h10, h11⟩ := hfree
  have hmul := calcClustersToAlloc_mul64 w typeHandler bufferId sizeNeeded maxClusters c hcalc
  simp [BufferState.onActive, h1, h2, h3, h4, h5, h6, h7, h8, h9, h10, h11, hcalc, hmul,
    hsize, hcreate, Store.setBuffer]

/-- A successful `BufferState::onActive` passed every guard. -/
theorem onActive_ok_inv (w : Store) (self bufferId typeId typeHandler : Nat)
    (sizeNeeded maxClusters : Nat) (buffer : Option Nat) (elementSize : Nat)
    (create : Nat → Option Nat) (w' : Store) (p' : Option Nat)
    (h : BufferState.onActive w self bufferId typeId typeHandler sizeNeeded maxClusters buffer
      elementSize create = .ok (w', p')) :
    buffer = none ∧ FreeBuffer w self ∧
      ∃ c p, calcClustersToAlloc w typeHandler bufferId sizeNeeded maxClusters = .ok c ∧
        add64 (getReservedElements (w.types typeHandler) bufferId) sizeNeeded
          ≤ c * (w.types typeHandler)._clusterSize ∧
        create (mul64 (c * (w.types typeHandler)._clusterSize) elementSize) = some p := by
  by_cases a1 : buffer = none
  swap
  · simp [BufferState.onActive, a1] at h
  by_cases a2 : (w.buffers self)._buffer = none
  swap
  · simp [BufferState.onActive, a1, a2] at h
  by_cases a3 : (w.buffers self)._state = .FREE
  swap
  · simp [BufferState.onActive, a1, a2, a3] at h
  by_cases a4 : (w.buffers self)._typeHandler = none
  swap
  · simp [BufferState.onActive, a1, a2, a3, a4] at h
  by_cases a5 : (w.buffers self)._allocElems = 0
  swap
  · simp [BufferState.onActive, a1, a2, a3, a4, a5] at h
  by_cases a6 : (w.buffers self)._usedElems = 0
  swap
  · simp [BufferState.onActive, a1, a2, a3, a4, a5, a6] at h
  by_cases a7 : (w.buffers self)._deadElems = 0
  swap
  · simp [BufferState.onActive, a1, a2, a3, a4, a5, a6, a7] at h
  by_cases a8 : (w.buffers self)._holdElems = 0
  swap
  · simp [BufferState.onActive, a1, a2, a3, a4, a5, a6, a7, a8] at h
  by_cases a9 : (w.buffers self)._freeList = []
  swap
  · simp [BufferState.onActive, a1, a2, a3, a4, a5, a6, a7, a8, a9] at h
  by_cases a10 : (w.buffers self)._nextHasFree = none
  swap
  · simp [BufferState.onActive, a1, a2, a3, a4, a5, a6, a7, a8, a9, a10] at h
  by_cases a11 : (w.buffers self)._prevHasFree = none
  swap
  · simp [BufferState.onActive, a1, a2, a3, a4, a5, a6, a7, a8, a9, a10, a11] at h
  by_cases a12 : isHeadOfOwnList w self = false
  swap
  · simp [BufferState.onActive, a1, a2, a3, a4, a5, a6, a7, a8, a9, a10, a11, a12] at h
  refine ⟨a1, ⟨a3, a2, a4, a5, a6, a7, a8, a9, a10, a11, a12⟩, ?_⟩
  cases hc : calcClustersToAlloc w typeHandler bufferId sizeNeeded maxClusters with
  | error e => simp [BufferState.onActive, a1, a2, a3, a4, a5, a6, a7, a8, a9, a10, a11, a12, hc] at h
  | ok c =>
    have hmul := calcClustersToAlloc_mul64 w typeHandler bufferId sizeNeeded maxClusters c hc
    by_cases b1 : add64 (getReservedElements (w.types typeHandler) bufferId) sizeNeeded
        ≤ c * (w.types typeHandler)._clusterSize
    swap
    · simp [BufferState.onActive, a1, a2, a3, a4, a5, a6, a7, a8, a9, a10, a11, a12, hc,
        hmul, b1] at h
    cases hcr : create (mul64 (c * (w.types typeHandler)._clusterSize) elementSize) with
    | none =>
      simp [BufferState.onActive, a1, a2, a3, a4, a5, a6, a7, a8, a9, a10, a11, a12, hc,
        hmul, b1, hcr, Store.setBuffer] at h
    | some p => exact ⟨c, p, rfl, b1, hcr⟩

/-- Subtraction in `size_t` is exact when it does not go below zero. -/
theorem sub64_eq (a b : Nat) (ha : a < 2 ^ 64) (hb : b ≤ a) : sub64 a b = a - b := by
  simp only [sub64]
  omega

/-- The notification `BufferTypeBase::onHold` succeeds for a buffer whose used count is
part of the active aggregate, and changes only the type entry. -/
theorem typeOnHold_ok (w : Store) (th self : Nat) (hagg : CountedByType w th self) :
    ∃ w1, BufferTypeBase.onHold w th self = .ok w1 ∧ w1.buffers = w.buffers ∧
      w1.lists = w.lists ∧ w1.allocated = w.allocated := by
  rcases hagg with ⟨hl, hsum⟩ | ⟨hl, hle⟩
  · have hge : add64 (w.types th)._activeUsedElems (w.buffers self)._usedElems
        ≥ (w.buffers self)._usedElems := by
      unfold add64
      rw [Nat.mod_eq_of_lt hsum]
      omega
    simp [BufferTypeBase.onHold, hl, flushLastUsed, Store.setType, hge]
  · have hl2 : ¬ (some self = (w.types th)._lastUsedElems) := fun h => hl h.symm
    simp [BufferTypeBase.onHold, hl2, Store.setType, hle]

/-- The second part of `BufferState::onHold` on a buffer with well-formed free-list
bookkeeping: it succeeds, empties the local free list, clears the links and the anchor
reference of the buffer, and leaves no reference to the buffer behind. -/
theorem onHoldTail_ok (v : Store) (self : Nat)
    (hstate : (v.buffers self)._state = .HOLD)
    (hlinks : LinksOk v self) (hrefs : OnlyNeighboursRefer v self) :
    ∃ w', onHoldTail v self = .ok w' ∧ w'.types = v.types ∧ w'.allocated = v.allocated ∧
      w'.buffers self = { v.buffers self with
        _freeList := [], _nextHasFree := none, _prevHasFree := none, _freeListList := none } ∧
      (∀ a, (v.buffers self)._freeListList = some a → (w'.lists a)._head ≠ some self) ∧
      (∀ x, (w'.buffers x)._nextHasFree ≠ some self ∧
        (w'.buffers x)._prevHasFree ≠ some self) := by
  obtain ⟨hempty, hfull⟩ := hlinks
  by_cases hfl : (v.buffers self)._freeList = []
  · obtain ⟨hn, hp, hh⟩ := hempty hfl
    have hrefs2 : ∀ x, (v.buffers x)._nextHasFree ≠ some self ∧
        (v.buffers x)._prevHasFree ≠ some self := by
      intro x
      by_cases hx : x = self
      · subst hx
        simp [hn, hp]
      · constructor
        · intro h
          have := (hrefs x hx).1 h
          simp [hp] at this
        · intro h
          have := (hrefs x hx).2 h
          simp [hn] at this
    cases ha : (v.buffers self)._freeListList with
    | none =>
      refine ⟨v, ?_, rfl, rfl, ?_, ?_, hrefs2⟩
      · simp [onHoldTail, hfl, hn, hp, hh, setFreeListList, hstate, ha]
      · cases hb : v.buffers self
        simp_all
      · intro a h
        simp at h
    | some a =>
      refine ⟨v.setBuffer self { v.buffers self with _freeListList := none }, ?_, rfl, rfl,
        ?_, ?_, ?_⟩
      · simp [onHoldTail, hfl, hn, hp, hh, setFreeListList, hstate, ha, Store.setBuffer]
      · simp only [Store.setBuffer, upd_same]
        cases hb : v.buffers self
        simp_all
      · intro a2 h2
        simp only [Option.some.injEq] at h2
        subst h2
        simp only [Store.setBuffer]
        simpa [isHeadOfOwnList, ha] using hh
      · intro x
        by_cases hx : x = self
        · subst hx
          simp [Store.setBuffer, hn, hp]
        · simpa [Store.setBuffer, upd_ne _ _ _ _ hx] using hrefs2 x
  · obtain ⟨ha, hn, hp, hsingle, hmulti⟩ := hfull hfl
    obtain ⟨a, ha⟩ := exists_of_ne_none ha
    obtain ⟨n, hn⟩ := exists_of_ne_none hn
    obtain ⟨p, hp⟩ := exists_of_ne_none hp
    by_cases hns : n = self
    · subst hns
      obtain ⟨hp2, hh⟩ := hsingle hn
      have hps : p = n := by
        rw [hp] at hp2
        exact Option.some.inj hp2
      subst hps
      have hhead : (v.lists a)._head = some p := by
        simpa [isHeadOfOwnList, ha] using hh
      refine ⟨{ v with
          lists := upd v.lists a { v.lists a with _head := none }
          buffers := upd v.buffers p { v.buffers p with
            _freeList := [], _nextHasFree := none, _prevHasFree := none,
            _freeListList := none } }, ?_, rfl, rfl, ?_, ?_, ?_⟩
      · simp [onHoldTail, hfl, removeFromFreeListList, ha, hn, hp, hhead, Store.setBuffer,
          Store.setList, isHeadOfOwnList, setFreeListList, hstate]
      · simp
      · intro a2 h2
        rw [ha] at h2
        simp only [Option.some.injEq] at h2
        subst h2
        simp
      · intro x
        by_cases hx : x = p
        · subst hx
          simp
        · simp only [upd_ne _ _ _ _ hx]
          constructor
          · intro h
            have := (hrefs x hx).1 h
            rw [hp] at this
            exact hx (Option.some.inj this).symm
          · intro h
            have := (hrefs x hx).2 h
            rw [hn] at this
            exact hx (Option.some.inj this).symm
    · have hps : p ≠ self := by
        have := hmulti (by rw [hn]; simpa using hns)
        rw [hp] at this
        simpa using this
      have hsn : (upd v.buffers n { v.buffers n with _prevHasFree := some p }) self
          = v.buffers self := upd_ne _ _ _ _ (Ne.symm hns)
      simp only [onHoldTail, hfl, removeFromFreeListList, ha, hn, hp, hns, hps, Store.setBuffer,
          Store.setList, isHeadOfOwnList, setFreeListList, hstate, upd_same, upd_upd_same,
          upd_ne _ _ _ _ (Ne.symm hns), upd_ne _ _ _ _ (Ne.symm hps), hsn,
          ne_eq, not_false_eq_true, not_true_eq_false, if_true, if_false, and_false, and_true,
          reduceCtorEq, false_and, beq_iff_eq, Option.some.injEq]
      refine ⟨_, rfl, rfl, rfl, ?_, ?_, ?_⟩
      · simp
      · intro a2 h2
        subst h2
        simpa using hns
      · intro x
        by_cases hx : x = self
        · subst hx
          simp
        · have hr := hrefs x hx
          rw [hp, hn] at hr
          simp only [Option.some.injEq] at hr
          simp only [upd_ne _ _ _ _ hx]
          by_cases hxp : x = p
          · subst hxp
            simp only [upd_same]
            refine ⟨by simpa using hns, ?_⟩
            by_cases hxn : x = n
            · subst hxn
              simpa using hx
            · simp only [upd_ne _ _ _ _ hxn]
              intro h
              exact hxn (hr.2 h).symm
          · simp only [upd_ne _ _ _ _ hxp]
            by_cases hxn : x = n
            · subst hxn
              simp only [upd_same]
              refine ⟨?_, by simpa using hps⟩
              intro h
              exact hxp (hr.1 h).symm
            · simp only [upd_ne _ _ _ _ hxn]
              exact ⟨fun h => hxp (hr.1 h).symm, fun h => hxn (hr.2 h).symm⟩

/-- A buffer that no `_nextHasFree` link refers to is never met when following the links
from another start. -/
theorem not_mem_followNext (w : Store) (self : Nat)
    (hnext : ∀ x, (w.buffers x)._nextHasFree ≠ some self) :
    ∀ (fuel : Nat) (start : Option Nat), start ≠ some self →
      self ∉ followNext w fuel start := by
  intro fuel
  induction fuel with
  | zero =>
    intro start _
    simp [followNext]
  | succ k ih =>
    intro start hs
    cases start with
    | none => simp [followNext]
    | some b =>
      simp only [followNext, List.mem_cons, not_or]
      refine ⟨?_, ih _ (hnext b)⟩
      intro h
      exact hs (by rw [h])

/-- In scenario C only buffer 1 refers to buffer 0. -/
theorem scenarioC_refs : OnlyNeighboursRefer scenarioC 0 := by
  intro x hx
  by_cases h1 : x = 1
  · subst h1
    decide
  · simp [scenarioC, hx, h1, BufferState.new]

/-- The function `BufferState::onHold` up to the notification of the type entry (lines 195
to 202), followed by the rest. -/
theorem onHold_eq_tail (w : Store) (self th : Nat)
    (hstate : (w.buffers self)._state = .ACTIVE)
    (hth : (w.buffers self)._typeHandler = some th)
    (hdead : (w.buffers self)._deadElems ≤ (w.buffers self)._usedElems)
    (hhold : (w.buffers self)._holdElems
      ≤ sub64 (w.buffers self)._usedElems (w.buffers self)._deadElems) :
    BufferState.onHold w self =
      match BufferTypeBase.onHold
        (w.setBuffer self { w.buffers self with
          _state := .HOLD
          _compacting := false
          _holdElems := sub64 (w.buffers self)._usedElems (w.buffers self)._deadElems })
        th self with
      | .error e => .error e
      | .ok w1 => onHoldTail w1 self := by
  simp only [BufferState.onHold, hstate, hth, Store.setBuffer, upd_same, upd_upd_same, hdead,
    hhold, ne_eq, not_true_eq_false, if_false, not_false_eq_true]
  rfl

/-- A successful `BufferState::onHold` passed the guards of lines 195 to 200, notified the
type entry and completed its second part. -/
theorem onHold_ok_inv (w : Store) (self : Nat) (w' : Store)
    (h : BufferState.onHold w self = .ok w') :
    (w.buffers self)._state = .ACTIVE ∧
    ∃ th, (w.buffers self)._typeHandler = some th ∧
      (w.buffers self)._deadElems ≤ (w.buffers self)._usedElems ∧
      (w.buffers self)._holdElems
        ≤ sub64 (w.buffers self)._usedElems (w.buffers self)._deadElems ∧
      ∃ w1, BufferTypeBase.onHold
          (w.setBuffer self { w.buffers self with
            _state := .HOLD
            _compacting := false
            _holdElems := sub64 (w.buffers self)._usedElems (w.buffers self)._deadElems })
          th self = .ok w1 ∧
        onHoldTail w1 self = .ok w' := by
  by_cases a1 : (w.buffers self)._state = .ACTIVE
  swap
  · simp [BufferState.onHold, a1] at h
  cases a2 : (w.buffers self)._typeHandler with
  | none => simp [BufferState.onHold, a1, a2] at h
  | some th =>
    by_cases a3 : (w.buffers self)._deadElems ≤ (w.buffers self)._usedElems
    swap
    · simp [BufferState.onHold, a1, a2, a3, Store.setBuffer] at h
    by_cases a4 : (w.buffers self)._holdElems
        ≤ sub64 (w.buffers self)._usedElems (w.buffers self)._deadElems
    swap
    · simp [BufferState.onHold, a1, a2, a3, a4, Store.setBuffer] at h
    rw [onHold_eq_tail w self th a1 a2 a3 a4] at h
    refine ⟨a1, th, rfl, a3, a4, ?_⟩
    split at h
    · cases h
    · rename_i w1 h1
      exact ⟨w1, h1, h⟩

/-- The notification `BufferTypeBase::onHold` changes only the type entry. -/
theorem typeOnHold_frame (v : Store) (th self : Nat) (w1 : Store)
    (h : BufferTypeBase.onHold v th self = .ok w1) :
    w1.buffers = v.buffers ∧ w1.lists = v.lists ∧ w1.allocated = v.allocated := by
  simp only [BufferTypeBase.onHold, Store.setType] at h
  split_ifs at h <;> cases h <;>
    simp [flushLastUsed_buffers, flushLastUsed_lists, flushLastUsed_allocated]

/-- The second part of `BufferState::onHold` completes only on a buffer with well-formed
free-list bookkeeping. -/
theorem onHoldTail_links (v : Store) (self : Nat) (w' : Store)
    (h : onHoldTail v self = .ok w') : LinksOk v self := by
  by_cases hfl : (v.buffers self)._freeList = []
  · refine ⟨fun _ => ?_, fun hne => absurd hfl hne⟩
    by_cases a1 : (v.buffers self)._nextHasFree = none
    swap
    · simp [onHoldTail, hfl, a1] at h
    by_cases a2 : (v.buffers self)._prevHasFree = none
    swap
    · simp [onHoldTail, hfl, a1, a2] at h
    by_cases a3 : isHeadOfOwnList v self = false
    swap
    · simp [onHoldTail, hfl, a1, a2, a3] at h
    exact ⟨a1, a2, a3⟩
  · refine ⟨fun he => absurd he hfl, fun _ => ?_⟩
    cases ha : (v.buffers self)._freeListList with
    | none => simp [onHoldTail, hfl, removeFromFreeListList, ha] at h
    | some a =>
      cases hn : (v.buffers self)._nextHasFree with
      | none => simp [onHoldTail, hfl, removeFromFreeListList, ha, hn] at h
      | some n =>
        cases hp : (v.buffers self)._prevHasFree with
        | none => simp [onHoldTail, hfl, removeFromFreeListList, ha, hn, hp] at h
        | some p =>
          refine ⟨by simp, by simp, by simp, ?_, ?_⟩
          · intro hns
            simp only [Option.some.injEq] at hns
            by_cases b1 : p = self
            swap
            · simp [onHoldTail, hfl, removeFromFreeListList, ha, hn, hp, hns, b1] at h
            by_cases b2 : (v.lists a)._head = some self
            swap
            · simp [onHoldTail, hfl, removeFromFreeListList, ha, hn, hp, hns, b1, b2] at h
            exact ⟨by rw [b1], by simp [isHeadOfOwnList, ha, b2]⟩
          · intro hns
            simp only [ne_eq, Option.some.injEq] at hns
            by_cases b1 : p = self
            · simp [onHoldTail, hfl, removeFromFreeListList, ha, hn, hp, hns, b1] at h
            · simpa using b1

/-- When its guards hold, `BufferState::onFree` succeeds, resets the buffer, releases its
block and hands a null pointer back. -/
theorem onFree_ok (w : Store) (self th : Nat) (buffer : Option Nat)
    (hg : OnFreeGuards w self th buffer) :
    ∃ w', BufferState.onFree w self buffer = .ok (w', none) ∧
      (w'.buffers self)._state = .FREE ∧
      (w'.buffers self)._usedElems = 0 ∧ (w'.buffers self)._allocElems = 0 ∧
      (w'.buffers self)._deadElems = 0 ∧ (w'.buffers self)._holdElems = 0 ∧
      (w'.buffers self)._clusterSize = 0 ∧
      (w'.buffers self)._typeHandler = none ∧
      (w'.buffers self)._buffer = none ∧
      (∀ p, buffer = some p → p ∉ w'.allocated) ∧
      (w'.buffers self)._disableElemHoldList = false := by
  obtain ⟨hbuf, hstate, hth, hdead, hhold, htype, hfl, hn, hp, hh⟩ := hg
  have hh2 : ∀ a, (w.buffers self)._freeListList = some a →
      (w.lists a)._head ≠ some self := by
    intro a ha
    simpa [isHeadOfOwnList, ha] using hh
  subst hbuf
  cases ha : (w.buffers self)._freeListList with
  | none =>
    simp [BufferState.onFree, hstate, hth, hdead, hhold, BufferTypeBase.onFree,
      Store.setType, Store.setBuffer, htype, hfl, hn, hp, isHeadOfOwnList, ha,
      setFreeListList]
    intro p hp2 _
    simp [hp2]
  | some a =>
    have := hh2 a ha
    simp [BufferState.onFree, hstate, hth, hdead, hhold, BufferTypeBase.onFree,
      Store.setType, Store.setBuffer, htype, hfl, hn, hp, isHeadOfOwnList, ha,
      setFreeListList, this]
    intro p hp2 _
    simp [hp2]

/-- A successful `BufferState::onFree` passed every guard. -/
theorem onFree_ok_inv (w : Store) (self : Nat) (buffer : Option Nat)
    (r : Store × Option Nat) (h : BufferState.onFree w self buffer = .ok r) :
    ∃ th, OnFreeGuards w self th buffer := by
  by_cases a1 : buffer = (w.buffers self)._buffer
  swap
  · simp [BufferState.onFree, a1] at h
  by_cases a2 : (w.buffers self)._state = .HOLD
  swap
  · simp [BufferState.onFree, a1, a2] at h
  cases a3 : (w.buffers self)._typeHandler with
  | none => simp [BufferState.onFree, a1, a2, a3] at h
  | some th =>
    refine ⟨th, a1, a2, a3, ?_⟩
    by_cases a4 : (w.buffers self)._deadElems ≤ (w.buffers self)._usedElems
    swap
    · simp [BufferState.onFree, a1, a2, a3, a4] at h
    by_cases a5 : (w.buffers self)._holdElems
        = sub64 (w.buffers self)._usedElems (w.buffers self)._deadElems
    swap
    · simp [BufferState.onFree, a1, a2, a3, a4, a5] at h
    by_cases a6 : (w.buffers self)._usedElems ≤ (w.types th)._holdUsedElems
    swap
    · simp [BufferState.onFree, a1, a2, a3, a4, a5, BufferTypeBase.onFree, Store.setType,
        Store.setBuffer, a6] at h
    by_cases a7 : (w.buffers self)._freeList = []
    swap
    · simp [BufferState.onFree, a1, a2, a3, a4, a5, BufferTypeBase.onFree, Store.setType,
        Store.setBuffer, a6, a7] at h
    by_cases a8 : (w.buffers self)._nextHasFree = none
    swap
    · simp [BufferState.onFree, a1, a2, a3, a4, a5, BufferTypeBase.onFree, Store.setType,
        Store.setBuffer, a6, a7, a8] at h
    by_cases a9 : (w.buffers self)._prevHasFree = none
    swap
    · simp [BufferState.onFree, a1, a2, a3, a4, a5, BufferTypeBase.onFree, Store.setType,
        Store.setBuffer, a6, a7, a8, a9] at h
    by_cases a10 : isHeadOfOwnList w self = false
    swap
    · have a10b : isHeadOfOwnList w self = true := by simpa using a10
      cases ha : (w.buffers self)._freeListList with
      | none => simp [isHeadOfOwnList, ha] at a10b
      | some a =>
        have hhd : (w.lists a)._head = some self := by
          simpa [isHeadOfOwnList, ha] using a10b
        simp [BufferState.onFree, a1, a2, a3, a4, a5, BufferTypeBase.onFree, Store.setType,
          Store.setBuffer, a6, a7, a8, a9, isHeadOfOwnList, ha, hhd] at h
    exact ⟨a4, a5, a6, a7, a8, a9, a10⟩

/-! ## The sizing algorithm: `calcClustersToAlloc` and `getReservedElements` -/

/-- C1, as amended: for a type entry with `cluster_size > 0` whose effective used count
`U` is a multiple of `cluster_size`, when neither `size_needed + reserved + cluster_size - 1`
nor `U / cluster_size + min(min_clusters, M)` wraps and `needed ≤ M`, the function returns
exactly `min(max(U / cluster_size + min(min_clusters, M), needed), M)`. -/
theorem calcClustersToAlloc_exact (w : Store) (th bufferId sizeNeeded clusterRefSize : Nat)
    (hcs : 0 < (w.types th)._clusterSize)
    (hU : effectiveUsedElems w th % (w.types th)._clusterSize = 0)
    (hnowrap : sizeNeeded + getReservedElements (w.types th) bufferId
      + (w.types th)._clusterSize - 1 < 2 ^ 64)
    (hwant : effectiveUsedElems w th / (w.types th)._clusterSize
      + min (w.types th)._minClusters (maxAddressableClusters (w.types th) clusterRefSize)
      < 2 ^ 64)
    (hneed : neededClusters (w.types th) bufferId sizeNeeded
      ≤ maxAddressableClusters (w.types th) clusterRefSize) :
    calcClustersToAlloc w th bufferId sizeNeeded clusterRefSize =
      .ok (min (max (effectiveUsedElems w th / (w.types th)._clusterSize
            + min (w.types th)._minClusters
                (maxAddressableClusters (w.types th) clusterRefSize))
          (neededClusters (w.types th) bufferId sizeNeeded))
        (maxAddressableClusters (w.types th) clusterRefSize)) := by
  rw [calcClustersToAlloc_eq w th bufferId sizeNeeded clusterRefSize (by omega) hU,
    needClusters_eq _ bufferId sizeNeeded hcs hnowrap, if_pos hneed]
  simp only [add64, Nat.mod_eq_of_lt hwant]

/-- Scenario A: `cluster_size = 1`, `min_clusters = 4`, `max_clusters = 1000`, fresh entry,
`buffer_id = 1`, `size_needed = 10` returns 10. -/
theorem calcClustersToAlloc_exact_witness :
    calcClustersToAlloc scenarioA 0 1 10 (2 ^ 32) = .ok 10 :=
  calcClustersToAlloc_exact scenarioA 0 1 10 (2 ^ 32) (by decide) (by decide) (by decide)
    (by decide) (by decide)

/-- C1 as stated fails when `U / cluster_size + min_clusters` wraps: with
`cluster_size = 1`, `min_clusters = 4`, `max_clusters = 1000`, `U = 2^64 - 1`,
`buffer_id = 1` and `size_needed = 10` every hypothesis of the claim holds, the claimed
value is 1000 and the function returns 10. -/
theorem calcClustersToAlloc_exact_fails_when_want_wraps :
    0 < (scenarioAFull.types 0)._clusterSize ∧
    effectiveUsedElems scenarioAFull 0 = 2 ^ 64 - 1 ∧
    effectiveUsedElems scenarioAFull 0 % (scenarioAFull.types 0)._clusterSize = 0 ∧
    10 + getReservedElements (scenarioAFull.types 0) 1
      + (scenarioAFull.types 0)._clusterSize - 1 < 2 ^ 64 ∧
    neededClusters (scenarioAFull.types 0) 1 10
      ≤ maxAddressableClusters (scenarioAFull.types 0) (2 ^ 32) ∧
    min (max (effectiveUsedElems scenarioAFull 0 / (scenarioAFull.types 0)._clusterSize
          + min (scenarioAFull.types 0)._minClusters
              (maxAddressableClusters (scenarioAFull.types 0) (2 ^ 32)))
        (neededClusters (scenarioAFull.types 0) 1 10))
      (maxAddressableClusters (scenarioAFull.types 0) (2 ^ 32)) = 1000 ∧
    calcClustersToAlloc scenarioAFull 0 1 10 (2 ^ 32) = .ok 10 := by
  decide

/-- C2, as amended: for a type entry with `cluster_size > 0` and effective used count a
multiple of `cluster_size`, and a request for which `size_needed + reserved +
cluster_size - 1` does not wrap, the function returns a value if and only if
`needed ≤ M`; when `needed > M` it ends in the assertion `want >= needed` of line 114. -/
theorem calcClustersToAlloc_returns_iff (w : Store)
    (th bufferId sizeNeeded clusterRefSize : Nat)
    (hcs : 0 < (w.types th)._clusterSize)
    (hU : effectiveUsedElems w th % (w.types th)._clusterSize = 0)
    (hnowrap : sizeNeeded + getReservedElements (w.types th) bufferId
      + (w.types th)._clusterSize - 1 < 2 ^ 64) :
    ((∃ r, calcClustersToAlloc w th bufferId sizeNeeded clusterRefSize = .ok r) ↔
        neededClusters (w.types th) bufferId sizeNeeded
          ≤ maxAddressableClusters (w.types th) clusterRefSize) ∧
      (maxAddressableClusters (w.types th) clusterRefSize
          < neededClusters (w.types th) bufferId sizeNeeded →
        calcClustersToAlloc w th bufferId sizeNeeded clusterRefSize
          = .error (.assertion 114)) := by
  rw [calcClustersToAlloc_eq w th bufferId sizeNeeded clusterRefSize (by omega) hU,
    needClusters_eq _ bufferId sizeNeeded hcs hnowrap]
  constructor
  · constructor
    · rintro ⟨r, hr⟩
      by_contra hn
      simp [hn] at hr
    · intro hn
      exact ⟨_, if_pos hn⟩
  · intro hlt
    exact if_neg (by omega)

/-- Scenario A with a reference limit of 5 clusters: `needed = 10 > M = 5`, no value is
returned and the run ends in the assertion of line 114. -/
theorem calcClustersToAlloc_returns_iff_witness :
    ((∃ r, calcClustersToAlloc scenarioA 0 1 10 5 = .ok r) ↔
        neededClusters (scenarioA.types 0) 1 10
          ≤ maxAddressableClusters (scenarioA.types 0) 5) ∧
      (maxAddressableClusters (scenarioA.types 0) 5
          < neededClusters (scenarioA.types 0) 1 10 →
        calcClustersToAlloc scenarioA 0 1 10 5 = .error (.assertion 114)) :=
  calcClustersToAlloc_returns_iff scenarioA 0 1 10 5 (by decide) (by decide) (by decide)

/-- C2 as stated fails when `size_needed + reserved + cluster_size - 1` wraps: with
`cluster_size = 8`, `min_clusters = 0`, `max_clusters = 1000`, `buffer_id = 1` and
`size_needed = 2^64 - 7`, `needed = 2^61` exceeds `M = 1000` and yet the function returns
the value 0. -/
theorem calcClustersToAlloc_returns_although_needed_exceeds_max :
    0 < (eightNoMin.types 0)._clusterSize ∧
    effectiveUsedElems eightNoMin 0 % (eightNoMin.types 0)._clusterSize = 0 ∧
    neededClusters (eightNoMin.types 0) 1 (2 ^ 64 - 7) = 2 ^ 61 ∧
    maxAddressableClusters (eightNoMin.types 0) (2 ^ 32) = 1000 ∧
    calcClustersToAlloc eightNoMin 0 1 (2 ^ 64 - 7) (2 ^ 32) = .ok 0 := by
  decide

/-- C3, as amended: for every type entry state, `buffer_id` and `cluster_ref_limit` and
every pair `s1 ≤ s2` of `size_needed` values such that `s2 + reserved + cluster_size - 1`
does not wrap, whenever the function returns for `s2` it returns for `s1` too, and the
count returned for `s2` is not smaller than the count returned for `s1`. -/
theorem calcClustersToAlloc_mono (w : Store) (th bufferId s1 s2 clusterRefSize r2 : Nat)
    (h12 : s1 ≤ s2)
    (hnowrap : s2 + getReservedElements (w.types th) bufferId
      + (w.types th)._clusterSize - 1 < 2 ^ 64)
    (h2 : calcClustersToAlloc w th bufferId s2 clusterRefSize = .ok r2) :
    ∃ r1, calcClustersToAlloc w th bufferId s1 clusterRefSize = .ok r1 ∧ r1 ≤ r2 := by
  obtain ⟨hcs, hU⟩ := calcClustersToAlloc_ok_inv w th bufferId s2 clusterRefSize r2 h2
  have hmono := needClusters_mono (w.types th) bufferId s1 s2 h12 (by omega) hnowrap
  rw [calcClustersToAlloc_eq w th bufferId s2 clusterRefSize hcs hU] at h2
  rw [calcClustersToAlloc_eq w th bufferId s1 clusterRefSize hcs hU]
  split_ifs at h2 with hn2
  simp only [Except.ok.injEq] at h2
  refine ⟨_, if_pos (by omega), ?_⟩
  omega

/-- Scenario A: requests for 3 and for 10 elements return 4 and 10 clusters. -/
theorem calcClustersToAlloc_mono_witness :
    ∃ r1, calcClustersToAlloc scenarioA 0 1 3 (2 ^ 32) = .ok r1 ∧ r1 ≤ 10 :=
  calcClustersToAlloc_mono scenarioA 0 1 3 10 (2 ^ 32) 10 (by decide) (by decide) (by decide)

/-- C3 as stated fails when the larger request wraps: with `cluster_size = 8`,
`min_clusters = 0`, `max_clusters = 1000` and `buffer_id = 1`, `size_needed = 10` returns
2 clusters and the larger `size_needed = 2^64 - 7` returns 0 clusters. -/
theorem calcClustersToAlloc_not_mono_when_wrapping :
    10 ≤ 2 ^ 64 - 7 ∧
    calcClustersToAlloc eightNoMin 0 1 10 (2 ^ 32) = .ok 2 ∧
    calcClustersToAlloc eightNoMin 0 1 (2 ^ 64 - 7) (2 ^ 32) = .ok 0 := by
  decide

/-- C4, as amended: for a type entry with `0 < cluster_size`, `cluster_size` and
`max_clusters` below `2^32` (they are 32-bit values) and effective used count a multiple
of `cluster_size`: whenever `reserved + size_needed ≤ min(max_clusters,
cluster_ref_limit) * cluster_size`, the function returns a result with
`result * cluster_size ≥ reserved + size_needed`. -/
theorem calcClustersToAlloc_covers_request (w : Store)
    (th bufferId sizeNeeded clusterRefSize : Nat)
    (hcs : 0 < (w.types th)._clusterSize)
    (hcs32 : (w.types th)._clusterSize < 2 ^ 32)
    (hmax32 : (w.types th)._maxClusters < 2 ^ 32)
    (hU : effectiveUsedElems w th % (w.types th)._clusterSize = 0)
    (hfit : getReservedElements (w.types th) bufferId + sizeNeeded
      ≤ min (w.types th)._maxClusters clusterRefSize * (w.types th)._clusterSize) :
    ∃ r, calcClustersToAlloc w th bufferId sizeNeeded clusterRefSize = .ok r ∧
      r * (w.types th)._clusterSize
        ≥ getReservedElements (w.types th) bufferId + sizeNeeded := by
  have hprod : min (w.types th)._maxClusters clusterRefSize * (w.types th)._clusterSize
      ≤ (2 ^ 32 - 1) * (2 ^ 32 - 1) :=
    Nat.mul_le_mul (by omega) (by omega)
  have hnowrap : sizeNeeded + getReservedElements (w.types th) bufferId
      + (w.types th)._clusterSize - 1 < 2 ^ 64 := by omega
  have hneedle : neededClusters (w.types th) bufferId sizeNeeded
      ≤ min (w.types th)._maxClusters clusterRefSize := by
    unfold neededClusters
    rw [ceilDiv_le_iff _ _ _ hcs]
    omega
  have hovf : min (w.types th)._maxClusters clusterRefSize
      ≤ SIZE_MAX / (w.types th)._clusterSize := by
    rw [Nat.le_div_iff_mul_le hcs]
    unfold SIZE_MAX
    omega
  have hM : neededClusters (w.types th) bufferId sizeNeeded
      ≤ maxAddressableClusters (w.types th) clusterRefSize := by
    unfold maxAddressableClusters
    omega
  rw [calcClustersToAlloc_eq w th bufferId sizeNeeded clusterRefSize (by omega) hU,
    needClusters_eq _ bufferId sizeNeeded hcs hnowrap, if_pos hM]
  refine ⟨_, rfl, ?_⟩
  have hge : neededClusters (w.types th) bufferId sizeNeeded * (w.types th)._clusterSize
      ≥ getReservedElements (w.types th) bufferId + sizeNeeded := by
    have := (ceilDiv_le_iff (sizeNeeded + getReservedElements (w.types th) bufferId)
      (w.types th)._clusterSize _ hcs).mp (le_refl _)
    unfold neededClusters
    omega
  refine le_trans hge (Nat.mul_le_mul_right _ ?_)
  omega

/-- Scenario A: a request for 10 elements is covered by the 10 clusters returned. -/
theorem calcClustersToAlloc_covers_request_witness :
    ∃ r, calcClustersToAlloc scenarioA 0 1 10 (2 ^ 32) = .ok r ∧
      r * (scenarioA.types 0)._clusterSize
        ≥ getReservedElements (scenarioA.types 0) 1 + 10 :=
  calcClustersToAlloc_covers_request scenarioA 0 1 10 (2 ^ 32) (by decide) (by decide)
    (by decide) (by decide) (by decide)

/-- C4 as stated fails when `cluster_ref_limit` is below the request: in scenario A with
`cluster_ref_limit = 5`, `reserved + size_needed = 10 ≤ max_clusters * cluster_size = 1000`
and no result is returned (the run ends in the assertion of line 114). -/
theorem calcClustersToAlloc_no_result_under_ref_limit :
    getReservedElements (scenarioA.types 0) 1 + 10
      ≤ (scenarioA.types 0)._maxClusters * (scenarioA.types 0)._clusterSize ∧
    calcClustersToAlloc scenarioA 0 1 10 5 = .error (.assertion 114) := by
  decide

/-- C5: every value `r` returned by `calcClustersToAlloc` satisfies
`r ≤ SIZE_MAX / cluster_size`, `r ≤ cluster_ref_limit` and `r ≤ max_clusters`, so the
element count `r * cluster_size` of `BufferState::onActive` and `fallbackResize` is below
`2^64` and its `size_t` product is the exact product. -/
theorem calcClustersToAlloc_bounded (w : Store)
    (th bufferId sizeNeeded clusterRefSize r : Nat)
    (h : calcClustersToAlloc w th bufferId sizeNeeded clusterRefSize = .ok r) :
    r ≤ SIZE_MAX / (w.types th)._clusterSize ∧ r ≤ clusterRefSize ∧
      r ≤ (w.types th)._maxClusters ∧
      r * (w.types th)._clusterSize < 2 ^ 64 ∧
      mul64 r (w.types th)._clusterSize = r * (w.types th)._clusterSize := by
  have hle := calcClustersToAlloc_le_max w th bufferId sizeNeeded clusterRefSize r h
  obtain ⟨hcs, -⟩ := calcClustersToAlloc_ok_inv w th bufferId sizeNeeded clusterRefSize r h
  unfold maxAddressableClusters at hle
  have h1 : r ≤ SIZE_MAX / (w.types th)._clusterSize := by omega
  have h2 : r * (w.types th)._clusterSize ≤ SIZE_MAX :=
    (Nat.le_div_iff_mul_le (Nat.pos_of_ne_zero hcs)).mp h1
  have h3 : r * (w.types th)._clusterSize < 2 ^ 64 := by
    unfold SIZE_MAX at h2
    omega
  refine ⟨h1, by omega, by omega, h3, ?_⟩
  unfold mul64
  exact Nat.mod_eq_of_lt h3

/-- Scenario A: the 10 clusters returned are within all three bounds. -/
theorem calcClustersToAlloc_bounded_witness :
    10 ≤ SIZE_MAX / (scenarioA.types 0)._clusterSize ∧ 10 ≤ 2 ^ 32 ∧
      10 ≤ (scenarioA.types 0)._maxClusters ∧
      10 * (scenarioA.types 0)._clusterSize < 2 ^ 64 ∧
      mul64 10 (scenarioA.types 0)._clusterSize = 10 * (scenarioA.types 0)._clusterSize :=
  calcClustersToAlloc_bounded scenarioA 0 1 10 (2 ^ 32) 10 (by decide)

/-- C6: `getReservedElements(buffer_id)` returns `cluster_size` when `buffer_id == 0` and
0 for every other `buffer_id`. -/
theorem getReservedElements_spec (t : BufferTypeBase) (n : Nat) :
    getReservedElements t 0 = t._clusterSize ∧ getReservedElements t (n + 1) = 0 := by
  constructor <;> rfl

/-! ## The life cycle of a buffer: `onActive`, `onHold`, `onFree` -/

/-- C7, as amended: for every buffer in state Free (no memory, no type handler, all counts
zero, empty free list, no links), called with a null buffer pointer, and every type entry
for which `calcClustersToAlloc` returns `c`, when the size assertion of line 179 holds
(`c * cluster_size ≥ reserved + size_needed` in `size_t` arithmetic) and the allocator
hands out non-null memory `p`, `BufferState::onActive` succeeds and leaves the buffer in
state Active with `alloc_elems = c * cluster_size`, the given type handler and type id
bound, the buffer's `cluster_size` equal to the type entry's, and both the buffer's and the
caller's pointer set to the newly allocated memory `p`. -/
theorem onActive_activates (w : Store) (self bufferId typeId typeHandler : Nat)
    (sizeNeeded maxClusters elementSize : Nat) (create : Nat → Option Nat) (c p : Nat)
    (hfree : FreeBuffer w self)
    (hcalc : calcClustersToAlloc w typeHandler bufferId sizeNeeded maxClusters = .ok c)
    (hsize : add64 (getReservedElements (w.types typeHandler) bufferId) sizeNeeded
      ≤ c * (w.types typeHandler)._clusterSize)
    (hcreate : create (mul64 (c * (w.types typeHandler)._clusterSize) elementSize) = some p) :
    ∃ w', BufferState.onActive w self bufferId typeId typeHandler sizeNeeded maxClusters none
          elementSize create = .ok (w', some p) ∧
      (w'.buffers self)._state = .ACTIVE ∧
      (w'.buffers self)._allocElems = c * (w.types typeHandler)._clusterSize ∧
      (w'.buffers self)._typeHandler = some typeHandler ∧
      (w'.buffers self)._typeId = typeId ∧
      (w'.buffers self)._clusterSize = (w'.types typeHandler)._clusterSize ∧
      (w'.types typeHandler)._clusterSize = (w.types typeHandler)._clusterSize ∧
      (w'.buffers self)._buffer = some p ∧ p ∈ w'.allocated := by
  refine ⟨_, onActive_eq w self bufferId typeId typeHandler sizeNeeded maxClusters elementSize
    create c p hfree hcalc hsize hcreate, ?_⟩
  rw [typeOnActive_buffers, typeOnActive_clusterSize, typeOnActive_allocated]
  split_ifs <;> simp

/-- Scenario A: activating buffer 0 with `buffer_id = 1` for 10 elements succeeds with
10 clusters. -/
theorem onActive_activates_witness :
    ∃ w', BufferState.onActive scenarioA 0 1 7 0 10 (2 ^ 32) none 4 always4096
          = .ok (w', some 4096) ∧
      (w'.buffers 0)._state = .ACTIVE ∧
      (w'.buffers 0)._allocElems = 10 * (scenarioA.types 0)._clusterSize ∧
      (w'.buffers 0)._typeHandler = some 0 ∧
      (w'.buffers 0)._typeId = 7 ∧
      (w'.buffers 0)._clusterSize = (w'.types 0)._clusterSize ∧
      (w'.types 0)._clusterSize = (scenarioA.types 0)._clusterSize ∧
      (w'.buffers 0)._buffer = some 4096 ∧ 4096 ∈ w'.allocated :=
  onActive_activates scenarioA 0 1 7 0 10 (2 ^ 32) 4 always4096 10 4096 (by decide) (by decide)
    (by decide) (by decide)

/-- C7 as stated fails when `reserved + size_needed + cluster_size - 1` wraps: for a fresh
buffer and a fresh type entry with `cluster_size = 8`, `min_clusters = 0`,
`max_clusters = 1000`, `buffer_id = 1` and `size_needed = 2^64 - 7`, the function
`calcClustersToAlloc` returns 0 and `BufferState::onActive` ends in the assertion of line
179 instead of leaving the buffer Active. -/
theorem onActive_aborts_although_calc_returns :
    FreeBuffer eightNoMin 0 ∧
    calcClustersToAlloc eightNoMin 0 1 (2 ^ 64 - 7) (2 ^ 32) = .ok 0 ∧
    BufferState.onActive eightNoMin 0 1 7 0 (2 ^ 64 - 7) (2 ^ 32) none 4 always4096
      = .error (.assertion 179) := by
  refine ⟨by decide, by decide, ?_⟩
  rfl

/-- C8: every `BufferState::onActive` that completes (which it does only on a Free buffer
and for a type entry with `cluster_size > 0`) leaves `used_elems = dead_elems =
cluster_size` when called with `buffer_id = 0` and `used_elems = dead_elems = 0` when
called with any `buffer_id ≠ 0`; and `onActive` does complete on a Free buffer when
`calcClustersToAlloc` returns a count that covers the request and the allocator hands out
non-null memory. -/
theorem onActive_reserves (w : Store) (self bufferId typeId typeHandler : Nat)
    (sizeNeeded maxClusters : Nat) (elementSize : Nat) (create : Nat → Option Nat) :
    (∀ c p, FreeBuffer w self →
      calcClustersToAlloc w typeHandler bufferId sizeNeeded maxClusters = .ok c →
      add64 (getReservedElements (w.types typeHandler) bufferId) sizeNeeded
        ≤ c * (w.types typeHandler)._clusterSize →
      create (mul64 (c * (w.types typeHandler)._clusterSize) elementSize) = some p →
      ∃ w', BufferState.onActive w self bufferId typeId typeHandler sizeNeeded maxClusters
        none elementSize create = .ok (w', some p)) ∧
    (∀ buffer w' p',
      BufferState.onActive w self bufferId typeId typeHandler sizeNeeded maxClusters buffer
        elementSize create = .ok (w', p') →
      0 < (w.types typeHandler)._clusterSize ∧
      (bufferId = 0 →
        (w'.buffers self)._usedElems = (w.types typeHandler)._clusterSize ∧
        (w'.buffers self)._deadElems = (w.types typeHandler)._clusterSize) ∧
      (bufferId ≠ 0 →
        (w'.buffers self)._usedElems = 0 ∧ (w'.buffers self)._deadElems = 0)) := by
  constructor
  · intro c p hfree hcalc hsize hcreate
    exact ⟨_, onActive_eq w self bufferId typeId typeHandler sizeNeeded maxClusters
      elementSize create c p hfree hcalc hsize hcreate⟩
  · intro buffer w' p' h
    obtain ⟨hb, hfree, c, p, hcalc, hsize, hcreate⟩ :=
      onActive_ok_inv w self bufferId typeId typeHandler sizeNeeded maxClusters buffer
        elementSize create w' p' h
    subst hb
    rw [onActive_eq w self bufferId typeId typeHandler sizeNeeded maxClusters elementSize
      create c p hfree hcalc hsize hcreate] at h
    simp only [Except.ok.injEq, Prod.mk.injEq] at h
    obtain ⟨hw, -⟩ := h
    obtain ⟨hcs, -⟩ :=
      calcClustersToAlloc_ok_inv w typeHandler bufferId sizeNeeded maxClusters c hcalc
    obtain ⟨-, -, -, -, h5, h6, -⟩ := hfree
    subst hw
    rw [typeOnActive_buffers]
    refine ⟨Nat.pos_of_ne_zero hcs, ?_, ?_⟩
    · intro hz
      simp [getReservedElements, hz, hcs]
    · intro hz
      simp [getReservedElements, hz, h5, h6]

/-- Scenario B: `cluster_size = 8`, `buffer_id = 0` gives `used_elems = 8` and
`dead_elems = 8` right after the activation. -/
theorem onActive_reserves_witness :
    BufferState.onActive scenarioB 0 0 7 0 10 (2 ^ 32) none 4 always4096
        = .ok (scenarioBActive, some 4096) ∧
      (scenarioBActive.buffers 0)._usedElems = 8 ∧
      (scenarioBActive.buffers 0)._deadElems = 8 :=
  ⟨by rfl, ((onActive_reserves scenarioB 0 0 7 0 10 (2 ^ 32) 4 always4096).2 none
    scenarioBActive (some 4096) (by rfl)).2.1 rfl⟩

/-- C9: for every Active buffer with `dead_elems ≤ used_elems` in a well-formed circular
list, every `BufferState::onHold` that completes leaves `state = Hold`,
`hold_elems = used_elems - dead_elems`, `compacting = false`, the local free list empty,
both free-list links null, the buffer absent from its former anchor's circular list (the
anchor's head is another buffer, no link of any buffer refers to it, and following the
successor links from the head never meets it), and its anchor reference unset, with
`used_elems`, `dead_elems` and `alloc_elems` unchanged; and `onHold` does complete when
the buffer is bound to a type entry that counts its used elements, has
`hold_elems ≤ used_elems - dead_elems` and well-formed free-list bookkeeping. -/
theorem onHold_holds (w : Store) (self : Nat)
    (hstate : (w.buffers self)._state = .ACTIVE)
    (hdead : (w.buffers self)._deadElems ≤ (w.buffers self)._usedElems)
    (hused : (w.buffers self)._usedElems < 2 ^ 64)
    (hrefs : OnlyNeighboursRefer w self) :
    (∀ th, (w.buffers self)._typeHandler = some th →
      (w.buffers self)._holdElems
        ≤ (w.buffers self)._usedElems - (w.buffers self)._deadElems →
      CountedByType w th self → LinksOk w self →
      ∃ w', BufferState.onHold w self = .ok w') ∧
    (∀ w', BufferState.onHold w self = .ok w' →
      (w'.buffers self)._state = .HOLD ∧
      (w'.buffers self)._holdElems
        = (w.buffers self)._usedElems - (w.buffers self)._deadElems ∧
      (w'.buffers self)._compacting = false ∧
      (w'.buffers self)._freeList = [] ∧
      (w'.buffers self)._nextHasFree = none ∧
      (w'.buffers self)._prevHasFree = none ∧
      (∀ a, (w.buffers self)._freeListList = some a →
        (w'.lists a)._head ≠ some self ∧
        ∀ fuel, self ∉ followNext w' fuel (w'.lists a)._head) ∧
      (∀ x, (w'.buffers x)._nextHasFree ≠ some self ∧
        (w'.buffers x)._prevHasFree ≠ some self) ∧
      (w'.buffers self)._freeListList = none ∧
      (w'.buffers self)._usedElems = (w.buffers self)._usedElems ∧
      (w'.buffers self)._deadElems = (w.buffers self)._deadElems ∧
      (w'.buffers self)._allocElems = (w.buffers self)._allocElems) := by
  have hsub := sub64_eq _ _ hused hdead
  have transfer : ∀ w1 : Store,
      w1.buffers = (w.setBuffer self { w.buffers self with
        _state := .HOLD
        _compacting := false
        _holdElems := sub64 (w.buffers self)._usedElems (w.buffers self)._deadElems }).buffers →
      w1.lists = w.lists →
      w1.buffers self = { w.buffers self with
        _state := .HOLD
        _compacting := false
        _holdElems := (w.buffers self)._usedElems - (w.buffers self)._deadElems } ∧
      (∀ x, x ≠ self → w1.buffers x = w.buffers x) ∧
      isHeadOfOwnList w1 self = isHeadOfOwnList w self := by
    intro w1 hb hl
    have hself : w1.buffers self = { w.buffers self with
        _state := .HOLD
        _compacting := false
        _holdElems := (w.buffers self)._usedElems - (w.buffers self)._deadElems } := by
      rw [hb]
      simp [Store.setBuffer, hsub]
    refine ⟨hself, ?_, ?_⟩
    · intro x hx
      rw [hb]
      simp [Store.setBuffer, upd_ne _ _ _ _ hx]
    · simp [isHeadOfOwnList, hself, hl]
  constructor
  · intro th hth hhold hagg hlinks
    rw [onHold_eq_tail w self th hstate hth hdead (by rw [hsub]; exact hhold)]
    obtain ⟨w1, h1, hb, hl, -⟩ := typeOnHold_ok
      (w.setBuffer self { w.buffers self with
        _state := .HOLD
        _compacting := false
        _holdElems := sub64 (w.buffers self)._usedElems (w.buffers self)._deadElems })
      th self (by simpa [CountedByType, Store.setBuffer, Store.setType] using hagg)
    rw [h1]
    obtain ⟨hself, hother, hhead⟩ := transfer w1 hb hl
    obtain ⟨w', h2, -⟩ := onHoldTail_ok w1 self (by rw [hself])
      (by
        simp only [LinksOk, hself, hhead]
        exact hlinks)
      (by
        intro x hx
        rw [hother x hx, hself]
        exact hrefs x hx)
    exact ⟨w', h2⟩
  · intro w' h
    obtain ⟨-, th, hth, -, hhold, w1, h1, h2⟩ := onHold_ok_inv w self w' h
    obtain ⟨hb, hl, -⟩ := typeOnHold_frame _ th self w1 h1
    obtain ⟨hself, hother, hhead⟩ := transfer w1 hb hl
    have hlinks := onHoldTail_links w1 self w' h2
    obtain ⟨w'', h3, -, -, hs', hheads, hnone⟩ := onHoldTail_ok w1 self (by rw [hself]) hlinks
      (by
        intro x hx
        rw [hother x hx, hself]
        exact hrefs x hx)
    rw [h2] at h3
    simp only [Except.ok.injEq] at h3
    subst h3
    rw [hs', hself]
    refine ⟨rfl, rfl, rfl, rfl, rfl, rfl, ?_, hnone, rfl, rfl, rfl, rfl⟩
    intro a ha
    have hne := hheads a (by rw [hself]; exact ha)
    exact ⟨hne, fun fuel => not_mem_followNext w' self (fun x => (hnone x).1) fuel _ hne⟩

/-- Scenario C: putting buffer 0 on hold succeeds, freezes `hold_elems = 10 - 2 = 8` and
removes the buffer from the list of anchor 0. -/
theorem onHold_holds_witness :
    ∃ w', BufferState.onHold scenarioC 0 = .ok w' ∧ (w'.buffers 0)._state = .HOLD ∧
      (w'.buffers 0)._holdElems = 8 ∧ (w'.lists 0)._head ≠ some 0 := by
  have key := onHold_holds scenarioC 0 (by decide) (by decide) (by decide) scenarioC_refs
  obtain ⟨w', h⟩ := key.1 0 (by decide) (by decide) (by decide) (by decide)
  obtain ⟨hs, hh, -, -, -, -, hl, -⟩ := key.2 w' h
  exact ⟨w', h, hs, hh, (hl 0 rfl).1⟩

/-- C10: for every Hold buffer called with its own memory pointer and with
`hold_elems = used_elems - dead_elems`, every `BufferState::onFree` that completes leaves
`state = Free`, `used_elems = alloc_elems = dead_elems = hold_elems = 0`,
`cluster_size = 0`, the type handler unbound, the memory released (the buffer owns no
block and its former block is owned by nobody), the caller's buffer pointer null, and the
elem-hold-list-disabled flag reset to false; and `onFree` does complete when the buffer
satisfies the data model of a Hold buffer. -/
theorem onFree_frees (w : Store) (self : Nat) (buffer : Option Nat)
    (hstate : (w.buffers self)._state = .HOLD)
    (hbuf : buffer = (w.buffers self)._buffer)
    (hhold : (w.buffers self)._holdElems
      = (w.buffers self)._usedElems - (w.buffers self)._deadElems) :
    (∀ th, HoldBuffer w self th → ∃ w', BufferState.onFree w self buffer = .ok (w', none)) ∧
    (∀ w' p', BufferState.onFree w self buffer = .ok (w', p') →
      p' = none ∧
      (w'.buffers self)._state = .FREE ∧
      (w'.buffers self)._usedElems = 0 ∧ (w'.buffers self)._allocElems = 0 ∧
      (w'.buffers self)._deadElems = 0 ∧ (w'.buffers self)._holdElems = 0 ∧
      (w'.buffers self)._clusterSize = 0 ∧
      (w'.buffers self)._typeHandler = none ∧
      (w'.buffers self)._buffer = none ∧
      (∀ p, buffer = some p → p ∉ w'.allocated) ∧
      (w'.buffers self)._disableElemHoldList = false) := by
  constructor
  · rintro th ⟨-, hth, hdead, hused, htype, hfl, hn, hp, hh⟩
    obtain ⟨w', h, -⟩ := onFree_ok w self th buffer
      ⟨hbuf, hstate, hth, hdead, by rw [sub64_eq _ _ hused hdead]; exact hhold, htype, hfl, hn,
        hp, hh⟩
    exact ⟨w', h⟩
  · intro w' p' h
    obtain ⟨th, hg⟩ := onFree_ok_inv w self buffer (w', p') h
    obtain ⟨w'', h2, hpost⟩ := onFree_ok w self th buffer hg
    rw [h] at h2
    simp only [Except.ok.injEq, Prod.mk.injEq] at h2
    obtain ⟨hw, hp⟩ := h2
    subst hw
    exact ⟨hp, hpost⟩

/-- Scenario B: freeing the held buffer 0 succeeds and releases the block at 4096. -/
theorem onFree_frees_witness :
    ∃ w', BufferState.onFree scenarioHeld 0 (some 4096) = .ok (w', none) ∧
      (w'.buffers 0)._state = .FREE ∧ (w'.buffers 0)._usedElems = 0 ∧
      (w'.buffers 0)._buffer = none ∧ 4096 ∉ w'.allocated := by
  have key := onFree_frees scenarioHeld 0 (some 4096) (by decide) (by decide) (by decide)
  obtain ⟨w', h⟩ := key.1 0 (by decide)
  obtain ⟨-, hs, hu, -, -, -, -, -, hb, hal, -⟩ := key.2 w' none h
  exact ⟨w', h, hs, hu, hb, hal 4096 rfl⟩

/-! ## General facts about the free lists, the operations and their sequences -/

/-- Effect of `flushLastUsed` on the flushed type entry. -/
theorem flushLastUsed_type (w : Store) (th : Nat) :
    (flushLastUsed w th).types th = { w.types th with
      _activeUsedElems := effectiveUsedElems w th
      _lastUsedElems := none } := by
  unfold flushLastUsed effectiveUsedElems
  cases h : (w.types th)._lastUsedElems with
  | none =>
    simp only
    cases ht : w.types th
    simp_all
  | some p => simp [Store.setType]

/-- The function `flushLastUsed` changes no other type entry. -/
theorem flushLastUsed_type_ne (w : Store) (th x : Nat) (hx : x ≠ th) :
    (flushLastUsed w th).types x = w.types x := by
  unfold flushLastUsed
  split
  · rfl
  · simp [Store.setType, upd_ne _ _ _ _ hx]

/-- The type entry after `BufferTypeBase::onActive`. -/
theorem typeOnActive_type (w : Store) (th bufferId usedElems deadElems : Nat)
    (buffer : Option Nat) :
    (BufferTypeBase.onActive w th bufferId usedElems deadElems buffer).types th =
      { w.types th with
        _activeUsedElems := effectiveUsedElems w th
        _activeBuffers := inc32 (w.types th)._activeBuffers
        _lastUsedElems := some usedElems } := by
  simp only [BufferTypeBase.onActive, Store.setType, Store.setBuffer]
  split_ifs <;> simp [flushLastUsed_type]

/-- The function `BufferTypeBase::onActive` changes no other type entry. -/
theorem typeOnActive_type_ne (w : Store) (th bufferId usedElems deadElems x : Nat)
    (buffer : Option Nat) (hx : x ≠ th) :
    (BufferTypeBase.onActive w th bufferId usedElems deadElems buffer).types x
      = w.types x := by
  simp only [BufferTypeBase.onActive, Store.setType, Store.setBuffer]
  split_ifs <;> simp [upd_ne _ _ _ _ hx, flushLastUsed_type_ne _ _ _ hx]

/-- Unlinking the only member of a list. -/
theorem remove_single (w : Store) (self a : Nat)
    (ha : (w.buffers self)._freeListList = some a)
    (hn : (w.buffers self)._nextHasFree = some self)
    (hp : (w.buffers self)._prevHasFree = some self)
    (hhead : (w.lists a)._head = some self) :
    removeFromFreeListList w self = .ok { w with
      lists := upd w.lists a { w.lists a with _head := none }
      buffers := upd w.buffers self { w.buffers self with
        _nextHasFree := none, _prevHasFree := none } } := by
  simp [removeFromFreeListList, ha, hn, hp, hhead, Store.setList, Store.setBuffer]

/-- Unlinking a member that has other members beside it. -/
theorem remove_multi (w : Store) (self a n p : Nat)
    (ha : (w.buffers self)._freeListList = some a)
    (hn : (w.buffers self)._nextHasFree = some n)
    (hp : (w.buffers self)._prevHasFree = some p)
    (hns : n ≠ self) (hps : p ≠ self) :
    removeFromFreeListList w self = .ok { w with
      lists := upd w.lists a { w.lists a with _head := some n }
      buffers := upd (upd (upd w.buffers n { w.buffers n with _prevHasFree := some p })
          p { upd w.buffers n { w.buffers n with _prevHasFree := some p } p with
            _nextHasFree := some n })
        self { w.buffers self with _nextHasFree := none, _prevHasFree := none } } := by
  have hsn : (upd w.buffers n { w.buffers n with _prevHasFree := some p }) self
      = w.buffers self := upd_ne _ _ _ _ (Ne.symm hns)
  simp [removeFromFreeListList, ha, hn, hp, hns, hps, Store.setList, Store.setBuffer,
    upd_ne _ _ _ _ (Ne.symm hns), upd_ne _ _ _ _ (Ne.symm hps), hsn]

/-- A successful `removeFromFreeListList` met its guards: the buffer has an anchor and
both links, and it is either its own neighbour on both sides and the head, or has other
neighbours on both sides. -/
theorem remove_ok_inv (w : Store) (self : Nat) (w' : Store)
    (h : removeFromFreeListList w self = .ok w') :
    ∃ a n p, (w.buffers self)._freeListList = some a ∧
      (w.buffers self)._nextHasFree = some n ∧ (w.buffers self)._prevHasFree = some p ∧
      ((n = self ∧ p = self ∧ (w.lists a)._head = some self) ∨ (n ≠ self ∧ p ≠ self)) := by
  cases ha : (w.buffers self)._freeListList with
  | none => simp [removeFromFreeListList, ha] at h
  | some a =>
    cases hn : (w.buffers self)._nextHasFree with
    | none => simp [removeFromFreeListList, ha, hn] at h
    | some n =>
      cases hp : (w.buffers self)._prevHasFree with
      | none => simp [removeFromFreeListList, ha, hn, hp] at h
      | some p =>
        refine ⟨a, n, p, rfl, rfl, rfl, ?_⟩
        by_cases hns : n = self
        · by_cases hps : p = self
          swap
          · simp [removeFromFreeListList, ha, hn, hp, hns, hps] at h
          by_cases hh : (w.lists a)._head = some self
          swap
          · simp [removeFromFreeListList, ha, hn, hp, hns, hps, hh] at h
          exact Or.inl ⟨hns, hps, hh⟩
        · by_cases hps : p = self
          · simp [removeFromFreeListList, ha, hn, hp, hns, hps] at h
          · exact Or.inr ⟨hns, hps⟩

/-- Effect of `removeFromFreeListList` on the links of a member of a circular list. -/
theorem remove_links (w : Store) (self a n p : Nat)
    (ha : (w.buffers self)._freeListList = some a)
    (hn : (w.buffers self)._nextHasFree = some n)
    (hp : (w.buffers self)._prevHasFree = some p)
    (hsingle : n = self → p = self ∧ (w.lists a)._head = some self)
    (hmulti : n ≠ self → p ≠ self) :
    ∃ w', removeFromFreeListList w self = .ok w' ∧
      (n = self → (w'.lists a)._head = none) ∧
      (n ≠ self → (w'.lists a)._head = some n ∧
        (w'.buffers p)._nextHasFree = some n ∧ (w'.buffers n)._prevHasFree = some p) ∧
      (w'.buffers self)._nextHasFree = none ∧ (w'.buffers self)._prevHasFree = none ∧
      (∀ x, x ≠ self → x ≠ p →
        (w'.buffers x)._nextHasFree = (w.buffers x)._nextHasFree) ∧
      (∀ x, x ≠ self → x ≠ n →
        (w'.buffers x)._prevHasFree = (w.buffers x)._prevHasFree) ∧
      (∀ b, b ≠ a → w'.lists b = w.lists b) := by
  by_cases hns : n = self
  · obtain ⟨hps, hhead⟩ := hsingle hns
    subst hns
    subst hps
    refine ⟨_, remove_single w p a ha hn hp hhead, ?_⟩
    refine ⟨fun _ => by simp, fun h => absurd rfl h, by simp, by simp, ?_, ?_, ?_⟩
    · intro x hx _
      simp [upd_ne _ _ _ _ hx]
    · intro x hx _
      simp [upd_ne _ _ _ _ hx]
    · intro b hb
      simp [upd_ne _ _ _ _ hb]
  · have hps := hmulti hns
    refine ⟨_, remove_multi w self a n p ha hn hp hns hps, ?_⟩
    refine ⟨fun h => absurd h hns, fun _ => ⟨by simp, ?_, ?_⟩, by simp, by simp, ?_, ?_, ?_⟩
    · simp [upd_ne _ _ _ _ hps]
    · simp only [upd_ne _ _ _ _ hns]
      by_cases hnp : n = p
      · subst hnp
        simp
      · simp [upd_ne _ _ _ _ hnp]
    · intro x hx hxp
      simp only [upd_ne _ _ _ _ hx, upd_ne _ _ _ _ hxp]
      by_cases hxn : x = n
      · subst hxn
        simp
      · simp [upd_ne _ _ _ _ hxn]
    · intro x hx hxn
      simp only [upd_ne _ _ _ _ hx]
      by_cases hxp : x = p
      · subst hxp
        simp [upd_ne _ _ _ _ hxn]
      · simp [upd_ne _ _ _ _ hxp, upd_ne _ _ _ _ hxn]
    · intro b hb
      simp [upd_ne _ _ _ _ hb]

/-- Linking into an empty list. -/
theorem add_empty (w : Store) (self a : Nat)
    (ha : (w.buffers self)._freeListList = some a)
    (hhead : (w.lists a)._head = none)
    (hn : (w.buffers self)._nextHasFree = none)
    (hp : (w.buffers self)._prevHasFree = none) :
    addToFreeListList w self = .ok { w with
      lists := upd w.lists a { w.lists a with _head := some self }
      buffers := upd w.buffers self { w.buffers self with
        _nextHasFree := some self, _prevHasFree := some self } } := by
  simp [addToFreeListList, ha, hhead, hn, hp, Store.setList, Store.setBuffer]

/-- Linking into a list with head `h` whose predecessor is `q`. -/
theorem add_nonempty (w : Store) (self a h q : Nat)
    (ha : (w.buffers self)._freeListList = some a)
    (hhead : (w.lists a)._head = some h) (hhs : h ≠ self)
    (hn : (w.buffers self)._nextHasFree = none)
    (hp : (w.buffers self)._prevHasFree = none)
    (hq : (w.buffers h)._prevHasFree = some q) :
    addToFreeListList w self = .ok { w with
      lists := upd w.lists a { w.lists a with _head := some self }
      buffers := upd (upd (upd w.buffers self { w.buffers self with
            _nextHasFree := some h, _prevHasFree := some q })
          h { w.buffers h with _prevHasFree := some self })
        q { upd (upd w.buffers self { w.buffers self with
              _nextHasFree := some h, _prevHasFree := some q })
            h { w.buffers h with _prevHasFree := some self } q with
          _nextHasFree := some self } } := by
  have hhs2 : ¬ (some h = some self) := by simpa using hhs
  simp [addToFreeListList, ha, hhead, hhs2, hn, hp, Store.setList, Store.setBuffer,
    upd_ne _ _ _ _ hhs, upd_ne _ _ _ _ (Ne.symm hhs), hq]

/-- A successful `addToFreeListList` met its guards. -/
theorem add_ok_inv (w : Store) (self : Nat) (w' : Store)
    (h : addToFreeListList w self = .ok w') :
    ∃ a, (w.buffers self)._freeListList = some a ∧
      (w.buffers self)._nextHasFree = none ∧ (w.buffers self)._prevHasFree = none ∧
      ((w.lists a)._head = none ∨
        ∃ hd q, (w.lists a)._head = some hd ∧ hd ≠ self ∧
          (w.buffers hd)._prevHasFree = some q) := by
  cases ha : (w.buffers self)._freeListList with
  | none => simp [addToFreeListList, ha] at h
  | some a =>
    by_cases hhs : (w.lists a)._head = some self
    · simp [addToFreeListList, ha, hhs] at h
    by_cases hn : (w.buffers self)._nextHasFree = none
    swap
    · simp [addToFreeListList, ha, hhs, hn] at h
    by_cases hp : (w.buffers self)._prevHasFree = none
    swap
    · simp [addToFreeListList, ha, hhs, hn, hp] at h
    refine ⟨a, rfl, hn, hp, ?_⟩
    cases hh : (w.lists a)._head with
    | none => exact Or.inl rfl
    | some hd =>
      have hne : hd ≠ self := by
        intro e
        exact hhs (by rw [hh, e])
      cases hq : (w.buffers hd)._prevHasFree with
      | none =>
        simp [addToFreeListList, ha, hh, hne, hn, hp, Store.setBuffer,
          upd_ne _ _ _ _ hne, upd_ne _ _ _ _ (Ne.symm hne), hq] at h
      | some q => exact Or.inr ⟨hd, q, rfl, hne, hq⟩

/-- After a successful `addToFreeListList` the buffer is the head of its anchor. -/
theorem add_head (w : Store) (self a : Nat) (w' : Store)
    (h : addToFreeListList w self = .ok w')
    (ha : (w.buffers self)._freeListList = some a) :
    (w'.lists a)._head = some self := by
  obtain ⟨a2, ha2, hn, hp, hcase⟩ := add_ok_inv w self w' h
  rw [ha] at ha2
  simp only [Option.some.injEq] at ha2
  subst ha2
  rcases hcase with hh | ⟨hd, q, hh, hne, hq⟩
  · rw [add_empty w self a ha hh hn hp] at h
    simp only [Except.ok.injEq] at h
    subst h
    simp
  · rw [add_nonempty w self a hd q ha hh hne hn hp hq] at h
    simp only [Except.ok.injEq] at h
    subst h
    simp

/-- What `removeFromFreeListList` leaves untouched, and what it leaves behind in the buffer
and in its anchor. -/
theorem remove_frame (w : Store) (self : Nat) (w' : Store)
    (h : removeFromFreeListList w self = .ok w') :
    w'.types = w.types ∧ w'.allocated = w.allocated ∧
      (∀ x, sansLinks (w'.buffers x) = sansLinks (w.buffers x)) ∧
      (w'.buffers self)._nextHasFree = none ∧ (w'.buffers self)._prevHasFree = none ∧
      (∀ b, (w.buffers self)._freeListList ≠ some b → w'.lists b = w.lists b) ∧
      (∀ a, (w.buffers self)._freeListList = some a → (w'.lists a)._head ≠ some self) := by
  obtain ⟨a, n, p, ha, hn, hp, hcase⟩ := remove_ok_inv w self w' h
  rcases hcase with ⟨hns, hps, hhead⟩ | ⟨hns, hps⟩
  · subst hns
    subst hps
    rw [remove_single w p a ha hn hp hhead] at h
    simp only [Except.ok.injEq] at h
    subst h
    refine ⟨rfl, rfl, ?_, by simp, by simp, ?_, ?_⟩
    · intro x
      by_cases hx : x = p
      · subst hx
        simp [sansLinks]
      · simp [upd_ne _ _ _ _ hx]
    · intro b hb
      have : b ≠ a := fun e => hb (by rw [ha, e])
      simp [upd_ne _ _ _ _ this]
    · intro a2 ha2
      rw [ha] at ha2
      simp only [Option.some.injEq] at ha2
      subst ha2
      simp
  · rw [remove_multi w self a n p ha hn hp hns hps] at h
    simp only [Except.ok.injEq] at h
    subst h
    refine ⟨rfl, rfl, ?_, by simp, by simp, ?_, ?_⟩
    · intro x
      by_cases hx : x = self
      · subst hx
        simp [sansLinks]
      · simp only [upd_ne _ _ _ _ hx]
        by_cases hxp : x = p
        · subst hxp
          simp only [upd_same]
          by_cases hxn : x = n
          · subst hxn
            simp [sansLinks]
          · simp [sansLinks, upd_ne _ _ _ _ hxn]
        · simp only [upd_ne _ _ _ _ hxp]
          by_cases hxn : x = n
          · subst hxn
            simp [sansLinks]
          · simp [upd_ne _ _ _ _ hxn]
    · intro b hb
      have : b ≠ a := fun e => hb (by rw [ha, e])
      simp [upd_ne _ _ _ _ this]
    · intro a2 ha2
      rw [ha] at ha2
      simp only [Option.some.injEq] at ha2
      subst ha2
      simpa using hns

/-- What `addToFreeListList` leaves untouched, and what it leaves behind in the buffer
and in its anchor. -/
theorem add_frame (w : Store) (self : Nat) (w' : Store)
    (h : addToFreeListList w self = .ok w') :
    w'.types = w.types ∧ w'.allocated = w.allocated ∧
      (∀ x, sansLinks (w'.buffers x) = sansLinks (w.buffers x)) ∧
      (w'.buffers self)._nextHasFree ≠ none ∧ (w'.buffers self)._prevHasFree ≠ none ∧
      (∀ b, (w.buffers self)._freeListList ≠ some b → w'.lists b = w.lists b) := by
  obtain ⟨a, ha, hn, hp, hcase⟩ := add_ok_inv w self w' h
  rcases hcase with hh | ⟨hd, q, hh, hne, hq⟩
  · rw [add_empty w self a ha hh hn hp] at h
    simp only [Except.ok.injEq] at h
    subst h
    refine ⟨rfl, rfl, ?_, by simp, by simp, ?_⟩
    · intro x
      by_cases hx : x = self
      · subst hx
        simp [sansLinks]
      · simp [upd_ne _ _ _ _ hx]
    · intro b hb
      have : b ≠ a := fun e => hb (by rw [ha, e])
      simp [upd_ne _ _ _ _ this]
  · rw [add_nonempty w self a hd q ha hh hne hn hp hq] at h
    simp only [Except.ok.injEq] at h
    subst h
    refine ⟨rfl, rfl, ?_, ?_, ?_, ?_⟩
    · intro x
      by_cases hxq : x = q
      · subst hxq
        simp only [upd_same]
        by_cases hxh : x = hd
        · subst hxh
          simp [sansLinks]
        · simp only [upd_ne _ _ _ _ hxh]
          by_cases hxs : x = self
          · subst hxs
            simp [sansLinks]
          · simp [sansLinks, upd_ne _ _ _ _ hxs]
      · simp only [upd_ne _ _ _ _ hxq]
        by_cases hxh : x = hd
        · subst hxh
          simp [sansLinks]
        · simp only [upd_ne _ _ _ _ hxh]
          by_cases hxs : x = self
          · subst hxs
            simp [sansLinks]
          · simp [upd_ne _ _ _ _ hxs]
    · by_cases hsq : self = q
      · subst hsq
        simp
      · simp [upd_ne _ _ _ _ hsq, upd_ne _ _ _ _ (Ne.symm hne)]
    · by_cases hsq : self = q
      · subst hsq
        simp [upd_ne _ _ _ _ (Ne.symm hne)]
      · simp [upd_ne _ _ _ _ hsq, upd_ne _ _ _ _ (Ne.symm hne)]
    · intro b hb
      have : b ≠ a := fun e => hb (by rw [ha, e])
      simp [upd_ne _ _ _ _ this]

/-- After unlinking a buffer that only its neighbours referred to, no link refers to
it. -/
theorem remove_no_refs (w : Store) (self : Nat) (w' : Store)
    (h : removeFromFreeListList w self = .ok w') (hrefs : OnlyNeighboursRefer w self) :
    ∀ x, (w'.buffers x)._nextHasFree ≠ some self ∧
      (w'.buffers x)._prevHasFree ≠ some self := by
  obtain ⟨a, n, p, ha, hn, hp, hcase⟩ := remove_ok_inv w self w' h
  have hs : n = self → p = self ∧ (w.lists a)._head = some self := by
    intro e
    rcases hcase with ⟨-, h2, h3⟩ | ⟨h1, -⟩
    · exact ⟨h2, h3⟩
    · exact absurd e h1
  have hm : n ≠ self → p ≠ self := by
    intro e
    rcases hcase with ⟨h1, -, -⟩ | ⟨-, h2⟩
    · exact absurd h1 e
    · exact h2
  obtain ⟨w'', h2, -, hmul, hsn, hsp, hnext, hprev, -⟩ :=
    remove_links w self a n p ha hn hp hs hm
  rw [h] at h2
  simp only [Except.ok.injEq] at h2
  subst h2
  intro x
  by_cases hx : x = self
  · subst hx
    simp [hsn, hsp]
  · have hr := hrefs x hx
    rw [hp, hn] at hr
    simp only [Option.some.injEq] at hr
    constructor
    · by_cases hxp : x = p
      · subst hxp
        have hns : n ≠ self := fun e => hx (hs e).1
        rw [(hmul hns).2.1]
        simpa using hns
      · rw [hnext x hx hxp]
        intro e
        exact hxp (hr.1 e).symm
    · by_cases hxn : x = n
      · subst hxn
        rw [(hmul hx).2.2]
        simpa using hm hx
      · rw [hprev x hx hxn]
        intro e
        exact hxn (hr.2 e).symm

/-- The early returns of `setFreeListList`. -/
theorem setFreeListList_noop (w : Store) (self : Nat) (fll : Option Nat)
    (h : ((w.buffers self)._state = .FREE ∧ fll ≠ none) ∨
      fll = (w.buffers self)._freeListList) :
    setFreeListList w self fll = .ok w := by
  rcases h with h | h
  · simp [setFreeListList, h.1, h.2]
  · by_cases h1 : (w.buffers self)._state = .FREE ∧ fll ≠ none
    · simp [setFreeListList, h1.1, h1.2]
    · unfold setFreeListList
      rw [if_neg h1, if_pos h]

/-- The function `setFreeListList` past its early returns: unlink from the old anchor,
record the new one, and link again or drop the local free list. -/
theorem setFreeListList_change (w : Store) (self : Nat) (fll : Option Nat)
    (h1 : ¬ ((w.buffers self)._state = .FREE ∧ fll ≠ none))
    (h2 : fll ≠ (w.buffers self)._freeListList) :
    setFreeListList w self fll =
      match (if (w.buffers self)._freeListList ≠ none ∧ (w.buffers self)._freeList ≠ [] then
          removeFromFreeListList w self else .ok w : Except Fault Store) with
      | .error e => .error e
      | .ok w1 =>
        if (w1.buffers self)._freeList ≠ [] then
          if fll ≠ none then
            addToFreeListList
              (w1.setBuffer self { w1.buffers self with _freeListList := fll }) self
          else .ok (w1.setBuffer self { w1.buffers self with
            _freeListList := fll, _freeList := [] })
        else .ok (w1.setBuffer self { w1.buffers self with _freeListList := fll }) := by
  unfold setFreeListList
  rw [if_neg h1, if_neg h2]
  generalize (if (w.buffers self)._freeListList ≠ none ∧ (w.buffers self)._freeList ≠ [] then
    removeFromFreeListList w self else Except.ok w) = r
  cases r with
  | error e => rfl
  | ok w1 =>
    simp only [Store.setBuffer, upd_same, upd_upd_same]

/-- What `setFreeListList` leaves untouched. -/
theorem setFreeListList_frame (w : Store) (self : Nat) (fll : Option Nat) (w' : Store)
    (h : setFreeListList w self fll = .ok w') :
    w'.types = w.types ∧ w'.allocated = w.allocated ∧
      (∀ x, sansFreeList (w'.buffers x) = sansFreeList (w.buffers x)) ∧
      (∀ x, x ≠ self → sansLinks (w'.buffers x) = sansLinks (w.buffers x)) ∧
      ((w'.buffers self)._freeList = (w.buffers self)._freeList ∨
        (w'.buffers self)._freeList = []) ∧
      (¬ ((w.buffers self)._state = .FREE ∧ fll ≠ none) →
        (w'.buffers self)._freeListList = fll) := by
  by_cases h1 : (w.buffers self)._state = .FREE ∧ fll ≠ none
  · rw [setFreeListList_noop w self fll (Or.inl h1)] at h
    simp only [Except.ok.injEq] at h
    subst h
    exact ⟨rfl, rfl, fun _ => rfl, fun _ _ => rfl, Or.inl rfl, fun hn => absurd h1 hn⟩
  by_cases h2 : fll = (w.buffers self)._freeListList
  · rw [setFreeListList_noop w self fll (Or.inr h2)] at h
    simp only [Except.ok.injEq] at h
    subst h
    exact ⟨rfl, rfl, fun _ => rfl, fun _ _ => rfl, Or.inl rfl, fun _ => h2.symm⟩
  rw [setFreeListList_change w self fll h1 h2] at h
  -- the store after the optional unlinking
  have key : ∀ w1 : Store, w1.types = w.types → w1.allocated = w.allocated →
      (∀ x, sansLinks (w1.buffers x) = sansLinks (w.buffers x)) →
      (if (w1.buffers self)._freeList ≠ [] then
          if fll ≠ none then
            addToFreeListList
              (w1.setBuffer self { w1.buffers self with _freeListList := fll }) self
          else .ok (w1.setBuffer self { w1.buffers self with
            _freeListList := fll, _freeList := [] })
        else .ok (w1.setBuffer self { w1.buffers self with _freeListList := fll })) = .ok w' →
      w'.types = w.types ∧ w'.allocated = w.allocated ∧
      (∀ x, sansFreeList (w'.buffers x) = sansFreeList (w.buffers x)) ∧
      (∀ x, x ≠ self → sansLinks (w'.buffers x) = sansLinks (w.buffers x)) ∧
      ((w'.buffers self)._freeList = (w.buffers self)._freeList ∨
        (w'.buffers self)._freeList = []) ∧
      (¬ ((w.buffers self)._state = .FREE ∧ fll ≠ none) →
        (w'.buffers self)._freeListList = fll) := by
    intro w1 ht hal hb hres
    have hfl1 : (w1.buffers self)._freeList = (w.buffers self)._freeList :=
      congrArg (·._freeList) (hb self)
    have hsf : ∀ x, sansFreeList (w1.buffers x) = sansFreeList (w.buffers x) := fun x =>
      congrArg (fun b => ({ b with _freeList := [], _freeListList := none } : BufferState))
        (hb x)
    split_ifs at hres with c1 c2
    · obtain ⟨at1, at2, at3, -, -, -⟩ := add_frame _ self w' hres
      have hx : ∀ x, sansLinks (w'.buffers x) = sansLinks
          ((w1.setBuffer self { w1.buffers self with _freeListList := fll }).buffers x) := at3
      refine ⟨at1.trans ht, at2.trans hal, ?_, ?_, ?_, ?_⟩
      · intro x
        have := congrArg (fun b => ({ b with _freeList := [], _freeListList := none } :
          BufferState)) (hx x)
        refine Eq.trans this ?_
        by_cases hxs : x = self
        · subst hxs
          simpa [Store.setBuffer, sansFreeList, sansLinks] using hsf x
        · simpa [Store.setBuffer, upd_ne _ _ _ _ hxs, sansFreeList, sansLinks] using hsf x
      · intro x hxs
        rw [hx x]
        simpa [Store.setBuffer, upd_ne _ _ _ _ hxs] using hb x
      · left
        have := congrArg (·._freeList) (hx self)
        simp only [sansLinks, Store.setBuffer, upd_same] at this
        rw [this, hfl1]
      · intro _
        have := congrArg (·._freeListList) (hx self)
        simpa [sansLinks, Store.setBuffer] using this
    · simp only [Except.ok.injEq] at hres
      subst hres
      refine ⟨ht, hal, ?_, ?_, Or.inr (by simp [Store.setBuffer]), ?_⟩
      · intro x
        by_cases hxs : x = self
        · subst hxs
          simpa [Store.setBuffer, sansFreeList, sansLinks] using hsf x
        · simpa [Store.setBuffer, upd_ne _ _ _ _ hxs] using hsf x
      · intro x hxs
        simpa [Store.setBuffer, upd_ne _ _ _ _ hxs] using hb x
      · intro _
        simp [Store.setBuffer]
    · simp only [Except.ok.injEq] at hres
      subst hres
      refine ⟨ht, hal, ?_, ?_, Or.inl (by simpa [Store.setBuffer] using hfl1), ?_⟩
      · intro x
        by_cases hxs : x = self
        · subst hxs
          simpa [Store.setBuffer, sansFreeList, sansLinks] using hsf x
        · simpa [Store.setBuffer, upd_ne _ _ _ _ hxs] using hsf x
      · intro x hxs
        simpa [Store.setBuffer, upd_ne _ _ _ _ hxs] using hb x
      · intro _
        simp [Store.setBuffer]
  by_cases c : (w.buffers self)._freeListList ≠ none ∧ (w.buffers self)._freeList ≠ []
  · rw [if_pos c] at h
    cases hr : removeFromFreeListList w self with
    | error e =>
      rw [hr] at h
      cases h
    | ok w1 =>
      rw [hr] at h
      obtain ⟨r1, r2, r3, -⟩ := remove_frame w self w1 hr
      exact key w1 r1 r2 r3 h
  · rw [if_neg c] at h
    exact key w rfl rfl (fun _ => rfl) h

/-- After linking a buffer that no link referred to, only its new neighbours refer to
it. -/
theorem add_refs (w : Store) (self : Nat) (w' : Store)
    (h : addToFreeListList w self = .ok w')
    (hnone : ∀ x, (w.buffers x)._nextHasFree ≠ some self ∧
      (w.buffers x)._prevHasFree ≠ some self) :
    OnlyNeighboursRefer w' self := by
  obtain ⟨a, ha, hn, hp, hcase⟩ := add_ok_inv w self w' h
  rcases hcase with hh | ⟨hd, q, hh, hne, hq⟩
  · rw [add_empty w self a ha hh hn hp] at h
    simp only [Except.ok.injEq] at h
    subst h
    intro x hx
    simp only [upd_ne _ _ _ _ hx]
    exact ⟨fun e => absurd e (hnone x).1, fun e => absurd e (hnone x).2⟩
  · rw [add_nonempty w self a hd q ha hh hne hn hp hq] at h
    simp only [Except.ok.injEq] at h
    subst h
    have hqs : q ≠ self := by
      intro e
      have := (hnone hd).2
      rw [hq, e] at this
      exact this rfl
    have hself : (upd (upd (upd w.buffers self { w.buffers self with
            _nextHasFree := some hd, _prevHasFree := some q })
          hd { w.buffers hd with _prevHasFree := some self })
        q { upd (upd w.buffers self { w.buffers self with
              _nextHasFree := some hd, _prevHasFree := some q })
            hd { w.buffers hd with _prevHasFree := some self } q with
          _nextHasFree := some self }) self = { w.buffers self with
            _nextHasFree := some hd, _prevHasFree := some q } := by
      rw [upd_ne _ _ _ _ (Ne.symm hqs), upd_ne _ _ _ _ (Ne.symm hne), upd_same]
    intro x hx
    simp only [hself]
    by_cases hxq : x = q
    · subst hxq
      simp only [upd_same, true_implies]
      refine ⟨trivial, ?_⟩
      by_cases hxh : x = hd
      · subst hxh
        simp
      · simp only [upd_ne _ _ _ _ hxh, upd_ne _ _ _ _ hx]
        intro e
        exact absurd e (hnone x).2
    · simp only [upd_ne _ _ _ _ hxq]
      by_cases hxh : x = hd
      · subst hxh
        simp only [upd_same, true_implies, and_true]
        intro e
        exact absurd e (hnone x).1
      · simp only [upd_ne _ _ _ _ hxh, upd_ne _ _ _ _ hx]
        exact ⟨fun e => absurd e (hnone x).1, fun e => absurd e (hnone x).2⟩

/-- Changing a field of one buffer that is not a link keeps the links of every buffer. -/
theorem setAnchor_links (w : Store) (self : Nat) (fll : Option Nat) (x : Nat) :
    ((w.setBuffer self { w.buffers self with _freeListList := fll }).buffers x)._nextHasFree
        = (w.buffers x)._nextHasFree ∧
      ((w.setBuffer self { w.buffers self with _freeListList := fll }).buffers x)._prevHasFree
        = (w.buffers x)._prevHasFree := by
  by_cases hx : x = self
  · subst hx
    simp [Store.setBuffer]
  · simp [Store.setBuffer, upd_ne _ _ _ _ hx]

/-- Moving an Active member of the list of anchor `A` to another anchor `B` is unlinking
it, recording `B` and linking it again. -/
theorem setFreeListList_move_eq (w : Store) (self A B : Nat)
    (hstate : (w.buffers self)._state = .ACTIVE)
    (ha : (w.buffers self)._freeListList = some A)
    (hfl : (w.buffers self)._freeList ≠ []) (hB : B ≠ A) :
    setFreeListList w self (some B) =
      match removeFromFreeListList w self with
      | .error e => .error e
      | .ok w1 =>
        addToFreeListList
          (w1.setBuffer self { w1.buffers self with _freeListList := some B }) self := by
  rw [setFreeListList_change w self (some B) (by simp [hstate])
    (by rw [ha]; simpa using hB)]
  rw [if_pos ⟨by simp [ha], hfl⟩]
  cases hr : removeFromFreeListList w self with
  | error e => rfl
  | ok w1 =>
    have hf : (w1.buffers self)._freeList = (w.buffers self)._freeList :=
      congrArg (·._freeList) ((remove_frame w self w1 hr).2.2.1 self)
    simp [hf, hfl]

/-- Taking the anchor away from an Active member of the list of anchor `A` is unlinking
it and dropping its local free list. -/
theorem setFreeListList_none_eq (w : Store) (self A : Nat)
    (hstate : (w.buffers self)._state = .ACTIVE)
    (ha : (w.buffers self)._freeListList = some A)
    (hfl : (w.buffers self)._freeList ≠ []) :
    setFreeListList w self none =
      match removeFromFreeListList w self with
      | .error e => .error e
      | .ok w1 =>
        .ok (w1.setBuffer self { w1.buffers self with
          _freeListList := none, _freeList := [] }) := by
  rw [setFreeListList_change w self none (by simp [hstate]) (by rw [ha]; simp)]
  rw [if_pos ⟨by simp [ha], hfl⟩]
  cases hr : removeFromFreeListList w self with
  | error e => rfl
  | ok w1 =>
    have hf : (w1.buffers self)._freeList = (w.buffers self)._freeList :=
      congrArg (·._freeList) ((remove_frame w self w1 hr).2.2.1 self)
    simp [hf, hfl]

/-- Writing back the value a map already has changes nothing. -/
theorem upd_self {α : Type} (f : Nat → α) (i : Nat) (v : α) (h : v = f i) :
    upd f i v = f := by
  funext j
  by_cases hj : j = i
  · subst hj
    simp [h]
  · simp [upd_ne _ _ _ _ hj]

/-- Clearing the anchor reference of a buffer that has none changes nothing. -/
theorem setBuffer_anchor_none (v : Store) (self : Nat)
    (ha : (v.buffers self)._freeListList = none) :
    v.setBuffer self { v.buffers self with _freeListList := none } = v := by
  have : ({ v.buffers self with _freeListList := none } : BufferState) = v.buffers self := by
    cases hb : v.buffers self
    simp_all
  simp only [Store.setBuffer]
  rw [upd_self _ _ _ this]

/-- The second part of `BufferState::onHold` in closed form, for a buffer with well-formed
free-list bookkeeping. -/
theorem onHoldTail_eq (v : Store) (self : Nat) (hlinks : LinksOk v self) :
    onHoldTail v self =
      if (v.buffers self)._freeList = [] then
        .ok (v.setBuffer self { v.buffers self with _freeListList := none })
      else
        match removeFromFreeListList v self with
        | .error e => .error e
        | .ok w1 => .ok (w1.setBuffer self { w1.buffers self with
            _freeList := [], _freeListList := none }) := by
  obtain ⟨hempty, hfull⟩ := hlinks
  by_cases hfl : (v.buffers self)._freeList = []
  · obtain ⟨hn, hp, hh⟩ := hempty hfl
    rw [if_pos hfl]
    cases ha : (v.buffers self)._freeListList with
    | none =>
      have := setBuffer_anchor_none v self ha
      rw [this]
      simp [onHoldTail, hfl, hn, hp, hh, setFreeListList, ha]
    | some a =>
      simp [onHoldTail, hfl, hn, hp, hh, setFreeListList, ha, Store.setBuffer]
  · rw [if_neg hfl]
    obtain ⟨ha, -, -, -, -⟩ := hfull hfl
    obtain ⟨a, ha⟩ := exists_of_ne_none ha
    cases hr : removeFromFreeListList v self with
    | error e => simp [onHoldTail, hfl, hr]
    | ok w1 =>
      obtain ⟨-, -, hsl, hn1, hp1, -, hhead⟩ := remove_frame v self w1 hr
      have ha1 : (w1.buffers self)._freeListList = some a := by
        have := congrArg (·._freeListList) (hsl self)
        simp only [sansLinks] at this
        rw [this, ha]
      have hst : ¬ (some self = (w1.lists a)._head) := fun e => hhead a ha e.symm
      have hst2 : ¬ ((w1.lists a)._head = some self) := hhead a ha
      simp [onHoldTail, hfl, hr, Store.setBuffer, hn1, hp1, isHeadOfOwnList, ha1, hst2,
        setFreeListList]

/-- What the second part of `BufferState::onHold` leaves untouched, and what it leaves
behind in the buffer. -/
theorem onHoldTail_frame (v : Store) (self : Nat) (w' : Store)
    (h : onHoldTail v self = .ok w') :
    w'.types = v.types ∧ w'.allocated = v.allocated ∧
      (∀ x, x ≠ self → sansLinks (w'.buffers x) = sansLinks (v.buffers x)) ∧
      w'.buffers self = { v.buffers self with
        _freeList := [], _nextHasFree := none, _prevHasFree := none,
        _freeListList := none } := by
  have hlinks := onHoldTail_links v self w' h
  rw [onHoldTail_eq v self hlinks] at h
  by_cases hfl : (v.buffers self)._freeList = []
  · rw [if_pos hfl] at h
    simp only [Except.ok.injEq] at h
    subst h
    obtain ⟨hn, hp, -⟩ := hlinks.1 hfl
    refine ⟨rfl, rfl, ?_, ?_⟩
    · intro x hx
      simp [Store.setBuffer, upd_ne _ _ _ _ hx]
    · simp only [Store.setBuffer, upd_same]
      cases hb : v.buffers self
      simp_all
  · rw [if_neg hfl] at h
    cases hr : removeFromFreeListList v self with
    | error e =>
      rw [hr] at h
      cases h
    | ok w1 =>
      rw [hr] at h
      simp only [Except.ok.injEq] at h
      subst h
      obtain ⟨ht, hal, hsl, hn1, hp1, -, -⟩ := remove_frame v self w1 hr
      refine ⟨ht, hal, ?_, ?_⟩
      · intro x hx
        simpa [Store.setBuffer, upd_ne _ _ _ _ hx] using hsl x
      · simp only [Store.setBuffer, upd_same]
        have := hsl self
        simp only [sansLinks] at this
        cases hb : w1.buffers self
        cases hb2 : v.buffers self
        simp_all

/-- What a successful `BufferState::onHold` leaves untouched, and what it leaves behind in
the buffer. -/
theorem onHold_frame (w : Store) (self : Nat) (w' : Store)
    (h : BufferState.onHold w self = .ok w') :
    (w.buffers self)._state = .ACTIVE ∧
      (w.buffers self)._deadElems ≤ (w.buffers self)._usedElems ∧
      w'.allocated = w.allocated ∧
      (∀ x, x ≠ self → sansLinks (w'.buffers x) = sansLinks (w.buffers x)) ∧
      w'.buffers self = { w.buffers self with
        _state := .HOLD
        _compacting := false
        _holdElems := sub64 (w.buffers self)._usedElems (w.buffers self)._deadElems
        _freeList := [], _nextHasFree := none, _prevHasFree := none,
        _freeListList := none } := by
  obtain ⟨hstate, th, -, hdead, -, w1, h1, h2⟩ := onHold_ok_inv w self w' h
  obtain ⟨hb, -, hal⟩ := typeOnHold_frame _ th self w1 h1
  obtain ⟨-, hal2, hsl, hself⟩ := onHoldTail_frame w1 self w' h2
  refine ⟨hstate, hdead, ?_, ?_, ?_⟩
  · rw [hal2, hal]
    rfl
  · intro x hx
    rw [hsl x hx, hb]
    simp [Store.setBuffer, upd_ne _ _ _ _ hx]
  · rw [hself, hb]
    simp [Store.setBuffer]

/-- What a successful `BufferState::onFree` leaves untouched, and what it leaves behind in
the buffer. -/
theorem onFree_frame (w : Store) (self : Nat) (buffer : Option Nat) (w' : Store)
    (p' : Option Nat) (h : BufferState.onFree w self buffer = .ok (w', p')) :
    (w.buffers self)._state = .HOLD ∧ p' = none ∧
      (∀ x, x ≠ self → w'.buffers x = w.buffers x) ∧
      w'.lists = w.lists ∧
      w'.buffers self = { w.buffers self with
        _usedElems := 0, _allocElems := 0, _deadElems := 0, _holdElems := 0
        _state := .FREE, _typeHandler := none, _clusterSize := 0
        _freeListList := none, _disableElemHoldList := false, _buffer := none } := by
  obtain ⟨th, hbuf, hstate, hth, hdead, hhold, htype, hfl, hn, hp, hh⟩ :=
    onFree_ok_inv w self buffer (w', p') h
  have hh2 : ∀ a, (w.buffers self)._freeListList = some a →
      (w.lists a)._head ≠ some self := by
    intro a ha
    simpa [isHeadOfOwnList, ha] using hh
  subst hbuf
  cases ha : (w.buffers self)._freeListList with
  | none =>
    simp [BufferState.onFree, hstate, hth, hdead, hhold, BufferTypeBase.onFree,
      Store.setType, Store.setBuffer, htype, hfl, hn, hp, isHeadOfOwnList, ha,
      setFreeListList] at h
    obtain ⟨hw, hp2⟩ := h
    subst hw
    refine ⟨hstate, hp2.symm, ?_, rfl, ?_⟩
    · intro x hx
      simp [upd_ne _ _ _ _ hx]
    · simp [ha, hfl, hn, hp]
  | some a =>
    have := hh2 a ha
    simp [BufferState.onFree, hstate, hth, hdead, hhold, BufferTypeBase.onFree,
      Store.setType, Store.setBuffer, htype, hfl, hn, hp, isHeadOfOwnList, ha,
      setFreeListList, this] at h
    obtain ⟨hw, hp2⟩ := h
    subst hw
    refine ⟨hstate, hp2.symm, ?_, rfl, ?_⟩
    · intro x hx
      simp [upd_ne _ _ _ _ hx]
    · simp [hfl, hn, hp]

/-- The notification of the type entry changes no anchor. -/
theorem typeOnActive_lists (w : Store) (th bufferId usedElems deadElems : Nat)
    (buffer : Option Nat) :
    (BufferTypeBase.onActive w th bufferId usedElems deadElems buffer).lists = w.lists := by
  simp only [BufferTypeBase.onActive, Store.setType, Store.setBuffer]
  split_ifs <;> simp [flushLastUsed_lists]

/-- What a successful `BufferState::onActive` leaves untouched, and what it leaves behind
in the buffer. -/
theorem onActive_frame (w : Store) (self bufferId typeId typeHandler : Nat)
    (sizeNeeded maxClusters : Nat) (buffer : Option Nat) (elementSize : Nat)
    (create : Nat → Option Nat) (w' : Store) (p' : Option Nat)
    (h : BufferState.onActive w self bufferId typeId typeHandler sizeNeeded maxClusters buffer
      elementSize create = .ok (w', p')) :
    ∃ c p, calcClustersToAlloc w typeHandler bufferId sizeNeeded maxClusters = .ok c ∧
      add64 (getReservedElements (w.types typeHandler) bufferId) sizeNeeded
        ≤ c * (w.types typeHandler)._clusterSize ∧
      create (mul64 (c * (w.types typeHandler)._clusterSize) elementSize) = some p ∧
      FreeBuffer w self ∧
      (∀ x, x ≠ self → w'.buffers x = w.buffers x) ∧
      w'.lists = w.lists ∧
      w'.buffers self = { w.buffers self with
        _buffer := some p
        _allocElems := c * (w.types typeHandler)._clusterSize
        _state := .ACTIVE
        _typeHandler := some typeHandler
        _typeId := typeId
        _clusterSize := (w.types typeHandler)._clusterSize
        _usedElems := getReservedElements (w.types typeHandler) bufferId
        _deadElems := getReservedElements (w.types typeHandler) bufferId } := by
  obtain ⟨hb, hfree, c, p, hcalc, hsize, hcreate⟩ :=
    onActive_ok_inv w self bufferId typeId typeHandler sizeNeeded maxClusters buffer
      elementSize create w' p' h
  subst hb
  rw [onActive_eq w self bufferId typeId typeHandler sizeNeeded maxClusters elementSize
    create c p hfree hcalc hsize hcreate] at h
  simp only [Except.ok.injEq, Prod.mk.injEq] at h
  obtain ⟨hw, -⟩ := h
  subst hw
  refine ⟨c, p, hcalc, hsize, hcreate, hfree, ?_, ?_, ?_⟩
  · intro x hx
    rw [typeOnActive_buffers]
    simp [hx, upd_ne _ _ _ _ hx]
  · rw [typeOnActive_lists]
  · obtain ⟨-, -, -, -, h5, h6, -⟩ := hfree
    rw [typeOnActive_buffers]
    by_cases hr : getReservedElements (w.types typeHandler) bufferId = 0
    · simp [hr, h5, h6]
    · simp [hr]

/-- On a buffer in state `HOLD`, called with a pointer that is not null, `dropBuffer` is
`onFree`. -/
theorem dropBuffer_hold (w : Store) (self : Nat) (buffer : Option Nat)
    (hstate : (w.buffers self)._state = .HOLD) (hb : buffer ≠ none) :
    BufferState.dropBuffer w self buffer = BufferState.onFree w self buffer := by
  cases hf : BufferState.onFree w self buffer with
  | error e => simp [BufferState.dropBuffer, hstate, hb, hf]
  | ok r =>
    obtain ⟨w', p'⟩ := r
    obtain ⟨-, hp, -, -, hself⟩ := onFree_frame w self buffer w' p' hf
    have hs : (w'.buffers self)._state = .FREE := by rw [hself]
    simp [BufferState.dropBuffer, hstate, hb, hf, hs, hp]

/-- On a buffer in state `ACTIVE`, called with a pointer that is not null, `dropBuffer` is
`onHold` followed by `onFree`. -/
theorem dropBuffer_active (w : Store) (self : Nat) (buffer : Option Nat)
    (hstate : (w.buffers self)._state = .ACTIVE) (hb : buffer ≠ none) :
    BufferState.dropBuffer w self buffer =
      match BufferState.onHold w self with
      | .error e => .error e
      | .ok w1 => BufferState.onFree w1 self buffer := by
  cases hh : BufferState.onHold w self with
  | error e => simp [BufferState.dropBuffer, hstate, hb, hh]
  | ok w1 =>
    obtain ⟨-, -, -, -, hself1⟩ := onHold_frame w self w1 hh
    have hs1 : (w1.buffers self)._state = .HOLD := by rw [hself1]
    cases hf : BufferState.onFree w1 self buffer with
    | error e => simp [BufferState.dropBuffer, hstate, hb, hh, hs1, hf]
    | ok r =>
      obtain ⟨w', p'⟩ := r
      obtain ⟨-, hp, -, -, hself⟩ := onFree_frame w1 self buffer w' p' hf
      have hs : (w'.buffers self)._state = .FREE := by rw [hself]
      simp [BufferState.dropBuffer, hstate, hb, hh, hs1, hf, hs, hp]

/-- A successful `dropBuffer` is one of: nothing on a Free buffer, `onFree` on a Hold
buffer, `onHold` followed by `onFree` on an Active buffer. -/
theorem dropBuffer_ok_inv (w : Store) (self : Nat) (buffer : Option Nat) (w' : Store)
    (p' : Option Nat) (h : BufferState.dropBuffer w self buffer = .ok (w', p')) :
    ((w.buffers self)._state = .FREE ∧ w' = w ∧ buffer = none ∧ p' = none) ∨
    ((w.buffers self)._state = .HOLD ∧ BufferState.onFree w self buffer = .ok (w', p')) ∨
    ((w.buffers self)._state = .ACTIVE ∧
      ∃ w1, BufferState.onHold w self = .ok w1 ∧
        BufferState.onFree w1 self buffer = .ok (w', p')) := by
  cases hs : (w.buffers self)._state with
  | FREE =>
    left
    by_cases hb : buffer = none
    · simp [BufferState.dropBuffer, hs, hb] at h
      exact ⟨rfl, h.1.symm, hb, h.2.symm⟩
    · simp [BufferState.dropBuffer, hs, hb] at h
  | HOLD =>
    right
    left
    by_cases hb : buffer = none
    · simp [BufferState.dropBuffer, hs, hb] at h
    · rw [dropBuffer_hold w self buffer hs hb] at h
      exact ⟨rfl, h⟩
  | ACTIVE =>
    right
    right
    by_cases hb : buffer = none
    · simp [BufferState.dropBuffer, hs, hb] at h
    · rw [dropBuffer_active w self buffer hs hb] at h
      cases hh : BufferState.onHold w self with
      | error e =>
        rw [hh] at h
        cases h
      | ok w1 =>
        rw [hh] at h
        exact ⟨rfl, w1, rfl, h⟩

/-- The copy hook leaves behind, in a block that is not null, the first `numElems`
elements of the source. -/
theorem fallbackCopy_spec (mem : Memory) (newBuffer oldBuffer : Option Nat) (numElems : Nat)
    (mem' : Memory) (h : fallbackCopy mem newBuffer oldBuffer numElems = .ok mem') :
    (numElems = 0 → mem' = mem) ∧
    (numElems ≠ 0 → ∃ d s, newBuffer = some d ∧ oldBuffer = some s ∧
      (∀ i, i < numElems → mem' d i = mem s i) ∧
      (∀ a i, ¬ (a = d ∧ i < numElems) → mem' a i = mem a i)) := by
  unfold fallbackCopy at h
  by_cases hz : numElems = 0
  · rw [if_pos hz] at h
    simp only [Except.ok.injEq] at h
    exact ⟨fun _ => h.symm, fun hne => absurd hz hne⟩
  · rw [if_neg hz] at h
    refine ⟨fun e => absurd e hz, fun _ => ?_⟩
    cases newBuffer with
    | none => simp at h
    | some d =>
      cases oldBuffer with
      | none => simp at h
      | some s =>
        simp only [Except.ok.injEq] at h
        subst h
        refine ⟨d, s, rfl, rfl, ?_, ?_⟩
        · intro i hi
          simp [hi]
        · intro a i hai
          simp only [hai, if_false]

/-- A successful `fallbackResize` passed every guard; its result in closed form. -/
theorem fallbackResize_ok_inv (w : Store) (mem : Memory) (self bufferId : Nat)
    (sizeNeeded maxClusters : Nat) (buffer holdBuffer : Option Nat)
    (elementSize : Nat → Nat) (create : Nat → Option Nat)
    (r : Store × Memory × Option Nat × Option Nat)
    (h : BufferState.fallbackResize w mem self bufferId sizeNeeded maxClusters buffer
      holdBuffer elementSize create = .ok r) :
    (w.buffers self)._state = .ACTIVE ∧ holdBuffer = none ∧
    ∃ th c mem', (w.buffers self)._typeHandler = some th ∧
      calcClustersToAlloc w th bufferId sizeNeeded maxClusters = .ok c ∧
      add64 (w.buffers self)._usedElems sizeNeeded ≤ c * (w.types th)._clusterSize ∧
      (w.buffers self)._allocElems < c * (w.types th)._clusterSize ∧
      fallbackCopy mem (create (mul64 (c * (w.types th)._clusterSize) (elementSize th)))
        buffer (w.buffers self)._usedElems = .ok mem' ∧
      r = ({ w with
          allocated := (create (mul64 (c * (w.types th)._clusterSize)
            (elementSize th))).toList ++ w.allocated
          buffers := upd w.buffers self { w.buffers self with
            _buffer := create (mul64 (c * (w.types th)._clusterSize) (elementSize th))
            _allocElems := c * (w.types th)._clusterSize } },
        mem', create (mul64 (c * (w.types th)._clusterSize) (elementSize th)),
        (w.buffers self)._buffer) := by
  by_cases a1 : (w.buffers self)._state = .ACTIVE
  swap
  · simp [BufferState.fallbackResize, a1] at h
  cases a2 : (w.buffers self)._typeHandler with
  | none => simp [BufferState.fallbackResize, a1, a2] at h
  | some th =>
    by_cases a3 : holdBuffer = none
    swap
    · simp [BufferState.fallbackResize, a1, a2, a3] at h
    cases hc : calcClustersToAlloc w th bufferId sizeNeeded maxClusters with
    | error e => simp [BufferState.fallbackResize, a1, a2, a3, hc] at h
    | ok c =>
      have hmul := calcClustersToAlloc_mul64 w th bufferId sizeNeeded maxClusters c hc
      by_cases a4 : add64 (w.buffers self)._usedElems sizeNeeded
          ≤ c * (w.types th)._clusterSize
      swap
      · simp [BufferState.fallbackResize, a1, a2, a3, hc, hmul, a4] at h
      by_cases a5 : (w.buffers self)._allocElems < c * (w.types th)._clusterSize
      swap
      · simp [BufferState.fallbackResize, a1, a2, a3, hc, hmul, a4, a5] at h
      cases hcp : fallbackCopy mem
          (create (mul64 (c * (w.types th)._clusterSize) (elementSize th)))
          buffer (w.buffers self)._usedElems with
      | error e =>
        simp [BufferState.fallbackResize, a1, a2, a3, hc, hmul, a4, a5, hcp] at h
      | ok mem' =>
        refine ⟨a1, a3, th, c, mem', rfl, hc, a4, a5, hcp, ?_⟩
        simp [BufferState.fallbackResize, a1, a2, a3, hc, hmul, a4, a5, hcp,
          Store.setBuffer] at h
        rw [← h]
        simp [a1, a2]

/-- When its guards hold, `fallbackResize` completes. -/
theorem fallbackResize_ok (w : Store) (mem : Memory) (self bufferId : Nat)
    (sizeNeeded maxClusters : Nat) (buffer : Option Nat)
    (elementSize : Nat → Nat) (create : Nat → Option Nat) (th c : Nat) (mem' : Memory)
    (hstate : (w.buffers self)._state = .ACTIVE)
    (hth : (w.buffers self)._typeHandler = some th)
    (hc : calcClustersToAlloc w th bufferId sizeNeeded maxClusters = .ok c)
    (hsize : add64 (w.buffers self)._usedElems sizeNeeded ≤ c * (w.types th)._clusterSize)
    (hgrow : (w.buffers self)._allocElems < c * (w.types th)._clusterSize)
    (hcopy : fallbackCopy mem
      (create (mul64 (c * (w.types th)._clusterSize) (elementSize th)))
      buffer (w.buffers self)._usedElems = .ok mem') :
    ∃ r, BufferState.fallbackResize w mem self bufferId sizeNeeded maxClusters buffer none
      elementSize create = .ok r := by
  have hmul := calcClustersToAlloc_mul64 w th bufferId sizeNeeded maxClusters c hc
  simp [BufferState.fallbackResize, hstate, hth, hc, hmul, hsize, hgrow, hcopy]

/-- Two buffers that agree up to their links are in the same state. -/
theorem state_of_sansLinks (b c : BufferState) (h : sansLinks b = sansLinks c) :
    b._state = c._state := by
  have := congrArg BufferState._state h
  simpa [sansLinks] using this

/-- Two buffers that agree up to their free-list fields are in the same state. -/
theorem state_of_sansFreeList (b c : BufferState) (h : sansFreeList b = sansFreeList c) :
    b._state = c._state := by
  have := congrArg BufferState._state h
  simpa [sansFreeList, sansLinks] using this

/-- A successful `onActive` takes the buffer from `FREE` to `ACTIVE` and leaves the
state of every other buffer. -/
theorem onActive_state (w : Store) (self bufferId typeId typeHandler : Nat)
    (sizeNeeded maxClusters : Nat) (buffer : Option Nat) (elementSize : Nat)
    (create : Nat → Option Nat) (w' : Store) (p' : Option Nat)
    (h : BufferState.onActive w self bufferId typeId typeHandler sizeNeeded maxClusters buffer
      elementSize create = .ok (w', p')) :
    (w.buffers self)._state = .FREE ∧ (w'.buffers self)._state = .ACTIVE ∧
      ∀ x, x ≠ self → (w'.buffers x)._state = (w.buffers x)._state := by
  obtain ⟨c, p, -, -, -, hfree, hother, -, hself⟩ :=
    onActive_frame w self bufferId typeId typeHandler sizeNeeded maxClusters buffer
      elementSize create w' p' h
  refine ⟨hfree.1, by rw [hself], ?_⟩
  intro x hx
  rw [hother x hx]

/-- A successful `onHold` takes the buffer from `ACTIVE` to `HOLD` and leaves the state
of every other buffer. -/
theorem onHold_state (w : Store) (self : Nat) (w' : Store)
    (h : BufferState.onHold w self = .ok w') :
    (w.buffers self)._state = .ACTIVE ∧ (w'.buffers self)._state = .HOLD ∧
      ∀ x, x ≠ self → (w'.buffers x)._state = (w.buffers x)._state := by
  obtain ⟨hstate, -, -, hother, hself⟩ := onHold_frame w self w' h
  refine ⟨hstate, by rw [hself], ?_⟩
  intro x hx
  exact state_of_sansLinks _ _ (hother x hx)

/-- A successful `onFree` takes the buffer from `HOLD` to `FREE` and leaves the state of
every other buffer. -/
theorem onFree_state (w : Store) (self : Nat) (buffer : Option Nat) (w' : Store)
    (p' : Option Nat) (h : BufferState.onFree w self buffer = .ok (w', p')) :
    (w.buffers self)._state = .HOLD ∧ (w'.buffers self)._state = .FREE ∧
      ∀ x, x ≠ self → (w'.buffers x)._state = (w.buffers x)._state := by
  obtain ⟨hstate, -, hother, -, hself⟩ := onFree_frame w self buffer w' p' h
  refine ⟨hstate, by rw [hself], ?_⟩
  intro x hx
  rw [hother x hx]

/-- A successful `fallbackResize` leaves the state of every buffer. -/
theorem fallbackResize_state (w : Store) (mem : Memory) (self bufferId : Nat)
    (sizeNeeded maxClusters : Nat) (buffer holdBuffer : Option Nat)
    (elementSize : Nat → Nat) (create : Nat → Option Nat)
    (r : Store × Memory × Option Nat × Option Nat)
    (h : BufferState.fallbackResize w mem self bufferId sizeNeeded maxClusters buffer
      holdBuffer elementSize create = .ok r) :
    ∀ x, (r.1.buffers x)._state = (w.buffers x)._state := by
  obtain ⟨-, -, th, c, mem2, -, -, -, -, -, hr⟩ :=
    fallbackResize_ok_inv w mem self bufferId sizeNeeded maxClusters buffer holdBuffer
      elementSize create r h
  subst hr
  intro x
  by_cases hx : x = self
  · subst hx
    simp
  · simp [upd_ne _ _ _ _ hx]

/-- A successful `setFreeListList` leaves the state of every buffer. -/
theorem setFreeListList_state (w : Store) (self : Nat) (fll : Option Nat) (w' : Store)
    (h : setFreeListList w self fll = .ok w') :
    ∀ x, (w'.buffers x)._state = (w.buffers x)._state := by
  obtain ⟨-, -, hall, -⟩ := setFreeListList_frame w self fll w' h
  intro x
  exact state_of_sansFreeList _ _ (hall x)

/-- The operation `disableElemHoldList` leaves the state of every buffer. -/
theorem disableElemHoldList_state (w : Store) (self x : Nat) :
    ((BufferState.disableElemHoldList w self).buffers x)._state = (w.buffers x)._state := by
  by_cases hx : x = self
  · subst hx
    simp [BufferState.disableElemHoldList, Store.setBuffer]
  · simp [BufferState.disableElemHoldList, Store.setBuffer, upd_ne _ _ _ _ hx]

/-- A sequence of operations that succeeds starts its list of stores with the store it
was run on. -/
theorem runAll_head (ops : List BufferOp) (w : Store) (mem : Memory) (ws : List Store)
    (h : runAll ops w mem = .ok ws) : ∃ t, ws = w :: t := by
  cases ops with
  | nil =>
    simp only [runAll, Except.ok.injEq] at h
    exact ⟨[], h.symm⟩
  | cons op ops =>
    simp only [runAll] at h
    cases hr : op.run w mem with
    | error e => simp [hr] at h
    | ok r =>
      obtain ⟨w1, mem1⟩ := r
      simp only [hr] at h
      cases hrest : runAll ops w1 mem1 with
      | error e => simp [hrest] at h
      | ok ws1 =>
        simp only [hrest, Except.ok.injEq] at h
        exact ⟨_, h.symm⟩

/-- An unchanged state or one step of the life cycle never leads from `ACTIVE` to
`FREE`. -/
theorem stateStep_not_active_to_free (a b : Store) (h : stateStep a b) (x : Nat) :
    ¬ ((a.buffers x)._state = .ACTIVE ∧ (b.buffers x)._state = .FREE) := by
  rintro ⟨ha, hb⟩
  rcases h x with h | h | h | h
  · rw [ha, hb] at h
    cases h
  · rw [ha] at h
    cases h.1
  · rw [hb] at h
    cases h.2
  · rw [ha] at h
    cases h.1

/-- Every successful operation is made of steps of the life cycle: its first store, the
store it passes through and its last store are linked by `stateStep`. -/
theorem run_stateStep (op : BufferOp) (w : Store) (mem : Memory) (w1 : Store) (mem1 : Memory)
    (h : op.run w mem = .ok (w1, mem1)) :
    List.Chain stateStep w (op.between w ++ [w1]) := by
  cases op with
  | onActive self bufferId typeId typeHandler sizeNeeded maxClusters buffer elementSize
      create =>
    simp only [BufferOp.run] at h
    cases hr : BufferState.onActive w self bufferId typeId typeHandler sizeNeeded maxClusters
        buffer elementSize create with
    | error e => simp [hr] at h
    | ok r =>
      obtain ⟨w2, p2⟩ := r
      simp only [hr, Except.ok.injEq, Prod.mk.injEq] at h
      obtain ⟨hw, -⟩ := h
      subst hw
      obtain ⟨h1, h2, h3⟩ := onActive_state _ _ _ _ _ _ _ _ _ _ _ _ hr
      simp only [BufferOp.between, List.nil_append, List.chain_cons, List.Chain.nil,
        and_true]
      intro x
      by_cases hx : x = self
      · subst hx
        exact Or.inr (Or.inl ⟨h1, h2⟩)
      · exact Or.inl (h3 x hx)
  | onHold self =>
    simp only [BufferOp.run] at h
    cases hr : BufferState.onHold w self with
    | error e => simp [hr] at h
    | ok w2 =>
      simp only [hr, Except.ok.injEq, Prod.mk.injEq] at h
      obtain ⟨hw, -⟩ := h
      subst hw
      obtain ⟨h1, h2, h3⟩ := onHold_state _ _ _ hr
      simp only [BufferOp.between, List.nil_append, List.chain_cons, List.Chain.nil,
        and_true]
      intro x
      by_cases hx : x = self
      · subst hx
        exact Or.inr (Or.inr (Or.inl ⟨h1, h2⟩))
      · exact Or.inl (h3 x hx)
  | onFree self buffer =>
    simp only [BufferOp.run] at h
    cases hr : BufferState.onFree w self buffer with
    | error e => simp [hr] at h
    | ok r =>
      obtain ⟨w2, p2⟩ := r
      simp only [hr, Except.ok.injEq, Prod.mk.injEq] at h
      obtain ⟨hw, -⟩ := h
      subst hw
      obtain ⟨h1, h2, h3⟩ := onFree_state _ _ _ _ _ hr
      simp only [BufferOp.between, List.nil_append, List.chain_cons, List.Chain.nil,
        and_true]
      intro x
      by_cases hx : x = self
      · subst hx
        exact Or.inr (Or.inr (Or.inr ⟨h1, h2⟩))
      · exact Or.inl (h3 x hx)
  | dropBuffer self buffer =>
    simp only [BufferOp.run] at h
    cases hr : BufferState.dropBuffer w self buffer with
    | error e => simp [hr] at h
    | ok r =>
      obtain ⟨w2, p2⟩ := r
      simp only [hr, Except.ok.injEq, Prod.mk.injEq] at h
      obtain ⟨hw, -⟩ := h
      subst hw
      rcases dropBuffer_ok_inv w self buffer _ _ hr with
        ⟨hs, hw, -, -⟩ | ⟨hs, hf⟩ | ⟨hs, wm, hh, hf⟩
      · subst hw
        have hna : ¬ (w2.buffers self)._state = .ACTIVE := by
          rw [hs]
          decide
        simp only [BufferOp.between, if_neg hna, List.nil_append, List.chain_cons,
          List.Chain.nil, and_true]
        intro x
        exact Or.inl rfl
      · have hna : ¬ (w.buffers self)._state = .ACTIVE := by
          rw [hs]
          decide
        obtain ⟨h1, h2, h3⟩ := onFree_state _ _ _ _ _ hf
        simp only [BufferOp.between, if_neg hna, List.nil_append, List.chain_cons,
          List.Chain.nil, and_true]
        intro x
        by_cases hx : x = self
        · subst hx
          exact Or.inr (Or.inr (Or.inr ⟨h1, h2⟩))
        · exact Or.inl (h3 x hx)
      · obtain ⟨h1, h2, h3⟩ := onHold_state _ _ _ hh
        obtain ⟨g1, g2, g3⟩ := onFree_state _ _ _ _ _ hf
        simp only [BufferOp.between, if_pos hs, hh, List.singleton_append, List.chain_cons,
          List.Chain.nil, and_true]
        refine ⟨?_, ?_⟩
        · intro x
          by_cases hx : x = self
          · subst hx
            exact Or.inr (Or.inr (Or.inl ⟨h1, h2⟩))
          · exact Or.inl (h3 x hx)
        · intro x
          by_cases hx : x = self
          · subst hx
            exact Or.inr (Or.inr (Or.inr ⟨g1, g2⟩))
          · exact Or.inl (g3 x hx)
  | setFreeListList self fll =>
    simp only [BufferOp.run] at h
    cases hr : setFreeListList w self fll with
    | error e => simp [hr] at h
    | ok w2 =>
      simp only [hr, Except.ok.injEq, Prod.mk.injEq] at h
      obtain ⟨hw, -⟩ := h
      subst hw
      simp only [BufferOp.between, List.nil_append, List.chain_cons, List.Chain.nil,
        and_true]
      intro x
      exact Or.inl (setFreeListList_state _ _ _ _ hr x)
  | fallbackResize self bufferId sizeNeeded maxClusters buffer holdBuffer elementSize
      create =>
    simp only [BufferOp.run] at h
    cases hr : BufferState.fallbackResize w mem self bufferId sizeNeeded maxClusters buffer
        holdBuffer elementSize create with
    | error e => simp [hr] at h
    | ok r =>
      have hst := fallbackResize_state _ _ _ _ _ _ _ _ _ _ r hr
      obtain ⟨w2, m2, p2, q2⟩ := r
      simp only [hr, Except.ok.injEq, Prod.mk.injEq] at h
      obtain ⟨hw, -⟩ := h
      subst hw
      simp only [BufferOp.between, List.nil_append, List.chain_cons, List.Chain.nil,
        and_true]
      intro x
      exact Or.inl (hst x)
  | disableElemHoldList self =>
    simp only [BufferOp.run, Except.ok.injEq, Prod.mk.injEq] at h
    obtain ⟨hw, -⟩ := h
    subst hw
    simp only [BufferOp.between, List.nil_append, List.chain_cons, List.Chain.nil,
      and_true]
    intro x
    exact Or.inl (disableElemHoldList_state w self x)

/-- Two chains that share an end point join into one chain. -/
theorem chain_join {α : Type} (R : α → α → Prop) (l t : List α) (b : α) :
    ∀ a, List.Chain R a (l ++ [b]) → List.Chain R b t → List.Chain R a (l ++ b :: t) := by
  induction l with
  | nil =>
    intro a h1 h2
    simp only [List.nil_append, List.chain_cons, List.Chain.nil, and_true] at h1
    exact List.Chain.cons h1 h2
  | cons c l ih =>
    intro a h1 h2
    simp only [List.cons_append, List.chain_cons] at h1
    exact List.Chain.cons h1.1 (ih c h1.2 h2)

/-- The stores of a successful sequence of operations form a chain of `stateStep`. -/
theorem runAll_chain (ops : List BufferOp) :
    ∀ (w : Store) (mem : Memory) (ws : List Store), runAll ops w mem = .ok ws →
      List.Chain' stateStep ws := by
  induction ops with
  | nil =>
    intro w mem ws h
    simp only [runAll, Except.ok.injEq] at h
    subst h
    exact List.chain'_singleton _
  | cons op ops ih =>
    intro w mem ws h
    simp only [runAll] at h
    cases hr : op.run w mem with
    | error e => simp [hr] at h
    | ok r =>
      obtain ⟨w1, mem1⟩ := r
      simp only [hr] at h
      cases hrest : runAll ops w1 mem1 with
      | error e => simp [hrest] at h
      | ok ws1 =>
        simp only [hrest, Except.ok.injEq] at h
        subst h
        obtain ⟨t, ht⟩ := runAll_head ops w1 mem1 ws1 hrest
        have hc := ih w1 mem1 ws1 hrest
        subst ht
        have hstep := run_stateStep op w mem w1 mem1 hr
        exact chain_join stateStep (op.between w) t w1 w hstep hc

/-- Two buffers that agree up to their links have the same counts. -/
theorem counts_of_sansLinks (b c : BufferState) (h : sansLinks b = sansLinks c)
    (hc : CountsOrdered c) : CountsOrdered b := by
  have h1 := congrArg BufferState._deadElems h
  have h2 := congrArg BufferState._usedElems h
  have h3 := congrArg BufferState._allocElems h
  simp only [sansLinks] at h1 h2 h3
  unfold CountsOrdered at hc ⊢
  rw [h1, h2, h3]
  exact hc

/-- Two buffers that agree up to their free-list fields have the same counts. -/
theorem counts_of_sansFreeList (b c : BufferState) (h : sansFreeList b = sansFreeList c)
    (hc : CountsOrdered c) : CountsOrdered b := by
  have h1 := congrArg BufferState._deadElems h
  have h2 := congrArg BufferState._usedElems h
  have h3 := congrArg BufferState._allocElems h
  simp only [sansFreeList, sansLinks] at h1 h2 h3
  unfold CountsOrdered at hc ⊢
  rw [h1, h2, h3]
  exact hc

/-- A successful `onActive` with an allocator that returns null for an empty request
leaves the counts of every buffer ordered. -/
theorem onActive_counts (w : Store) (self bufferId typeId typeHandler : Nat)
    (sizeNeeded maxClusters : Nat) (buffer : Option Nat) (elementSize : Nat)
    (create : Nat → Option Nat) (w' : Store) (p' : Option Nat)
    (h : BufferState.onActive w self bufferId typeId typeHandler sizeNeeded maxClusters buffer
      elementSize create = .ok (w', p'))
    (hnull : create 0 = none)
    (hinv : ∀ x, CountsOrdered (w.buffers x)) : ∀ x, CountsOrdered (w'.buffers x) := by
  obtain ⟨c, p, -, -, hcreate, -, hother, -, hself⟩ :=
    onActive_frame w self bufferId typeId typeHandler sizeNeeded maxClusters buffer
      elementSize create w' p' h
  intro x
  by_cases hx : x = self
  · subst hx
    rw [hself]
    refine ⟨le_refl _, ?_⟩
    show getReservedElements (w.types typeHandler) bufferId
      ≤ c * (w.types typeHandler)._clusterSize
    have hne : c * (w.types typeHandler)._clusterSize ≠ 0 := by
      intro h0
      rw [h0] at hcreate
      simp [mul64, hnull] at hcreate
    have hc : 1 ≤ c := by
      rcases Nat.eq_zero_or_pos c with h0 | h0
      · subst h0
        simp at hne
      · exact h0
    have hle : (w.types typeHandler)._clusterSize
        ≤ c * (w.types typeHandler)._clusterSize := Nat.le_mul_of_pos_left _ hc
    unfold getReservedElements
    split_ifs
    · exact hle
    · exact Nat.zero_le _
  · rw [hother x hx]
    exact hinv x

/-- A successful `onHold` leaves the counts of every buffer ordered. -/
theorem onHold_counts (w : Store) (self : Nat) (w' : Store)
    (h : BufferState.onHold w self = .ok w')
    (hinv : ∀ x, CountsOrdered (w.buffers x)) : ∀ x, CountsOrdered (w'.buffers x) := by
  obtain ⟨-, -, -, hother, hself⟩ := onHold_frame w self w' h
  intro x
  by_cases hx : x = self
  · subst hx
    rw [hself]
    exact hinv x
  · exact counts_of_sansLinks _ _ (hother x hx) (hinv x)

/-- A successful `onFree` leaves the counts of every buffer ordered. -/
theorem onFree_counts (w : Store) (self : Nat) (buffer : Option Nat) (w' : Store)
    (p' : Option Nat) (h : BufferState.onFree w self buffer = .ok (w', p'))
    (hinv : ∀ x, CountsOrdered (w.buffers x)) : ∀ x, CountsOrdered (w'.buffers x) := by
  obtain ⟨-, -, hother, -, hself⟩ := onFree_frame w self buffer w' p' h
  intro x
  by_cases hx : x = self
  · subst hx
    rw [hself]
    exact ⟨le_refl _, le_refl _⟩
  · rw [hother x hx]
    exact hinv x

/-- Every successful operation leaves the counts of every buffer ordered. -/
theorem run_counts (op : BufferOp) (w : Store) (mem : Memory) (w1 : Store) (mem1 : Memory)
    (h : op.run w mem = .ok (w1, mem1)) (hnull : op.emptyRequestIsNull)
    (hinv : ∀ x, CountsOrdered (w.buffers x)) : ∀ x, CountsOrdered (w1.buffers x) := by
  cases op with
  | onActive self bufferId typeId typeHandler sizeNeeded maxClusters buffer elementSize
      create =>
    simp only [BufferOp.run] at h
    cases hr : BufferState.onActive w self bufferId typeId typeHandler sizeNeeded maxClusters
        buffer elementSize create with
    | error e => simp [hr] at h
    | ok r =>
      obtain ⟨w2, p2⟩ := r
      simp only [hr, Except.ok.injEq, Prod.mk.injEq] at h
      obtain ⟨hw, -⟩ := h
      subst hw
      exact onActive_counts _ _ _ _ _ _ _ _ _ _ _ _ hr hnull hinv
  | onHold self =>
    simp only [BufferOp.run] at h
    cases hr : BufferState.onHold w self with
    | error e => simp [hr] at h
    | ok w2 =>
      simp only [hr, Except.ok.injEq, Prod.mk.injEq] at h
      obtain ⟨hw, -⟩ := h
      subst hw
      exact onHold_counts _ _ _ hr hinv
  | onFree self buffer =>
    simp only [BufferOp.run] at h
    cases hr : BufferState.onFree w self buffer with
    | error e => simp [hr] at h
    | ok r =>
      obtain ⟨w2, p2⟩ := r
      simp only [hr, Except.ok.injEq, Prod.mk.injEq] at h
      obtain ⟨hw, -⟩ := h
      subst hw
      exact onFree_counts _ _ _ _ _ hr hinv
  | dropBuffer self buffer =>
    simp only [BufferOp.run] at h
    cases hr : BufferState.dropBuffer w self buffer with
    | error e => simp [hr] at h
    | ok r =>
      obtain ⟨w2, p2⟩ := r
      simp only [hr, Except.ok.injEq, Prod.mk.injEq] at h
      obtain ⟨hw, -⟩ := h
      subst hw
      rcases dropBuffer_ok_inv w self buffer _ _ hr with
        ⟨-, hw, -, -⟩ | ⟨-, hf⟩ | ⟨-, wm, hh, hf⟩
      · subst hw
        exact hinv
      · exact onFree_counts _ _ _ _ _ hf hinv
      · exact onFree_counts _ _ _ _ _ hf (onHold_counts _ _ _ hh hinv)
  | setFreeListList self fll =>
    simp only [BufferOp.run] at h
    cases hr : setFreeListList w self fll with
    | error e => simp [hr] at h
    | ok w2 =>
      simp only [hr, Except.ok.injEq, Prod.mk.injEq] at h
      obtain ⟨hw, -⟩ := h
      subst hw
      obtain ⟨-, -, hall, -⟩ := setFreeListList_frame w self fll _ hr
      intro x
      exact counts_of_sansFreeList _ _ (hall x) (hinv x)
  | fallbackResize self bufferId sizeNeeded maxClusters buffer holdBuffer elementSize
      create =>
    simp only [BufferOp.run] at h
    cases hr : BufferState.fallbackResize w mem self bufferId sizeNeeded maxClusters buffer
        holdBuffer elementSize create with
    | error e => simp [hr] at h
    | ok r =>
      obtain ⟨-, -, th, c, mem2, -, -, -, hgrow, -, hr2⟩ :=
        fallbackResize_ok_inv w mem self bufferId sizeNeeded maxClusters buffer holdBuffer
          elementSize create r hr
      subst hr2
      simp only [hr, Except.ok.injEq, Prod.mk.injEq] at h
      obtain ⟨hw, -⟩ := h
      subst hw
      intro x
      by_cases hx : x = self
      · subst hx
        simp only [upd_same]
        exact ⟨(hinv x).1, le_trans (hinv x).2 (le_of_lt hgrow)⟩
      · simp only [upd_ne _ _ _ _ hx]
        exact hinv x
  | disableElemHoldList self =>
    simp only [BufferOp.run, Except.ok.injEq, Prod.mk.injEq] at h
    obtain ⟨hw, -⟩ := h
    subst hw
    intro x
    by_cases hx : x = self
    · subst hx
      simp only [BufferState.disableElemHoldList, Store.setBuffer, upd_same]
      exact hinv x
    · simp only [BufferState.disableElemHoldList, Store.setBuffer, upd_ne _ _ _ _ hx]
      exact hinv x


/-- A successful `onActive` whose request does not wrap leaves the counts of every buffer
ordered, whatever the allocator hands out. -/
theorem onActive_counts_fits (w : Store) (self bufferId typeId typeHandler : Nat)
    (sizeNeeded maxClusters : Nat) (buffer : Option Nat) (elementSize : Nat)
    (create : Nat → Option Nat) (w' : Store) (p' : Option Nat)
    (h : BufferState.onActive w self bufferId typeId typeHandler sizeNeeded maxClusters buffer
      elementSize create = .ok (w', p'))
    (hfit : getReservedElements (w.types typeHandler) bufferId + sizeNeeded < 2 ^ 64)
    (hinv : ∀ x, CountsOrdered (w.buffers x)) : ∀ x, CountsOrdered (w'.buffers x) := by
  obtain ⟨c, p, -, hsize, -, -, hother, -, hself⟩ :=
    onActive_frame w self bufferId typeId typeHandler sizeNeeded maxClusters buffer
      elementSize create w' p' h
  intro x
  by_cases hx : x = self
  · subst hx
    rw [hself]
    refine ⟨le_refl _, ?_⟩
    show getReservedElements (w.types typeHandler) bufferId
      ≤ c * (w.types typeHandler)._clusterSize
    have hadd : add64 (getReservedElements (w.types typeHandler) bufferId) sizeNeeded
        = getReservedElements (w.types typeHandler) bufferId + sizeNeeded := by
      unfold add64
      exact Nat.mod_eq_of_lt hfit
    rw [hadd] at hsize
    omega
  · rw [hother x hx]
    exact hinv x

/-- Every successful operation whose request does not wrap leaves the counts of every
buffer ordered. -/
theorem run_counts_fits (op : BufferOp) (w : Store) (mem : Memory) (w1 : Store)
    (mem1 : Memory) (h : op.run w mem = .ok (w1, mem1)) (hfit : op.requestDoesNotWrap w)
    (hinv : ∀ x, CountsOrdered (w.buffers x)) : ∀ x, CountsOrdered (w1.buffers x) := by
  cases op with
  | onActive self bufferId typeId typeHandler sizeNeeded maxClusters buffer elementSize
      create =>
    simp only [BufferOp.run] at h
    cases hr : BufferState.onActive w self bufferId typeId typeHandler sizeNeeded maxClusters
        buffer elementSize create with
    | error e => simp [hr] at h
    | ok r =>
      obtain ⟨w2, p2⟩ := r
      simp only [hr, Except.ok.injEq, Prod.mk.injEq] at h
      obtain ⟨hw, -⟩ := h
      subst hw
      exact onActive_counts_fits _ _ _ _ _ _ _ _ _ _ _ _ hr hfit hinv
  | onHold self => exact run_counts _ w mem w1 mem1 h trivial hinv
  | onFree self buffer => exact run_counts _ w mem w1 mem1 h trivial hinv
  | dropBuffer self buffer => exact run_counts _ w mem w1 mem1 h trivial hinv
  | setFreeListList self fll => exact run_counts _ w mem w1 mem1 h trivial hinv
  | fallbackResize self bufferId sizeNeeded maxClusters buffer holdBuffer elementSize
      create => exact run_counts _ w mem w1 mem1 h trivial hinv
  | disableElemHoldList self => exact run_counts _ w mem w1 mem1 h trivial hinv

/-- Unlinking `self` from between its predecessor `p` and its successor `n` keeps the
links consistent and keeps every other link null or non-null as it was. -/
theorem dl_remove_multi (nx pv : Nat → Option Nat) (self n p : Nat)
    (hdl : ∀ x y, nx x = some y ↔ pv y = some x)
    (hn : nx self = some n) (hp : pv self = some p) (hns : n ≠ self) (hps : p ≠ self) :
    (∀ x y, upd (upd nx p (some n)) self none x = some y ↔
      upd (upd pv n (some p)) self none y = some x) ∧
    (∀ x, x ≠ self → (upd (upd nx p (some n)) self none x = none ↔ nx x = none) ∧
      (upd (upd pv n (some p)) self none x = none ↔ pv x = none)) := by
  have h1 : pv n = some self := (hdl self n).1 hn
  have h2 : nx p = some self := (hdl p self).2 hp
  constructor
  · intro x y
    by_cases hxs : x = self
    · subst hxs
      simp only [upd_same]
      by_cases hys : y = x
      · subst hys
        simp
      · rw [upd_ne _ _ _ _ hys]
        by_cases hyn : y = n
        · subst hyn
          simp only [upd_same, Option.some.injEq]
          constructor
          · intro h
            cases h
          · intro h
            exact absurd h hps
        · rw [upd_ne _ _ _ _ hyn]
          constructor
          · intro h
            cases h
          · intro h
            have := (hdl x y).2 h
            rw [hn] at this
            exact absurd (Option.some.inj this).symm hyn
    · rw [upd_ne _ _ _ _ hxs]
      by_cases hxp : x = p
      · subst hxp
        simp only [upd_same, Option.some.injEq]
        by_cases hys : y = self
        · subst hys
          simp only [upd_same]
          constructor
          · intro h
            exact absurd h hns
          · intro h
            cases h
        · rw [upd_ne _ _ _ _ hys]
          by_cases hyn : y = n
          · subst hyn
            simp
          · rw [upd_ne _ _ _ _ hyn]
            constructor
            · intro h
              exact absurd h.symm hyn
            · intro h
              have := (hdl x y).2 h
              rw [h2] at this
              exact absurd (Option.some.inj this).symm hys
      · rw [upd_ne _ _ _ _ hxp]
        by_cases hys : y = self
        · subst hys
          simp only [upd_same]
          constructor
          · intro h
            have := (hdl x y).1 h
            rw [hp] at this
            exact absurd (Option.some.inj this).symm hxp
          · intro h
            cases h
        · rw [upd_ne _ _ _ _ hys]
          by_cases hyn : y = n
          · subst hyn
            simp only [upd_same, Option.some.injEq]
            constructor
            · intro h
              have := (hdl x y).1 h
              rw [h1] at this
              exact absurd (Option.some.inj this).symm hxs
            · intro h
              exact absurd h.symm hxp
          · rw [upd_ne _ _ _ _ hyn]
            exact hdl x y
  · intro x hxs
    rw [upd_ne _ _ _ _ hxs, upd_ne _ _ _ _ hxs]
    constructor
    · by_cases hxp : x = p
      · subst hxp
        simp [h2]
      · rw [upd_ne _ _ _ _ hxp]
    · by_cases hxn : x = n
      · subst hxn
        simp [h1]
      · rw [upd_ne _ _ _ _ hxn]

/-- Unlinking the only member `self` of a list keeps the links consistent. -/
theorem dl_remove_single (nx pv : Nat → Option Nat) (self : Nat)
    (hdl : ∀ x y, nx x = some y ↔ pv y = some x)
    (hn : nx self = some self) (hp : pv self = some self) :
    ∀ x y, upd nx self none x = some y ↔ upd pv self none y = some x := by
  intro x y
  by_cases hxs : x = self
  · subst hxs
    simp only [upd_same]
    by_cases hys : y = x
    · subst hys
      simp
    · rw [upd_ne _ _ _ _ hys]
      constructor
      · intro h
        cases h
      · intro h
        have := (hdl x y).2 h
        rw [hn] at this
        exact absurd (Option.some.inj this).symm hys
  · rw [upd_ne _ _ _ _ hxs]
    by_cases hys : y = self
    · subst hys
      simp only [upd_same]
      constructor
      · intro h
        have := (hdl x y).1 h
        rw [hp] at this
        exact absurd (Option.some.inj this).symm hxs
      · intro h
        cases h
    · rw [upd_ne _ _ _ _ hys]
      exact hdl x y

/-- Linking the unlinked buffer `self` as the only member of a list keeps the links
consistent. -/
theorem dl_add_empty (nx pv : Nat → Option Nat) (self : Nat)
    (hdl : ∀ x y, nx x = some y ↔ pv y = some x)
    (hn : nx self = none) (hp : pv self = none) :
    ∀ x y, upd nx self (some self) x = some y ↔ upd pv self (some self) y = some x := by
  intro x y
  by_cases hxs : x = self
  · subst hxs
    simp only [upd_same, Option.some.injEq]
    by_cases hys : y = x
    · subst hys
      simp
    · rw [upd_ne _ _ _ _ hys]
      constructor
      · intro h
        exact absurd h.symm hys
      · intro h
        have := (hdl x y).2 h
        rw [hn] at this
        cases this
  · rw [upd_ne _ _ _ _ hxs]
    by_cases hys : y = self
    · subst hys
      simp only [upd_same, Option.some.injEq]
      constructor
      · intro h
        have := (hdl x y).1 h
        rw [hp] at this
        cases this
      · intro h
        exact absurd h.symm hxs
    · rw [upd_ne _ _ _ _ hys]
      exact hdl x y

/-- Linking the unlinked buffer `self` in front of the head `h`, behind the
predecessor `q` of the head, keeps the links consistent and keeps every other link null
or non-null as it was. -/
theorem dl_add_nonempty (nx pv : Nat → Option Nat) (self h q : Nat)
    (hdl : ∀ x y, nx x = some y ↔ pv y = some x)
    (hn : nx self = none) (hp : pv self = none) (hq : pv h = some q) :
    (∀ x y, upd (upd nx self (some h)) q (some self) x = some y ↔
      upd (upd pv self (some q)) h (some self) y = some x) ∧
    (∀ x, x ≠ self → (upd (upd nx self (some h)) q (some self) x = none ↔ nx x = none) ∧
      (upd (upd pv self (some q)) h (some self) x = none ↔ pv x = none)) ∧
    q ≠ self ∧ h ≠ self := by
  have h1 : nx q = some h := (hdl q h).2 hq
  have hqs : q ≠ self := by
    intro e
    rw [e, hn] at h1
    cases h1
  have hhs : h ≠ self := by
    intro e
    rw [e, hp] at hq
    cases hq
  refine ⟨?_, ?_, hqs, hhs⟩
  · intro x y
    by_cases hxq : x = q
    · subst hxq
      simp only [upd_same, Option.some.injEq]
      by_cases hyh : y = h
      · subst hyh
        simp only [upd_same, Option.some.injEq]
        constructor
        · intro e
          rw [← e] at hhs
          exact absurd rfl hhs
        · intro e
          exact absurd e.symm hqs
      · rw [upd_ne _ _ _ _ hyh]
        by_cases hys : y = self
        · subst hys
          simp
        · rw [upd_ne _ _ _ _ hys]
          constructor
          · intro e
            exact absurd e.symm hys
          · intro e
            have := (hdl x y).2 e
            rw [h1] at this
            exact absurd (Option.some.inj this).symm hyh
    · rw [upd_ne _ _ _ _ hxq]
      by_cases hxs : x = self
      · subst hxs
        simp only [upd_same, Option.some.injEq]
        by_cases hyh : y = h
        · subst hyh
          simp
        · rw [upd_ne _ _ _ _ hyh]
          by_cases hys : y = x
          · subst hys
            simp only [upd_same, Option.some.injEq]
            constructor
            · intro e
              exact absurd e.symm hyh
            · intro e
              exact absurd e.symm hxq
          · rw [upd_ne _ _ _ _ hys]
            constructor
            · intro e
              exact absurd e.symm hyh
            · intro e
              have := (hdl x y).2 e
              rw [hn] at this
              cases this
      · rw [upd_ne _ _ _ _ hxs]
        by_cases hyh : y = h
        · subst hyh
          simp only [upd_same, Option.some.injEq]
          constructor
          · intro e
            have := (hdl x y).1 e
            rw [hq] at this
            exact absurd (Option.some.inj this).symm hxq
          · intro e
            exact absurd e.symm hxs
        · rw [upd_ne _ _ _ _ hyh]
          by_cases hys : y = self
          · subst hys
            simp only [upd_same, Option.some.injEq]
            constructor
            · intro e
              have := (hdl x y).1 e
              rw [hp] at this
              cases this
            · intro e
              exact absurd e.symm hxq
          · rw [upd_ne _ _ _ _ hys]
            exact hdl x y
  · intro x hxs
    constructor
    · by_cases hxq : x = q
      · subst hxq
        simp [h1]
      · rw [upd_ne _ _ _ _ hxq, upd_ne _ _ _ _ hxs]
    · by_cases hxh : x = h
      · subst hxh
        simp [hq]
      · rw [upd_ne _ _ _ _ hxh, upd_ne _ _ _ _ hxs]

/-- The links of the buffers after `self` has been unlinked from between `p` and `n`. -/
theorem remove_multi_links (B : Nat → BufferState) (self n p x : Nat) :
    ((upd (upd (upd B n { B n with _prevHasFree := some p })
          p { upd B n { B n with _prevHasFree := some p } p with _nextHasFree := some n })
        self { B self with _nextHasFree := none, _prevHasFree := none }) x)._nextHasFree
      = upd (upd (fun j => (B j)._nextHasFree) p (some n)) self none x ∧
    ((upd (upd (upd B n { B n with _prevHasFree := some p })
          p { upd B n { B n with _prevHasFree := some p } p with _nextHasFree := some n })
        self { B self with _nextHasFree := none, _prevHasFree := none }) x)._prevHasFree
      = upd (upd (fun j => (B j)._prevHasFree) n (some p)) self none x := by
  by_cases h1 : x = self
  · subst h1
    simp
  · have e1 : ∀ {α : Type} (f : Nat → α) (v : α), upd f self v x = f x :=
      fun f v => upd_ne f self x v h1
    by_cases h2 : x = p
    · subst h2
      by_cases h3 : x = n
      · subst h3
        simp [e1]
      · have e3 : ∀ {α : Type} (f : Nat → α) (v : α), upd f n v x = f x :=
          fun f v => upd_ne f n x v h3
        simp [e1, e3]
    · have e2 : ∀ {α : Type} (f : Nat → α) (v : α), upd f p v x = f x :=
        fun f v => upd_ne f p x v h2
      by_cases h3 : x = n
      · subst h3
        simp [e1, e2]
      · have e3 : ∀ {α : Type} (f : Nat → α) (v : α), upd f n v x = f x :=
          fun f v => upd_ne f n x v h3
        simp [e1, e2, e3]

/-- The links of the buffers after `self` has been linked between `q` and `h`. -/
theorem add_nonempty_links (B : Nat → BufferState) (self h q x : Nat) (hhs : h ≠ self) :
    ((upd (upd (upd B self { B self with _nextHasFree := some h, _prevHasFree := some q })
          h { B h with _prevHasFree := some self })
        q { upd (upd B self { B self with
                _nextHasFree := some h, _prevHasFree := some q })
              h { B h with _prevHasFree := some self } q with
            _nextHasFree := some self }) x)._nextHasFree
      = upd (upd (fun j => (B j)._nextHasFree) self (some h)) q (some self) x ∧
    ((upd (upd (upd B self { B self with _nextHasFree := some h, _prevHasFree := some q })
          h { B h with _prevHasFree := some self })
        q { upd (upd B self { B self with
                _nextHasFree := some h, _prevHasFree := some q })
              h { B h with _prevHasFree := some self } q with
            _nextHasFree := some self }) x)._prevHasFree
      = upd (upd (fun j => (B j)._prevHasFree) self (some q)) h (some self) x := by
  by_cases h1 : x = q
  · subst h1
    by_cases h2 : x = h
    · subst h2
      simp
    · have e2 : ∀ {α : Type} (f : Nat → α) (v : α), upd f h v x = f x :=
        fun f v => upd_ne f h x v h2
      by_cases h3 : x = self
      · subst h3
        simp [e2]
      · have e3 : ∀ {α : Type} (f : Nat → α) (v : α), upd f self v x = f x :=
          fun f v => upd_ne f self x v h3
        simp [e2, e3]
  · have e1 : ∀ {α : Type} (f : Nat → α) (v : α), upd f q v x = f x :=
      fun f v => upd_ne f q x v h1
    by_cases h2 : x = h
    · subst h2
      have e3 : ∀ {α : Type} (f : Nat → α) (v : α), upd f self v x = f x :=
        fun f v => upd_ne f self x v hhs
      simp [e1, e3]
    · have e2 : ∀ {α : Type} (f : Nat → α) (v : α), upd f h v x = f x :=
        fun f v => upd_ne f h x v h2
      by_cases h3 : x = self
      · subst h3
        simp [e1, e2]
      · have e3 : ∀ {α : Type} (f : Nat → α) (v : α), upd f self v x = f x :=
          fun f v => upd_ne f self x v h3
        simp [e1, e2, e3]

/-- A successful `removeFromFreeListList` keeps the links consistent and keeps every
link of another buffer null or non-null as it was. -/
theorem remove_wl (v : Store) (self : Nat) (v' : Store)
    (h : removeFromFreeListList v self = .ok v') (hdl : DoublyLinked v) :
    DoublyLinked v' ∧
    ∀ x, x ≠ self →
      ((v'.buffers x)._nextHasFree = none ↔ (v.buffers x)._nextHasFree = none) ∧
      ((v'.buffers x)._prevHasFree = none ↔ (v.buffers x)._prevHasFree = none) := by
  obtain ⟨a, n, p, ha, hn, hp, hcase⟩ := remove_ok_inv v self v' h
  rcases hcase with ⟨hns, hps, hhead⟩ | ⟨hns, hps⟩
  · rw [hns] at hn
    rw [hps] at hp
    rw [remove_single v self a ha hn hp hhead] at h
    simp only [Except.ok.injEq] at h
    subst h
    constructor
    · intro x y
      have key := dl_remove_single (fun j => (v.buffers j)._nextHasFree)
        (fun j => (v.buffers j)._prevHasFree) self hdl hn hp x y
      simp only [upd] at key ⊢
      by_cases h1 : x = self <;> by_cases h2 : y = self <;> simp_all
    · intro x hx
      simp [upd_ne _ _ _ _ hx]
  · rw [remove_multi v self a n p ha hn hp hns hps] at h
    simp only [Except.ok.injEq] at h
    subst h
    obtain ⟨k1, k2⟩ := dl_remove_multi (fun j => (v.buffers j)._nextHasFree)
      (fun j => (v.buffers j)._prevHasFree) self n p hdl hn hp hns hps
    constructor
    · intro x y
      show (_ : BufferState)._nextHasFree = some y ↔ (_ : BufferState)._prevHasFree = some x
      rw [(remove_multi_links v.buffers self n p x).1,
        (remove_multi_links v.buffers self n p y).2]
      exact k1 x y
    · intro x hx
      show ((_ : BufferState)._nextHasFree = none ↔ _) ∧
        ((_ : BufferState)._prevHasFree = none ↔ _)
      rw [(remove_multi_links v.buffers self n p x).1,
        (remove_multi_links v.buffers self n p x).2]
      exact k2 x hx

/-- A successful `addToFreeListList` keeps the links consistent and keeps every link of
another buffer null or non-null as it was. -/
theorem add_wl (v : Store) (self : Nat) (v' : Store)
    (h : addToFreeListList v self = .ok v') (hdl : DoublyLinked v) :
    DoublyLinked v' ∧
    ∀ x, x ≠ self →
      ((v'.buffers x)._nextHasFree = none ↔ (v.buffers x)._nextHasFree = none) ∧
      ((v'.buffers x)._prevHasFree = none ↔ (v.buffers x)._prevHasFree = none) := by
  obtain ⟨a, ha, hn, hp, hcase⟩ := add_ok_inv v self v' h
  rcases hcase with hhead | ⟨hd, q, hhead, hhs, hq⟩
  · rw [add_empty v self a ha hhead hn hp] at h
    simp only [Except.ok.injEq] at h
    subst h
    constructor
    · intro x y
      have key := dl_add_empty (fun j => (v.buffers j)._nextHasFree)
        (fun j => (v.buffers j)._prevHasFree) self hdl hn hp x y
      simp only [upd] at key ⊢
      by_cases h1 : x = self <;> by_cases h2 : y = self <;> simp_all
    · intro x hx
      simp [upd_ne _ _ _ _ hx]
  · rw [add_nonempty v self a hd q ha hhead hhs hn hp hq] at h
    simp only [Except.ok.injEq] at h
    subst h
    obtain ⟨k1, k2, -, -⟩ := dl_add_nonempty (fun j => (v.buffers j)._nextHasFree)
      (fun j => (v.buffers j)._prevHasFree) self hd q hdl hn hp hq
    constructor
    · intro x y
      show (_ : BufferState)._nextHasFree = some y ↔ (_ : BufferState)._prevHasFree = some x
      rw [(add_nonempty_links v.buffers self hd q x hhs).1,
        (add_nonempty_links v.buffers self hd q y hhs).2]
      exact k1 x y
    · intro x hx
      show ((_ : BufferState)._nextHasFree = none ↔ _) ∧
        ((_ : BufferState)._prevHasFree = none ↔ _)
      rw [(add_nonempty_links v.buffers self hd q x hhs).1,
        (add_nonempty_links v.buffers self hd q x hhs).2]
      exact k2 x hx

/-- Free-list membership of a buffer depends only on its state, its local free list,
its anchor and on which of its links are null. -/
theorem memberOk_transfer (b c : BufferState) (hs : sansLinks b = sansLinks c)
    (h1 : b._nextHasFree = none ↔ c._nextHasFree = none)
    (h2 : b._prevHasFree = none ↔ c._prevHasFree = none)
    (hc : MemberOk c) : MemberOk b := by
  have e1 := congrArg BufferState._state hs
  have e2 := congrArg BufferState._freeList hs
  have e3 := congrArg BufferState._freeListList hs
  simp only [sansLinks] at e1 e2 e3
  unfold MemberOk at hc ⊢
  rw [e1, e2, e3]
  simp only [ne_eq] at hc ⊢
  rw [h1, h2]
  exact hc

/-- A buffer without links and with an empty local free list satisfies the membership
invariant. -/
theorem memberOk_idle (b : BufferState) (hn : b._nextHasFree = none)
    (hfl : b._freeList = []) : MemberOk b := by
  unfold MemberOk
  simp [hn, hfl]

/-- Consistency of the links depends on the links only. -/
theorem doublyLinked_congr (w w' : Store)
    (h : ∀ x, (w'.buffers x)._nextHasFree = (w.buffers x)._nextHasFree ∧
      (w'.buffers x)._prevHasFree = (w.buffers x)._prevHasFree)
    (hdl : DoublyLinked w) : DoublyLinked w' := by
  intro x y
  rw [(h x).1, (h y).2]
  exact hdl x y

/-- A store of freshly constructed buffers satisfies the membership invariant. -/
theorem wellLinked_fresh (t : BufferTypeBase) : WellLinked (Store.fresh t) := by
  refine ⟨?_, ?_⟩
  · intro x y
    simp [Store.fresh, BufferState.new]
  · intro x
    exact memberOk_idle _ rfl rfl

/-- Writing fields other than the links of one buffer keeps the links of every buffer. -/
theorem setBuffer_links (w : Store) (self : Nat) (b : BufferState)
    (hn : b._nextHasFree = (w.buffers self)._nextHasFree)
    (hp : b._prevHasFree = (w.buffers self)._prevHasFree) (x : Nat) :
    ((w.setBuffer self b).buffers x)._nextHasFree = (w.buffers x)._nextHasFree ∧
      ((w.setBuffer self b).buffers x)._prevHasFree = (w.buffers x)._prevHasFree := by
  by_cases hx : x = self
  · subst hx
    simp [Store.setBuffer, hn, hp]
  · simp [Store.setBuffer, upd_ne _ _ _ _ hx]

/-- A successful `onActive` preserves the membership invariant. -/
theorem onActive_wl (w : Store) (self bufferId typeId typeHandler : Nat)
    (sizeNeeded maxClusters : Nat) (buffer : Option Nat) (elementSize : Nat)
    (create : Nat → Option Nat) (w' : Store) (p' : Option Nat)
    (h : BufferState.onActive w self bufferId typeId typeHandler sizeNeeded maxClusters buffer
      elementSize create = .ok (w', p'))
    (hinv : WellLinked w) : WellLinked w' := by
  obtain ⟨c, p, -, -, -, hfree, hother, -, hself⟩ :=
    onActive_frame w self bufferId typeId typeHandler sizeNeeded maxClusters buffer
      elementSize create w' p' h
  obtain ⟨-, -, -, -, -, -, -, hfl, hn, hp, -⟩ := hfree
  refine ⟨doublyLinked_congr w w' ?_ hinv.1, ?_⟩
  · intro x
    by_cases hx : x = self
    · subst hx
      rw [hself]
      exact ⟨rfl, rfl⟩
    · rw [hother x hx]
      exact ⟨rfl, rfl⟩
  · intro x
    by_cases hx : x = self
    · subst hx
      rw [hself]
      exact memberOk_idle _ hn hfl
    · rw [hother x hx]
      exact hinv.2 x

/-- The part of `onHold` that follows the notification of the type entry keeps the links
consistent and keeps every link of another buffer null or non-null as it was. -/
theorem onHoldTail_wl (v : Store) (self : Nat) (w' : Store)
    (h : onHoldTail v self = .ok w') (hdl : DoublyLinked v) :
    DoublyLinked w' ∧
    ∀ x, x ≠ self →
      ((w'.buffers x)._nextHasFree = none ↔ (v.buffers x)._nextHasFree = none) ∧
      ((w'.buffers x)._prevHasFree = none ↔ (v.buffers x)._prevHasFree = none) := by
  have hlinks := onHoldTail_links v self w' h
  rw [onHoldTail_eq v self hlinks] at h
  by_cases hfl : (v.buffers self)._freeList = []
  · rw [if_pos hfl] at h
    simp only [Except.ok.injEq] at h
    subst h
    have hl := setBuffer_links v self { v.buffers self with _freeListList := none } rfl rfl
    refine ⟨doublyLinked_congr v _ hl hdl, ?_⟩
    intro x _
    rw [(hl x).1, (hl x).2]
    exact ⟨Iff.rfl, Iff.rfl⟩
  · rw [if_neg hfl] at h
    cases hr : removeFromFreeListList v self with
    | error e => simp [hr] at h
    | ok v1 =>
      simp only [hr, Except.ok.injEq] at h
      subst h
      obtain ⟨hdl1, hnull⟩ := remove_wl v self v1 hr hdl
      have hl := setBuffer_links v1 self
        { v1.buffers self with _freeList := [], _freeListList := none } rfl rfl
      refine ⟨doublyLinked_congr v1 _ hl hdl1, ?_⟩
      intro x hx
      rw [(hl x).1, (hl x).2]
      exact hnull x hx

/-- A successful `onHold` preserves the membership invariant. -/
theorem onHold_wl (w : Store) (self : Nat) (w' : Store)
    (h : BufferState.onHold w self = .ok w') (hinv : WellLinked w) : WellLinked w' := by
  obtain ⟨-, -, -, hother, hself⟩ := onHold_frame w self w' h
  obtain ⟨-, th, -, -, -, w1, htype, htail⟩ := onHold_ok_inv w self w' h
  obtain ⟨hb, -, -⟩ := typeOnHold_frame _ th self w1 htype
  have hl1 : ∀ x, (w1.buffers x)._nextHasFree = (w.buffers x)._nextHasFree ∧
      (w1.buffers x)._prevHasFree = (w.buffers x)._prevHasFree := by
    intro x
    rw [hb]
    exact setBuffer_links w self { w.buffers self with
      _state := .HOLD
      _compacting := false
      _holdElems := sub64 (w.buffers self)._usedElems (w.buffers self)._deadElems }
      rfl rfl x
  obtain ⟨hdl, hnull⟩ := onHoldTail_wl w1 self w' htail (doublyLinked_congr w w1 hl1 hinv.1)
  refine ⟨hdl, ?_⟩
  intro x
  by_cases hx : x = self
  · subst hx
    rw [hself]
    exact memberOk_idle _ rfl rfl
  · have := hnull x hx
    rw [(hl1 x).1, (hl1 x).2] at this
    exact memberOk_transfer _ _ (hother x hx) this.1 this.2 (hinv.2 x)

/-- A successful `onFree` preserves the membership invariant. -/
theorem onFree_wl (w : Store) (self : Nat) (buffer : Option Nat) (w' : Store)
    (p' : Option Nat) (h : BufferState.onFree w self buffer = .ok (w', p'))
    (hinv : WellLinked w) : WellLinked w' := by
  obtain ⟨-, -, hother, -, hself⟩ := onFree_frame w self buffer w' p' h
  obtain ⟨th, -, -, -, -, -, -, hfl, hn, hp, -⟩ := onFree_ok_inv w self buffer _ h
  refine ⟨doublyLinked_congr w w' ?_ hinv.1, ?_⟩
  · intro x
    by_cases hx : x = self
    · subst hx
      rw [hself]
      exact ⟨rfl, rfl⟩
    · rw [hother x hx]
      exact ⟨rfl, rfl⟩
  · intro x
    by_cases hx : x = self
    · subst hx
      rw [hself]
      exact memberOk_idle _ hn hfl
    · rw [hother x hx]
      exact hinv.2 x

/-- Installing a non-null anchor and linking the buffer, as `setFreeListList` does when
the local free list is non-empty, preserves the membership invariant. -/
theorem setAnchor_add_wl (w1 : Store) (self : Nat) (fll : Option Nat) (w' : Store)
    (hadd : addToFreeListList
      (w1.setBuffer self { w1.buffers self with _freeListList := fll }) self = .ok w')
    (hfll : fll ≠ none) (hdl : DoublyLinked w1)
    (hfl : (w1.buffers self)._freeList ≠ [])
    (hstate : (w1.buffers self)._state = .ACTIVE)
    (hm : ∀ x, x ≠ self → MemberOk (w1.buffers x)) : WellLinked w' := by
  have hl := setBuffer_links w1 self { w1.buffers self with _freeListList := fll } rfl rfl
  obtain ⟨hdl2, hnull⟩ := add_wl _ self w' hadd (doublyLinked_congr w1 _ hl hdl)
  obtain ⟨-, -, hsans, hn, hp, -⟩ := add_frame _ self w' hadd
  refine ⟨hdl2, ?_⟩
  intro x
  by_cases hx : x = self
  · subst hx
    have hs := hsans x
    have e1 := congrArg BufferState._state hs
    have e2 := congrArg BufferState._freeList hs
    have e3 := congrArg BufferState._freeListList hs
    simp only [sansLinks, Store.setBuffer, upd_same] at e1 e2 e3
    unfold MemberOk
    rw [e1, e2, e3]
    simp [hn, hp, hfl, hstate, hfll]
  · have hs := hsans x
    have hnl := hnull x hx
    simp only [Store.setBuffer, upd_ne _ _ _ _ hx] at hs hnl
    exact memberOk_transfer _ _ hs hnl.1 hnl.2 (hm x hx)

/-- A successful `setFreeListList` preserves the membership invariant. -/
theorem setFreeListList_wl (w : Store) (self : Nat) (fll : Option Nat) (w' : Store)
    (h : setFreeListList w self fll = .ok w') (hinv : WellLinked w) : WellLinked w' := by
  by_cases h0 : ((w.buffers self)._state = .FREE ∧ fll ≠ none) ∨
      fll = (w.buffers self)._freeListList
  · rw [setFreeListList_noop w self fll h0] at h
    simp only [Except.ok.injEq] at h
    subst h
    exact hinv
  · have h1 : ¬ ((w.buffers self)._state = .FREE ∧ fll ≠ none) := fun c => h0 (Or.inl c)
    have h2 : fll ≠ (w.buffers self)._freeListList := fun c => h0 (Or.inr c)
    rw [setFreeListList_change w self fll h1 h2] at h
    by_cases hrem : (w.buffers self)._freeListList ≠ none ∧ (w.buffers self)._freeList ≠ []
    · rw [if_pos hrem] at h
      cases hr : removeFromFreeListList w self with
      | error e => simp [hr] at h
      | ok w1 =>
        simp only [hr] at h
        obtain ⟨hdl1, hnull⟩ := remove_wl w self w1 hr hinv.1
        obtain ⟨-, -, hsans, hn, hp, -⟩ := remove_frame w self w1 hr
        have e1 := congrArg BufferState._state (hsans self)
        have e2 := congrArg BufferState._freeList (hsans self)
        simp only [sansLinks] at e1 e2
        have hfl1 : (w1.buffers self)._freeList ≠ [] := by
          rw [e2]
          exact hrem.2
        have hm1 : ∀ x, x ≠ self → MemberOk (w1.buffers x) := fun x hx =>
          memberOk_transfer _ _ (hsans x) (hnull x hx).1 (hnull x hx).2 (hinv.2 x)
        rw [if_pos hfl1] at h
        by_cases hfll : fll ≠ none
        · rw [if_pos hfll] at h
          have hstate : (w1.buffers self)._state = .ACTIVE := by
            rw [e1]
            exact (hinv.2 self).2 hrem.2
          exact setAnchor_add_wl w1 self fll w' h hfll hdl1 hfl1 hstate hm1
        · rw [if_neg hfll] at h
          simp only [Except.ok.injEq] at h
          subst h
          have hl := setBuffer_links w1 self
            { w1.buffers self with _freeListList := fll, _freeList := [] } rfl rfl
          refine ⟨doublyLinked_congr w1 _ hl hdl1, ?_⟩
          intro x
          by_cases hx : x = self
          · subst hx
            simp only [Store.setBuffer, upd_same]
            exact memberOk_idle _ hn rfl
          · simp only [Store.setBuffer, upd_ne _ _ _ _ hx]
            exact hm1 x hx
    · rw [if_neg hrem] at h
      simp only at h
      by_cases hfl : (w.buffers self)._freeList ≠ []
      · rw [if_pos hfl] at h
        have hanchor : (w.buffers self)._freeListList = none := by
          by_contra c
          exact hrem ⟨c, hfl⟩
        have hfll : fll ≠ none := by
          intro c
          rw [c, hanchor] at h2
          exact h2 rfl
        rw [if_pos hfll] at h
        exact setAnchor_add_wl w self fll w' h hfll hinv.1 hfl ((hinv.2 self).2 hfl)
          (fun x _ => hinv.2 x)
      · rw [if_neg hfl] at h
        simp only [Except.ok.injEq] at h
        subst h
        have hfl0 : (w.buffers self)._freeList = [] := by
          by_contra c
          exact hfl c
        have hl := setBuffer_links w self
          { w.buffers self with _freeListList := fll } rfl rfl
        refine ⟨doublyLinked_congr w _ hl hinv.1, ?_⟩
        intro x
        by_cases hx : x = self
        · subst hx
          have hm := (hinv.2 x).1
          simp only [Store.setBuffer, upd_same]
          unfold MemberOk
          simp only [hfl0, ne_eq, not_true_eq_false, false_and, and_false, iff_false,
            false_implies, and_true] at hm ⊢
          exact hm
        · simp only [Store.setBuffer, upd_ne _ _ _ _ hx]
          exact hinv.2 x

/-- Every successful operation preserves the membership invariant. -/
theorem run_wl (op : BufferOp) (w : Store) (mem : Memory) (w1 : Store) (mem1 : Memory)
    (h : op.run w mem = .ok (w1, mem1)) (hinv : WellLinked w) : WellLinked w1 := by
  cases op with
  | onActive self bufferId typeId typeHandler sizeNeeded maxClusters buffer elementSize
      create =>
    simp only [BufferOp.run] at h
    cases hr : BufferState.onActive w self bufferId typeId typeHandler sizeNeeded maxClusters
        buffer elementSize create with
    | error e => simp [hr] at h
    | ok r =>
      obtain ⟨w2, p2⟩ := r
      simp only [hr, Except.ok.injEq, Prod.mk.injEq] at h
      obtain ⟨hw, -⟩ := h
      subst hw
      exact onActive_wl _ _ _ _ _ _ _ _ _ _ _ _ hr hinv
  | onHold self =>
    simp only [BufferOp.run] at h
    cases hr : BufferState.onHold w self with
    | error e => simp [hr] at h
    | ok w2 =>
      simp only [hr, Except.ok.injEq, Prod.mk.injEq] at h
      obtain ⟨hw, -⟩ := h
      subst hw
      exact onHold_wl _ _ _ hr hinv
  | onFree self buffer =>
    simp only [BufferOp.run] at h
    cases hr : BufferState.onFree w self buffer with
    | error e => simp [hr] at h
    | ok r =>
      obtain ⟨w2, p2⟩ := r
      simp only [hr, Except.ok.injEq, Prod.mk.injEq] at h
      obtain ⟨hw, -⟩ := h
      subst hw
      exact onFree_wl _ _ _ _ _ hr hinv
  | dropBuffer self buffer =>
    simp only [BufferOp.run] at h
    cases hr : BufferState.dropBuffer w self buffer with
    | error e => simp [hr] at h
    | ok r =>
      obtain ⟨w2, p2⟩ := r
      simp only [hr, Except.ok.injEq, Prod.mk.injEq] at h
      obtain ⟨hw, -⟩ := h
      subst hw
      rcases dropBuffer_ok_inv w self buffer _ _ hr with
        ⟨-, hw, -, -⟩ | ⟨-, hf⟩ | ⟨-, wm, hh, hf⟩
      · subst hw
        exact hinv
      · exact onFree_wl _ _ _ _ _ hf hinv
      · exact onFree_wl _ _ _ _ _ hf (onHold_wl _ _ _ hh hinv)
  | setFreeListList self fll =>
    simp only [BufferOp.run] at h
    cases hr : setFreeListList w self fll with
    | error e => simp [hr] at h
    | ok w2 =>
      simp only [hr, Except.ok.injEq, Prod.mk.injEq] at h
      obtain ⟨hw, -⟩ := h
      subst hw
      exact setFreeListList_wl _ _ _ _ hr hinv
  | fallbackResize self bufferId sizeNeeded maxClusters buffer holdBuffer elementSize
      create =>
    simp only [BufferOp.run] at h
    cases hr : BufferState.fallbackResize w mem self bufferId sizeNeeded maxClusters buffer
        holdBuffer elementSize create with
    | error e => simp [hr] at h
    | ok r =>
      obtain ⟨-, -, th, c, mem2, -, -, -, -, -, hr2⟩ :=
        fallbackResize_ok_inv w mem self bufferId sizeNeeded maxClusters buffer holdBuffer
          elementSize create r hr
      subst hr2
      simp only [hr, Except.ok.injEq, Prod.mk.injEq] at h
      obtain ⟨hw, -⟩ := h
      subst hw
      refine ⟨?_, ?_⟩
      · intro x y
        have hx := setBuffer_links w self { w.buffers self with
          _buffer := create (mul64 (c * (w.types th)._clusterSize) (elementSize th))
          _allocElems := c * (w.types th)._clusterSize } rfl rfl
        simp only [Store.setBuffer] at hx
        show (_ : BufferState)._nextHasFree = some y ↔ (_ : BufferState)._prevHasFree = some x
        rw [(hx x).1, (hx y).2]
        exact hinv.1 x y
      · intro x
        by_cases hx : x = self
        · subst hx
          simp only [upd_same]
          exact hinv.2 x
        · simp only [upd_ne _ _ _ _ hx]
          exact hinv.2 x
  | disableElemHoldList self =>
    simp only [BufferOp.run, Except.ok.injEq, Prod.mk.injEq] at h
    obtain ⟨hw, -⟩ := h
    subst hw
    have hl := setBuffer_links w self
      { w.buffers self with _disableElemHoldList := true } rfl rfl
    refine ⟨doublyLinked_congr w _ hl hinv.1, ?_⟩
    intro x
    by_cases hx : x = self
    · subst hx
      simp only [BufferState.disableElemHoldList, Store.setBuffer, upd_same]
      exact hinv.2 x
    · simp only [BufferState.disableElemHoldList, Store.setBuffer, upd_ne _ _ _ _ hx]
      exact hinv.2 x

/-- Scenario C satisfies the membership invariant: buffers 0 and 1 form the circular
list of anchor 0 and every other buffer is freshly constructed. -/
theorem scenarioC_wellLinked : WellLinked scenarioC := by
  refine ⟨?_, ?_⟩
  · intro x y
    by_cases hx0 : x = 0
    · subst hx0
      by_cases hy0 : y = 0
      · subst hy0
        simp [scenarioC]
      · by_cases hy1 : y = 1
        · subst hy1
          simp [scenarioC]
        · simp [scenarioC, hy0, hy1, BufferState.new]
          exact fun c => hy1 c.symm
    · by_cases hx1 : x = 1
      · subst hx1
        by_cases hy0 : y = 0
        · subst hy0
          simp [scenarioC]
        · by_cases hy1 : y = 1
          · subst hy1
            simp [scenarioC]
          · simp [scenarioC, hy0, hy1, BufferState.new]
            exact fun c => hy0 c.symm
      · by_cases hy0 : y = 0
        · subst hy0
          simp [scenarioC, hx0, hx1, BufferState.new]
          exact fun c => hx1 c.symm
        · by_cases hy1 : y = 1
          · subst hy1
            simp [scenarioC, hx0, hx1, BufferState.new]
            exact fun c => hx0 c.symm
          · simp [scenarioC, hx0, hx1, hy0, hy1, BufferState.new]
  · intro x
    by_cases hx0 : x = 0
    · subst hx0
      simp [scenarioC, MemberOk]
    · by_cases hx1 : x = 1
      · subst hx1
        simp [scenarioC, MemberOk]
      · simp [scenarioC, MemberOk, hx0, hx1, BufferState.new]

/-- The predecessor of the buffer that closes a segment is a member of the segment. -/
theorem seg_pred_mem (nx pv : Nat → Option Nat) (t : List Nat) (m q : Nat) :
    ∀ x, Seg nx pv x t m → pv m = some q → q ∈ x :: t := by
  induction t with
  | nil =>
    intro x h hq
    simp only [Seg] at h
    rw [h.2] at hq
    simp [Option.some.inj hq]
  | cons y t ih =>
    intro x h hq
    simp only [Seg] at h
    exact List.mem_cons_of_mem _ (ih y h.2.2 hq)

/-- Every member of a segment has a successor. -/
theorem seg_next_some (nx pv : Nat → Option Nat) (t : List Nat) (m : Nat) :
    ∀ x, Seg nx pv x t m → ∀ z, z ∈ x :: t → nx z ≠ none := by
  induction t with
  | nil =>
    intro x h z hz
    simp only [Seg] at h
    simp only [List.mem_singleton] at hz
    subst hz
    rw [h.1]
    simp
  | cons y t ih =>
    intro x h z hz
    simp only [Seg] at h
    rcases List.mem_cons.1 hz with e | e
    · subst e
      rw [h.1]
      simp
    · exact ih y h.2.2 z e

/-- Linking `b` in front of the first member `m` and behind its predecessor `q` turns
the segment that closed at `m` into a segment that closes at `b`. -/
theorem seg_add (nx pv : Nat → Option Nat) (t : List Nat) (m q b : Nat)
    (hq : pv m = some q) (hbm : b ≠ m) :
    ∀ x, Seg nx pv x t m → b ∉ x :: t → m ∉ t → (x :: t).Nodup →
      Seg (upd (upd nx b (some m)) q (some b)) (upd (upd pv b (some q)) m (some b))
        x t b := by
  induction t with
  | nil =>
    intro x h hb _ _
    simp only [Seg] at h ⊢
    have hxq : q = x := by
      rw [h.2] at hq
      exact (Option.some.inj hq).symm
    subst hxq
    refine ⟨upd_same _ _ _, ?_⟩
    rw [upd_ne _ _ _ _ hbm, upd_same]
  | cons y t ih =>
    intro x h hb hm hnd
    simp only [Seg] at h ⊢
    obtain ⟨h1, h2, h3⟩ := h
    have hqmem := seg_pred_mem nx pv t m q y h3 hq
    have hxq : x ≠ q := by
      intro e
      rw [← e] at hqmem
      exact (List.nodup_cons.1 hnd).1 hqmem
    have hxb : x ≠ b := fun e => hb (by rw [e]; exact List.mem_cons_self _ _)
    have hyb : y ≠ b := fun e =>
      hb (by rw [e]; exact List.mem_cons_of_mem _ (List.mem_cons_self _ _))
    have hym : y ≠ m := fun e => hm (by rw [e]; exact List.mem_cons_self _ _)
    refine ⟨?_, ?_, ?_⟩
    · rw [upd_ne _ _ _ _ hxq, upd_ne _ _ _ _ hxb]
      exact h1
    · rw [upd_ne _ _ _ _ hym, upd_ne _ _ _ _ hyb]
      exact h2
    · exact ih y h3 (fun c => hb (List.mem_cons_of_mem _ c))
        (fun c => hm (List.mem_cons_of_mem _ c)) (List.nodup_cons.1 hnd).2

/-- Unlinking the first member `m`, whose predecessor is `p`, turns the segment that
closed at `m` into a segment that closes at the successor `y` of `m`. -/
theorem seg_remove (nx pv : Nat → Option Nat) (t : List Nat) (m p y : Nat)
    (hp : pv m = some p) (hym : y ≠ m) :
    ∀ x, Seg nx pv x t m → m ∉ x :: t → y ∉ t → (x :: t).Nodup →
      Seg (upd (upd nx p (some y)) m none) (upd (upd pv y (some p)) m none) x t y := by
  induction t with
  | nil =>
    intro x h hm _ _
    simp only [Seg] at h ⊢
    have hxp : p = x := by
      rw [h.2] at hp
      exact (Option.some.inj hp).symm
    subst hxp
    have hpm : p ≠ m := fun e => hm (by rw [e]; exact List.mem_cons_self _ _)
    refine ⟨?_, ?_⟩
    · rw [upd_ne _ _ _ _ hpm, upd_same]
    · rw [upd_ne _ _ _ _ hym, upd_same]
  | cons z t ih =>
    intro x h hm hy hnd
    simp only [Seg] at h ⊢
    obtain ⟨h1, h2, h3⟩ := h
    have hpmem := seg_pred_mem nx pv t m p z h3 hp
    have hxp : x ≠ p := by
      intro e
      rw [← e] at hpmem
      exact (List.nodup_cons.1 hnd).1 hpmem
    have hxm : x ≠ m := fun e => hm (by rw [e]; exact List.mem_cons_self _ _)
    have hzm : z ≠ m := fun e =>
      hm (by rw [e]; exact List.mem_cons_of_mem _ (List.mem_cons_self _ _))
    have hzy : z ≠ y := fun e => hy (by rw [e]; exact List.mem_cons_self _ _)
    refine ⟨?_, ?_, ?_⟩
    · rw [upd_ne _ _ _ _ hxm, upd_ne _ _ _ _ hxp]
      exact h1
    · rw [upd_ne _ _ _ _ hzm, upd_ne _ _ _ _ hzy]
      exact h2
    · exact ih z h3 (fun c => hm (List.mem_cons_of_mem _ c))
        (fun c => hy (List.mem_cons_of_mem _ c)) (List.nodup_cons.1 hnd).2

/-- A segment depends on the links only. -/
theorem seg_congr (nx pv nx' pv' : Nat → Option Nat) (hn : ∀ j, nx' j = nx j)
    (hp : ∀ j, pv' j = pv j) (t : List Nat) (m : Nat) :
    ∀ x, Seg nx pv x t m → Seg nx' pv' x t m := by
  induction t with
  | nil =>
    intro x h
    simp only [Seg] at h ⊢
    rw [hn, hp]
    exact h
  | cons y t ih =>
    intro x h
    simp only [Seg] at h ⊢
    rw [hn, hp]
    exact ⟨h.1, h.2.1, ih y h.2.2⟩

/-- A successful `addToFreeListList` of a buffer of anchor `a` puts the buffer in front
of the circular list of the anchor. -/
theorem ring_add (w : Store) (a b : Nat) (l : List Nat) (w' : Store)
    (hring : Ring w a l) (ha : (w.buffers b)._freeListList = some a)
    (h : addToFreeListList w b = .ok w') : Ring w' a (b :: l) := by
  obtain ⟨a2, ha2, hn, hp, hcase⟩ := add_ok_inv w b w' h
  rw [ha] at ha2
  have ea : a2 = a := (Option.some.inj ha2).symm
  subst ea
  cases l with
  | nil =>
    have hhead : (w.lists a2)._head = none := hring
    rw [add_empty w b a2 ha hhead hn hp] at h
    simp only [Except.ok.injEq] at h
    subst h
    refine ⟨by simp, ?_, by simp⟩
    simp [Seg]
  | cons m t =>
    obtain ⟨hhead, hseg, hnd⟩ := hring
    rcases hcase with hnone | ⟨hd, q, hhd, hhs, hq⟩
    · rw [hhead] at hnone
      cases hnone
    · rw [hhead] at hhd
      have e : hd = m := (Option.some.inj hhd).symm
      subst e
      have hbl : b ∉ hd :: t := by
        intro c
        exact seg_next_some _ _ t hd hd hseg b c hn
      have hbm : b ≠ hd := fun e => hbl (by rw [e]; exact List.mem_cons_self _ _)
      have hqmem := seg_pred_mem _ _ t hd q hd hseg hq
      have hqb : q ≠ b := fun e => hbl (by rw [← e]; exact hqmem)
      rw [add_nonempty w b a2 hd q ha hhead hhs hn hp hq] at h
      simp only [Except.ok.injEq] at h
      subst h
      have hs := seg_add (fun j => (w.buffers j)._nextHasFree)
        (fun j => (w.buffers j)._prevHasFree) t hd q b hq hbm hd hseg hbl
        (List.nodup_cons.1 hnd).1 hnd
      refine ⟨by simp, ?_, List.nodup_cons.2 ⟨hbl, hnd⟩⟩
      show Seg _ _ b (hd :: t) b
      simp only [Seg]
      refine ⟨?_, ?_, ?_⟩
      · rw [(add_nonempty_links w.buffers b hd q b hhs).1, upd_ne _ _ _ _ hqb.symm,
          upd_same]
      · rw [(add_nonempty_links w.buffers b hd q hd hhs).2, upd_same]
      · exact seg_congr _ _ _ _
          (fun j => (add_nonempty_links w.buffers b hd q j hhs).1)
          (fun j => (add_nonempty_links w.buffers b hd q j hhs).2) t b hd hs

/-- A successful `removeFromFreeListList` of the head of the circular list of anchor `a`
leaves the other members in their order. -/
theorem ring_remove_head (w : Store) (a m : Nat) (t : List Nat) (w' : Store)
    (hring : Ring w a (m :: t)) (ha : (w.buffers m)._freeListList = some a)
    (h : removeFromFreeListList w m = .ok w') : Ring w' a t := by
  obtain ⟨a2, n, p, ha2, hn, hp, hcase⟩ := remove_ok_inv w m w' h
  rw [ha] at ha2
  have ea : a2 = a := (Option.some.inj ha2).symm
  subst ea
  obtain ⟨hhead, hseg, hnd⟩ := hring
  cases t with
  | nil =>
    simp only [Seg] at hseg
    have e : n = m := by
      have := hseg.1
      rw [hn] at this
      exact Option.some.inj this
    rcases hcase with ⟨-, hps, -⟩ | ⟨hns, -⟩
    · rw [e] at hn
      rw [hps] at hp
      rw [remove_single w m a2 ha hn hp hhead] at h
      simp only [Except.ok.injEq] at h
      subst h
      show (upd w.lists a2 _ a2)._head = none
      simp
    · exact absurd e hns
  | cons y t =>
    simp only [Seg] at hseg
    obtain ⟨h1, h2, h3⟩ := hseg
    have e : n = y := by
      rw [hn] at h1
      exact Option.some.inj h1
    subst e
    have hnm : n ≠ m := by
      intro c
      have := (List.nodup_cons.1 hnd).1
      rw [c] at this
      exact this (List.mem_cons_self _ _)
    rcases hcase with ⟨hns, -, -⟩ | ⟨hns, hps⟩
    · exact absurd hns hnm
    · rw [remove_multi w m a2 n p ha hn hp hns hps] at h
      simp only [Except.ok.injEq] at h
      subst h
      have hnd2 := (List.nodup_cons.1 hnd).2
      have hs := seg_remove (fun j => (w.buffers j)._nextHasFree)
        (fun j => (w.buffers j)._prevHasFree) t m p n hp hnm n h3
        (List.nodup_cons.1 hnd).1 (List.nodup_cons.1 hnd2).1 hnd2
      refine ⟨by simp, ?_, hnd2⟩
      exact seg_congr _ _ _ _
        (fun j => (remove_multi_links w.buffers m n p j).1)
        (fun j => (remove_multi_links w.buffers m n p j).2) t n n hs

/-- The operations on the circular list leave the anchor reference of every buffer. -/
theorem linkOp_anchor (op : LinkOp) (w w' : Store) (h : op.run w = .ok w') (x : Nat) :
    (w'.buffers x)._freeListList = (w.buffers x)._freeListList := by
  cases op with
  | add b =>
    have := congrArg BufferState._freeListList ((add_frame w b w' h).2.2.1 x)
    simpa [sansLinks] using this
  | remove b =>
    have := congrArg BufferState._freeListList ((remove_frame w b w' h).2.2.1 x)
    simpa [sansLinks] using this

/-- A successful sequence of operations on the buffers of anchor `a` in which only the
head is ever removed keeps the circular list in the order of linking, the buffer linked
most recently first. -/
theorem ring_run (a : Nat) (ops : List LinkOp) :
    ∀ (w : Store) (l : List Nat) (w' : Store), Ring w a l →
      (∀ op, op ∈ ops → (w.buffers op.buffer)._freeListList = some a) →
      removesHeadOnly ops l = true → runLinks ops w = .ok w' →
      Ring w' a (ops.foldl (fun l op =>
        match op with
        | .add b => b :: l
        | .remove b => l.erase b) l) := by
  induction ops with
  | nil =>
    intro w l w' hring _ _ hrun
    simp only [runLinks, Except.ok.injEq] at hrun
    subst hrun
    exact hring
  | cons op ops ih =>
    intro w l w' hring hanchor hheads hrun
    simp only [runLinks] at hrun
    cases hr : op.run w with
    | error e => simp [hr] at hrun
    | ok w1 =>
      simp only [hr] at hrun
      have hanchor1 : ∀ o, o ∈ ops → (w1.buffers o.buffer)._freeListList = some a := by
        intro o ho
        rw [linkOp_anchor op w w1 hr]
        exact hanchor o (List.mem_cons_of_mem _ ho)
      have ha := hanchor op (List.mem_cons_self _ _)
      cases op with
      | add b =>
        simp only [removesHeadOnly] at hheads
        simp only [List.foldl_cons]
        exact ih w1 (b :: l) w' (ring_add w a b l w1 hring ha hr) hanchor1 hheads hrun
      | remove b =>
        simp only [removesHeadOnly, Bool.and_eq_true, beq_iff_eq] at hheads
        obtain ⟨hh, hrest⟩ := hheads
        cases l with
        | nil => simp at hh
        | cons m t =>
          simp only [List.head?_cons, Option.some.injEq] at hh
          subst hh
          simp only [List.tail_cons] at hrest
          simp only [List.foldl_cons, List.erase_cons_head]
          exact ih w1 t w' (ring_remove_head w a m t w1 hring ha hr) hanchor1 hrest hrun

/-- The head of the anchor is the first buffer of its circular list. -/
theorem ring_head (w : Store) (a : Nat) (l : List Nat) (h : Ring w a l) :
    (w.lists a)._head = l.head? := by
  cases l with
  | nil => exact h
  | cons m t => exact h.1

/-! ## Sequences of operations: the state follows the life cycle -/

/-- C11: in every sequence of successful Buffer operations the state of a buffer changes
only along Free → Active (`onActive`), Active → Hold (`onHold`) and Hold → Free
(`onFree`), `dropBuffer` on an Active buffer being the two calls `onHold` and `onFree` it
makes: a successful `onActive` starts in Free and ends in Active, a successful `onHold`
starts in Active and ends in Hold, a successful `onFree` starts in Hold and ends in Free,
`fallbackResize`, `setFreeListList` and `disableElemHoldList` leave the state of every
buffer, the stores of a successful sequence form a chain of such steps, and no step of
the chain leads from Active to Free. -/
theorem state_follows_life_cycle :
    (∀ (w : Store) (self bufferId typeId typeHandler sizeNeeded maxClusters : Nat)
        (buffer : Option Nat) (elementSize : Nat) (create : Nat → Option Nat)
        (r : Store × Option Nat),
      BufferState.onActive w self bufferId typeId typeHandler sizeNeeded maxClusters buffer
          elementSize create = .ok r →
        (w.buffers self)._state = .FREE ∧ (r.1.buffers self)._state = .ACTIVE) ∧
    (∀ (w : Store) (self : Nat) (w' : Store), BufferState.onHold w self = .ok w' →
      (w.buffers self)._state = .ACTIVE ∧ (w'.buffers self)._state = .HOLD) ∧
    (∀ (w : Store) (self : Nat) (buffer : Option Nat) (r : Store × Option Nat),
      BufferState.onFree w self buffer = .ok r →
        (w.buffers self)._state = .HOLD ∧ (r.1.buffers self)._state = .FREE) ∧
    (∀ (w : Store) (mem : Memory) (self bufferId sizeNeeded maxClusters : Nat)
        (buffer holdBuffer : Option Nat) (elementSize : Nat → Nat)
        (create : Nat → Option Nat) (r : Store × Memory × Option Nat × Option Nat),
      BufferState.fallbackResize w mem self bufferId sizeNeeded maxClusters buffer
          holdBuffer elementSize create = .ok r →
        ∀ x, (r.1.buffers x)._state = (w.buffers x)._state) ∧
    (∀ (w : Store) (self : Nat) (freeListList : Option Nat) (w' : Store),
      setFreeListList w self freeListList = .ok w' →
        ∀ x, (w'.buffers x)._state = (w.buffers x)._state) ∧
    (∀ (w : Store) (self x : Nat),
      ((BufferState.disableElemHoldList w self).buffers x)._state = (w.buffers x)._state) ∧
    (∀ (ops : List BufferOp) (w : Store) (mem : Memory) (ws : List Store),
      runAll ops w mem = .ok ws →
        List.Chain' stateStep ws ∧
        List.Chain' (fun a b => ∀ x,
          ¬ ((a.buffers x)._state = .ACTIVE ∧ (b.buffers x)._state = .FREE)) ws) := by
  refine ⟨?_, ?_, ?_, ?_, ?_, ?_, ?_⟩
  · rintro w self bufferId typeId typeHandler sizeNeeded maxClusters buffer elementSize
      create ⟨w', p'⟩ h
    obtain ⟨h1, h2, -⟩ := onActive_state _ _ _ _ _ _ _ _ _ _ _ _ h
    exact ⟨h1, h2⟩
  · intro w self w' h
    obtain ⟨h1, h2, -⟩ := onHold_state _ _ _ h
    exact ⟨h1, h2⟩
  · rintro w self buffer ⟨w', p'⟩ h
    obtain ⟨h1, h2, -⟩ := onFree_state _ _ _ _ _ h
    exact ⟨h1, h2⟩
  · intro w mem self bufferId sizeNeeded maxClusters buffer holdBuffer elementSize create
      r h
    exact fallbackResize_state _ _ _ _ _ _ _ _ _ _ r h
  · intro w self freeListList w' h
    exact setFreeListList_state _ _ _ _ h
  · intro w self x
    exact disableElemHoldList_state w self x
  · intro ops w mem ws h
    have hc := runAll_chain ops w mem ws h
    exact ⟨hc, hc.imp (fun {a b} hab x => stateStep_not_active_to_free a b hab x)⟩

/-- Scenario C: holding buffer 0, dropping the Active buffer 1 and setting an anchor on the
held buffer 0 succeeds; buffer 1 passes through Hold on its way from Active to Free. -/
theorem state_follows_life_cycle_witness :
    runAll [.onHold 0, .dropBuffer 1 (some 8192), .setFreeListList 0 (some 3)]
        scenarioC memoryD
      = .ok (storesOf (runAll
          [.onHold 0, .dropBuffer 1 (some 8192), .setFreeListList 0 (some 3)]
          scenarioC memoryD)) ∧
    (storesOf (runAll [.onHold 0, .dropBuffer 1 (some 8192), .setFreeListList 0 (some 3)]
        scenarioC memoryD)).map (fun s => ((s.buffers 0)._state, (s.buffers 1)._state))
      = [(.ACTIVE, .ACTIVE), (.HOLD, .ACTIVE), (.HOLD, .HOLD), (.HOLD, .FREE),
          (.HOLD, .FREE)] ∧
    List.Chain' stateStep
      (storesOf (runAll [.onHold 0, .dropBuffer 1 (some 8192), .setFreeListList 0 (some 3)]
        scenarioC memoryD)) :=
  ⟨by rfl, by decide,
    (state_follows_life_cycle.2.2.2.2.2.2
      [.onHold 0, .dropBuffer 1 (some 8192), .setFreeListList 0 (some 3)]
      scenarioC memoryD _ (by rfl)).1⟩

/-! ## The counts of a buffer stay ordered -/

/-- C12, amended: `dead_elems ≤ used_elems ≤ alloc_elems` holds for a freshly constructed
buffer, and when it holds for every buffer it still holds for every buffer after each
successful operation (`onActive`, `onHold`, `onFree`, `dropBuffer`, `setFreeListList`,
`fallbackResize`, `disableElemHoldList`), provided that for `onActive` the sum
`reserved_elements(buffer_id) + size_needed` does not wrap or the allocator returns the
empty allocation for a request of zero bytes. -/
theorem counts_ordered_invariant :
    CountsOrdered BufferState.new ∧
    (∀ (op : BufferOp) (w : Store) (mem : Memory) (w' : Store) (mem' : Memory),
      op.run w mem = .ok (w', mem') → (op.requestDoesNotWrap w ∨ op.emptyRequestIsNull) →
      (∀ x, CountsOrdered (w.buffers x)) → ∀ x, CountsOrdered (w'.buffers x)) := by
  refine ⟨⟨le_refl _, le_refl _⟩, ?_⟩
  intro op w mem w' mem' h hreq hinv
  rcases hreq with hfit | hnull
  · exact run_counts_fits op w mem w' mem' h hfit hinv
  · exact run_counts op w mem w' mem' h hnull hinv

/-- Scenario B: activating the fresh buffer 0 for 10 elements succeeds with
`alloc_elems = 32` and leaves the counts of every buffer ordered, with an allocator that
returns the empty allocation for a request of zero bytes and with one that hands out a
block for every request. -/
theorem counts_ordered_invariant_witness :
    (BufferOp.onActive 0 1 7 0 10 (2 ^ 32) none 4 alloc4096).run scenarioB memoryD
      = .ok (ranStore ((BufferOp.onActive 0 1 7 0 10 (2 ^ 32) none 4 alloc4096).run
          scenarioB memoryD) scenarioB, memoryD) ∧
    ((ranStore ((BufferOp.onActive 0 1 7 0 10 (2 ^ 32) none 4 alloc4096).run
        scenarioB memoryD) scenarioB).buffers 0)._allocElems = 32 ∧
    (∀ x, CountsOrdered ((ranStore ((BufferOp.onActive 0 1 7 0 10 (2 ^ 32) none 4
      alloc4096).run scenarioB memoryD) scenarioB).buffers x)) ∧
    (∀ x, CountsOrdered ((ranStore ((BufferOp.onActive 0 0 7 0 10 (2 ^ 32) none 4
      always4096).run scenarioB memoryD) scenarioB).buffers x)) :=
  ⟨by rfl, by rfl,
    counts_ordered_invariant.2 (BufferOp.onActive 0 1 7 0 10 (2 ^ 32) none 4 alloc4096)
      scenarioB memoryD _ memoryD (by rfl) (Or.inr (by rfl))
      (fun _ => ⟨le_refl _, le_refl _⟩),
    counts_ordered_invariant.2 (BufferOp.onActive 0 0 7 0 10 (2 ^ 32) none 4 always4096)
      scenarioB memoryD _ memoryD (by rfl)
      (Or.inl (show getReservedElements (scenarioB.types 0) 0 + 10 < 2 ^ 64 by decide))
      (fun _ => ⟨le_refl _, le_refl _⟩)⟩

/-- C12 as stated fails when the request of `onActive` wraps and the allocator hands out a
block for a request of zero bytes.  For a fresh buffer and a type entry with
`cluster_size = 8` and `min_clusters = 0`, `buffer_id = 0` and `size_needed = 2^64 - 8`:
`reservedElements + sizeNeeded` wraps to 0, `calcClustersToAlloc` returns 0, the
assertion of line 179 compares 0 with 0, and `onActive` completes with
`alloc_elems = 0` and `used_elems = dead_elems = 8`.  With an allocator that returns the
empty allocation for zero bytes the same call ends at the assertion of line 182. -/
theorem counts_not_ordered_after_empty_allocation :
    (∀ x, CountsOrdered (eightNoMin.buffers x)) ∧
    calcClustersToAlloc eightNoMin 0 0 (2 ^ 64 - 8) (2 ^ 32) = .ok 0 ∧
    (BufferOp.onActive 0 0 7 0 (2 ^ 64 - 8) (2 ^ 32) none 4 always4096).run eightNoMin
        memoryD
      = .ok (ranStore ((BufferOp.onActive 0 0 7 0 (2 ^ 64 - 8) (2 ^ 32) none 4
          always4096).run eightNoMin memoryD) eightNoMin, memoryD) ∧
    ((ranStore ((BufferOp.onActive 0 0 7 0 (2 ^ 64 - 8) (2 ^ 32) none 4 always4096).run
        eightNoMin memoryD) eightNoMin).buffers 0)._usedElems = 8 ∧
    ((ranStore ((BufferOp.onActive 0 0 7 0 (2 ^ 64 - 8) (2 ^ 32) none 4 always4096).run
        eightNoMin memoryD) eightNoMin).buffers 0)._deadElems = 8 ∧
    ((ranStore ((BufferOp.onActive 0 0 7 0 (2 ^ 64 - 8) (2 ^ 32) none 4 always4096).run
        eightNoMin memoryD) eightNoMin).buffers 0)._allocElems = 0 ∧
    ¬ CountsOrdered ((ranStore ((BufferOp.onActive 0 0 7 0 (2 ^ 64 - 8) (2 ^ 32) none 4
      always4096).run eightNoMin memoryD) eightNoMin).buffers 0) ∧
    BufferState.onActive eightNoMin 0 0 7 0 (2 ^ 64 - 8) (2 ^ 32) none 4 alloc4096
      = .error (.assertion 182) := by
  have hu : ((ranStore ((BufferOp.onActive 0 0 7 0 (2 ^ 64 - 8) (2 ^ 32) none 4
      always4096).run eightNoMin memoryD) eightNoMin).buffers 0)._usedElems = 8 := by rfl
  have ha : ((ranStore ((BufferOp.onActive 0 0 7 0 (2 ^ 64 - 8) (2 ^ 32) none 4
      always4096).run eightNoMin memoryD) eightNoMin).buffers 0)._allocElems = 0 := by rfl
  refine ⟨fun _ => ⟨le_refl _, le_refl _⟩, by decide, by rfl, hu, by rfl, ha, ?_, by rfl⟩
  intro hc
  have h2 := hc.2
  rw [hu, ha] at h2
  omega

/-! ## The free-list membership invariant -/

/-- C13: the free-list membership invariant holds in a store of freshly constructed
buffers and is preserved by every successful operation (`onActive`, `onHold`, `onFree`,
`dropBuffer`, `setFreeListList`, and also `fallbackResize` and `disableElemHoldList`):
afterwards every buffer has both links non-null if and only if its state is Active, its
local free list is non-empty and its anchor is set. -/
theorem membership_invariant :
    (∀ t, WellLinked (Store.fresh t)) ∧
    (∀ (op : BufferOp) (w : Store) (mem : Memory) (w' : Store) (mem' : Memory),
      op.run w mem = .ok (w', mem') → WellLinked w →
      WellLinked w' ∧
      ∀ x, (((w'.buffers x)._nextHasFree ≠ none ∧ (w'.buffers x)._prevHasFree ≠ none) ↔
        ((w'.buffers x)._state = .ACTIVE ∧ (w'.buffers x)._freeList ≠ [] ∧
          (w'.buffers x)._freeListList ≠ none))) := by
  refine ⟨wellLinked_fresh, ?_⟩
  intro op w mem w' mem' h hinv
  have hwl := run_wl op w mem w' mem' h hinv
  exact ⟨hwl, fun x => (hwl.2 x).1⟩

/-- Scenario C satisfies the invariant, and moving buffer 0 to anchor 3 succeeds and
preserves it. -/
theorem membership_invariant_witness :
    WellLinked scenarioC ∧
    (BufferOp.setFreeListList 0 (some 3)).run scenarioC memoryD
      = .ok (ranStore ((BufferOp.setFreeListList 0 (some 3)).run scenarioC memoryD)
          scenarioC, memoryD) ∧
    ((ranStore ((BufferOp.setFreeListList 0 (some 3)).run scenarioC memoryD)
      scenarioC).buffers 0)._freeListList = some 3 ∧
    WellLinked (ranStore ((BufferOp.setFreeListList 0 (some 3)).run scenarioC memoryD)
      scenarioC) :=
  ⟨scenarioC_wellLinked, by rfl, by rfl,
    (membership_invariant.2 (BufferOp.setFreeListList 0 (some 3)) scenarioC memoryD _
      memoryD (by rfl) scenarioC_wellLinked).1⟩

/-! ## `dropBuffer` -/

/-- C14: every `dropBuffer` that completes ends in state Free with the caller's pointer
null; on a Free buffer called with a null pointer it changes nothing; on a Hold buffer it
is `onFree` (same result, same failure); on an Active buffer it is `onHold` followed by
`onFree`, and the `onHold` step leaves the buffer in Hold with
`hold_elems = used_elems - dead_elems`, the precondition of `onFree`. -/
theorem dropBuffer_spec (w : Store) (self : Nat) (buffer : Option Nat) :
    (∀ w' p', BufferState.dropBuffer w self buffer = .ok (w', p') →
      (w'.buffers self)._state = .FREE ∧ p' = none) ∧
    ((w.buffers self)._state = .FREE → buffer = none →
      BufferState.dropBuffer w self buffer = .ok (w, none)) ∧
    ((w.buffers self)._state = .HOLD →
      (buffer ≠ none →
        BufferState.dropBuffer w self buffer = BufferState.onFree w self buffer) ∧
      (∀ r, BufferState.dropBuffer w self buffer = .ok r →
        BufferState.onFree w self buffer = .ok r)) ∧
    ((w.buffers self)._state = .ACTIVE →
      (buffer ≠ none →
        BufferState.dropBuffer w self buffer =
          match BufferState.onHold w self with
          | .error e => .error e
          | .ok w1 => BufferState.onFree w1 self buffer) ∧
      (∀ r, BufferState.dropBuffer w self buffer = .ok r →
        ∃ w1, BufferState.onHold w self = .ok w1 ∧
          BufferState.onFree w1 self buffer = .ok r) ∧
      (∀ w1, BufferState.onHold w self = .ok w1 →
        (w1.buffers self)._state = .HOLD ∧
        (w1.buffers self)._deadElems ≤ (w1.buffers self)._usedElems ∧
        (w1.buffers self)._holdElems
          = sub64 (w1.buffers self)._usedElems (w1.buffers self)._deadElems ∧
        ((w1.buffers self)._usedElems < 2 ^ 64 →
          (w1.buffers self)._holdElems
            = (w1.buffers self)._usedElems - (w1.buffers self)._deadElems))) := by
  refine ⟨?_, ?_, ?_, ?_⟩
  · intro w' p' h
    rcases dropBuffer_ok_inv w self buffer w' p' h with
      ⟨hs, hw, -, hp⟩ | ⟨-, hf⟩ | ⟨-, w1, -, hf⟩
    · subst hw
      exact ⟨hs, hp⟩
    · obtain ⟨-, hp, -, -, hself⟩ := onFree_frame w self buffer w' p' hf
      exact ⟨by rw [hself], hp⟩
    · obtain ⟨-, hp, -, -, hself⟩ := onFree_frame w1 self buffer w' p' hf
      exact ⟨by rw [hself], hp⟩
  · intro hs hb
    simp [BufferState.dropBuffer, hs, hb]
  · intro hs
    refine ⟨dropBuffer_hold w self buffer hs, ?_⟩
    rintro ⟨w', p'⟩ h
    rcases dropBuffer_ok_inv w self buffer w' p' h with
      ⟨hs2, -⟩ | ⟨-, hf⟩ | ⟨hs2, -⟩
    · rw [hs] at hs2
      cases hs2
    · exact hf
    · rw [hs] at hs2
      cases hs2
  · intro hs
    refine ⟨dropBuffer_active w self buffer hs, ?_, ?_⟩
    · rintro ⟨w', p'⟩ h
      rcases dropBuffer_ok_inv w self buffer w' p' h with
        ⟨hs2, -⟩ | ⟨hs2, -⟩ | ⟨-, w1, hh, hf⟩
      · rw [hs] at hs2
        cases hs2
      · rw [hs] at hs2
        cases hs2
      · exact ⟨w1, hh, hf⟩
    · intro w1 hh
      obtain ⟨-, hdead, -, -, hself⟩ := onHold_frame w self w1 hh
      rw [hself]
      refine ⟨rfl, hdead, rfl, ?_⟩
      intro hused
      exact sub64_eq _ _ hused hdead

/-- Scenario C: dropping the Active buffer 0 succeeds, ends in Free, and is `onHold`
followed by `onFree`. -/
theorem dropBuffer_spec_witness :
    (scenarioC.buffers 0)._state = .ACTIVE ∧
    BufferState.dropBuffer scenarioC 0 (some 4096)
      = .ok (storeOf (BufferState.dropBuffer scenarioC 0 (some 4096)) scenarioC, none) ∧
    ((storeOf (BufferState.dropBuffer scenarioC 0 (some 4096)) scenarioC).buffers 0)._state
      = .FREE ∧
    ∃ w1, BufferState.onHold scenarioC 0 = .ok w1 ∧
      BufferState.onFree w1 0 (some 4096)
        = .ok (storeOf (BufferState.dropBuffer scenarioC 0 (some 4096)) scenarioC, none) :=
  ⟨by decide, by rfl,
    ((dropBuffer_spec scenarioC 0 (some 4096)).1 _ _ (by rfl)).1,
    ((dropBuffer_spec scenarioC 0 (some 4096)).2.2.2 (by decide)).2.1 _ (by rfl)⟩

/-! ## `setFreeListList` -/

/-- C15: `setFreeListList` with the current anchor returns the store unchanged; calling
it a second time with the same anchor changes nothing any more; and on a buffer in state
Free a call with a non-null anchor returns the store unchanged, so the anchor reference
of the buffer is what it was before. -/
theorem setFreeListList_same_anchor (w : Store) (self : Nat) :
    setFreeListList w self (w.buffers self)._freeListList = .ok w ∧
    (∀ a w1, setFreeListList w self a = .ok w1 → setFreeListList w1 self a = .ok w1) ∧
    (∀ a, (w.buffers self)._state = .FREE → a ≠ none →
      setFreeListList w self a = .ok w) := by
  refine ⟨setFreeListList_noop w self _ (Or.inr rfl), ?_, ?_⟩
  · intro a w1 h
    obtain ⟨-, -, hsf, -, -, hanchor⟩ := setFreeListList_frame w self a w1 h
    have hst : (w1.buffers self)._state = (w.buffers self)._state :=
      congrArg (·._state) (hsf self)
    by_cases h1 : (w.buffers self)._state = .FREE ∧ a ≠ none
    · exact setFreeListList_noop w1 self a (Or.inl ⟨by rw [hst]; exact h1.1, h1.2⟩)
    · exact setFreeListList_noop w1 self a (Or.inr (hanchor h1).symm)
  · intro a hs hne
    exact setFreeListList_noop w self a (Or.inl ⟨hs, hne⟩)

/-- Scenario C: setting anchor 0 again on buffer 0 changes nothing; scenario A: setting
anchor 3 on the Free buffer 0 changes nothing. -/
theorem setFreeListList_same_anchor_witness :
    setFreeListList scenarioC 0 (some 0) = .ok scenarioC ∧
    setFreeListList scenarioA 0 (some 3) = .ok scenarioA :=
  ⟨(setFreeListList_same_anchor scenarioC 0).1,
    (setFreeListList_same_anchor scenarioA 0).2.2 (some 3) rfl (by decide)⟩

/-- C16: for an Active buffer with a non-empty local free list that is a member of the
well-formed circular list of anchor `A`: `setFreeListList(B)` with another non-null
anchor `B` completes when the head of `B` (if any) is another buffer with a predecessor,
and every such call that completes removes the buffer from the list of `A` (the head of
`A` becomes empty or the successor), makes it the head of `B` with both links non-null and
keeps the local free list; `setFreeListList(None)` completes, removes the buffer from the
list of `A`, leaves its links null and no reference to it, and empties the local free
list. -/
theorem setFreeListList_moves (w : Store) (self A n p : Nat)
    (hstate : (w.buffers self)._state = .ACTIVE)
    (ha : (w.buffers self)._freeListList = some A)
    (hfl : (w.buffers self)._freeList ≠ [])
    (hn : (w.buffers self)._nextHasFree = some n)
    (hp : (w.buffers self)._prevHasFree = some p)
    (hsingle : n = self → p = self ∧ (w.lists A)._head = some self)
    (hmulti : n ≠ self → p ≠ self)
    (hrefs : OnlyNeighboursRefer w self) :
    (∀ B, B ≠ A →
      ((∀ hd, (w.lists B)._head = some hd →
          hd ≠ self ∧ (w.buffers hd)._prevHasFree ≠ none) →
        ∃ w', setFreeListList w self (some B) = .ok w') ∧
      (∀ w', setFreeListList w self (some B) = .ok w' →
        (n = self → (w'.lists A)._head = none) ∧
        (n ≠ self → (w'.lists A)._head = some n) ∧
        (w'.lists B)._head = some self ∧
        (w'.buffers self)._freeListList = some B ∧
        (w'.buffers self)._freeList = (w.buffers self)._freeList ∧
        (w'.buffers self)._nextHasFree ≠ none ∧ (w'.buffers self)._prevHasFree ≠ none ∧
        OnlyNeighboursRefer w' self)) ∧
    (∃ w', setFreeListList w self none = .ok w' ∧
      (n = self → (w'.lists A)._head = none) ∧
      (n ≠ self → (w'.lists A)._head = some n) ∧
      (w'.buffers self)._nextHasFree = none ∧ (w'.buffers self)._prevHasFree = none ∧
      (w'.buffers self)._freeList = [] ∧
      (w'.buffers self)._freeListList = none ∧
      (∀ x, (w'.buffers x)._nextHasFree ≠ some self ∧
        (w'.buffers x)._prevHasFree ≠ some self) ∧
      (∀ fuel, self ∉ followNext w' fuel (w'.lists A)._head)) := by
  obtain ⟨w1, hr, h1s, h1m, h1n, h1p, h1next, h1prev, h1lists⟩ :=
    remove_links w self A n p ha hn hp hsingle hmulti
  have hnorefs := remove_no_refs w self w1 hr hrefs
  obtain ⟨-, -, hsl, -, -, -, -⟩ := remove_frame w self w1 hr
  have hheadA : (w1.lists A)._head ≠ some self := by
    by_cases hns : n = self
    · rw [h1s hns]
      simp
    · rw [(h1m hns).1]
      simpa using hns
  refine ⟨fun B hB => ⟨?_, ?_⟩, ?_⟩
  · -- the move completes
    intro hhd
    rw [setFreeListList_move_eq w self A B hstate ha hfl hB, hr]
    have ha2 : ((w1.setBuffer self { w1.buffers self with
        _freeListList := some B }).buffers self)._freeListList = some B := by
      simp [Store.setBuffer]
    have hn2 : ((w1.setBuffer self { w1.buffers self with
        _freeListList := some B }).buffers self)._nextHasFree = none := by
      rw [(setAnchor_links w1 self (some B) self).1, h1n]
    have hp2 : ((w1.setBuffer self { w1.buffers self with
        _freeListList := some B }).buffers self)._prevHasFree = none := by
      rw [(setAnchor_links w1 self (some B) self).2, h1p]
    have hl2 : (w1.setBuffer self { w1.buffers self with
        _freeListList := some B }).lists B = w.lists B := h1lists B hB
    cases hh : (w.lists B)._head with
    | none =>
      exact ⟨_, add_empty _ self B ha2 (by rw [hl2, hh]) hn2 hp2⟩
    | some hd =>
      obtain ⟨hds, hdp⟩ := hhd hd hh
      have hq : ∃ q, ((w1.setBuffer self { w1.buffers self with
          _freeListList := some B }).buffers hd)._prevHasFree = some q := by
        rw [(setAnchor_links w1 self (some B) hd).2]
        by_cases hdn : hd = n
        · subst hdn
          exact ⟨p, (h1m hds).2.2⟩
        · rw [h1prev hd hds hdn]
          exact exists_of_ne_none hdp
      obtain ⟨q, hq⟩ := hq
      exact ⟨_, add_nonempty _ self B hd q ha2 (by rw [hl2, hh]) hds hn2 hp2 hq⟩
  · -- what a completed move leaves behind
    intro w' h
    rw [setFreeListList_move_eq w self A B hstate ha hfl hB, hr] at h
    simp only at h
    obtain ⟨-, -, hsl2, hnn, hpn, hlists2⟩ := add_frame _ self w' h
    have hA : w'.lists A = w1.lists A := by
      have := hlists2 A (by simp [Store.setBuffer, hB])
      simpa [Store.setBuffer] using this
    have hself := hsl2 self
    simp only [Store.setBuffer, upd_same] at hself
    refine ⟨fun e => by rw [hA]; exact h1s e, fun e => by rw [hA]; exact (h1m e).1,
      add_head _ self B w' h (by simp [Store.setBuffer]), ?_, ?_, hnn, hpn, ?_⟩
    · simpa [sansLinks] using congrArg (·._freeListList) hself
    · have e1 := congrArg (·._freeList) hself
      have e2 := congrArg (·._freeList) (hsl self)
      simp only [sansLinks] at e1 e2
      rw [e1, e2]
    · refine add_refs _ self w' h ?_
      intro x
      rw [(setAnchor_links w1 self (some B) x).1, (setAnchor_links w1 self (some B) x).2]
      exact hnorefs x
  · -- taking the anchor away
    refine ⟨w1.setBuffer self { w1.buffers self with
      _freeListList := none, _freeList := [] }, ?_, ?_⟩
    · rw [setFreeListList_none_eq w self A hstate ha hfl, hr]
    · have hlinks : ∀ x, ((w1.setBuffer self { w1.buffers self with
          _freeListList := none, _freeList := [] }).buffers x)._nextHasFree ≠ some self ∧
          ((w1.setBuffer self { w1.buffers self with
          _freeListList := none, _freeList := [] }).buffers x)._prevHasFree ≠ some self := by
        intro x
        by_cases hx : x = self
        · subst hx
          simp [Store.setBuffer, h1n, h1p]
        · simpa [Store.setBuffer, upd_ne _ _ _ _ hx] using hnorefs x
      refine ⟨h1s, fun e => (h1m e).1, by simp [Store.setBuffer, h1n],
        by simp [Store.setBuffer, h1p], by simp [Store.setBuffer], by simp [Store.setBuffer],
        hlinks, ?_⟩
      intro fuel
      exact not_mem_followNext _ self (fun x => (hlinks x).1) fuel _ hheadA

/-- Scenario C: moving buffer 0 to anchor 1 leaves buffer 1 as the head of anchor 0 and
keeps the free list `[3, 5, 7]`; setting no anchor empties the free list. -/
theorem setFreeListList_moves_witness :
    (∃ w', setFreeListList scenarioC 0 (some 1) = .ok w' ∧
      (w'.lists 0)._head = some 1 ∧ (w'.lists 1)._head = some 0 ∧
      (w'.buffers 0)._freeList = [3, 5, 7]) ∧
    (∃ w', setFreeListList scenarioC 0 none = .ok w' ∧
      (w'.lists 0)._head = some 1 ∧ (w'.buffers 0)._freeList = []) := by
  have key := setFreeListList_moves scenarioC 0 0 1 1 (by decide) (by decide) (by decide)
    (by decide) (by decide) (by decide) (by decide) scenarioC_refs
  constructor
  · obtain ⟨w', h⟩ := (key.1 1 (by decide)).1 (by decide)
    obtain ⟨-, hA, hB, -, hf, -⟩ := (key.1 1 (by decide)).2 w' h
    exact ⟨w', h, hA (by decide), hB, hf⟩
  · obtain ⟨w', h, -, hA, -, -, hf, -⟩ := key.2
    exact ⟨w', h, hA (by decide), hf⟩

/-! ## The circular list of an anchor -/

/-- C17, as amended: after every successful sequence of `addToFreeListList` and
`removeFromFreeListList` operations on the buffers of one anchor, started with an empty
list, in which every removal removes the buffer that is the head at that time, the head
of the anchor is the member that was linked most recently among the buffers currently in
the list (and empty when no buffer is left); a `removeFromFreeListList` of any member
makes the successor of the removed member the head, or empties the head when the member
was the only one. -/
theorem freeList_head_most_recent :
    (∀ (ops : List LinkOp) (w w' : Store) (a : Nat),
      (w.lists a)._head = none →
      (∀ op, op ∈ ops → (w.buffers op.buffer)._freeListList = some a) →
      removesHeadOnly ops [] = true →
      runLinks ops w = .ok w' →
      (w'.lists a)._head = (linkedOrder ops).head?) ∧
    (∀ (w : Store) (self a : Nat) (w' : Store),
      (w.buffers self)._freeListList = some a →
      removeFromFreeListList w self = .ok w' →
      ((w.buffers self)._nextHasFree = some self → (w'.lists a)._head = none) ∧
      (∀ n, (w.buffers self)._nextHasFree = some n → n ≠ self →
        (w'.lists a)._head = some n)) := by
  constructor
  · intro ops w w' a hstart hanchor hheads hrun
    exact ring_head w' a _ (ring_run a ops w [] w' hstart hanchor hheads hrun)
  · intro w self a w' ha h
    obtain ⟨a2, n, p, ha2, hn, hp, hcase⟩ := remove_ok_inv w self w' h
    rw [ha] at ha2
    simp only [Option.some.injEq] at ha2
    subst ha2
    have hs : n = self → p = self ∧ (w.lists a)._head = some self := by
      intro e
      rcases hcase with ⟨-, h2, h3⟩ | ⟨h1, -⟩
      · exact ⟨h2, h3⟩
      · exact absurd e h1
    have hm : n ≠ self → p ≠ self := by
      intro e
      rcases hcase with ⟨h1, -, -⟩ | ⟨-, h2⟩
      · exact absurd h1 e
      · exact h2
    obtain ⟨w'', h2, h1s, h1m, -⟩ := remove_links w self a n p ha hn hp hs hm
    rw [h] at h2
    simp only [Except.ok.injEq] at h2
    subst h2
    constructor
    · intro e
      rw [hn] at e
      exact h1s (Option.some.inj e)
    · intro n2 e hne
      rw [hn] at e
      have := Option.some.inj e
      subst this
      exact (h1m hne).1

/-- Linking buffers 1, 2 and 3 and removing the head 3 leaves buffer 2, the most recently
linked of the remaining members, as the head. -/
theorem freeList_head_most_recent_witness :
    (linkStore.lists 0)._head = none ∧
    removesHeadOnly [.add 1, .add 2, .add 3, .remove 3] [] = true ∧
    runLinks [.add 1, .add 2, .add 3, .remove 3] linkStore
      = .ok (storeAfter (runLinks [.add 1, .add 2, .add 3, .remove 3] linkStore)
          linkStore) ∧
    ((storeAfter (runLinks [.add 1, .add 2, .add 3, .remove 3] linkStore)
      linkStore).lists 0)._head = some 2 :=
  ⟨rfl, by decide, by rfl,
    freeList_head_most_recent.1 [.add 1, .add 2, .add 3, .remove 3] linkStore
      (storeAfter (runLinks [.add 1, .add 2, .add 3, .remove 3] linkStore) linkStore) 0
      rfl (fun _ _ => rfl) (by decide) (by rfl)⟩

/-- C17 as stated fails when a member other than the head is removed: after linking
buffers 1, 2 and 3 and removing buffer 2 the list holds 3 and 1, buffer 3 is the one
linked most recently, and the head is buffer 1, the successor of the removed buffer
(line 308). -/
theorem freeList_head_not_most_recent :
    runLinks [.add 1, .add 2, .add 3, .remove 2] linkStore
      = .ok (storeAfter (runLinks [.add 1, .add 2, .add 3, .remove 2] linkStore) linkStore) ∧
    linkedOrder [.add 1, .add 2, .add 3, .remove 2] = [3, 1] ∧
    headAfter (runLinks [.add 1, .add 2, .add 3, .remove 2] linkStore) 0 = some 1 := by
  refine ⟨by rfl, by decide, by decide⟩

/-- C18: `removeFromFreeListList` on a member `self` of a well-formed circular list, with
successor `n` and predecessor `p`, completes; if `self` is the only member the head of
the anchor becomes empty; otherwise the head becomes `n` and `p` and `n` are linked to
each other, every other link, every other anchor and every other field of every buffer
being as before; in both cases the links of `self` become null. -/
theorem removeFromFreeListList_unlinks (w : Store) (self a n p : Nat)
    (ha : (w.buffers self)._freeListList = some a)
    (hn : (w.buffers self)._nextHasFree = some n)
    (hp : (w.buffers self)._prevHasFree = some p)
    (hsingle : n = self → p = self ∧ (w.lists a)._head = some self)
    (hmulti : n ≠ self → p ≠ self) :
    ∃ w', removeFromFreeListList w self = .ok w' ∧
      (n = self → (w'.lists a)._head = none) ∧
      (n ≠ self → (w'.lists a)._head = some n ∧
        (w'.buffers p)._nextHasFree = some n ∧ (w'.buffers n)._prevHasFree = some p) ∧
      (w'.buffers self)._nextHasFree = none ∧ (w'.buffers self)._prevHasFree = none ∧
      (∀ x, x ≠ self → x ≠ p →
        (w'.buffers x)._nextHasFree = (w.buffers x)._nextHasFree) ∧
      (∀ x, x ≠ self → x ≠ n →
        (w'.buffers x)._prevHasFree = (w.buffers x)._prevHasFree) ∧
      (∀ b, b ≠ a → w'.lists b = w.lists b) ∧
      (∀ x, sansLinks (w'.buffers x) = sansLinks (w.buffers x)) := by
  obtain ⟨w', h, h1, h2, h3, h4, h5, h6, h7⟩ :=
    remove_links w self a n p ha hn hp hsingle hmulti
  exact ⟨w', h, h1, h2, h3, h4, h5, h6, h7, (remove_frame w self w' h).2.2.1⟩

/-- Scenario C: removing buffer 0 leaves buffer 1 as the head and only member, linked to
itself. -/
theorem removeFromFreeListList_unlinks_witness :
    ∃ w', removeFromFreeListList scenarioC 0 = .ok w' ∧ (w'.lists 0)._head = some 1 ∧
      (w'.buffers 1)._nextHasFree = some 1 ∧ (w'.buffers 1)._prevHasFree = some 1 ∧
      (w'.buffers 0)._nextHasFree = none ∧ (w'.buffers 0)._prevHasFree = none := by
  obtain ⟨w', h, -, hm, hn, hp, -⟩ := removeFromFreeListList_unlinks scenarioC 0 0 1 1
    (by decide) (by decide) (by decide) (by decide) (by decide)
  obtain ⟨h1, h2, h3⟩ := hm (by decide)
  exact ⟨w', h, h1, h2, h3, hn, hp⟩

/-! ## `fallbackResize` -/

/-- C19, as amended: `fallbackResize` completes on an Active buffer with an empty hold
slot when `calcClustersToAlloc` returns `c`, the two size assertions hold and the copy
succeeds; and every `fallbackResize` that completes was called on an Active buffer with
an empty hold slot, leaves the state Active, leaves `used_elems`, `dead_elems`,
`hold_elems` and the free-list fields unchanged, moves the prior allocation into the
caller's hold slot, makes the buffer's and the caller's pointer refer to the new
allocation, which holds a copy of the first `used_elems` elements the caller's pointer
referred to, and sets `alloc_elems` to `c * cluster_size`, which is strictly greater than
the old `alloc_elems`, at least `used_elems + size_needed` in `size_t` arithmetic, and at
least `used_elems + size_needed` whenever that sum is below `2^64`. -/
theorem fallbackResize_effect (w : Store) (mem : Memory) (self bufferId : Nat)
    (sizeNeeded maxClusters : Nat) (buffer holdBuffer : Option Nat)
    (elementSize : Nat → Nat) (create : Nat → Option Nat) :
    (∀ th c mem', (w.buffers self)._state = .ACTIVE →
      (w.buffers self)._typeHandler = some th →
      holdBuffer = none →
      calcClustersToAlloc w th bufferId sizeNeeded maxClusters = .ok c →
      add64 (w.buffers self)._usedElems sizeNeeded ≤ c * (w.types th)._clusterSize →
      (w.buffers self)._allocElems < c * (w.types th)._clusterSize →
      fallbackCopy mem (create (mul64 (c * (w.types th)._clusterSize) (elementSize th)))
        buffer (w.buffers self)._usedElems = .ok mem' →
      ∃ r, BufferState.fallbackResize w mem self bufferId sizeNeeded maxClusters buffer
        holdBuffer elementSize create = .ok r) ∧
    (∀ w' mem' buffer' holdBuffer',
      BufferState.fallbackResize w mem self bufferId sizeNeeded maxClusters buffer
        holdBuffer elementSize create = .ok (w', mem', buffer', holdBuffer') →
      (w.buffers self)._state = .ACTIVE ∧ holdBuffer = none ∧
      (w'.buffers self)._state = .ACTIVE ∧
      (w'.buffers self)._usedElems = (w.buffers self)._usedElems ∧
      (w'.buffers self)._deadElems = (w.buffers self)._deadElems ∧
      (w'.buffers self)._holdElems = (w.buffers self)._holdElems ∧
      (w'.buffers self)._freeList = (w.buffers self)._freeList ∧
      (w'.buffers self)._freeListList = (w.buffers self)._freeListList ∧
      (w'.buffers self)._nextHasFree = (w.buffers self)._nextHasFree ∧
      (w'.buffers self)._prevHasFree = (w.buffers self)._prevHasFree ∧
      holdBuffer' = (w.buffers self)._buffer ∧
      (w'.buffers self)._buffer = buffer' ∧
      (∃ th c, (w.buffers self)._typeHandler = some th ∧
        calcClustersToAlloc w th bufferId sizeNeeded maxClusters = .ok c ∧
        buffer' = create (mul64 (c * (w.types th)._clusterSize) (elementSize th)) ∧
        (w'.buffers self)._allocElems = c * (w.types th)._clusterSize) ∧
      (w.buffers self)._allocElems < (w'.buffers self)._allocElems ∧
      add64 (w.buffers self)._usedElems sizeNeeded ≤ (w'.buffers self)._allocElems ∧
      ((w.buffers self)._usedElems + sizeNeeded < 2 ^ 64 →
        (w.buffers self)._usedElems + sizeNeeded ≤ (w'.buffers self)._allocElems) ∧
      ((w.buffers self)._usedElems ≠ 0 →
        ∃ d s, buffer' = some d ∧ buffer = some s ∧
          ∀ i, i < (w.buffers self)._usedElems → mem' d i = mem s i) ∧
      (∀ x, x ≠ self → w'.buffers x = w.buffers x) ∧
      w'.lists = w.lists ∧ w'.types = w.types) := by
  constructor
  · intro th c mem' hstate hth hhold hc hsize hgrow hcopy
    subst hhold
    exact fallbackResize_ok w mem self bufferId sizeNeeded maxClusters buffer elementSize
      create th c mem' hstate hth hc hsize hgrow hcopy
  · intro w' mem' buffer' holdBuffer' h
    obtain ⟨hstate, hhold, th, c, mem2, hth, hc, hsize, hgrow, hcopy, hr⟩ :=
      fallbackResize_ok_inv w mem self bufferId sizeNeeded maxClusters buffer holdBuffer
        elementSize create _ h
    simp only [Prod.mk.injEq] at hr
    obtain ⟨hw, hm, hb, hh⟩ := hr
    subst hw
    subst hm
    subst hb
    subst hh
    obtain ⟨-, hcp⟩ := fallbackCopy_spec _ _ _ _ _ hcopy
    refine ⟨hstate, hhold, by simpa using hstate, by simp, by simp, by simp, by simp,
      by simp, by simp, by simp, rfl, by simp, ⟨th, c, hth, hc, rfl, by simp⟩,
      by simpa using hgrow, by simpa using hsize, ?_, ?_, ?_, rfl, rfl⟩
    · intro hnw
      have := Nat.mod_eq_of_lt hnw
      simp only [add64] at hsize
      rw [this] at hsize
      simpa using hsize
    · intro hu
      obtain ⟨d, s, hd, hs, hcopied, -⟩ := hcp hu
      exact ⟨d, s, hd, hs, hcopied⟩
    · intro x hx
      simp [upd_ne _ _ _ _ hx]

/-- Scenario D: resizing the buffer with `used_elems = 100` for 3 more elements succeeds,
puts the block at 4096 into the hold slot, publishes the block at 8192 and keeps
`used_elems = 100` in a larger allocation. -/
theorem fallbackResize_effect_witness :
    BufferState.fallbackResize scenarioD memoryD 0 1 3 (2 ^ 32) (some 4096) none
        (fun _ => 4) always8192
      = .ok (resizedStore (BufferState.fallbackResize scenarioD memoryD 0 1 3 (2 ^ 32)
            (some 4096) none (fun _ => 4) always8192) scenarioD,
          resizedMemory (BufferState.fallbackResize scenarioD memoryD 0 1 3 (2 ^ 32)
            (some 4096) none (fun _ => 4) always8192) memoryD,
          some 8192, some 4096) ∧
    ((resizedStore (BufferState.fallbackResize scenarioD memoryD 0 1 3 (2 ^ 32)
        (some 4096) none (fun _ => 4) always8192) scenarioD).buffers 0)._usedElems = 100 ∧
    100 < ((resizedStore (BufferState.fallbackResize scenarioD memoryD 0 1 3 (2 ^ 32)
        (some 4096) none (fun _ => 4) always8192) scenarioD).buffers 0)._allocElems :=
  ⟨by rfl,
    ((fallbackResize_effect scenarioD memoryD 0 1 3 (2 ^ 32) (some 4096) none
      (fun _ => 4) always8192).2 _ _ _ _ (by rfl)).2.2.2.1,
    ((fallbackResize_effect scenarioD memoryD 0 1 3 (2 ^ 32) (some 4096) none
      (fun _ => 4) always8192).2 _ _ _ _ (by rfl)).2.2.2.2.2.2.2.2.2.2.2.2.2.1⟩

/-- C19 as stated fails when `used_elems + size_needed` wraps: with `cluster_size = 64`,
`used_elems = 128`, `alloc_elems = 256` and `size_needed = 2^64 - 50` the sum of line 339
wraps to 78, `fallbackResize` completes with `alloc_elems = 384`, and 384 is below
`used_elems + size_needed`. -/
theorem fallbackResize_alloc_below_request :
    BufferState.fallbackResize scenarioWide memoryD 0 1 (2 ^ 64 - 50) (2 ^ 32) (some 4096)
        none (fun _ => 4) always8192
      = .ok (resizedStore (BufferState.fallbackResize scenarioWide memoryD 0 1 (2 ^ 64 - 50)
            (2 ^ 32) (some 4096) none (fun _ => 4) always8192) scenarioWide,
          resizedMemory (BufferState.fallbackResize scenarioWide memoryD 0 1 (2 ^ 64 - 50)
            (2 ^ 32) (some 4096) none (fun _ => 4) always8192) memoryD,
          some 8192, some 4096) ∧
    (scenarioWide.buffers 0)._usedElems = 128 ∧
    ((resizedStore (BufferState.fallbackResize scenarioWide memoryD 0 1 (2 ^ 64 - 50)
        (2 ^ 32) (some 4096) none (fun _ => 4) always8192) scenarioWide).buffers 0)._allocElems
      = 384 ∧
    ¬ (384 ≥ 128 + (2 ^ 64 - 50)) := by
  refine ⟨by rfl, by decide, by rfl, by decide⟩

/-! ## `BufferTypeBase::onActive` -/

/-- Closed form of `BufferTypeBase::onHold`. -/
theorem typeOnHold_eq (w : Store) (th self : Nat) :
    BufferTypeBase.onHold w th self =
      if (w.buffers self)._usedElems ≤ flushedActiveUsed w th self then
        .ok { w with types := upd w.types th { w.types th with
          _activeBuffers := dec32 (w.types th)._activeBuffers
          _holdBuffers := inc32 (w.types th)._holdBuffers
          _activeUsedElems := sub64 (flushedActiveUsed w th self) (w.buffers self)._usedElems
          _holdUsedElems := add64 (w.types th)._holdUsedElems (w.buffers self)._usedElems
          _lastUsedElems :=
            if some self = (w.types th)._lastUsedElems then none
            else (w.types th)._lastUsedElems } }
      else .error (.assertion 73) := by
  by_cases hl : some self = (w.types th)._lastUsedElems
  · have hl2 : (w.types th)._lastUsedElems = some self := hl.symm
    by_cases hge : (w.buffers self)._usedElems
        ≤ add64 (w.types th)._activeUsedElems (w.buffers self)._usedElems
    · simp [BufferTypeBase.onHold, flushedActiveUsed, hl2, flushLastUsed, Store.setType, hge]
    · simp [BufferTypeBase.onHold, flushedActiveUsed, hl2, flushLastUsed, Store.setType, hge]
  · by_cases hge : (w.buffers self)._usedElems ≤ (w.types th)._activeUsedElems
    · simp [BufferTypeBase.onHold, flushedActiveUsed, hl, Store.setType, hge]
    · simp [BufferTypeBase.onHold, flushedActiveUsed, hl, Store.setType, hge]

/-- Closed form of `BufferTypeBase::onFree`. -/
theorem typeOnFree_eq (w : Store) (th usedElems : Nat) :
    BufferTypeBase.onFree w th usedElems =
      if usedElems ≤ (w.types th)._holdUsedElems then
        .ok { w with types := upd w.types th { w.types th with
          _holdBuffers := dec32 (w.types th)._holdBuffers
          _holdUsedElems := sub64 (w.types th)._holdUsedElems usedElems } }
      else .error (.assertion 83) := by
  by_cases hge : usedElems ≤ (w.types th)._holdUsedElems
  · simp [BufferTypeBase.onFree, Store.setType, hge]
  · simp [BufferTypeBase.onFree, Store.setType, hge]

/-- The type entries after a successful `BufferState::onActive`. -/
theorem onActive_types (w : Store) (self bufferId typeId typeHandler : Nat)
    (sizeNeeded maxClusters : Nat) (buffer : Option Nat) (elementSize : Nat)
    (create : Nat → Option Nat) (w' : Store) (p' : Option Nat)
    (h : BufferState.onActive w self bufferId typeId typeHandler sizeNeeded maxClusters buffer
      elementSize create = .ok (w', p')) :
    w'.types typeHandler = { w.types typeHandler with
        _activeUsedElems := effectiveUsedElems w typeHandler
        _activeBuffers := inc32 (w.types typeHandler)._activeBuffers
        _lastUsedElems := some self } ∧
      ∀ x, x ≠ typeHandler → w'.types x = w.types x := by
  obtain ⟨hb, hfree, c, p, hcalc, hsize, hcreate⟩ :=
    onActive_ok_inv w self bufferId typeId typeHandler sizeNeeded maxClusters buffer
      elementSize create w' p' h
  subst hb
  rw [onActive_eq w self bufferId typeId typeHandler sizeNeeded maxClusters elementSize
    create c p hfree hcalc hsize hcreate] at h
  simp only [Except.ok.injEq, Prod.mk.injEq] at h
  obtain ⟨hw, -⟩ := h
  subst hw
  constructor
  · rw [typeOnActive_type]
    have he : effectiveUsedElems
        { w with
          buffers := upd w.buffers self { w.buffers self with
            _buffer := some p
            _allocElems := c * (w.types typeHandler)._clusterSize
            _state := .ACTIVE
            _typeHandler := some typeHandler
            _typeId := typeId
            _clusterSize := (w.types typeHandler)._clusterSize }
          allocated := p :: w.allocated } typeHandler
        = effectiveUsedElems w typeHandler := by
      unfold effectiveUsedElems
      cases hl : (w.types typeHandler)._lastUsedElems with
      | none => simp [hl]
      | some q =>
        by_cases hq : q = self
        · subst hq
          simp [hl]
        · simp [hl, upd_ne _ _ _ _ hq]
    rw [he]
  · intro x hx
    rw [typeOnActive_type_ne _ _ _ _ _ _ _ hx]

/-- The type entries after a successful `BufferState::onHold`. -/
theorem onHold_types (w : Store) (self : Nat) (w' : Store)
    (h : BufferState.onHold w self = .ok w') :
    ∃ th, (w.buffers self)._typeHandler = some th ∧
      (w.buffers self)._usedElems ≤ flushedActiveUsed w th self ∧
      w'.types th = { w.types th with
        _activeBuffers := dec32 (w.types th)._activeBuffers
        _holdBuffers := inc32 (w.types th)._holdBuffers
        _activeUsedElems := sub64 (flushedActiveUsed w th self) (w.buffers self)._usedElems
        _holdUsedElems := add64 (w.types th)._holdUsedElems (w.buffers self)._usedElems
        _lastUsedElems :=
          if some self = (w.types th)._lastUsedElems then none
          else (w.types th)._lastUsedElems } ∧
      ∀ x, x ≠ th → w'.types x = w.types x := by
  obtain ⟨-, th, hth, -, -, w1, htype, htail⟩ := onHold_ok_inv w self w' h
  obtain ⟨ht, -⟩ := onHoldTail_frame w1 self w' htail
  rw [typeOnHold_eq] at htype
  have hf : flushedActiveUsed (w.setBuffer self { w.buffers self with
        _state := .HOLD
        _compacting := false
        _holdElems := sub64 (w.buffers self)._usedElems (w.buffers self)._deadElems })
      th self = flushedActiveUsed w th self := by
    simp [flushedActiveUsed, Store.setBuffer]
  rw [hf] at htype
  simp only [Store.setBuffer, upd_same] at htype
  by_cases hge : (w.buffers self)._usedElems ≤ flushedActiveUsed w th self
  · rw [if_pos hge] at htype
    simp only [Except.ok.injEq] at htype
    refine ⟨th, hth, hge, ?_, ?_⟩
    · rw [ht, ← htype]
      exact upd_same _ _ _
    · intro x hx
      rw [ht, ← htype]
      exact upd_ne _ _ _ _ hx
  · rw [if_neg hge] at htype
    cases htype

/-- The type entries after a successful `BufferState::onFree`. -/
theorem onFree_types (w : Store) (self : Nat) (buffer : Option Nat) (w' : Store)
    (p' : Option Nat) (h : BufferState.onFree w self buffer = .ok (w', p')) :
    ∃ th, (w.buffers self)._typeHandler = some th ∧
      (w.buffers self)._usedElems ≤ (w.types th)._holdUsedElems ∧
      w'.types th = { w.types th with
        _holdBuffers := dec32 (w.types th)._holdBuffers
        _holdUsedElems := sub64 (w.types th)._holdUsedElems (w.buffers self)._usedElems } ∧
      ∀ x, x ≠ th → w'.types x = w.types x := by
  obtain ⟨th, hbuf, hstate, hth, hdead, hhold, htype, hfl, hn, hp, hh⟩ :=
    onFree_ok_inv w self buffer (w', p') h
  have hh2 : ∀ a, (w.buffers self)._freeListList = some a →
      (w.lists a)._head ≠ some self := by
    intro a ha
    simpa [isHeadOfOwnList, ha] using hh
  subst hbuf
  refine ⟨th, hth, htype, ?_⟩
  cases ha : (w.buffers self)._freeListList with
  | none =>
    simp [BufferState.onFree, hstate, hth, hdead, hhold, BufferTypeBase.onFree,
      Store.setType, Store.setBuffer, htype, hfl, hn, hp, isHeadOfOwnList, ha,
      setFreeListList] at h
    obtain ⟨hw, -⟩ := h
    subst hw
    refine ⟨by simp, ?_⟩
    intro x hx
    simp [upd_ne _ _ _ _ hx]
  | some a =>
    have := hh2 a ha
    simp [BufferState.onFree, hstate, hth, hdead, hhold, BufferTypeBase.onFree,
      Store.setType, Store.setBuffer, htype, hfl, hn, hp, isHeadOfOwnList, ha,
      setFreeListList, this] at h
    obtain ⟨hw, -⟩ := h
    subst hw
    refine ⟨by simp, ?_⟩
    intro x hx
    simp [upd_ne _ _ _ _ hx]

/-- The limits of every type entry after a successful `BufferState::onActive`. -/
theorem onActive_limits (w : Store) (self bufferId typeId typeHandler : Nat)
    (sizeNeeded maxClusters : Nat) (buffer : Option Nat) (elementSize : Nat)
    (create : Nat → Option Nat) (w' : Store) (p' : Option Nat)
    (h : BufferState.onActive w self bufferId typeId typeHandler sizeNeeded maxClusters buffer
      elementSize create = .ok (w', p')) (x : Nat) :
    (w'.types x).limits = (w.types x).limits := by
  obtain ⟨h1, h2⟩ := onActive_types _ _ _ _ _ _ _ _ _ _ _ _ h
  by_cases hx : x = typeHandler
  · subst hx
    rw [h1]
    simp [BufferTypeBase.limits]
  · rw [h2 x hx]

/-- The limits of every type entry after a successful `BufferState::onHold`. -/
theorem onHold_limits (w : Store) (self : Nat) (w' : Store)
    (h : BufferState.onHold w self = .ok w') (x : Nat) :
    (w'.types x).limits = (w.types x).limits := by
  obtain ⟨th, -, -, h1, h2⟩ := onHold_types _ _ _ h
  by_cases hx : x = th
  · subst hx
    rw [h1]
    simp [BufferTypeBase.limits]
  · rw [h2 x hx]

/-- The limits of every type entry after a successful `BufferState::onFree`. -/
theorem onFree_limits (w : Store) (self : Nat) (buffer : Option Nat) (w' : Store)
    (p' : Option Nat) (h : BufferState.onFree w self buffer = .ok (w', p')) (x : Nat) :
    (w'.types x).limits = (w.types x).limits := by
  obtain ⟨th, -, -, h1, h2⟩ := onFree_types _ _ _ _ _ h
  by_cases hx : x = th
  · subst hx
    rw [h1]
    simp [BufferTypeBase.limits]
  · rw [h2 x hx]

/-- The type entries after a successful operation other than `onActive`, `onHold`,
`onFree` and `dropBuffer` are the type entries before it. -/
theorem fallbackResize_types (w : Store) (mem : Memory) (self bufferId : Nat)
    (sizeNeeded maxClusters : Nat) (buffer holdBuffer : Option Nat)
    (elementSize : Nat → Nat) (create : Nat → Option Nat)
    (r : Store × Memory × Option Nat × Option Nat)
    (h : BufferState.fallbackResize w mem self bufferId sizeNeeded maxClusters buffer
      holdBuffer elementSize create = .ok r) :
    r.1.types = w.types := by
  obtain ⟨-, -, th, c, mem2, -, -, -, -, -, hr⟩ :=
    fallbackResize_ok_inv w mem self bufferId sizeNeeded maxClusters buffer holdBuffer
      elementSize create r h
  subst hr
  rfl

/-- The limits of every type entry after a successful operation. -/
theorem run_limits (op : BufferOp) (w : Store) (mem : Memory) (w1 : Store) (mem1 : Memory)
    (h : op.run w mem = .ok (w1, mem1)) (x : Nat) :
    (w1.types x).limits = (w.types x).limits := by
  cases op with
  | onActive self bufferId typeId typeHandler sizeNeeded maxClusters buffer elementSize
      create =>
    simp only [BufferOp.run] at h
    cases hr : BufferState.onActive w self bufferId typeId typeHandler sizeNeeded maxClusters
        buffer elementSize create with
    | error e => simp [hr] at h
    | ok r =>
      obtain ⟨w2, p2⟩ := r
      simp only [hr, Except.ok.injEq, Prod.mk.injEq] at h
      obtain ⟨hw, -⟩ := h
      subst hw
      exact onActive_limits _ _ _ _ _ _ _ _ _ _ _ _ hr x
  | onHold self =>
    simp only [BufferOp.run] at h
    cases hr : BufferState.onHold w self with
    | error e => simp [hr] at h
    | ok w2 =>
      simp only [hr, Except.ok.injEq, Prod.mk.injEq] at h
      obtain ⟨hw, -⟩ := h
      subst hw
      exact onHold_limits _ _ _ hr x
  | onFree self buffer =>
    simp only [BufferOp.run] at h
    cases hr : BufferState.onFree w self buffer with
    | error e => simp [hr] at h
    | ok r =>
      obtain ⟨w2, p2⟩ := r
      simp only [hr, Except.ok.injEq, Prod.mk.injEq] at h
      obtain ⟨hw, -⟩ := h
      subst hw
      exact onFree_limits _ _ _ _ _ hr x
  | dropBuffer self buffer =>
    simp only [BufferOp.run] at h
    cases hr : BufferState.dropBuffer w self buffer with
    | error e => simp [hr] at h
    | ok r =>
      obtain ⟨w2, p2⟩ := r
      simp only [hr, Except.ok.injEq, Prod.mk.injEq] at h
      obtain ⟨hw, -⟩ := h
      subst hw
      rcases dropBuffer_ok_inv w self buffer _ _ hr with
        ⟨-, hw, -, -⟩ | ⟨-, hf⟩ | ⟨-, wm, hh, hf⟩
      · rw [hw]
      · exact onFree_limits _ _ _ _ _ hf x
      · rw [onFree_limits _ _ _ _ _ hf x, onHold_limits _ _ _ hh x]
  | setFreeListList self fll =>
    simp only [BufferOp.run] at h
    cases hr : setFreeListList w self fll with
    | error e => simp [hr] at h
    | ok w2 =>
      simp only [hr, Except.ok.injEq, Prod.mk.injEq] at h
      obtain ⟨hw, -⟩ := h
      subst hw
      rw [(setFreeListList_frame w self fll _ hr).1]
  | fallbackResize self bufferId sizeNeeded maxClusters buffer holdBuffer elementSize
      create =>
    simp only [BufferOp.run] at h
    cases hr : BufferState.fallbackResize w mem self bufferId sizeNeeded maxClusters buffer
        holdBuffer elementSize create with
    | error e => simp [hr] at h
    | ok r =>
      have ht := fallbackResize_types _ _ _ _ _ _ _ _ _ _ r hr
      obtain ⟨w2, m2, p2, q2⟩ := r
      simp only [hr, Except.ok.injEq, Prod.mk.injEq] at h
      obtain ⟨hw, -⟩ := h
      subst hw
      simp only at ht
      rw [ht]
  | disableElemHoldList self =>
    simp only [BufferOp.run, Except.ok.injEq, Prod.mk.injEq] at h
    obtain ⟨hw, -⟩ := h
    subst hw
    rfl

/-- A sum over `0, …, N - 1` depends on the summands below `N` only. -/
theorem sum_range_congr (f g : Nat → Nat) (N : Nat) (h : ∀ b, b < N → g b = f b) :
    ((List.range N).map g).sum = ((List.range N).map f).sum := by
  congr 1
  apply List.map_congr_left
  intro b hb
  exact h b (List.mem_range.1 hb)

/-- Changing one summand of a sum over `0, …, N - 1`. -/
theorem sum_range_update (f g : Nat → Nat) (N self : Nat) (hs : self < N)
    (h : ∀ b, b ≠ self → g b = f b) :
    ((List.range N).map g).sum + f self = ((List.range N).map f).sum + g self := by
  induction N with
  | zero => omega
  | succ n ih =>
    rw [List.range_succ, List.map_append, List.map_append, List.sum_append, List.sum_append]
    simp only [List.map_cons, List.map_nil, List.sum_cons, List.sum_nil, Nat.add_zero]
    by_cases hn : self = n
    · subst hn
      rw [sum_range_congr f g self (fun b hb => h b (by omega))]
      omega
    · have := ih (by omega)
      rw [h n (fun c => hn c.symm)]
      omega

/-- A sum over `0, …, N - 1` whose summands are all zero is zero. -/
theorem sum_range_zero (f : Nat → Nat) (N : Nat) (h : ∀ b, b < N → f b = 0) :
    ((List.range N).map f).sum = 0 := by
  rw [sum_range_congr (fun _ => 0) f N h]
  simp

/-- Subtraction of `size_t` values undoes addition, in the arithmetic of `size_t`. -/
theorem sub_add_modEq (M a b : Nat) (hM : 0 < M) :
    Nat.ModEq M ((a + (M - b % M)) % M + b) a := by
  have h1 : b % M < M := Nat.mod_lt b hM
  have e1 : Nat.ModEq M ((a + (M - b % M)) % M + b) (a + (M - b % M) + b % M) :=
    Nat.ModEq.add (Nat.mod_modEq _ _) (Nat.mod_modEq b M).symm
  have e2 : a + (M - b % M) + b % M = a + M := by omega
  rw [e2] at e1
  exact e1.trans (by simp [Nat.ModEq])

/-- Subtraction of `size_t` values undoes addition, in the arithmetic of `size_t`. -/
theorem sub64_add_modEq (a b : Nat) : Nat.ModEq (2 ^ 64) (sub64 a b + b) a :=
  sub_add_modEq (2 ^ 64) a b (Nat.two_pow_pos 64)

/-- The value of `add64` in the arithmetic of `size_t`. -/
theorem add64_modEq (a b : Nat) : Nat.ModEq (2 ^ 64) (add64 a b) (a + b) :=
  Nat.mod_modEq _ _

/-- The value of `inc32` in the arithmetic of a 32-bit counter. -/
theorem inc32_modEq (a : Nat) : Nat.ModEq (2 ^ 32) (inc32 a) (a + 1) :=
  Nat.mod_modEq _ _

/-- Decrement of a counter undoes increment, in the arithmetic of the counter. -/
theorem dec_add_modEq (K a : Nat) (hK : 0 < K) :
    Nat.ModEq K ((a + (K - 1)) % K + 1) a := by
  have e1 : Nat.ModEq K ((a + (K - 1)) % K + 1) (a + (K - 1) + 1) :=
    Nat.ModEq.add_right 1 (Nat.mod_modEq _ _)
  have e2 : a + (K - 1) + 1 = a + K := by omega
  rw [e2] at e1
  exact e1.trans (by simp [Nat.ModEq])

/-- Decrement of a 32-bit counter undoes increment, in the arithmetic of the counter. -/
theorem dec32_add_modEq (a : Nat) : Nat.ModEq (2 ^ 32) (dec32 a + 1) a :=
  dec_add_modEq (2 ^ 32) a (Nat.two_pow_pos 32)

/-- The results of the machine operations are in range. -/
theorem add64_lt (a b : Nat) : add64 a b < 2 ^ 64 := Nat.mod_lt _ (Nat.two_pow_pos 64)

/-- The results of the machine operations are in range. -/
theorem sub64_lt (a b : Nat) : sub64 a b < 2 ^ 64 := Nat.mod_lt _ (Nat.two_pow_pos 64)

/-- The results of the machine operations are in range. -/
theorem inc32_lt (a : Nat) : inc32 a < 2 ^ 32 := Nat.mod_lt _ (Nat.two_pow_pos 32)

/-- The results of the machine operations are in range. -/
theorem dec32_lt (a : Nat) : dec32 a < 2 ^ 32 := Nat.mod_lt _ (Nat.two_pow_pos 32)

/-- Whether a buffer is counted depends on its state and its type handler only. -/
theorem boundIn_congr (w w' : Store) (th : Nat) (s : State) (b : Nat)
    (hs : (w'.buffers b)._state = (w.buffers b)._state)
    (hh : (w'.buffers b)._typeHandler = (w.buffers b)._typeHandler) :
    boundIn w' th s b = boundIn w th s b := by
  simp [boundIn, hs, hh]

/-- The count after one buffer has changed. -/
theorem count_update (w w' : Store) (th N self : Nat) (s : State) (hself : self < N)
    (hother : ∀ b, b ≠ self → (w'.buffers b)._state = (w.buffers b)._state ∧
      (w'.buffers b)._typeHandler = (w.buffers b)._typeHandler) :
    countBound w' th N s + (if boundIn w th s self then 1 else 0)
      = countBound w th N s + (if boundIn w' th s self then 1 else 0) := by
  unfold countBound
  exact sum_range_update (fun b => if boundIn w th s b then 1 else 0)
    (fun b => if boundIn w' th s b then 1 else 0) N self hself
    (fun b hb => by
      try simp only []
      rw [boundIn_congr w w' th s b (hother b hb).1 (hother b hb).2])

/-- The sum of the used counts after one buffer has changed. -/
theorem sum_update (w w' : Store) (th N self : Nat) (s : State) (hself : self < N)
    (hother : ∀ b, b ≠ self → (w'.buffers b)._state = (w.buffers b)._state ∧
      (w'.buffers b)._typeHandler = (w.buffers b)._typeHandler ∧
      (w'.buffers b)._usedElems = (w.buffers b)._usedElems) :
    sumUsed w' th N s + (if boundIn w th s self then (w.buffers self)._usedElems else 0)
      = sumUsed w th N s
        + (if boundIn w' th s self then (w'.buffers self)._usedElems else 0) := by
  unfold sumUsed
  exact sum_range_update (fun b => if boundIn w th s b then (w.buffers b)._usedElems else 0)
    (fun b => if boundIn w' th s b then (w'.buffers b)._usedElems else 0) N self hself
    (fun b hb => by
      try simp only []
      rw [boundIn_congr w w' th s b (hother b hb).1 (hother b hb).2.1, (hother b hb).2.2])

/-- The count when no buffer has changed its state or its type handler. -/
theorem count_same (w w' : Store) (th N : Nat) (s : State)
    (hall : ∀ b, (w'.buffers b)._state = (w.buffers b)._state ∧
      (w'.buffers b)._typeHandler = (w.buffers b)._typeHandler) :
    countBound w' th N s = countBound w th N s := by
  unfold countBound
  exact sum_range_congr _ _ N (fun b _ => by
    try simp only []
    rw [boundIn_congr w w' th s b (hall b).1 (hall b).2])

/-- The sum of the used counts when no buffer has changed its state, its type handler or
its used count. -/
theorem sum_same (w w' : Store) (th N : Nat) (s : State)
    (hall : ∀ b, (w'.buffers b)._state = (w.buffers b)._state ∧
      (w'.buffers b)._typeHandler = (w.buffers b)._typeHandler ∧
      (w'.buffers b)._usedElems = (w.buffers b)._usedElems) :
    sumUsed w' th N s = sumUsed w th N s := by
  unfold sumUsed
  exact sum_range_congr _ _ N (fun b _ => by
    try simp only []
    rw [boundIn_congr w w' th s b (hall b).1 (hall b).2.1, (hall b).2.2])

/-- The pending count when neither the pending pointer nor a used count has changed. -/
theorem pendingCount_congr (w w' : Store) (th : Nat)
    (hl : (w'.types th)._lastUsedElems = (w.types th)._lastUsedElems)
    (hu : ∀ p, (w.types th)._lastUsedElems = some p →
      (w'.buffers p)._usedElems = (w.buffers p)._usedElems) :
    pendingCount w' th = pendingCount w th := by
  unfold pendingCount
  rw [hl]
  cases h : (w.types th)._lastUsedElems with
  | none => rfl
  | some p => exact hu p h

/-- The local `usedElems` of the sizing algorithm is the aggregate plus the pending
count, in the arithmetic of `size_t`. -/
theorem effectiveUsedElems_modEq (w : Store) (th : Nat) :
    Nat.ModEq (2 ^ 64) (effectiveUsedElems w th)
      ((w.types th)._activeUsedElems + pendingCount w th) := by
  unfold effectiveUsedElems pendingCount
  cases h : (w.types th)._lastUsedElems with
  | none => exact Nat.ModEq.refl _
  | some p => exact add64_modEq _ _

/-- The bookkeeping is not affected by an operation that leaves the type entry and the
state, the type handler and the used count of every buffer. -/
theorem accounted_congr (th N : Nat) (w w' : Store) (hinv : Accounted th N w)
    (ht : w'.types th = w.types th)
    (hall : ∀ b, (w'.buffers b)._state = (w.buffers b)._state ∧
      (w'.buffers b)._typeHandler = (w.buffers b)._typeHandler ∧
      (w'.buffers b)._usedElems = (w.buffers b)._usedElems) :
    Accounted th N w' := by
  have hc : ∀ s, countBound w' th N s = countBound w th N s := fun s =>
    count_same w w' th N s (fun b => ⟨(hall b).1, (hall b).2.1⟩)
  have hsm : ∀ s, sumUsed w' th N s = sumUsed w th N s := fun s =>
    sum_same w w' th N s hall
  have hpc : pendingCount w' th = pendingCount w th :=
    pendingCount_congr w w' th (by rw [ht]) (fun p _ => (hall p).2.2)
  constructor
  · intro b hb
    rw [(hall b).1]
    exact hinv.free_above b hb
  · intro b hb
    rw [(hall b).1] at hb
    rw [(hall b).2.1]
    exact hinv.bound b hb
  · intro p hp
    rw [ht] at hp
    rw [(hall p).1]
    exact hinv.pending_active p hp
  · rw [ht]
    exact hinv.active_lt
  · rw [ht]
    exact hinv.hold_lt
  · rw [ht, hc]
    exact hinv.active_count
  · rw [ht, hc]
    exact hinv.hold_count
  · rw [ht]
    exact hinv.activeUsed_lt
  · rw [ht]
    exact hinv.holdUsed_lt
  · rw [ht, hpc, hsm]
    exact hinv.active_sum
  · rw [ht, hsm]
    exact hinv.hold_sum

/-- A store of freshly constructed buffers with a freshly constructed type entry
satisfies the bookkeeping. -/
theorem accounted_fresh (th N clusterSize minClusters maxClusters : Nat) :
    Accounted th N (Store.fresh (BufferTypeBase.new clusterSize minClusters maxClusters)) := by
  have hc : ∀ s, countBound
      (Store.fresh (BufferTypeBase.new clusterSize minClusters maxClusters)) th N s = 0 := by
    intro s
    unfold countBound
    exact sum_range_zero _ N (fun b _ => by
      simp [boundIn, Store.fresh, BufferState.new])
  have hsm : ∀ s, sumUsed
      (Store.fresh (BufferTypeBase.new clusterSize minClusters maxClusters)) th N s = 0 := by
    intro s
    unfold sumUsed
    exact sum_range_zero _ N (fun b _ => by
      simp [boundIn, Store.fresh, BufferState.new])
  constructor
  · intro b _
    rfl
  · intro b hb
    exact absurd rfl hb
  · intro p hp
    cases hp
  · exact Nat.two_pow_pos 32
  · exact Nat.two_pow_pos 32
  · rw [hc]
    exact Nat.ModEq.refl _
  · rw [hc]
    exact Nat.ModEq.refl _
  · exact Nat.two_pow_pos 64
  · exact Nat.two_pow_pos 64
  · rw [hsm]
    exact Nat.ModEq.refl _
  · rw [hsm]
    exact Nat.ModEq.refl _

/-- Two buffers that agree up to their links have the same state, type handler and used
count. -/
theorem core_of_sansLinks (b c : BufferState) (h : sansLinks b = sansLinks c) :
    b._state = c._state ∧ b._typeHandler = c._typeHandler ∧ b._usedElems = c._usedElems := by
  have h1 := congrArg BufferState._state h
  have h2 := congrArg BufferState._typeHandler h
  have h3 := congrArg BufferState._usedElems h
  simp only [sansLinks] at h1 h2 h3
  exact ⟨h1, h2, h3⟩

/-- Two buffers that agree up to their free-list fields have the same state, type
handler and used count. -/
theorem core_of_sansFreeList (b c : BufferState) (h : sansFreeList b = sansFreeList c) :
    b._state = c._state ∧ b._typeHandler = c._typeHandler ∧ b._usedElems = c._usedElems := by
  have h1 := congrArg BufferState._state h
  have h2 := congrArg BufferState._typeHandler h
  have h3 := congrArg BufferState._usedElems h
  simp only [sansFreeList, sansLinks] at h1 h2 h3
  exact ⟨h1, h2, h3⟩

/-- A buffer in use belongs to the collection. -/
theorem accounted_lt (th N : Nat) (w : Store) (hinv : Accounted th N w) (b : Nat)
    (h : (w.buffers b)._state ≠ .FREE) : b < N := by
  by_contra c
  exact h (hinv.free_above b (by omega))

/-- A successful `onActive` of a buffer of the collection against the type entry keeps
the bookkeeping. -/
theorem onActive_accounted (th N : Nat) (w : Store) (self bufferId typeId : Nat)
    (sizeNeeded maxClusters : Nat) (buffer : Option Nat) (elementSize : Nat)
    (create : Nat → Option Nat) (w' : Store) (p' : Option Nat)
    (h : BufferState.onActive w self bufferId typeId th sizeNeeded maxClusters buffer
      elementSize create = .ok (w', p'))
    (hself : self < N) (hinv : Accounted th N w) : Accounted th N w' := by
  obtain ⟨c, p, -, -, -, hfree, hother, -, hselfb⟩ :=
    onActive_frame w self bufferId typeId th sizeNeeded maxClusters buffer
      elementSize create w' p' h
  obtain ⟨ht, -⟩ := onActive_types _ _ _ _ _ _ _ _ _ _ _ _ h
  obtain ⟨hst, -, hth, -, hused, -⟩ := hfree
  have ho : ∀ b, b ≠ self → (w'.buffers b)._state = (w.buffers b)._state ∧
      (w'.buffers b)._typeHandler = (w.buffers b)._typeHandler ∧
      (w'.buffers b)._usedElems = (w.buffers b)._usedElems := by
    intro b hb
    rw [hother b hb]
    exact ⟨rfl, rfl, rfl⟩
  have hs' : (w'.buffers self)._state = .ACTIVE := by rw [hselfb]
  have hh' : (w'.buffers self)._typeHandler = some th := by rw [hselfb]
  have hu' : (w'.buffers self)._usedElems = getReservedElements (w.types th) bufferId := by
    rw [hselfb]
  have hcA := count_update w w' th N self .ACTIVE hself (fun b hb => ⟨(ho b hb).1, (ho b hb).2.1⟩)
  have hcH := count_update w w' th N self .HOLD hself (fun b hb => ⟨(ho b hb).1, (ho b hb).2.1⟩)
  have hsA := sum_update w w' th N self .ACTIVE hself ho
  have hsH := sum_update w w' th N self .HOLD hself ho
  simp only [boundIn, hst, hth, hs', hh', hu', hused] at hcA hcH hsA hsH
  simp only [reduceCtorEq, false_and, decide_False, Bool.false_eq_true, if_false, and_self,
    decide_True, if_true, Nat.add_zero, and_true, true_and] at hcA hcH hsA hsH
  have hpc : pendingCount w' th = getReservedElements (w.types th) bufferId := by
    unfold pendingCount
    rw [ht]
    exact hu'
  constructor
  · intro b hb
    have hne : b ≠ self := by omega
    rw [(ho b hne).1]
    exact hinv.free_above b hb
  · intro b hb
    by_cases hbs : b = self
    · rw [hbs]
      exact hh'
    · rw [(ho b hbs).1] at hb
      rw [(ho b hbs).2.1]
      exact hinv.bound b hb
  · intro q hq
    rw [ht] at hq
    have e : q = self := (Option.some.inj hq).symm
    rw [e]
    exact hs'
  · rw [ht]
    exact inc32_lt _
  · rw [ht]
    exact hinv.hold_lt
  · rw [ht, hcA]
    exact (inc32_modEq _).trans (Nat.ModEq.add_right 1 hinv.active_count)
  · rw [ht, hcH]
    exact hinv.hold_count
  · rw [ht]
    show effectiveUsedElems w th < 2 ^ 64
    unfold effectiveUsedElems
    cases hl : (w.types th)._lastUsedElems with
    | none => exact hinv.activeUsed_lt
    | some q => exact add64_lt _ _
  · rw [ht]
    exact hinv.holdUsed_lt
  · rw [hpc, hsA, ht]
    show Nat.ModEq (2 ^ 64)
      (effectiveUsedElems w th + getReservedElements (w.types th) bufferId) _
    exact Nat.ModEq.add_right _ ((effectiveUsedElems_modEq w th).trans hinv.active_sum)
  · rw [ht, hsH]
    exact hinv.hold_sum

/-- A successful `onHold` keeps the bookkeeping. -/
theorem onHold_accounted (th N : Nat) (w : Store) (self : Nat) (w' : Store)
    (h : BufferState.onHold w self = .ok w') (hinv : Accounted th N w) :
    Accounted th N w' := by
  obtain ⟨hst, -, -, hother, hselfb⟩ := onHold_frame w self w' h
  obtain ⟨th0, hth0, -, ht0, -⟩ := onHold_types w self w' h
  have hth : (w.buffers self)._typeHandler = some th :=
    hinv.bound self (by rw [hst]; decide)
  have e0 : th0 = th := by
    rw [hth0] at hth
    exact Option.some.inj hth
  subst e0
  have ht := ht0
  have hself : self < N := accounted_lt th0 N w hinv self (by rw [hst]; decide)
  have ho : ∀ b, b ≠ self → (w'.buffers b)._state = (w.buffers b)._state ∧
      (w'.buffers b)._typeHandler = (w.buffers b)._typeHandler ∧
      (w'.buffers b)._usedElems = (w.buffers b)._usedElems :=
    fun b hb => core_of_sansLinks _ _ (hother b hb)
  have hs' : (w'.buffers self)._state = .HOLD := by rw [hselfb]
  have hh' : (w'.buffers self)._typeHandler = some th0 := by
    rw [hselfb]
    exact hth
  have hu' : (w'.buffers self)._usedElems = (w.buffers self)._usedElems := by rw [hselfb]
  have hcA := count_update w w' th0 N self .ACTIVE hself
    (fun b hb => ⟨(ho b hb).1, (ho b hb).2.1⟩)
  have hcH := count_update w w' th0 N self .HOLD hself
    (fun b hb => ⟨(ho b hb).1, (ho b hb).2.1⟩)
  have hsA := sum_update w w' th0 N self .ACTIVE hself ho
  have hsH := sum_update w w' th0 N self .HOLD hself ho
  simp only [boundIn, hst, hth, hs', hh', hu'] at hcA hcH hsA hsH
  simp only [reduceCtorEq, false_and, decide_False, Bool.false_eq_true, if_false, and_self,
    decide_True, if_true, Nat.add_zero, and_true, true_and] at hcA hcH hsA hsH
  have hallu : ∀ b, (w'.buffers b)._usedElems = (w.buffers b)._usedElems := by
    intro b
    by_cases hb : b = self
    · rw [hb]
      exact hu'
    · exact (ho b hb).2.2
  constructor
  · intro b hb
    have hne : b ≠ self := by omega
    rw [(ho b hne).1]
    exact hinv.free_above b hb
  · intro b hb
    by_cases hbs : b = self
    · rw [hbs]
      exact hh'
    · rw [(ho b hbs).1] at hb
      rw [(ho b hbs).2.1]
      exact hinv.bound b hb
  · intro q hq
    rw [ht] at hq
    simp only at hq
    by_cases hl : some self = (w.types th0)._lastUsedElems
    · rw [if_pos hl] at hq
      cases hq
    · rw [if_neg hl] at hq
      have hqs : q ≠ self := by
        intro c
        rw [c] at hq
        exact hl hq.symm
      rw [(ho q hqs).1]
      exact hinv.pending_active q hq
  · rw [ht]
    exact dec32_lt _
  · rw [ht]
    exact inc32_lt _
  · rw [ht]
    show Nat.ModEq (2 ^ 32) (dec32 (w.types th0)._activeBuffers) _
    apply Nat.ModEq.add_right_cancel' 1
    rw [hcA]
    exact (dec32_add_modEq _).trans hinv.active_count
  · rw [ht, hcH]
    show Nat.ModEq (2 ^ 32) (inc32 (w.types th0)._holdBuffers) _
    exact (inc32_modEq _).trans (Nat.ModEq.add_right 1 hinv.hold_count)
  · rw [ht]
    exact sub64_lt _ _
  · rw [ht]
    exact add64_lt _ _
  · apply Nat.ModEq.add_right_cancel' (w.buffers self)._usedElems
    rw [hsA]
    refine Nat.ModEq.trans ?_ hinv.active_sum
    by_cases hl : some self = (w.types th0)._lastUsedElems
    · have hpc' : pendingCount w' th0 = 0 := by
        unfold pendingCount
        rw [ht]
        simp [hl]
      have hpc : pendingCount w th0 = (w.buffers self)._usedElems := by
        unfold pendingCount
        rw [← hl]
      have hf : flushedActiveUsed w th0 self
          = add64 (w.types th0)._activeUsedElems (w.buffers self)._usedElems := by
        simp [flushedActiveUsed, hl]
      rw [hpc', hpc, ht, Nat.add_zero]
      show Nat.ModEq (2 ^ 64)
        (sub64 (flushedActiveUsed w th0 self) (w.buffers self)._usedElems
          + (w.buffers self)._usedElems) _
      rw [hf]
      exact (sub64_add_modEq _ _).trans (add64_modEq _ _)
    · have hl' : (w'.types th0)._lastUsedElems = (w.types th0)._lastUsedElems := by
        rw [ht]
        simp [hl]
      have hpc' : pendingCount w' th0 = pendingCount w th0 :=
        pendingCount_congr w w' th0 hl' (fun q _ => hallu q)
      have hf : flushedActiveUsed w th0 self = (w.types th0)._activeUsedElems := by
        simp [flushedActiveUsed, hl]
      rw [hpc', ht]
      show Nat.ModEq (2 ^ 64)
        (sub64 (flushedActiveUsed w th0 self) (w.buffers self)._usedElems
          + pendingCount w th0 + (w.buffers self)._usedElems) _
      rw [hf, Nat.add_right_comm]
      exact Nat.ModEq.add_right _ (sub64_add_modEq _ _)
  · rw [ht, hsH]
    show Nat.ModEq (2 ^ 64)
      (add64 (w.types th0)._holdUsedElems (w.buffers self)._usedElems) _
    exact (add64_modEq _ _).trans (Nat.ModEq.add_right _ hinv.hold_sum)

/-- A successful `onFree` keeps the bookkeeping. -/
theorem onFree_accounted (th N : Nat) (w : Store) (self : Nat) (buffer : Option Nat)
    (w' : Store) (p' : Option Nat)
    (h : BufferState.onFree w self buffer = .ok (w', p')) (hinv : Accounted th N w) :
    Accounted th N w' := by
  obtain ⟨hst, -, hother, -, hselfb⟩ := onFree_frame w self buffer w' p' h
  obtain ⟨th0, hth0, -, ht0, -⟩ := onFree_types w self buffer w' p' h
  have hth : (w.buffers self)._typeHandler = some th :=
    hinv.bound self (by rw [hst]; decide)
  have e0 : th0 = th := by
    rw [hth0] at hth
    exact Option.some.inj hth
  subst e0
  have ht := ht0
  have hself : self < N := accounted_lt th0 N w hinv self (by rw [hst]; decide)
  have ho : ∀ b, b ≠ self → (w'.buffers b)._state = (w.buffers b)._state ∧
      (w'.buffers b)._typeHandler = (w.buffers b)._typeHandler ∧
      (w'.buffers b)._usedElems = (w.buffers b)._usedElems := by
    intro b hb
    rw [hother b hb]
    exact ⟨rfl, rfl, rfl⟩
  have hs' : (w'.buffers self)._state = .FREE := by rw [hselfb]
  have hh' : (w'.buffers self)._typeHandler = none := by rw [hselfb]
  have hu' : (w'.buffers self)._usedElems = 0 := by rw [hselfb]
  have hcA := count_update w w' th0 N self .ACTIVE hself
    (fun b hb => ⟨(ho b hb).1, (ho b hb).2.1⟩)
  have hcH := count_update w w' th0 N self .HOLD hself
    (fun b hb => ⟨(ho b hb).1, (ho b hb).2.1⟩)
  have hsA := sum_update w w' th0 N self .ACTIVE hself ho
  have hsH := sum_update w w' th0 N self .HOLD hself ho
  simp only [boundIn, hst, hth, hs', hh', hu'] at hcA hcH hsA hsH
  simp only [reduceCtorEq, false_and, decide_False, Bool.false_eq_true, if_false, and_self,
    decide_True, if_true, Nat.add_zero, and_true, true_and] at hcA hcH hsA hsH
  have hl' : (w'.types th0)._lastUsedElems = (w.types th0)._lastUsedElems := by rw [ht]
  have hpend : ∀ q, (w.types th0)._lastUsedElems = some q → q ≠ self := by
    intro q hq c
    have := hinv.pending_active q hq
    rw [c, hst] at this
    cases this
  have hpc' : pendingCount w' th0 = pendingCount w th0 :=
    pendingCount_congr w w' th0 hl' (fun q hq => (ho q (hpend q hq)).2.2)
  constructor
  · intro b hb
    by_cases hbs : b = self
    · rw [hbs]
      exact hs'
    · rw [(ho b hbs).1]
      exact hinv.free_above b hb
  · intro b hb
    by_cases hbs : b = self
    · rw [hbs] at hb
      exact absurd hs' hb
    · rw [(ho b hbs).1] at hb
      rw [(ho b hbs).2.1]
      exact hinv.bound b hb
  · intro q hq
    rw [hl'] at hq
    rw [(ho q (hpend q hq)).1]
    exact hinv.pending_active q hq
  · rw [ht]
    exact hinv.active_lt
  · rw [ht]
    exact dec32_lt _
  · rw [ht, hcA]
    exact hinv.active_count
  · rw [ht]
    show Nat.ModEq (2 ^ 32) (dec32 (w.types th0)._holdBuffers) _
    apply Nat.ModEq.add_right_cancel' 1
    rw [hcH]
    exact (dec32_add_modEq _).trans hinv.hold_count
  · rw [ht]
    exact hinv.activeUsed_lt
  · rw [ht]
    exact sub64_lt _ _
  · rw [hpc', hsA, ht]
    exact hinv.active_sum
  · rw [ht]
    show Nat.ModEq (2 ^ 64)
      (sub64 (w.types th0)._holdUsedElems (w.buffers self)._usedElems) _
    apply Nat.ModEq.add_right_cancel' (w.buffers self)._usedElems
    rw [hsH]
    exact (sub64_add_modEq _ _).trans hinv.hold_sum

/-- A write of the owner to the used count of the buffer whose counter is the pending
one keeps the bookkeeping. -/
theorem used_accounted (th N : Nat) (w : Store) (b n : Nat)
    (hl : (w.types th)._lastUsedElems = some b) (hinv : Accounted th N w) :
    Accounted th N (w.setBuffer b { w.buffers b with _usedElems := n }) := by
  have hst : (w.buffers b)._state = .ACTIVE := hinv.pending_active b hl
  have hth : (w.buffers b)._typeHandler = some th :=
    hinv.bound b (by rw [hst]; decide)
  have hself : b < N := accounted_lt th N w hinv b (by rw [hst]; decide)
  obtain ⟨w', hw'⟩ : ∃ w', w' = w.setBuffer b { w.buffers b with _usedElems := n } :=
    ⟨_, rfl⟩
  rw [← hw']
  have ho : ∀ x, x ≠ b → (w'.buffers x)._state = (w.buffers x)._state ∧
      (w'.buffers x)._typeHandler = (w.buffers x)._typeHandler ∧
      (w'.buffers x)._usedElems = (w.buffers x)._usedElems := by
    intro x hx
    rw [hw']
    simp [Store.setBuffer, upd_ne _ _ _ _ hx]
  have hs' : (w'.buffers b)._state = .ACTIVE := by
    rw [hw']
    simp [Store.setBuffer, hst]
  have hh' : (w'.buffers b)._typeHandler = some th := by
    rw [hw']
    simp [Store.setBuffer, hth]
  have hu' : (w'.buffers b)._usedElems = n := by
    rw [hw']
    simp [Store.setBuffer]
  have ht : w'.types = w.types := by
    rw [hw']
    rfl
  have hall : ∀ x, (w'.buffers x)._state = (w.buffers x)._state ∧
      (w'.buffers x)._typeHandler = (w.buffers x)._typeHandler := by
    intro x
    by_cases hx : x = b
    · rw [hx, hs', hh', hst, hth]
      exact ⟨rfl, rfl⟩
    · exact ⟨(ho x hx).1, (ho x hx).2.1⟩
  have hc : ∀ s, countBound w' th N s = countBound w th N s := fun s =>
    count_same w w' th N s hall
  have hsA := sum_update w w' th N b .ACTIVE hself ho
  have hsH := sum_update w w' th N b .HOLD hself ho
  simp only [boundIn, hst, hth, hs', hh', hu'] at hsA hsH
  simp only [reduceCtorEq, false_and, decide_False, Bool.false_eq_true, if_false, and_self,
    decide_True, if_true, Nat.add_zero, and_true, true_and] at hsA hsH
  have hpc' : pendingCount w' th = n := by
    unfold pendingCount
    rw [ht, hl]
    exact hu'
  have hpc : pendingCount w th = (w.buffers b)._usedElems := by
    unfold pendingCount
    rw [hl]
  constructor
  · intro x hx
    rw [(hall x).1]
    exact hinv.free_above x hx
  · intro x hx
    rw [(hall x).1] at hx
    rw [(hall x).2]
    exact hinv.bound x hx
  · intro q hq
    rw [ht] at hq
    rw [(hall q).1]
    exact hinv.pending_active q hq
  · rw [ht]
    exact hinv.active_lt
  · rw [ht]
    exact hinv.hold_lt
  · rw [ht, hc]
    exact hinv.active_count
  · rw [ht, hc]
    exact hinv.hold_count
  · rw [ht]
    exact hinv.activeUsed_lt
  · rw [ht]
    exact hinv.holdUsed_lt
  · rw [ht, hpc']
    apply Nat.ModEq.add_right_cancel' (w.buffers b)._usedElems
    rw [hsA, Nat.add_right_comm]
    have := hinv.active_sum
    rw [hpc] at this
    exact Nat.ModEq.add_right _ this
  · rw [ht, hsH]
    exact hinv.hold_sum

/-- Every permitted step that succeeds keeps the bookkeeping, also in the store it
passes through. -/
theorem step_accounted (th N : Nat) (s : Step) (w : Store) (mem : Memory) (w1 : Store)
    (mem1 : Memory) (h : s.run w mem = .ok (w1, mem1)) (hp : s.permitted th N w = true)
    (hinv : Accounted th N w) :
    (∀ v, v ∈ s.between w → Accounted th N v) ∧ Accounted th N w1 := by
  cases s with
  | used b n =>
    simp only [Step.run, Except.ok.injEq, Prod.mk.injEq] at h
    obtain ⟨hw, -⟩ := h
    subst hw
    simp only [Step.permitted, decide_eq_true_eq] at hp
    refine ⟨?_, used_accounted th N w b n hp hinv⟩
    intro v hv
    simp [Step.between] at hv
  | call op =>
    simp only [Step.run] at h
    cases op with
    | onActive self bufferId typeId typeHandler sizeNeeded maxClusters buffer elementSize
        create =>
      simp only [Step.permitted, decide_eq_true_eq] at hp
      obtain ⟨hth, hself⟩ := hp
      subst hth
      simp only [BufferOp.run] at h
      cases hr : BufferState.onActive w self bufferId typeId typeHandler sizeNeeded
          maxClusters buffer elementSize create with
      | error e => simp [hr] at h
      | ok r =>
        obtain ⟨w2, p2⟩ := r
        simp only [hr, Except.ok.injEq, Prod.mk.injEq] at h
        obtain ⟨hw, -⟩ := h
        subst hw
        refine ⟨?_, onActive_accounted typeHandler N w self bufferId typeId sizeNeeded
          maxClusters buffer elementSize create _ _ hr hself hinv⟩
        intro v hv
        simp [Step.between, BufferOp.between] at hv
    | onHold self =>
      simp only [BufferOp.run] at h
      cases hr : BufferState.onHold w self with
      | error e => simp [hr] at h
      | ok w2 =>
        simp only [hr, Except.ok.injEq, Prod.mk.injEq] at h
        obtain ⟨hw, -⟩ := h
        subst hw
        refine ⟨?_, onHold_accounted th N w self _ hr hinv⟩
        intro v hv
        simp [Step.between, BufferOp.between] at hv
    | onFree self buffer =>
      simp only [BufferOp.run] at h
      cases hr : BufferState.onFree w self buffer with
      | error e => simp [hr] at h
      | ok r =>
        obtain ⟨w2, p2⟩ := r
        simp only [hr, Except.ok.injEq, Prod.mk.injEq] at h
        obtain ⟨hw, -⟩ := h
        subst hw
        refine ⟨?_, onFree_accounted th N w self buffer _ _ hr hinv⟩
        intro v hv
        simp [Step.between, BufferOp.between] at hv
    | dropBuffer self buffer =>
      simp only [BufferOp.run] at h
      cases hr : BufferState.dropBuffer w self buffer with
      | error e => simp [hr] at h
      | ok r =>
        obtain ⟨w2, p2⟩ := r
        simp only [hr, Except.ok.injEq, Prod.mk.injEq] at h
        obtain ⟨hw, -⟩ := h
        subst hw
        rcases dropBuffer_ok_inv w self buffer _ _ hr with
          ⟨hs, hw, -, -⟩ | ⟨hs, hf⟩ | ⟨hs, wm, hh, hf⟩
        · subst hw
          have hna : ¬ (w2.buffers self)._state = .ACTIVE := by
            rw [hs]
            decide
          refine ⟨?_, hinv⟩
          intro v hv
          simp [Step.between, BufferOp.between, hna] at hv
        · have hna : ¬ (w.buffers self)._state = .ACTIVE := by
            rw [hs]
            decide
          refine ⟨?_, onFree_accounted th N w self buffer _ _ hf hinv⟩
          intro v hv
          simp [Step.between, BufferOp.between, hna] at hv
        · have hm := onHold_accounted th N w self wm hh hinv
          refine ⟨?_, onFree_accounted th N wm self buffer _ _ hf hm⟩
          intro v hv
          simp only [Step.between, BufferOp.between, if_pos hs, hh, List.mem_singleton] at hv
          rw [hv]
          exact hm
    | setFreeListList self fll =>
      simp only [BufferOp.run] at h
      cases hr : setFreeListList w self fll with
      | error e => simp [hr] at h
      | ok w2 =>
        simp only [hr, Except.ok.injEq, Prod.mk.injEq] at h
        obtain ⟨hw, -⟩ := h
        subst hw
        obtain ⟨ht, -, hall, -⟩ := setFreeListList_frame w self fll _ hr
        refine ⟨?_, accounted_congr th N w _ hinv (by rw [ht])
          (fun b => core_of_sansFreeList _ _ (hall b))⟩
        intro v hv
        simp [Step.between, BufferOp.between] at hv
    | fallbackResize self bufferId sizeNeeded maxClusters buffer holdBuffer elementSize
        create =>
      simp only [BufferOp.run] at h
      cases hr : BufferState.fallbackResize w mem self bufferId sizeNeeded maxClusters
          buffer holdBuffer elementSize create with
      | error e => simp [hr] at h
      | ok r =>
        obtain ⟨-, -, th2, c, mem2, -, -, -, -, -, hr2⟩ :=
          fallbackResize_ok_inv w mem self bufferId sizeNeeded maxClusters buffer holdBuffer
            elementSize create r hr
        subst hr2
        simp only [hr, Except.ok.injEq, Prod.mk.injEq] at h
        obtain ⟨hw, -⟩ := h
        subst hw
        refine ⟨?_, accounted_congr th N w _ hinv rfl ?_⟩
        · intro v hv
          simp [Step.between, BufferOp.between] at hv
        · intro b
          by_cases hb : b = self
          · subst hb
            simp
          · simp [upd_ne _ _ _ _ hb]
    | disableElemHoldList self =>
      simp only [BufferOp.run, Except.ok.injEq, Prod.mk.injEq] at h
      obtain ⟨hw, -⟩ := h
      subst hw
      refine ⟨?_, accounted_congr th N w _ hinv rfl ?_⟩
      · intro v hv
        simp [Step.between, BufferOp.between] at hv
      · intro b
        by_cases hb : b = self
        · subst hb
          simp [BufferState.disableElemHoldList, Store.setBuffer]
        · simp [BufferState.disableElemHoldList, Store.setBuffer, upd_ne _ _ _ _ hb]

/-- The bookkeeping holds in every store of a successful sequence of permitted steps. -/
theorem drive_accounted (th N : Nat) (steps : List Step) :
    ∀ (w : Store) (mem : Memory) (ws : List Store), Accounted th N w →
      permitted th N steps w mem = true → drive steps w mem = .ok ws →
      ∀ v, v ∈ ws → Accounted th N v := by
  induction steps with
  | nil =>
    intro w mem ws hinv _ hrun v hv
    simp only [drive, Except.ok.injEq] at hrun
    subst hrun
    simp only [List.mem_singleton] at hv
    rw [hv]
    exact hinv
  | cons s rest ih =>
    intro w mem ws hinv hperm hrun v hv
    simp only [drive] at hrun
    simp only [permitted, Bool.and_eq_true] at hperm
    obtain ⟨hp1, hp2⟩ := hperm
    cases hr : s.run w mem with
    | error e => simp [hr] at hrun
    | ok r =>
      obtain ⟨w1, mem1⟩ := r
      simp only [hr] at hrun hp2
      cases hrest : drive rest w1 mem1 with
      | error e => simp [hrest] at hrun
      | ok ws1 =>
        simp only [hrest, Except.ok.injEq] at hrun
        subst hrun
        obtain ⟨hb, h1⟩ := step_accounted th N s w mem w1 mem1 hr hp1 hinv
        rcases List.mem_cons.1 hv with e | e
        · rw [e]
          exact hinv
        · rcases List.mem_append.1 e with e2 | e2
          · exact hb v e2
          · exact ih w1 mem1 ws1 h1 hp2 hrest v e2

/-- The cluster size of every type entry after a successful operation. -/
theorem run_clusterSize (op : BufferOp) (w : Store) (mem : Memory) (w1 : Store)
    (mem1 : Memory) (h : op.run w mem = .ok (w1, mem1)) (x : Nat) :
    (w1.types x)._clusterSize = (w.types x)._clusterSize :=
  congrArg Prod.fst (run_limits op w mem w1 mem1 h x)

/-- The binding of the type handler depends on the state, the type handler and the
cluster size of the buffer, and on the cluster sizes of the type entries. -/
theorem handlerBound_congr (w w' : Store) (b b' : BufferState)
    (hs : b'._state = b._state) (hh : b'._typeHandler = b._typeHandler)
    (hc : b'._clusterSize = b._clusterSize)
    (ht : ∀ x, (w'.types x)._clusterSize = (w.types x)._clusterSize)
    (hb : HandlerBound w b) : HandlerBound w' b' := by
  unfold HandlerBound at hb ⊢
  rw [hs, hh, hc]
  refine ⟨hb.1, ?_⟩
  intro th hth
  rw [ht th]
  exact hb.2 th hth

/-- Two buffers that agree up to their links have the same cluster size. -/
theorem clusterSize_of_sansLinks (b c : BufferState) (h : sansLinks b = sansLinks c) :
    b._clusterSize = c._clusterSize := by
  have h1 := congrArg BufferState._clusterSize h
  simpa [sansLinks] using h1

/-- Two buffers that agree up to their free-list fields have the same cluster size. -/
theorem clusterSize_of_sansFreeList (b c : BufferState)
    (h : sansFreeList b = sansFreeList c) : b._clusterSize = c._clusterSize := by
  have h1 := congrArg BufferState._clusterSize h
  simpa [sansFreeList, sansLinks] using h1

/-- A successful `onActive` keeps the binding of the type handlers. -/
theorem onActive_handler (w : Store) (self bufferId typeId typeHandler : Nat)
    (sizeNeeded maxClusters : Nat) (buffer : Option Nat) (elementSize : Nat)
    (create : Nat → Option Nat) (w' : Store) (p' : Option Nat)
    (h : BufferState.onActive w self bufferId typeId typeHandler sizeNeeded maxClusters buffer
      elementSize create = .ok (w', p'))
    (hinv : ∀ x, HandlerBound w (w.buffers x)) : ∀ x, HandlerBound w' (w'.buffers x) := by
  obtain ⟨c, p, -, -, -, -, hother, -, hself⟩ :=
    onActive_frame w self bufferId typeId typeHandler sizeNeeded maxClusters buffer
      elementSize create w' p' h
  have ht : ∀ x, (w'.types x)._clusterSize = (w.types x)._clusterSize := fun x =>
    congrArg Prod.fst (onActive_limits _ _ _ _ _ _ _ _ _ _ _ _ h x)
  intro x
  by_cases hx : x = self
  · subst hx
    rw [hself]
    refine ⟨by simp, ?_⟩
    intro th hth
    simp only [Option.some.injEq] at hth
    subst hth
    rw [ht]
  · rw [hother x hx]
    exact handlerBound_congr w w' _ _ rfl rfl rfl ht (hinv x)

/-- A successful `onHold` keeps the binding of the type handlers. -/
theorem onHold_handler (w : Store) (self : Nat) (w' : Store)
    (h : BufferState.onHold w self = .ok w')
    (hinv : ∀ x, HandlerBound w (w.buffers x)) : ∀ x, HandlerBound w' (w'.buffers x) := by
  obtain ⟨hst, -, -, hother, hself⟩ := onHold_frame w self w' h
  obtain ⟨th, hth, -⟩ := onHold_types w self w' h
  have ht : ∀ x, (w'.types x)._clusterSize = (w.types x)._clusterSize := fun x =>
    congrArg Prod.fst (onHold_limits _ _ _ h x)
  intro x
  by_cases hx : x = self
  · subst hx
    rw [hself]
    refine ⟨by simp [hth], ?_⟩
    intro th2 hth2
    show (w.buffers x)._clusterSize = _
    rw [ht]
    exact (hinv x).2 th2 hth2
  · obtain ⟨h1, h2, -⟩ := core_of_sansLinks _ _ (hother x hx)
    exact handlerBound_congr w w' _ _ h1 h2 (clusterSize_of_sansLinks _ _ (hother x hx)) ht
      (hinv x)

/-- A successful `onFree` keeps the binding of the type handlers. -/
theorem onFree_handler (w : Store) (self : Nat) (buffer : Option Nat) (w' : Store)
    (p' : Option Nat) (h : BufferState.onFree w self buffer = .ok (w', p'))
    (hinv : ∀ x, HandlerBound w (w.buffers x)) : ∀ x, HandlerBound w' (w'.buffers x) := by
  obtain ⟨-, -, hother, -, hself⟩ := onFree_frame w self buffer w' p' h
  have ht : ∀ x, (w'.types x)._clusterSize = (w.types x)._clusterSize := fun x =>
    congrArg Prod.fst (onFree_limits _ _ _ _ _ h x)
  intro x
  by_cases hx : x = self
  · subst hx
    rw [hself]
    refine ⟨by simp, ?_⟩
    intro th hth
    cases hth
  · rw [hother x hx]
    exact handlerBound_congr w w' _ _ rfl rfl rfl ht (hinv x)

/-- Every successful operation keeps the binding of the type handlers. -/
theorem run_handler (op : BufferOp) (w : Store) (mem : Memory) (w1 : Store) (mem1 : Memory)
    (h : op.run w mem = .ok (w1, mem1))
    (hinv : ∀ x, HandlerBound w (w.buffers x)) : ∀ x, HandlerBound w1 (w1.buffers x) := by
  have ht := run_clusterSize op w mem w1 mem1 h
  cases op with
  | onActive self bufferId typeId typeHandler sizeNeeded maxClusters buffer elementSize
      create =>
    simp only [BufferOp.run] at h
    cases hr : BufferState.onActive w self bufferId typeId typeHandler sizeNeeded maxClusters
        buffer elementSize create with
    | error e => simp [hr] at h
    | ok r =>
      obtain ⟨w2, p2⟩ := r
      simp only [hr, Except.ok.injEq, Prod.mk.injEq] at h
      obtain ⟨hw, -⟩ := h
      subst hw
      exact onActive_handler _ _ _ _ _ _ _ _ _ _ _ _ hr hinv
  | onHold self =>
    simp only [BufferOp.run] at h
    cases hr : BufferState.onHold w self with
    | error e => simp [hr] at h
    | ok w2 =>
      simp only [hr, Except.ok.injEq, Prod.mk.injEq] at h
      obtain ⟨hw, -⟩ := h
      subst hw
      exact onHold_handler _ _ _ hr hinv
  | onFree self buffer =>
    simp only [BufferOp.run] at h
    cases hr : BufferState.onFree w self buffer with
    | error e => simp [hr] at h
    | ok r =>
      obtain ⟨w2, p2⟩ := r
      simp only [hr, Except.ok.injEq, Prod.mk.injEq] at h
      obtain ⟨hw, -⟩ := h
      subst hw
      exact onFree_handler _ _ _ _ _ hr hinv
  | dropBuffer self buffer =>
    simp only [BufferOp.run] at h
    cases hr : BufferState.dropBuffer w self buffer with
    | error e => simp [hr] at h
    | ok r =>
      obtain ⟨w2, p2⟩ := r
      simp only [hr, Except.ok.injEq, Prod.mk.injEq] at h
      obtain ⟨hw, -⟩ := h
      subst hw
      rcases dropBuffer_ok_inv w self buffer _ _ hr with
        ⟨-, hw, -, -⟩ | ⟨-, hf⟩ | ⟨-, wm, hh, hf⟩
      · subst hw
        exact hinv
      · exact onFree_handler _ _ _ _ _ hf hinv
      · exact onFree_handler _ _ _ _ _ hf (onHold_handler _ _ _ hh hinv)
  | setFreeListList self fll =>
    simp only [BufferOp.run] at h
    cases hr : setFreeListList w self fll with
    | error e => simp [hr] at h
    | ok w2 =>
      simp only [hr, Except.ok.injEq, Prod.mk.injEq] at h
      obtain ⟨hw, -⟩ := h
      subst hw
      obtain ⟨-, -, hall, -⟩ := setFreeListList_frame w self fll _ hr
      intro x
      obtain ⟨h1, h2, -⟩ := core_of_sansFreeList _ _ (hall x)
      exact handlerBound_congr w _ _ _ h1 h2 (clusterSize_of_sansFreeList _ _ (hall x)) ht
        (hinv x)
  | fallbackResize self bufferId sizeNeeded maxClusters buffer holdBuffer elementSize
      create =>
    simp only [BufferOp.run] at h
    cases hr : BufferState.fallbackResize w mem self bufferId sizeNeeded maxClusters buffer
        holdBuffer elementSize create with
    | error e => simp [hr] at h
    | ok r =>
      obtain ⟨-, -, th, c, mem2, -, -, -, -, -, hr2⟩ :=
        fallbackResize_ok_inv w mem self bufferId sizeNeeded maxClusters buffer holdBuffer
          elementSize create r hr
      subst hr2
      simp only [hr, Except.ok.injEq, Prod.mk.injEq] at h
      obtain ⟨hw, -⟩ := h
      subst hw
      intro x
      by_cases hx : x = self
      · subst hx
        simp only [upd_same]
        exact handlerBound_congr w _ _ _ rfl rfl rfl ht (hinv x)
      · simp only [upd_ne _ _ _ _ hx]
        exact handlerBound_congr w _ _ _ rfl rfl rfl ht (hinv x)
  | disableElemHoldList self =>
    simp only [BufferOp.run, Except.ok.injEq, Prod.mk.injEq] at h
    obtain ⟨hw, -⟩ := h
    subst hw
    intro x
    by_cases hx : x = self
    · subst hx
      simp only [BufferState.disableElemHoldList, Store.setBuffer, upd_same]
      exact handlerBound_congr w _ _ _ rfl rfl rfl ht (hinv x)
    · simp only [BufferState.disableElemHoldList, Store.setBuffer, upd_ne _ _ _ _ hx]
      exact handlerBound_congr w _ _ _ rfl rfl rfl ht (hinv x)

/-- A segment extended by the buffer it closes at. -/
theorem seg_snoc (nx pv : Nat → Option Nat) (t : List Nat) (f g : Nat) :
    ∀ x, Seg nx pv x t f → nx f = some g → pv g = some f → Seg nx pv x (t ++ [f]) g := by
  induction t with
  | nil =>
    intro x h h1 h2
    simp only [Seg] at h
    simp only [List.nil_append, Seg]
    exact ⟨h.1, h.2, h1, h2⟩
  | cons y t ih =>
    intro x h h1 h2
    simp only [Seg] at h
    simp only [List.cons_append, Seg]
    exact ⟨h.1, h.2.1, ih y h.2.2 h1 h2⟩

/-- A cycle read from its second member. -/
theorem seg_rotate (nx pv : Nat → Option Nat) (x y : Nat) (t : List Nat)
    (h : Seg nx pv x (y :: t) x) : Seg nx pv y (t ++ [x]) y := by
  simp only [Seg] at h
  exact seg_snoc nx pv t x y y h.2.2 h.1 h.2.1

/-- A cycle read from any of its members. -/
theorem cyc_to_front (nx pv : Nat → Option Nat) (b : Nat) (pre : List Nat) :
    ∀ (post : List Nat) (m : Nat) (t : List Nat), m :: t = pre ++ b :: post →
      Seg nx pv m t m → Seg nx pv b (post ++ pre) b := by
  induction pre with
  | nil =>
    intro post m t e h
    simp only [List.nil_append, List.cons.injEq] at e
    obtain ⟨e1, e2⟩ := e
    subst e1
    subst e2
    simpa using h
  | cons x pre ih =>
    intro post m t e h
    simp only [List.cons_append, List.cons.injEq] at e
    obtain ⟨e1, e2⟩ := e
    subst e1
    subst e2
    cases hpb : pre ++ b :: post with
    | nil => simp at hpb
    | cons y t2 =>
      rw [hpb] at h
      have h2 := seg_rotate nx pv m y t2 h
      have e3 : y :: (t2 ++ [m]) = pre ++ b :: (post ++ [m]) := by
        rw [← List.cons_append, ← hpb]
        simp
      have h3 := ih (post ++ [m]) y (t2 ++ [m]) e3 h2
      simpa using h3

/-- The buffer a segment closes at has a predecessor, a member of the segment whose
successor it is. -/
theorem seg_close (nx pv : Nat → Option Nat) (t : List Nat) (m : Nat) :
    ∀ x, Seg nx pv x t m → ∃ q, q ∈ x :: t ∧ nx q = some m ∧ pv m = some q := by
  induction t with
  | nil =>
    intro x h
    simp only [Seg] at h
    exact ⟨x, List.mem_cons_self _ _, h.1, h.2⟩
  | cons y t ih =>
    intro x h
    simp only [Seg] at h
    obtain ⟨q, hq, h1, h2⟩ := ih y h.2.2
    exact ⟨q, List.mem_cons_of_mem _ hq, h1, h2⟩

/-- A successful `removeFromFreeListList` of the buffer a cycle is read from leaves the
other members as the circular list of the anchor, in their order. -/
theorem cycle_remove (w : Store) (a b : Nat) (t : List Nat) (w' : Store)
    (hseg : Seg (fun j => (w.buffers j)._nextHasFree) (fun j => (w.buffers j)._prevHasFree)
      b t b)
    (hnd : (b :: t).Nodup) (ha : (w.buffers b)._freeListList = some a)
    (h : removeFromFreeListList w b = .ok w') : Ring w' a t := by
  obtain ⟨a2, n, p, ha2, hn, hp, hcase⟩ := remove_ok_inv w b w' h
  rw [ha] at ha2
  have ea : a2 = a := (Option.some.inj ha2).symm
  subst ea
  cases t with
  | nil =>
    simp only [Seg] at hseg
    have e : n = b := by
      have := hseg.1
      rw [hn] at this
      exact Option.some.inj this
    rcases hcase with ⟨-, hps, hhead⟩ | ⟨hns, -⟩
    · rw [e] at hn
      rw [hps] at hp
      rw [remove_single w b a2 ha hn hp hhead] at h
      simp only [Except.ok.injEq] at h
      subst h
      show (upd w.lists a2 _ a2)._head = none
      simp
    · exact absurd e hns
  | cons y t =>
    simp only [Seg] at hseg
    obtain ⟨h1, h2, h3⟩ := hseg
    have e : n = y := by
      rw [hn] at h1
      exact Option.some.inj h1
    subst e
    have hnm : n ≠ b := by
      intro c
      have := (List.nodup_cons.1 hnd).1
      rw [c] at this
      exact this (List.mem_cons_self _ _)
    rcases hcase with ⟨hns, -, -⟩ | ⟨hns, hps⟩
    · exact absurd hns hnm
    · rw [remove_multi w b a2 n p ha hn hp hns hps] at h
      simp only [Except.ok.injEq] at h
      subst h
      have hnd2 := (List.nodup_cons.1 hnd).2
      have hs := seg_remove (fun j => (w.buffers j)._nextHasFree)
        (fun j => (w.buffers j)._prevHasFree) t b p n hp hnm n h3
        (List.nodup_cons.1 hnd).1 (List.nodup_cons.1 hnd2).1 hnd2
      refine ⟨by simp, ?_, hnd2⟩
      exact seg_congr _ _ _ _
        (fun j => (remove_multi_links w.buffers b n p j).1)
        (fun j => (remove_multi_links w.buffers b n p j).2) t n n hs

/-- In a circular list every member has a successor and a predecessor among the
members, and is the predecessor of its successor and the successor of its
predecessor. -/
theorem ring_member_links (w : Store) (a : Nat) (l : List Nat) (hring : Ring w a l)
    (m : Nat) (hm : m ∈ l) :
    ∃ n p, n ∈ l ∧ p ∈ l ∧
      (w.buffers m)._nextHasFree = some n ∧ (w.buffers n)._prevHasFree = some m ∧
      (w.buffers m)._prevHasFree = some p ∧ (w.buffers p)._nextHasFree = some m ∧
      (n = m → l = [m]) := by
  obtain ⟨pre, post, e⟩ := List.append_of_mem hm
  cases l with
  | nil => simp at hm
  | cons hd t =>
    obtain ⟨-, hseg, hnd⟩ := hring
    have hc := cyc_to_front _ _ m pre post hd t e hseg
    have hmem : ∀ x, x ∈ m :: (post ++ pre) → x ∈ hd :: t := by
      intro x hx
      rw [e]
      simp only [List.mem_cons, List.mem_append] at hx ⊢
      tauto
    have hnd2 : (m :: (post ++ pre)).Nodup := by
      rw [e] at hnd
      have hp : (pre ++ m :: post).Perm (m :: (post ++ pre)) := by
        refine List.perm_middle.trans (List.Perm.cons _ List.perm_append_comm)
      exact hp.nodup_iff.1 hnd
    obtain ⟨q, hq, hq1, hq2⟩ := seg_close _ _ (post ++ pre) m m hc
    cases hpp : post ++ pre with
    | nil =>
      rw [hpp] at hc
      simp only [Seg] at hc
      have hpre : pre = [] := (List.append_eq_nil.1 hpp).2
      have hpost : post = [] := (List.append_eq_nil.1 hpp).1
      refine ⟨m, m, hm, hm, hc.1, hc.2, hc.2, hc.1, ?_⟩
      intro _
      rw [e, hpre, hpost]
      rfl
    | cons y t2 =>
      rw [hpp] at hc
      simp only [Seg] at hc
      have hy : y ∈ hd :: t := hmem y (by rw [hpp]; simp)
      refine ⟨y, q, hy, hmem q hq, hc.1, hc.2.1, hq2, hq1, ?_⟩
      intro c
      rw [hpp] at hnd2
      have := (List.nodup_cons.1 hnd2).1
      rw [c] at this
      exact absurd (List.mem_cons_self _ _) this

/-- The operations on the circular list leave the anchor reference of every buffer. -/
theorem add_anchor (w : Store) (b : Nat) (w' : Store) (h : addToFreeListList w b = .ok w')
    (x : Nat) : (w'.buffers x)._freeListList = (w.buffers x)._freeListList :=
  linkOp_anchor (.add b) w w' h x

/-- The operations on the circular list leave the anchor reference of every buffer. -/
theorem remove_anchor (w : Store) (b : Nat) (w' : Store)
    (h : removeFromFreeListList w b = .ok w') (x : Nat) :
    (w'.buffers x)._freeListList = (w.buffers x)._freeListList :=
  linkOp_anchor (.remove b) w w' h x

/-- In a well-formed list `addToFreeListList` on a buffer that names the anchor and is
not a member completes. -/
theorem add_completes (w : Store) (a b : Nat) (l : List Nat) (hwf : WellFormedList w a l)
    (hb : (w.buffers b)._freeListList = some a) (hbl : b ∉ l) :
    ∃ w', addToFreeListList w b = .ok w' := by
  obtain ⟨hring, -, hnon⟩ := hwf
  obtain ⟨hn, hp⟩ := hnon b hb hbl
  cases l with
  | nil =>
    have hhead : (w.lists a)._head = none := hring
    exact ⟨_, add_empty w b a hb hhead hn hp⟩
  | cons m t =>
    obtain ⟨n, p, -, -, -, -, hpm, -, -⟩ :=
      ring_member_links w a (m :: t) hring m (List.mem_cons_self _ _)
    have hhs : m ≠ b := fun c => hbl (by rw [← c]; exact List.mem_cons_self _ _)
    exact ⟨_, add_nonempty w b a m p hb hring.1 hhs hn hp hpm⟩

/-- In a well-formed list a successful `addToFreeListList` on a buffer that names the
anchor and is not a member leaves a well-formed list with the buffer as a new member. -/
theorem add_wellFormed (w : Store) (a b : Nat) (l : List Nat) (hwf : WellFormedList w a l)
    (hb : (w.buffers b)._freeListList = some a) (hbl : b ∉ l) (w' : Store)
    (h : addToFreeListList w b = .ok w') : WellFormedList w' a (b :: l) := by
  obtain ⟨hring, hmem, hnon⟩ := hwf
  refine ⟨ring_add w a b l w' hring hb h, ?_, ?_⟩
  · intro x hx
    rw [add_anchor w b w' h x]
    rcases List.mem_cons.1 hx with e | e
    · rw [e]
      exact hb
    · exact hmem x e
  · intro x hx hxl
    rw [add_anchor w b w' h x] at hx
    have hxb : x ≠ b := fun c => hxl (by rw [c]; exact List.mem_cons_self _ _)
    have hxl2 : x ∉ l := fun c => hxl (List.mem_cons_of_mem _ c)
    obtain ⟨hxn, hxp⟩ := hnon x hx hxl2
    obtain ⟨hn, hp⟩ := hnon b hb hbl
    cases l with
    | nil =>
      have hhead : (w.lists a)._head = none := hring
      rw [add_empty w b a hb hhead hn hp] at h
      simp only [Except.ok.injEq] at h
      subst h
      simp only [upd_ne _ _ _ _ hxb]
      exact ⟨hxn, hxp⟩
    | cons m t =>
      obtain ⟨n, p, -, hpl, -, -, hpm, -, -⟩ :=
        ring_member_links w a (m :: t) hring m (List.mem_cons_self _ _)
      have hhs : m ≠ b := fun c => hbl (by rw [← c]; exact List.mem_cons_self _ _)
      have hxm : x ≠ m := fun c => hxl2 (by rw [c]; exact List.mem_cons_self _ _)
      have hxq : x ≠ p := fun c => hxl2 (by rw [c]; exact hpl)
      rw [add_nonempty w b a m p hb hring.1 hhs hn hp hpm] at h
      simp only [Except.ok.injEq] at h
      subst h
      show (_ : BufferState)._nextHasFree = none ∧ (_ : BufferState)._prevHasFree = none
      rw [(add_nonempty_links w.buffers b m p x hhs).1,
        (add_nonempty_links w.buffers b m p x hhs).2]
      rw [upd_ne _ _ _ _ hxq, upd_ne _ _ _ _ hxb, upd_ne _ _ _ _ hxm, upd_ne _ _ _ _ hxb]
      exact ⟨hxn, hxp⟩

/-- In a well-formed list `removeFromFreeListList` on a member completes and leaves a
well-formed list of the other members. -/
theorem remove_wellFormed (w : Store) (a b : Nat) (l : List Nat)
    (hwf : WellFormedList w a l) (hbl : b ∈ l) :
    ∃ w' l', removeFromFreeListList w b = .ok w' ∧ WellFormedList w' a l' ∧
      ∀ x, x ∈ l' ↔ (x ∈ l ∧ x ≠ b) := by
  obtain ⟨hring, hmem, hnon⟩ := hwf
  have hb := hmem b hbl
  obtain ⟨n, p, hnl, hpl, hn, hnp, hp, hpn, hsingle⟩ := ring_member_links w a l hring b hbl
  have hs : n = b → p = b ∧ (w.lists a)._head = some b := by
    intro e
    have hl := hsingle e
    subst hl
    obtain ⟨hhead, hseg, -⟩ := hring
    simp only [Seg] at hseg
    rw [hp] at hseg
    exact ⟨Option.some.inj hseg.2, hhead⟩
  have hm : n ≠ b → p ≠ b := by
    intro hne c
    rw [c, hn] at hpn
    exact hne (Option.some.inj hpn)
  obtain ⟨w', h, -, -, hbn, hbp, hfn, hfp, -⟩ := remove_links w b a n p hb hn hp hs hm
  obtain ⟨pre, post, e⟩ := List.append_of_mem hbl
  have hnd : l.Nodup := by
    cases l with
    | nil => simp
    | cons hd t => exact hring.2.2
  have hperm : (pre ++ b :: post).Perm (b :: (post ++ pre)) :=
    List.perm_middle.trans (List.Perm.cons _ List.perm_append_comm)
  have hnd2 : (b :: (post ++ pre)).Nodup := by
    rw [e] at hnd
    exact hperm.nodup_iff.1 hnd
  have hmem2 : ∀ x, x ∈ post ++ pre ↔ (x ∈ l ∧ x ≠ b) := by
    intro x
    have hx : x ∈ l ↔ x ∈ b :: (post ++ pre) := by
      rw [e]
      exact hperm.mem_iff
    rw [hx]
    constructor
    · intro hxm
      refine ⟨List.mem_cons_of_mem _ hxm, ?_⟩
      intro c
      rw [c] at hxm
      exact (List.nodup_cons.1 hnd2).1 hxm
    · rintro ⟨hxm, hxb⟩
      rcases List.mem_cons.1 hxm with c | c
      · exact absurd c hxb
      · exact c
  have hseg : Seg (fun j => (w.buffers j)._nextHasFree)
      (fun j => (w.buffers j)._prevHasFree) b (post ++ pre) b := by
    cases l with
    | nil => simp at hbl
    | cons hd t => exact cyc_to_front _ _ b pre post hd t e hring.2.1
  refine ⟨w', post ++ pre, h, ⟨cycle_remove w a b (post ++ pre) w' hseg hnd2 hb h, ?_, ?_⟩,
    hmem2⟩
  · intro x hx
    rw [remove_anchor w b w' h x]
    exact hmem x ((hmem2 x).1 hx).1
  · intro x hx hxl
    rw [remove_anchor w b w' h x] at hx
    by_cases hxb : x = b
    · rw [hxb]
      exact ⟨hbn, hbp⟩
    · have hxl2 : x ∉ l := fun c => hxl ((hmem2 x).2 ⟨c, hxb⟩)
      obtain ⟨hxn, hxp⟩ := hnon x hx hxl2
      have hxp2 : x ≠ p := fun c => hxl2 (by rw [c]; exact hpl)
      have hxn2 : x ≠ n := fun c => hxl2 (by rw [c]; exact hnl)
      rw [hfn x hxb hxp2, hfp x hxb hxn2]
      exact ⟨hxn, hxp⟩

/-- The store in which no buffer is linked yet has the well-formed empty list at
anchor 0. -/
theorem linkStore_wellFormed : WellFormedList linkStore 0 [] :=
  ⟨rfl, fun _ hx => absurd hx (List.not_mem_nil _), fun _ _ _ => ⟨rfl, rfl⟩⟩

/-- After buffer 1 has been linked, the list of anchor 0 is well formed with the single
member 1. -/
theorem linkStore_one_wellFormed :
    WellFormedList (storeAfter (runLinks [.add 1] linkStore) linkStore) 0 [1] :=
  add_wellFormed linkStore 0 1 [] linkStore_wellFormed rfl (List.not_mem_nil _) _ (by rfl)

/-- Two stores with the same components are equal. -/
theorem store_ext (w w' : Store) (ht : w'.types = w.types)
    (hl : ∀ a, w'.lists a = w.lists a) (hb : ∀ x, w'.buffers x = w.buffers x)
    (ha : w'.allocated = w.allocated) : w' = w := by
  cases w
  cases w'
  simp only [Store.mk.injEq] at *
  exact ⟨ht, funext hl, funext hb, ha⟩

/-- Two buffers that agree up to their links and in their links are equal. -/
theorem buffer_eq_of_sansLinks (b c : BufferState) (h : sansLinks b = sansLinks c)
    (hn : b._nextHasFree = c._nextHasFree) (hp : b._prevHasFree = c._prevHasFree) :
    b = c := by
  cases b
  cases c
  simp only [sansLinks, BufferState.mk.injEq] at h
  simp only [BufferState.mk.injEq]
  simp only at hn hp
  simp [h, hn, hp]

/-- Two anchors with the same head are equal. -/
theorem anchor_eq_of_head (f g : FreeListList) (h : f._head = g._head) : f = g := by
  cases f
  cases g
  simp only at h
  simp [h]

/-- Replaying two sequences of steps one after the other. -/
theorem replay_append (a b : List Event) (sh : Shared) :
    replay (a ++ b) sh = replay b (replay a sh) := by
  simp [replay, List.foldl_append]

/-- Replaying a sequence that starts with a given step. -/
theorem replay_cons (e : Event) (es : List Event) (sh : Shared) :
    replay (e :: es) sh = replay es (e.apply sh) := rfl

/-- Replaying no step. -/
theorem replay_nil (sh : Shared) : replay [] sh = sh := rfl

/-- The shared state after the first `n` elements have been copied. -/
theorem replay_copies (d s : Nat) (sh : Shared) (n : Nat) :
    replay ((List.range n).map (fun i => Event.copy d s i)) sh =
      { sh with mem := fun a j => if a = d ∧ j < n then sh.mem s j else sh.mem a j } := by
  induction n with
  | zero =>
    simp [replay]
  | succ n ih =>
    rw [List.range_succ, List.map_append, replay_append, ih]
    simp only [List.map_cons, List.map_nil, replay_cons, replay_nil, Event.apply]
    congr 1
    funext a j
    by_cases ha : a = d
    · subst ha
      by_cases hj : j = n
      · subst hj
        simp
      · by_cases hlt : j < n
        · have : j < n + 1 := by omega
          simp [hj, hlt, this]
        · have : ¬ j < n + 1 := by omega
          simp [hj, hlt, this]
    · simp [ha]

/-- The copy hook as a sequence of writes has the effect of the copy hook. -/
theorem copyEvents_spec (mem : Memory) (newBuffer oldBuffer : Option Nat) (numElems : Nat) :
    (∀ copies, copyEvents newBuffer oldBuffer numElems = .ok copies →
      ∀ sh : Shared, sh.mem = mem →
        fallbackCopy mem newBuffer oldBuffer numElems = .ok (replay copies sh).mem ∧
        (replay copies sh).store = sh.store ∧ (replay copies sh).buffer = sh.buffer ∧
        (replay copies sh).holdBuffer = sh.holdBuffer) ∧
    (∀ mem', fallbackCopy mem newBuffer oldBuffer numElems = .ok mem' →
      ∃ copies, copyEvents newBuffer oldBuffer numElems = .ok copies) := by
  constructor
  · intro copies h sh hm
    by_cases h0 : numElems = 0
    · simp only [copyEvents, h0, if_true, Except.ok.injEq] at h
      subst h
      simp [fallbackCopy, h0, replay_nil, hm]
    · cases newBuffer with
      | none => simp [copyEvents, h0] at h
      | some d =>
        cases oldBuffer with
        | none => simp [copyEvents, h0] at h
        | some s =>
          simp only [copyEvents, h0, if_false, Except.ok.injEq] at h
          subst h
          rw [replay_copies]
          simp [fallbackCopy, h0, hm]
  · intro mem' h
    by_cases h0 : numElems = 0
    · exact ⟨[], by simp [copyEvents, h0]⟩
    · cases newBuffer with
      | none => simp [fallbackCopy, h0] at h
      | some d =>
        cases oldBuffer with
        | none => simp [fallbackCopy, h0] at h
        | some s =>
          exact ⟨(List.range numElems).map (fun i => Event.copy d s i),
            by simp [copyEvents, h0]⟩

/-- What a successful run of `fallbackResize` as a sequence of steps has checked, and
the steps it consists of. -/
theorem fallbackResizeEvents_ok_inv (w : Store) (self bufferId : Nat)
    (sizeNeeded maxClusters : Nat) (buffer holdBuffer : Option Nat)
    (elementSize : Nat → Nat) (create : Nat → Option Nat) (es : List Event)
    (h : BufferState.fallbackResizeEvents w self bufferId sizeNeeded maxClusters buffer
      holdBuffer elementSize create = .ok es) :
    (w.buffers self)._state = .ACTIVE ∧ holdBuffer = none ∧
    ∃ th c copies, (w.buffers self)._typeHandler = some th ∧
      calcClustersToAlloc w th bufferId sizeNeeded maxClusters = .ok c ∧
      add64 (w.buffers self)._usedElems sizeNeeded ≤ c * (w.types th)._clusterSize ∧
      (w.buffers self)._allocElems < c * (w.types th)._clusterSize ∧
      copyEvents (create (mul64 (c * (w.types th)._clusterSize) (elementSize th)))
        buffer (w.buffers self)._usedElems = .ok copies ∧
      es = .create (create (mul64 (c * (w.types th)._clusterSize) (elementSize th)))
        :: copies ++
          [.swapHold self, .fence,
            .setBuffer self (create (mul64 (c * (w.types th)._clusterSize) (elementSize th))),
            .publish self, .setAllocElems self (c * (w.types th)._clusterSize), .fence] := by
  by_cases a1 : (w.buffers self)._state = .ACTIVE
  swap
  · simp [BufferState.fallbackResizeEvents, a1] at h
  cases a2 : (w.buffers self)._typeHandler with
  | none => simp [BufferState.fallbackResizeEvents, a1, a2] at h
  | some th =>
    by_cases a3 : holdBuffer = none
    swap
    · simp [BufferState.fallbackResizeEvents, a1, a2, a3] at h
    cases hc : calcClustersToAlloc w th bufferId sizeNeeded maxClusters with
    | error e => simp [BufferState.fallbackResizeEvents, a1, a2, a3, hc] at h
    | ok c =>
      have hmul := calcClustersToAlloc_mul64 w th bufferId sizeNeeded maxClusters c hc
      by_cases a4 : add64 (w.buffers self)._usedElems sizeNeeded
          ≤ c * (w.types th)._clusterSize
      swap
      · simp [BufferState.fallbackResizeEvents, a1, a2, a3, hc, hmul, a4] at h
      by_cases a5 : (w.buffers self)._allocElems < c * (w.types th)._clusterSize
      swap
      · simp [BufferState.fallbackResizeEvents, a1, a2, a3, hc, hmul, a4, a5] at h
      cases hcp : copyEvents
          (create (mul64 (c * (w.types th)._clusterSize) (elementSize th)))
          buffer (w.buffers self)._usedElems with
      | error e =>
        simp [BufferState.fallbackResizeEvents, a1, a2, a3, hc, hmul, a4, a5, hcp] at h
      | ok copies =>
        refine ⟨a1, a3, th, c, copies, rfl, hc, a4, a5, hcp, ?_⟩
        simp [BufferState.fallbackResizeEvents, a1, a2, a3, hc, hmul, a4, a5, hcp] at h
        rw [← h]
        simp

/-- The steps of the copy hook are copies of elements. -/
theorem copyEvents_mem (newBuffer oldBuffer : Option Nat) (numElems : Nat)
    (copies : List Event) (h : copyEvents newBuffer oldBuffer numElems = .ok copies)
    (e : Event) (he : e ∈ copies) : ∃ d s i, e = Event.copy d s i := by
  by_cases h0 : numElems = 0
  · simp only [copyEvents, h0, if_true, Except.ok.injEq] at h
    subst h
    simp at he
  · cases newBuffer with
    | none => simp [copyEvents, h0] at h
    | some d =>
      cases oldBuffer with
      | none => simp [copyEvents, h0] at h
      | some s =>
        simp only [copyEvents, h0, if_false, Except.ok.injEq] at h
        subst h
        simp only [List.mem_map, List.mem_range] at he
        obtain ⟨i, -, hi⟩ := he
        exact ⟨d, s, i, hi.symm⟩

/-- The shared state after the steps of `fallbackResize` up to the assignment of line
345: the copy is complete, the prior allocation is in the hold slot, and the caller's
pointer is still the old one. -/
theorem replay_upto_setBuffer (w : Store) (mem : Memory) (self : Nat)
    (buffer : Option Nat) (newBuffer : Option Nat) (copies : List Event) (mem' : Memory)
    (hcopies : copyEvents newBuffer buffer (w.buffers self)._usedElems = .ok copies)
    (hcopy : fallbackCopy mem newBuffer buffer (w.buffers self)._usedElems = .ok mem') :
    replay (.create newBuffer :: copies ++ [.swapHold self, .fence, .setBuffer self newBuffer])
        ⟨w, mem, buffer, none⟩ =
      ⟨{ w with
          allocated := newBuffer.toList ++ w.allocated
          buffers := upd w.buffers self { w.buffers self with _buffer := newBuffer } },
        mem', buffer, (w.buffers self)._buffer⟩ := by
  have hsp := (copyEvents_spec mem newBuffer buffer (w.buffers self)._usedElems).1 copies
    hcopies ((Event.create newBuffer).apply ⟨w, mem, buffer, none⟩) rfl
  obtain ⟨h1, h2, h3, h4⟩ := hsp
  rw [hcopy] at h1
  simp only [Except.ok.injEq] at h1
  rw [List.cons_append, replay_cons, replay_append]
  generalize hsh : replay copies ((Event.create newBuffer).apply ⟨w, mem, buffer, none⟩) = sh
    at h1 h2 h3 h4
  cases sh with
  | mk st m b hb =>
    simp only at h1 h2 h3 h4
    subst h1
    subst h2
    subst h3
    subst h4
    simp [replay, Event.apply, Store.setBuffer]

/-- The steps of `fallbackResize` after the assignment of line 346 leave the memory and
the caller's pointer. -/
theorem replay_after_publish (self n : Nat) (sh : Shared) (c : List Event)
    (hc : c = [] ∨ c = [.setAllocElems self n] ∨ c = [.setAllocElems self n, .fence]) :
    (replay c sh).mem = sh.mem ∧ (replay c sh).buffer = sh.buffer := by
  rcases hc with h | h | h <;> subst h <;> simp [replay, Event.apply]

/-- The prefixes of the last two steps of `fallbackResize`. -/
theorem prefix_of_two (a b : Event) (c suf : List Event) (h : [a, b] = c ++ suf) :
    c = [] ∨ c = [a] ∨ c = [a, b] := by
  cases c with
  | nil => exact Or.inl rfl
  | cons x c =>
    simp only [List.cons_append, List.cons.injEq] at h
    obtain ⟨hx, h⟩ := h
    subst hx
    cases c with
    | nil => exact Or.inr (Or.inl rfl)
    | cons y c =>
      simp only [List.cons_append, List.cons.injEq] at h
      obtain ⟨hy, h⟩ := h
      subst hy
      cases c with
      | nil => exact Or.inr (Or.inr rfl)
      | cons z c => simp at h

/-- A prefix of the steps of `fallbackResize` that contains the assignment of line 346
consists of the steps up to line 345, that assignment, and a prefix of the last two
steps. -/
theorem prefix_with_publish (self n : Nat) (newBuffer : Option Nat) (copies : List Event)
    (hcopies : ∀ e, e ∈ copies → ∃ d s i, e = Event.copy d s i)
    (pre suf : List Event)
    (h : .create newBuffer :: copies ++
        [.swapHold self, .fence, .setBuffer self newBuffer, .publish self,
          .setAllocElems self n, .fence] = pre ++ suf)
    (hp : Event.publish self ∈ pre) :
    ∃ c, pre = (.create newBuffer :: copies ++
        [.swapHold self, .fence, .setBuffer self newBuffer]) ++ .publish self :: c ∧
      (c = [] ∨ c = [.setAllocElems self n] ∨ c = [.setAllocElems self n, .fence]) := by
  have hA : Event.publish self ∉ (.create newBuffer :: copies ++
      [.swapHold self, .fence, .setBuffer self newBuffer] : List Event) := by
    intro c
    simp only [List.cons_append, List.mem_cons, List.mem_append, List.mem_singleton,
      reduceCtorEq, false_or, or_false, List.not_mem_nil] at c
    obtain ⟨d, s, i, e⟩ := hcopies _ c
    cases e
  have e : (.create newBuffer :: copies ++
      [.swapHold self, .fence, .setBuffer self newBuffer, .publish self,
        .setAllocElems self n, .fence] : List Event)
      = (.create newBuffer :: copies ++
          [.swapHold self, .fence, .setBuffer self newBuffer])
        ++ [.publish self, .setAllocElems self n, .fence] := by
    simp
  rw [e] at h
  rcases List.append_eq_append_iff.1 h with ⟨c', h1, h2⟩ | ⟨a', h1, h2⟩
  · have hc' : Event.publish self ∈ c' := by
      rw [h1] at hp
      rcases List.mem_append.1 hp with c | c
      · exact absurd c hA
      · exact c
    cases c' with
    | nil => simp at hc'
    | cons x c =>
      simp only [List.cons_append, List.cons.injEq] at h2
      obtain ⟨hx, h2⟩ := h2
      subst hx
      exact ⟨c, h1, prefix_of_two _ _ c suf h2⟩
  · exfalso
    apply hA
    rw [h1]
    exact List.mem_append_left _ hp

/-- The steps of `fallbackResize` are produced when the guards of the function hold and
the copy hook has both of its blocks. -/
theorem fallbackResizeEvents_ok (w : Store) (self bufferId : Nat)
    (sizeNeeded maxClusters : Nat) (buffer : Option Nat)
    (elementSize : Nat → Nat) (create : Nat → Option Nat) (th c : Nat)
    (copies : List Event)
    (hstate : (w.buffers self)._state = .ACTIVE)
    (hth : (w.buffers self)._typeHandler = some th)
    (hc : calcClustersToAlloc w th bufferId sizeNeeded maxClusters = .ok c)
    (hsize : add64 (w.buffers self)._usedElems sizeNeeded ≤ c * (w.types th)._clusterSize)
    (hgrow : (w.buffers self)._allocElems < c * (w.types th)._clusterSize)
    (hcopy : copyEvents (create (mul64 (c * (w.types th)._clusterSize) (elementSize th)))
      buffer (w.buffers self)._usedElems = .ok copies) :
    ∃ es, BufferState.fallbackResizeEvents w self bufferId sizeNeeded maxClusters buffer
      none elementSize create = .ok es := by
  have hmul := calcClustersToAlloc_mul64 w th bufferId sizeNeeded maxClusters c hc
  simp [BufferState.fallbackResizeEvents, hstate, hth, hc, hmul, hsize, hgrow, hcopy]

/-- Steps other than the assignment of line 346 leave the caller's pointer. -/
theorem replay_buffer_unpublished (es : List Event) :
    ∀ sh : Shared, (∀ e, e ∈ es → ∀ s, e ≠ Event.publish s) →
      (replay es sh).buffer = sh.buffer := by
  induction es with
  | nil => intro sh _; rfl
  | cons e es ih =>
    intro sh h
    rw [replay_cons, ih _ (fun x hx => h x (List.mem_cons_of_mem _ hx))]
    have he := h e (List.mem_cons_self _ _)
    cases e with
    | publish s => exact absurd rfl (he s)
    | create p => rfl
    | copy d s i => rfl
    | swapHold s => rfl
    | fence => rfl
    | setBuffer s p => rfl
    | setAllocElems s n => rfl

/-- What the last release fence of a prefix with the assignment of line 346 has made
visible includes the steps up to the fence of line 344. -/
theorem releasedPrefix_with_publish (self n : Nat) (newBuffer : Option Nat)
    (copies c : List Event)
    (hc : c = [] ∨ c = [.setAllocElems self n] ∨ c = [.setAllocElems self n, .fence]) :
    releasedPrefix ((.create newBuffer :: copies ++
        [.swapHold self, .fence, .setBuffer self newBuffer]) ++ .publish self :: c)
      = .create newBuffer :: copies ++ [.swapHold self, .fence] ∨
    releasedPrefix ((.create newBuffer :: copies ++
        [.swapHold self, .fence, .setBuffer self newBuffer]) ++ .publish self :: c)
      = (.create newBuffer :: copies ++
        [.swapHold self, .fence, .setBuffer self newBuffer]) ++ .publish self :: c := by
  rcases hc with h | h | h <;> subst h
  · left
    simp [releasedPrefix, List.dropWhile]
  · left
    simp [releasedPrefix, List.dropWhile]
  · right
    simp [releasedPrefix, List.dropWhile]

/-- Steps other than the copies leave the memory contents. -/
theorem replay_mem_uncopied (es : List Event) :
    ∀ sh : Shared, (∀ e, e ∈ es → ∀ d s i, e ≠ Event.copy d s i) →
      (replay es sh).mem = sh.mem := by
  induction es with
  | nil => intro sh _; rfl
  | cons e es ih =>
    intro sh h
    rw [replay_cons, ih _ (fun x hx => h x (List.mem_cons_of_mem _ hx))]
    have he := h e (List.mem_cons_self _ _)
    cases e with
    | copy d s i => exact absurd rfl (he d s i)
    | create p => rfl
    | publish s => rfl
    | swapHold s => rfl
    | fence => rfl
    | setBuffer s p => rfl
    | setAllocElems s n => rfl

/-- The shared state after a prefix of the steps of `fallbackResize` that contains the
assignment of line 346: the caller's pointer is the new block and the copy is
complete. -/
theorem replay_published (w : Store) (mem : Memory) (self n : Nat)
    (buffer : Option Nat) (newBuffer : Option Nat) (copies : List Event) (mem' : Memory)
    (hcopies : copyEvents newBuffer buffer (w.buffers self)._usedElems = .ok copies)
    (hcopy : fallbackCopy mem newBuffer buffer (w.buffers self)._usedElems = .ok mem')
    (c : List Event)
    (hc : c = [] ∨ c = [.setAllocElems self n] ∨ c = [.setAllocElems self n, .fence]) :
    (replay ((.create newBuffer :: copies ++
        [.swapHold self, .fence, .setBuffer self newBuffer]) ++ .publish self :: c)
        ⟨w, mem, buffer, none⟩).buffer = newBuffer ∧
    (replay ((.create newBuffer :: copies ++
        [.swapHold self, .fence, .setBuffer self newBuffer]) ++ .publish self :: c)
        ⟨w, mem, buffer, none⟩).mem = mem' := by
  rw [replay_append, replay_cons,
    replay_upto_setBuffer w mem self buffer newBuffer copies mem' hcopies hcopy]
  obtain ⟨h1, h2⟩ := replay_after_publish self n
    ((Event.publish self).apply
      ⟨{ w with
          allocated := newBuffer.toList ++ w.allocated
          buffers := upd w.buffers self { w.buffers self with _buffer := newBuffer } },
        mem', buffer, (w.buffers self)._buffer⟩) c hc
  rw [h1, h2]
  simp [Event.apply, upd_same]

/-- The memory contents after the steps of `fallbackResize` up to the fence of line
344: the copy is complete. -/
theorem replay_upto_fence (w : Store) (mem : Memory) (self : Nat)
    (buffer : Option Nat) (newBuffer : Option Nat) (copies : List Event) (mem' : Memory)
    (hcopies : copyEvents newBuffer buffer (w.buffers self)._usedElems = .ok copies)
    (hcopy : fallbackCopy mem newBuffer buffer (w.buffers self)._usedElems = .ok mem') :
    (replay (.create newBuffer :: copies ++ [.swapHold self, .fence])
        ⟨w, mem, buffer, none⟩).mem = mem' := by
  have hsp := (copyEvents_spec mem newBuffer buffer (w.buffers self)._usedElems).1 copies
    hcopies ((Event.create newBuffer).apply ⟨w, mem, buffer, none⟩) rfl
  obtain ⟨h1, -⟩ := hsp
  rw [hcopy] at h1
  simp only [Except.ok.injEq] at h1
  rw [List.cons_append, replay_cons, replay_append, replay_mem_uncopied, ← h1]
  intro e he d s i
  simp only [List.mem_cons, List.mem_singleton, List.not_mem_nil, or_false] at he
  rcases he with he | he <;> subst he <;> simp

/-- The steps of `fallbackResize`, taken one after the other, have the effect of the
function. -/
theorem fallbackResizeEvents_refines (w : Store) (mem : Memory) (self bufferId : Nat)
    (sizeNeeded maxClusters : Nat) (buffer holdBuffer : Option Nat)
    (elementSize : Nat → Nat) (create : Nat → Option Nat) (es : List Event)
    (h : BufferState.fallbackResizeEvents w self bufferId sizeNeeded maxClusters buffer
      holdBuffer elementSize create = .ok es) :
    BufferState.fallbackResize w mem self bufferId sizeNeeded maxClusters buffer
      holdBuffer elementSize create
      = .ok (replay es ⟨w, mem, buffer, holdBuffer⟩).result := by
  obtain ⟨hstate, hhold, th, c, copies, hth, hc, hsize, hgrow, hcopies, hes⟩ :=
    fallbackResizeEvents_ok_inv w self bufferId sizeNeeded maxClusters buffer holdBuffer
      elementSize create es h
  subst hhold
  have hsp := (copyEvents_spec mem
    (create (mul64 (c * (w.types th)._clusterSize) (elementSize th))) buffer
    (w.buffers self)._usedElems).1 copies hcopies
    ((Event.create (create (mul64 (c * (w.types th)._clusterSize) (elementSize th)))).apply
      ⟨w, mem, buffer, none⟩) rfl
  obtain ⟨hcopy, -⟩ := hsp
  obtain ⟨r, hr⟩ := fallbackResize_ok w mem self bufferId sizeNeeded maxClusters buffer
    elementSize create th c _ hstate hth hc hsize hgrow hcopy
  obtain ⟨-, -, th', c', mem', hth', hc', -, -, hcopy', hreq⟩ :=
    fallbackResize_ok_inv w mem self bufferId sizeNeeded maxClusters buffer none
      elementSize create r hr
  rw [hth] at hth'
  cases hth'
  rw [hc] at hc'
  cases hc'
  rw [hr, hreq]
  have e : es = (.create (create (mul64 (c * (w.types th)._clusterSize) (elementSize th)))
        :: copies ++ [.swapHold self, .fence,
          .setBuffer self (create (mul64 (c * (w.types th)._clusterSize) (elementSize th)))])
      ++ [.publish self, .setAllocElems self (c * (w.types th)._clusterSize), .fence] := by
    rw [hes]
    simp
  rw [e, replay_append, replay_upto_setBuffer w mem self buffer _ copies mem' hcopies hcopy']
  simp [replay, Event.apply, Shared.result, Store.setBuffer, upd_same, upd_upd_same]

/-! ## `BufferTypeBase::onHold` and `BufferTypeBase::onFree` -/

/-- C23: the constructor of `BufferTypeBase` stores `cluster_size`, takes
`min(min_clusters, max_clusters)` as the lower and `max_clusters` as the upper limit, so
that the lower limit is at most the upper one, and starts with all four counters zero and
no pending counter; and `flushLastUsed`, `onActive`, `onHold` and `onFree` of the entry,
and every operation of a buffer, leave `cluster_size`, `min_clusters` and `max_clusters`
of every type entry. -/
theorem typeLimits_fixed :
    (∀ clusterSize minClusters maxClusters : Nat,
      (BufferTypeBase.new clusterSize minClusters maxClusters)._clusterSize = clusterSize ∧
      (BufferTypeBase.new clusterSize minClusters maxClusters)._minClusters
        = min minClusters maxClusters ∧
      (BufferTypeBase.new clusterSize minClusters maxClusters)._maxClusters = maxClusters ∧
      (BufferTypeBase.new clusterSize minClusters maxClusters)._minClusters
        ≤ (BufferTypeBase.new clusterSize minClusters maxClusters)._maxClusters ∧
      (BufferTypeBase.new clusterSize minClusters maxClusters)._activeBuffers = 0 ∧
      (BufferTypeBase.new clusterSize minClusters maxClusters)._holdBuffers = 0 ∧
      (BufferTypeBase.new clusterSize minClusters maxClusters)._activeUsedElems = 0 ∧
      (BufferTypeBase.new clusterSize minClusters maxClusters)._holdUsedElems = 0 ∧
      (BufferTypeBase.new clusterSize minClusters maxClusters)._lastUsedElems = none) ∧
    (∀ (w : Store) (th x : Nat),
      ((flushLastUsed w th).types x).limits = (w.types x).limits) ∧
    (∀ (w : Store) (th bufferId usedElems deadElems : Nat) (buffer : Option Nat) (x : Nat),
      ((BufferTypeBase.onActive w th bufferId usedElems deadElems buffer).types x).limits
        = (w.types x).limits) ∧
    (∀ (w : Store) (th usedElems : Nat) (w' : Store),
      BufferTypeBase.onHold w th usedElems = .ok w' →
        ∀ x, (w'.types x).limits = (w.types x).limits) ∧
    (∀ (w : Store) (th usedElems : Nat) (w' : Store),
      BufferTypeBase.onFree w th usedElems = .ok w' →
        ∀ x, (w'.types x).limits = (w.types x).limits) ∧
    (∀ (op : BufferOp) (w : Store) (mem : Memory) (w' : Store) (mem' : Memory),
      op.run w mem = .ok (w', mem') → ∀ x, (w'.types x).limits = (w.types x).limits) := by
  refine ⟨?_, ?_, ?_, ?_, ?_, ?_⟩
  · intro clusterSize minClusters maxClusters
    exact ⟨rfl, rfl, rfl, Nat.min_le_right _ _, rfl, rfl, rfl, rfl, rfl⟩
  · intro w th x
    by_cases hx : x = th
    · subst hx
      rw [flushLastUsed_type]
      rfl
    · rw [flushLastUsed_type_ne _ _ _ hx]
  · intro w th bufferId usedElems deadElems buffer x
    by_cases hx : x = th
    · subst hx
      rw [typeOnActive_type]
      rfl
    · rw [typeOnActive_type_ne _ _ _ _ _ _ _ hx]
  · intro w th usedElems w' h x
    rw [typeOnHold_eq] at h
    by_cases hge : (w.buffers usedElems)._usedElems ≤ flushedActiveUsed w th usedElems
    · rw [if_pos hge] at h
      simp only [Except.ok.injEq] at h
      rw [← h]
      by_cases hx : x = th
      · subst hx
        simp [BufferTypeBase.limits]
      · simp [upd_ne _ _ _ _ hx]
    · rw [if_neg hge] at h
      cases h
  · intro w th usedElems w' h x
    rw [typeOnFree_eq] at h
    by_cases hge : usedElems ≤ (w.types th)._holdUsedElems
    · rw [if_pos hge] at h
      simp only [Except.ok.injEq] at h
      rw [← h]
      by_cases hx : x = th
      · subst hx
        simp [BufferTypeBase.limits]
      · simp [upd_ne _ _ _ _ hx]
    · rw [if_neg hge] at h
      cases h
  · intro op w mem w' mem' h x
    exact run_limits op w mem w' mem' h x

/-- Scenario C: holding buffer 1 succeeds and leaves the limits `(1, 4, 1000)` of entry 0;
and the constructor called with `min_clusters = 2000`, `max_clusters = 1000` stores the
lower limit 1000. -/
theorem typeLimits_fixed_witness :
    BufferTypeBase.onHold scenarioC 0 1
      = .ok (storeAfter (BufferTypeBase.onHold scenarioC 0 1) scenarioC) ∧
    ((storeAfter (BufferTypeBase.onHold scenarioC 0 1) scenarioC).types 0).limits
      = (1, 4, 1000) ∧
    (BufferTypeBase.new 8 2000 1000)._minClusters = 1000 :=
  ⟨by rfl, typeLimits_fixed.2.2.2.1 scenarioC 0 1 _ (by rfl) 0,
    (typeLimits_fixed.1 8 2000 1000).2.1⟩

/-! ## The bookkeeping of a type entry over the life of its buffers -/

/-- C24: for a freshly constructed type entry and every successful sequence of
activations, holds, frees and drops of the buffers below `N` against that entry, in which
the owner writes the used count of a buffer only while its counter is the pending one: at
every point of the sequence at which all these buffers are `FREE`, that is, every
activated buffer has been held and freed, the four counters of the entry are zero, no
counter is pending, and the assertions of the destructor hold. -/
theorem type_entry_ends_empty (th N clusterSize minClusters maxClusters : Nat)
    (steps : List Step) (mem : Memory) (ws : List Store)
    (hperm : permitted th N steps
      (Store.fresh (BufferTypeBase.new clusterSize minClusters maxClusters)) mem = true)
    (hrun : drive steps
      (Store.fresh (BufferTypeBase.new clusterSize minClusters maxClusters)) mem = .ok ws) :
    ∀ v, v ∈ ws → (∀ b, b < N → (v.buffers b)._state = .FREE) →
      (v.types th)._activeBuffers = 0 ∧ (v.types th)._holdBuffers = 0 ∧
      (v.types th)._activeUsedElems = 0 ∧ (v.types th)._holdUsedElems = 0 ∧
      (v.types th)._lastUsedElems = none ∧
      BufferTypeBase.delete (v.types th) = .ok () := by
  intro v hv hfree
  have hinv := drive_accounted th N steps _ mem ws
    (accounted_fresh th N clusterSize minClusters maxClusters) hperm hrun v hv
  have hallfree : ∀ b, (v.buffers b)._state = .FREE := by
    intro b
    by_cases hb : b < N
    · exact hfree b hb
    · exact hinv.free_above b (by omega)
  have hc : ∀ s, s ≠ State.FREE → countBound v th N s = 0 := by
    intro s hs
    unfold countBound
    exact sum_range_zero _ N (fun b _ => by
      have : ¬ ((v.buffers b)._state = s) := by
        rw [hallfree b]
        exact fun c => hs c.symm
      simp [boundIn, this])
  have hsm : ∀ s, s ≠ State.FREE → sumUsed v th N s = 0 := by
    intro s hs
    unfold sumUsed
    exact sum_range_zero _ N (fun b _ => by
      have : ¬ ((v.buffers b)._state = s) := by
        rw [hallfree b]
        exact fun c => hs c.symm
      simp [boundIn, this])
  have hl : (v.types th)._lastUsedElems = none := by
    cases h : (v.types th)._lastUsedElems with
    | none => rfl
    | some p =>
      have := hinv.pending_active p h
      rw [hallfree p] at this
      cases this
  have hpc : pendingCount v th = 0 := by
    unfold pendingCount
    rw [hl]
  have h1 : (v.types th)._activeBuffers = 0 := by
    have := hinv.active_count
    rw [hc .ACTIVE (by decide)] at this
    exact this.eq_of_lt_of_lt hinv.active_lt (Nat.two_pow_pos 32)
  have h2 : (v.types th)._holdBuffers = 0 := by
    have := hinv.hold_count
    rw [hc .HOLD (by decide)] at this
    exact this.eq_of_lt_of_lt hinv.hold_lt (Nat.two_pow_pos 32)
  have h3 : (v.types th)._activeUsedElems = 0 := by
    have := hinv.active_sum
    rw [hsm .ACTIVE (by decide), hpc, Nat.add_zero] at this
    exact this.eq_of_lt_of_lt hinv.activeUsed_lt (Nat.two_pow_pos 64)
  have h4 : (v.types th)._holdUsedElems = 0 := by
    have := hinv.hold_sum
    rw [hsm .HOLD (by decide)] at this
    exact this.eq_of_lt_of_lt hinv.holdUsed_lt (Nat.two_pow_pos 64)
  refine ⟨h1, h2, h3, h4, hl, ?_⟩
  simp [BufferTypeBase.delete, h1, h2, h3, h4, hl]

/-- Two buffers are activated, the first is written to, held and freed and the second is
dropped: the sequence is permitted and succeeds, `active_buffers` is 2 after the second
activation, and at the end the assertions of the destructor hold. -/
theorem type_entry_ends_empty_witness :
    permitted 0 2 lifeSteps (Store.fresh (BufferTypeBase.new 1 4 1000)) memoryD = true ∧
    drive lifeSteps (Store.fresh (BufferTypeBase.new 1 4 1000)) memoryD
      = .ok (storesOf (drive lifeSteps (Store.fresh (BufferTypeBase.new 1 4 1000))
          memoryD)) ∧
    ((storeAt (storesOf (drive lifeSteps (Store.fresh (BufferTypeBase.new 1 4 1000))
        memoryD)) 3 scenarioA).types 0)._activeBuffers = 2 ∧
    BufferTypeBase.delete ((storeAt (storesOf (drive lifeSteps
        (Store.fresh (BufferTypeBase.new 1 4 1000)) memoryD)) 7 scenarioA).types 0)
      = .ok () :=
  ⟨by rfl, by rfl, by rfl,
    (type_entry_ends_empty 0 2 1 4 1000 lifeSteps memoryD _ (by rfl) (by rfl)
      (storeAt (storesOf (drive lifeSteps (Store.fresh (BufferTypeBase.new 1 4 1000))
        memoryD)) 7 scenarioA)
      (List.getElem?_mem (n := 7) (by rfl))
      (fun b hb => by
        interval_cases b
        · rfl
        · rfl)).2.2.2.2.2⟩

/-- C27: a fresh buffer has a null type handler and is `FREE`; and when in every buffer
the handler is null exactly in state `FREE` and a bound handler has the `cluster_size` of
the buffer, then after every successful operation (`onActive`, `onHold`, `onFree`,
`dropBuffer`, `setFreeListList`, `fallbackResize`, and also `disableElemHoldList`) the
handler of every buffer is null exactly in state `FREE`, bound exactly in the states
`ACTIVE` and `HOLD`, and a bound handler has the `cluster_size` of the buffer. -/
theorem handler_bound_invariant :
    (∀ w : Store, HandlerBound w BufferState.new) ∧
    (∀ (op : BufferOp) (w : Store) (mem : Memory) (w' : Store) (mem' : Memory),
      op.run w mem = .ok (w', mem') → (∀ x, HandlerBound w (w.buffers x)) →
      ∀ x, ((w'.buffers x)._typeHandler = none ↔ (w'.buffers x)._state = .FREE) ∧
        ((w'.buffers x)._typeHandler ≠ none ↔
          ((w'.buffers x)._state = .ACTIVE ∨ (w'.buffers x)._state = .HOLD)) ∧
        (∀ th, (w'.buffers x)._typeHandler = some th →
          (w'.buffers x)._clusterSize = (w'.types th)._clusterSize) ∧
        HandlerBound w' (w'.buffers x)) := by
  refine ⟨?_, ?_⟩
  · intro w
    refine ⟨by simp [BufferState.new], ?_⟩
    intro th hth
    cases hth
  · intro op w mem w' mem' h hinv x
    have hb := run_handler op w mem w' mem' h hinv x
    refine ⟨hb.1, ?_, hb.2, hb⟩
    rw [Ne, hb.1]
    cases (w'.buffers x)._state <;> simp

/-- Scenario B: activating the fresh buffer 0 succeeds, binds its handler with
`cluster_size = 8`, and the invariant holds for every buffer afterwards. -/
theorem handler_bound_invariant_witness :
    (BufferOp.onActive 0 1 7 0 10 (2 ^ 32) none 4 alloc4096).run scenarioB memoryD
      = .ok (ranStore ((BufferOp.onActive 0 1 7 0 10 (2 ^ 32) none 4 alloc4096).run
          scenarioB memoryD) scenarioB, memoryD) ∧
    ((ranStore ((BufferOp.onActive 0 1 7 0 10 (2 ^ 32) none 4 alloc4096).run
        scenarioB memoryD) scenarioB).buffers 0)._clusterSize = 8 ∧
    ∀ x, HandlerBound
      (ranStore ((BufferOp.onActive 0 1 7 0 10 (2 ^ 32) none 4 alloc4096).run
        scenarioB memoryD) scenarioB)
      ((ranStore ((BufferOp.onActive 0 1 7 0 10 (2 ^ 32) none 4 alloc4096).run
        scenarioB memoryD) scenarioB).buffers x) :=
  ⟨by rfl, by rfl, fun x =>
    (handler_bound_invariant.2 (BufferOp.onActive 0 1 7 0 10 (2 ^ 32) none 4 alloc4096)
      scenarioB memoryD _ memoryD (by rfl)
      (fun _ => handler_bound_invariant.1 scenarioB) x).2.2.2⟩

/-! ## The order of the writes of `fallbackResize` -/

/-- C28: `fallbackResize` completes exactly when its sequence of steps (allocation, the
copies of the elements, swap into the hold slot, fence of line 344, assignment of the new
block, assignment of the caller's pointer in line 346, `alloc_elems`, fence of line 348)
is produced, and then its result is the state after these steps.  An observer that sees
the shared state after any number of these steps sees the old pointer as long as line 346
has not run; once line 346 has run it sees the new pointer and the memory contents of the
end of the run, in which the first `used_elems` elements of the new block are those of
the old one, and the same contents are what the last release fence before that point has
made visible; the copy is complete before the fence of line 344, which precedes line
346, and the second fence follows the update of `alloc_elems`. -/
theorem fallbackResize_publishes_complete_copy (w : Store) (mem : Memory)
    (self bufferId : Nat) (sizeNeeded maxClusters : Nat) (buffer holdBuffer : Option Nat)
    (elementSize : Nat → Nat) (create : Nat → Option Nat) :
    (∀ r, BufferState.fallbackResize w mem self bufferId sizeNeeded maxClusters buffer
        holdBuffer elementSize create = .ok r ↔
      ∃ es, BufferState.fallbackResizeEvents w self bufferId sizeNeeded maxClusters buffer
          holdBuffer elementSize create = .ok es ∧
        r = (replay es ⟨w, mem, buffer, holdBuffer⟩).result) ∧
    (∀ es, BufferState.fallbackResizeEvents w self bufferId sizeNeeded maxClusters buffer
        holdBuffer elementSize create = .ok es →
      (∃ newBuffer copies n, (∀ e, e ∈ copies → ∃ d s i, e = Event.copy d s i) ∧
        es = .create newBuffer :: copies ++
          [.swapHold self, .fence, .setBuffer self newBuffer, .publish self,
            .setAllocElems self n, .fence] ∧
        (replay es ⟨w, mem, buffer, holdBuffer⟩).buffer = newBuffer) ∧
      (∀ pre suf, es = pre ++ suf → Event.publish self ∉ pre →
        (replay pre ⟨w, mem, buffer, holdBuffer⟩).buffer = buffer) ∧
      (∀ pre suf, es = pre ++ suf → Event.publish self ∈ pre →
        (replay pre ⟨w, mem, buffer, holdBuffer⟩).buffer
          = (replay es ⟨w, mem, buffer, holdBuffer⟩).buffer ∧
        (replay pre ⟨w, mem, buffer, holdBuffer⟩).mem
          = (replay es ⟨w, mem, buffer, holdBuffer⟩).mem ∧
        (replay (releasedPrefix pre) ⟨w, mem, buffer, holdBuffer⟩).mem
          = (replay es ⟨w, mem, buffer, holdBuffer⟩).mem ∧
        ((w.buffers self)._usedElems ≠ 0 →
          ∃ d s, (replay pre ⟨w, mem, buffer, holdBuffer⟩).buffer = some d ∧
            buffer = some s) ∧
        (∀ d s, (replay pre ⟨w, mem, buffer, holdBuffer⟩).buffer = some d →
          buffer = some s → ∀ i, i < (w.buffers self)._usedElems →
            (replay pre ⟨w, mem, buffer, holdBuffer⟩).mem d i = mem s i ∧
            (replay (releasedPrefix pre) ⟨w, mem, buffer, holdBuffer⟩).mem d i
              = mem s i))) := by
  constructor
  · intro r
    constructor
    · intro hr
      obtain ⟨hstate, hhold, th, c, mem', hth, hc, hsize, hgrow, hcopy, -⟩ :=
        fallbackResize_ok_inv w mem self bufferId sizeNeeded maxClusters buffer holdBuffer
          elementSize create r hr
      subst hhold
      obtain ⟨copies, hcopies⟩ :=
        (copyEvents_spec mem _ buffer (w.buffers self)._usedElems).2 mem' hcopy
      obtain ⟨es, hes⟩ := fallbackResizeEvents_ok w self bufferId sizeNeeded maxClusters
        buffer elementSize create th c copies hstate hth hc hsize hgrow hcopies
      refine ⟨es, hes, ?_⟩
      have h2 := fallbackResizeEvents_refines w mem self bufferId sizeNeeded maxClusters
        buffer none elementSize create es hes
      rw [hr] at h2
      simpa using h2
    · rintro ⟨es, hes, hr⟩
      rw [hr]
      exact fallbackResizeEvents_refines w mem self bufferId sizeNeeded maxClusters
        buffer holdBuffer elementSize create es hes
  · intro es h
    obtain ⟨-, hhold, th, c, copies, -, -, -, -, hcopies, hes⟩ :=
      fallbackResizeEvents_ok_inv w self bufferId sizeNeeded maxClusters buffer holdBuffer
        elementSize create es h
    subst hhold
    generalize create (mul64 (c * (w.types th)._clusterSize) (elementSize th)) = nb
      at hcopies hes
    generalize c * (w.types th)._clusterSize = n at hes
    have hsp := (copyEvents_spec mem nb buffer (w.buffers self)._usedElems).1 copies
      hcopies ((Event.create nb).apply ⟨w, mem, buffer, none⟩) rfl
    obtain ⟨hcopy, -⟩ := hsp
    generalize (replay copies ((Event.create nb).apply ⟨w, mem, buffer, none⟩)).mem = mem'
      at hcopy
    have hmk := copyEvents_mem nb buffer (w.buffers self)._usedElems copies hcopies
    have e : es = (.create nb :: copies ++ [.swapHold self, .fence, .setBuffer self nb])
        ++ .publish self :: [.setAllocElems self n, .fence] := by
      rw [hes]
      simp
    have hfin := replay_published w mem self n buffer nb copies mem' hcopies hcopy
      [.setAllocElems self n, .fence] (Or.inr (Or.inr rfl))
    rw [← e] at hfin
    obtain ⟨hfb, hfm⟩ := hfin
    have hafter : ∀ pre suf, es = pre ++ suf → Event.publish self ∈ pre →
        (replay pre ⟨w, mem, buffer, none⟩).buffer = nb ∧
        (replay pre ⟨w, mem, buffer, none⟩).mem = mem' ∧
        (replay (releasedPrefix pre) ⟨w, mem, buffer, none⟩).mem = mem' := by
      intro pre suf hps hp
      rw [hes] at hps
      obtain ⟨c', hpre, hc'⟩ := prefix_with_publish self n nb copies hmk pre suf hps hp
      obtain ⟨h1, h2⟩ := replay_published w mem self n buffer nb copies mem' hcopies hcopy
        c' hc'
      rw [← hpre] at h1 h2
      refine ⟨h1, h2, ?_⟩
      rcases releasedPrefix_with_publish self n nb copies c' hc' with hr | hr
      · rw [hpre, hr]
        exact replay_upto_fence w mem self buffer nb copies mem' hcopies hcopy
      · rw [hpre, hr, ← hpre]
        exact h2
    refine ⟨⟨nb, copies, n, hmk, hes, hfb⟩, ?_, ?_⟩
    · intro pre suf hps hp
      apply replay_buffer_unpublished
      intro x hx s hxs
      subst hxs
      have hs : s = self := by
        have hm : Event.publish s ∈ es := by
          rw [hps]
          exact List.mem_append_left _ hx
        rw [hes] at hm
        simp only [List.cons_append, List.mem_cons, List.mem_append, List.mem_singleton,
          reduceCtorEq, false_or, or_false, List.not_mem_nil, Event.publish.injEq] at hm
        rcases hm with hm | hm
        · obtain ⟨d, s', i, e'⟩ := hmk _ hm
          cases e'
        · exact hm
      subst hs
      exact hp hx
    · intro pre suf hps hp
      obtain ⟨h1, h2, h3⟩ := hafter pre suf hps hp
      rw [hfb, hfm]
      refine ⟨h1, h2, h3, ?_, ?_⟩
      · intro hu
        obtain ⟨d, s, hd, hs, -⟩ := (fallbackCopy_spec mem nb buffer _ mem' hcopy).2 hu
        exact ⟨d, s, by rw [h1, hd], hs⟩
      · intro d s hd hs i hi
        have hu : (w.buffers self)._usedElems ≠ 0 := by omega
        obtain ⟨d', s', hd', hs', hcp, -⟩ :=
          (fallbackCopy_spec mem nb buffer _ mem' hcopy).2 hu
        rw [h1, hd'] at hd
        cases hd
        rw [hs'] at hs
        cases hs
        rw [h2, h3]
        exact ⟨hcp i hi, hcp i hi⟩

/-- Scenario D: resizing the buffer with `used_elems = 100` runs through its steps; after
104 steps the caller's pointer is still the block at 4096, after the 105th it is the
block at 8192, and then element `i` of that block is `1000 + i` for every `i < 100`. -/
theorem fallbackResize_publishes_complete_copy_witness :
    BufferState.fallbackResizeEvents scenarioD 0 1 3 (2 ^ 32) (some 4096) none
        (fun _ => 4) always8192
      = .ok (stepsOf (BufferState.fallbackResizeEvents scenarioD 0 1 3 (2 ^ 32) (some 4096)
          none (fun _ => 4) always8192)) ∧
    (replay ((stepsOf (BufferState.fallbackResizeEvents scenarioD 0 1 3 (2 ^ 32)
        (some 4096) none (fun _ => 4) always8192)).take 105)
      ⟨scenarioD, memoryD, some 4096, none⟩).buffer = some 8192 ∧
    (replay ((stepsOf (BufferState.fallbackResizeEvents scenarioD 0 1 3 (2 ^ 32)
        (some 4096) none (fun _ => 4) always8192)).take 104)
      ⟨scenarioD, memoryD, some 4096, none⟩).buffer = some 4096 ∧
    (∀ i, i < 100 →
      (replay ((stepsOf (BufferState.fallbackResizeEvents scenarioD 0 1 3 (2 ^ 32)
          (some 4096) none (fun _ => 4) always8192)).take 105)
        ⟨scenarioD, memoryD, some 4096, none⟩).mem 8192 i = 1000 + i) :=
  ⟨by rfl, by rfl,
    ((fallbackResize_publishes_complete_copy scenarioD memoryD 0 1 3 (2 ^ 32) (some 4096)
      none (fun _ => 4) always8192).2 _ (by rfl)).2.1 _ _
      (List.take_append_drop 104 _).symm (by decide),
    fun i hi =>
      ((((fallbackResize_publishes_complete_copy scenarioD memoryD 0 1 3 (2 ^ 32)
        (some 4096) none (fun _ => 4) always8192).2 _ (by rfl)).2.2 _ _
        (List.take_append_drop 105 _).symm (by decide)).2.2.2.2 8192 4096 (by rfl) rfl i
        hi).1⟩

/-! ## Well-formedness of the circular list -/

/-- C29: in a well-formed circular list of anchor `a` with members `l` every member `m`
has `m.next.prev = m` and `m.prev.next = m` with both neighbours members, every buffer of
the anchor that is not a member has both links null, and the head of the anchor is the
first member; for a buffer `b` of the anchor that is not a member `addToFreeListList`
succeeds and its result is well formed with the members `b :: l`; and for a member `b`
`removeFromFreeListList` succeeds and its result is well formed with exactly the members
of `l` other than `b`. -/
theorem wellFormedList_preserved (w : Store) (a b : Nat) (l : List Nat)
    (hwf : WellFormedList w a l) (hb : (w.buffers b)._freeListList = some a) :
    (∀ m, m ∈ l → ∃ n p, n ∈ l ∧ p ∈ l ∧
      (w.buffers m)._nextHasFree = some n ∧ (w.buffers n)._prevHasFree = some m ∧
      (w.buffers m)._prevHasFree = some p ∧ (w.buffers p)._nextHasFree = some m) ∧
    (∀ x, (w.buffers x)._freeListList = some a → x ∉ l →
      (w.buffers x)._nextHasFree = none ∧ (w.buffers x)._prevHasFree = none) ∧
    (w.lists a)._head = l.head? ∧
    (b ∉ l →
      (∃ w', addToFreeListList w b = .ok w') ∧
      ∀ w', addToFreeListList w b = .ok w' → WellFormedList w' a (b :: l)) ∧
    (b ∈ l →
      (∃ w', removeFromFreeListList w b = .ok w') ∧
      ∀ w', removeFromFreeListList w b = .ok w' →
        ∃ l', WellFormedList w' a l' ∧ ∀ x, x ∈ l' ↔ (x ∈ l ∧ x ≠ b)) := by
  refine ⟨?_, hwf.2.2, ring_head w a l hwf.1, ?_, ?_⟩
  · intro m hm
    obtain ⟨n, p, h1, h2, h3, h4, h5, h6, -⟩ := ring_member_links w a l hwf.1 m hm
    exact ⟨n, p, h1, h2, h3, h4, h5, h6⟩
  · intro hbl
    exact ⟨add_completes w a b l hwf hb hbl,
      fun w' h => add_wellFormed w a b l hwf hb hbl w' h⟩
  · intro hbl
    obtain ⟨w', l', h, hwf', hmem⟩ := remove_wellFormed w a b l hwf hbl
    refine ⟨⟨w', h⟩, ?_⟩
    intro w'' h2
    rw [h] at h2
    simp only [Except.ok.injEq] at h2
    subst h2
    exact ⟨l', hwf', hmem⟩

/-- The empty list of anchor 0 is well formed, adding buffer 1 succeeds and gives the well
formed list with the one member 1, and removing buffer 1 from it succeeds. -/
theorem wellFormedList_preserved_witness :
    WellFormedList linkStore 0 [] ∧
    (∃ w', addToFreeListList linkStore 1 = .ok w') ∧
    WellFormedList (storeAfter (runLinks [.add 1] linkStore) linkStore) 0 [1] ∧
    ∃ w', removeFromFreeListList (storeAfter (runLinks [.add 1] linkStore) linkStore) 1
      = .ok w' :=
  ⟨linkStore_wellFormed,
    ((wellFormedList_preserved linkStore 0 1 [] linkStore_wellFormed rfl).2.2.2.1
      (List.not_mem_nil _)).1,
    ((wellFormedList_preserved linkStore 0 1 [] linkStore_wellFormed rfl).2.2.2.1
      (List.not_mem_nil _)).2 _ (by rfl),
    ((wellFormedList_preserved (storeAfter (runLinks [.add 1] linkStore) linkStore) 0 1 [1]
      linkStore_one_wellFormed (by rfl)).2.2.2.2 (List.mem_cons_self _ _)).1⟩

/-- C30: for every well-formed circular list (empty or not) and every buffer `b` of its
anchor that is not a member, `addToFreeListList` on `b` succeeds and makes `b` the head,
`removeFromFreeListList` on `b` then succeeds, and afterwards the head of the anchor and
both links of every buffer, `b` included, are what they were before the two calls:
the store is the one before the two calls. -/
theorem add_then_remove_restores (w : Store) (a b : Nat) (l : List Nat)
    (hwf : WellFormedList w a l) (hb : (w.buffers b)._freeListList = some a)
    (hbl : b ∉ l) :
    ∃ w', addToFreeListList w b = .ok w' ∧
      (w'.lists a)._head = some b ∧
      ∃ w'', removeFromFreeListList w' b = .ok w'' ∧
        (w''.lists a)._head = (w.lists a)._head ∧
        (∀ x, (w''.buffers x)._nextHasFree = (w.buffers x)._nextHasFree ∧
          (w''.buffers x)._prevHasFree = (w.buffers x)._prevHasFree) ∧
        w'' = w := by
  obtain ⟨w', h1⟩ := add_completes w a b l hwf hb hbl
  have hwf' := add_wellFormed w a b l hwf hb hbl w' h1
  obtain ⟨w'', l'', h2, -, -⟩ :=
    remove_wellFormed w' a b (b :: l) hwf' (List.mem_cons_self _ _)
  have hhead' : (w'.lists a)._head = some b := add_head w b a w' h1 hb
  obtain ⟨ht1, hal1, hs1, -, -, hl1⟩ := add_frame w b w' h1
  obtain ⟨ht2, hal2, hs2, hn2, hp2, hl2, -⟩ := remove_frame w' b w'' h2
  have hb' : (w'.buffers b)._freeListList = some a := by
    rw [add_anchor w b w' h1 b]
    exact hb
  obtain ⟨hring, hmem, hnon⟩ := hwf
  obtain ⟨hbn, hbp⟩ := hnon b hb hbl
  have key : (w''.lists a)._head = (w.lists a)._head ∧
      ∀ x, (w''.buffers x)._nextHasFree = (w.buffers x)._nextHasFree ∧
        (w''.buffers x)._prevHasFree = (w.buffers x)._prevHasFree := by
    cases l with
    | nil =>
      have hhead : (w.lists a)._head = none := hring
      have e1 := add_empty w b a hb hhead hbn hbp
      rw [h1] at e1
      simp only [Except.ok.injEq] at e1
      have hn' : (w'.buffers b)._nextHasFree = some b := by
        rw [e1]
        simp
      have hp' : (w'.buffers b)._prevHasFree = some b := by
        rw [e1]
        simp
      have e2 := remove_single w' b a hb' hn' hp' hhead'
      rw [h2] at e2
      simp only [Except.ok.injEq] at e2
      constructor
      · rw [e2, hhead]
        simp
      · intro x
        by_cases hx : x = b
        · rw [hx, hn2, hp2, hbn, hbp]
          exact ⟨rfl, rfl⟩
        · rw [e2, e1]
          simp [upd_ne _ _ _ _ hx]
    | cons m t =>
      obtain ⟨n, p, -, hpl, -, -, hpm, hnp, -⟩ :=
        ring_member_links w a (m :: t) hring m (List.mem_cons_self _ _)
      have hhs : m ≠ b := fun c => hbl (by rw [← c]; exact List.mem_cons_self _ _)
      have hqb : p ≠ b := fun c => hbl (by rw [← c]; exact hpl)
      have e1 := add_nonempty w b a m p hb hring.1 hhs hbn hbp hpm
      rw [h1] at e1
      simp only [Except.ok.injEq] at e1
      have hnx : ∀ x, (w'.buffers x)._nextHasFree
          = upd (upd (fun j => (w.buffers j)._nextHasFree) b (some m)) p (some b) x := by
        intro x
        rw [e1]
        exact (add_nonempty_links w.buffers b m p x hhs).1
      have hpv : ∀ x, (w'.buffers x)._prevHasFree
          = upd (upd (fun j => (w.buffers j)._prevHasFree) b (some p)) m (some b) x := by
        intro x
        rw [e1]
        exact (add_nonempty_links w.buffers b m p x hhs).2
      have hn' : (w'.buffers b)._nextHasFree = some m := by
        rw [hnx, upd_ne _ _ _ _ hqb.symm, upd_same]
      have hp' : (w'.buffers b)._prevHasFree = some p := by
        rw [hpv, upd_ne _ _ _ _ hhs.symm, upd_same]
      have e2 := remove_multi w' b a m p hb' hn' hp' hhs hqb
      rw [h2] at e2
      simp only [Except.ok.injEq] at e2
      constructor
      · rw [e2, hring.1]
        simp
      · intro x
        have l1 : (w''.buffers x)._nextHasFree
            = upd (upd (fun j => (w'.buffers j)._nextHasFree) p (some m)) b none x := by
          rw [e2]
          exact (remove_multi_links w'.buffers b m p x).1
        have l2 : (w''.buffers x)._prevHasFree
            = upd (upd (fun j => (w'.buffers j)._prevHasFree) m (some p)) b none x := by
          rw [e2]
          exact (remove_multi_links w'.buffers b m p x).2
        rw [l1, l2]
        by_cases hx : x = b
        · rw [hx, upd_same, upd_same, hbn, hbp]
          exact ⟨rfl, rfl⟩
        · rw [upd_ne _ _ _ _ hx, upd_ne _ _ _ _ hx]
          constructor
          · by_cases hxp : x = p
            · rw [hxp, upd_same, hnp]
            · rw [upd_ne _ _ _ _ hxp]
              show (w'.buffers x)._nextHasFree = _
              rw [hnx, upd_ne _ _ _ _ hxp, upd_ne _ _ _ _ hx]
          · by_cases hxm : x = m
            · rw [hxm, upd_same, hpm]
            · rw [upd_ne _ _ _ _ hxm]
              show (w'.buffers x)._prevHasFree = _
              rw [hpv, upd_ne _ _ _ _ hxm, upd_ne _ _ _ _ hx]
  refine ⟨w', h1, hhead', w'', h2, key.1, key.2, ?_⟩
  apply store_ext
  · rw [ht2, ht1]
  · intro c
    by_cases hc : c = a
    · rw [hc]
      exact anchor_eq_of_head _ _ key.1
    · have hc1 : (w.buffers b)._freeListList ≠ some c := by
        rw [hb]
        exact fun e => hc (Option.some.inj e).symm
      have hc2 : (w'.buffers b)._freeListList ≠ some c := by
        rw [hb']
        exact fun e => hc (Option.some.inj e).symm
      rw [hl2 c hc2, hl1 c hc1]
  · intro x
    exact buffer_eq_of_sansLinks _ _ ((hs2 x).trans (hs1 x)) (key.2 x).1 (key.2 x).2
  · rw [hal2, hal1]

/-- The list with the one member 1: adding buffer 2 makes it the head, and removing it
again gives back the store with head 1. -/
theorem add_then_remove_restores_witness :
    ∃ w', addToFreeListList (storeAfter (runLinks [.add 1] linkStore) linkStore) 2
        = .ok w' ∧
      (w'.lists 0)._head = some 2 ∧
      removeFromFreeListList w' 2
        = .ok (storeAfter (runLinks [.add 1] linkStore) linkStore) ∧
      ((storeAfter (runLinks [.add 1] linkStore) linkStore).lists 0)._head = some 1 := by
  obtain ⟨w', h1, hh, w'', h2, -, -, e⟩ :=
    add_then_remove_restores (storeAfter (runLinks [.add 1] linkStore) linkStore) 0 2 [1]
      linkStore_one_wellFormed (by rfl) (by decide)
  rw [e] at h2
  exact ⟨w', h1, hh, h2, by rfl⟩

/-! ## General facts about the size assertions and the pending reference -/

/-- The used count that `calcClustersToAlloc` works with is the same before and after
`flushLastUsed` on any type entry. -/
theorem effectiveUsedElems_flush (w : Store) (x th : Nat) :
    effectiveUsedElems (flushLastUsed w x) th = effectiveUsedElems w th := by
  by_cases hx : th = x
  · subst hx
    unfold effectiveUsedElems
    rw [flushLastUsed_type, flushLastUsed_buffers]
    simp only []
    unfold effectiveUsedElems
    rfl
  · unfold effectiveUsedElems
    rw [flushLastUsed_type_ne w x th hx, flushLastUsed_buffers]

/-- A returned cluster count is at least the `needClusters` of line 108. -/
theorem calcClustersToAlloc_ge_need (w : Store)
    (th bufferId sizeNeeded clusterRefSize c : Nat)
    (h : calcClustersToAlloc w th bufferId sizeNeeded clusterRefSize = .ok c) :
    needClusters (w.types th) bufferId sizeNeeded ≤ c := by
  obtain ⟨hcs, hU⟩ := calcClustersToAlloc_ok_inv w th bufferId sizeNeeded clusterRefSize c h
  rw [calcClustersToAlloc_eq w th bufferId sizeNeeded clusterRefSize hcs hU] at h
  split_ifs at h with hn
  simp only [Except.ok.injEq] at h
  omega

/-- The three ways in which `calcClustersToAlloc` ends without returning. -/
theorem calcClustersToAlloc_faults (w : Store)
    (th bufferId sizeNeeded clusterRefSize : Nat) (e : Fault)
    (h : calcClustersToAlloc w th bufferId sizeNeeded clusterRefSize = .error e) :
    e = .divisionByZero 97 ∨ e = .assertion 97 ∨ e = .assertion 114 := by
  by_cases hcs : (w.types th)._clusterSize = 0
  · simp [calcClustersToAlloc, hcs] at h
    exact Or.inl h.symm
  · by_cases hU : effectiveUsedElems w th % (w.types th)._clusterSize = 0
    · rw [calcClustersToAlloc_eq w th bufferId sizeNeeded clusterRefSize hcs hU] at h
      split_ifs at h
      simp only [Except.error.injEq] at h
      exact Or.inr (Or.inr h.symm)
    · simp [calcClustersToAlloc, hcs, hU] at h
      exact Or.inr (Or.inl h.symm)

/-- A run of `BufferState::onActive` in which the size assertion of line 179 holds does
not end at that assertion. -/
theorem onActive_not_179 (w : Store) (self bufferId typeId typeHandler : Nat)
    (sizeNeeded maxClusters : Nat) (buffer : Option Nat) (elementSize : Nat)
    (create : Nat → Option Nat)
    (hsize : ∀ c, calcClustersToAlloc w typeHandler bufferId sizeNeeded maxClusters = .ok c →
      add64 (getReservedElements (w.types typeHandler) bufferId) sizeNeeded
        ≤ mul64 c (w.types typeHandler)._clusterSize) :
    BufferState.onActive w self bufferId typeId typeHandler sizeNeeded maxClusters buffer
      elementSize create ≠ .error (.assertion 179) := by
  intro h
  by_cases a1 : buffer = none
  swap
  · simp [BufferState.onActive, a1] at h
  by_cases a2 : (w.buffers self)._buffer = none
  swap
  · simp [BufferState.onActive, a1, a2] at h
  by_cases a3 : (w.buffers self)._state = .FREE
  swap
  · simp [BufferState.onActive, a1, a2, a3] at h
  by_cases a4 : (w.buffers self)._typeHandler = none
  swap
  · simp [BufferState.onActive, a1, a2, a3, a4] at h
  by_cases a5 : (w.buffers self)._allocElems = 0
  swap
  · simp [BufferState.onActive, a1, a2, a3, a4, a5] at h
  by_cases a6 : (w.buffers self)._usedElems = 0
  swap
  · simp [BufferState.onActive, a1, a2, a3, a4, a5, a6] at h
  by_cases a7 : (w.buffers self)._deadElems = 0
  swap
  · simp [BufferState.onActive, a1, a2, a3, a4, a5, a6, a7] at h
  by_cases a8 : (w.buffers self)._holdElems = 0
  swap
  · simp [BufferState.onActive, a1, a2, a3, a4, a5, a6, a7, a8] at h
  by_cases a9 : (w.buffers self)._freeList = []
  swap
  · simp [BufferState.onActive, a1, a2, a3, a4, a5, a6, a7, a8, a9] at h
  by_cases a10 : (w.buffers self)._nextHasFree = none
  swap
  · simp [BufferState.onActive, a1, a2, a3, a4, a5, a6, a7, a8, a9, a10] at h
  by_cases a11 : (w.buffers self)._prevHasFree = none
  swap
  · simp [BufferState.onActive, a1, a2, a3, a4, a5, a6, a7, a8, a9, a10, a11] at h
  by_cases a12 : isHeadOfOwnList w self = false
  swap
  · simp [BufferState.onActive, a1, a2, a3, a4, a5, a6, a7, a8, a9, a10, a11, a12] at h
  cases hc : calcClustersToAlloc w typeHandler bufferId sizeNeeded maxClusters with
  | error e =>
    simp only [BufferState.onActive, a1, a2, a3, a4, a5, a6, a7, a8, a9, a10, a11, a12, hc,
      ne_eq, not_true_eq_false, if_false, Bool.false_eq_true] at h
    simp only [Except.error.injEq] at h
    rcases calcClustersToAlloc_faults w typeHandler bufferId sizeNeeded maxClusters e hc
      with h1 | h1 | h1 <;> rw [h1] at h <;> cases h
  | ok c =>
    have hs := hsize c hc
    by_cases hcr : create (mul64 (mul64 c (w.types typeHandler)._clusterSize) elementSize)
        = none
    · simp [BufferState.onActive, a1, a2, a3, a4, a5, a6, a7, a8, a9, a10, a11, a12, hc,
        hs, hcr, Store.setBuffer] at h
    · simp [BufferState.onActive, a1, a2, a3, a4, a5, a6, a7, a8, a9, a10, a11, a12, hc,
        hs, hcr, Store.setBuffer] at h

/-- A run of `fallbackResize` in which the size assertion of line 339 holds does not end
at that assertion. -/
theorem fallbackResize_not_339 (w : Store) (mem : Memory) (self bufferId : Nat)
    (sizeNeeded maxClusters : Nat) (buffer holdBuffer : Option Nat)
    (elementSize : Nat → Nat) (create : Nat → Option Nat)
    (hsize : ∀ th c, (w.buffers self)._typeHandler = some th →
      calcClustersToAlloc w th bufferId sizeNeeded maxClusters = .ok c →
      add64 (w.buffers self)._usedElems sizeNeeded ≤ mul64 c (w.types th)._clusterSize) :
    BufferState.fallbackResize w mem self bufferId sizeNeeded maxClusters buffer
      holdBuffer elementSize create ≠ .error (.assertion 339) := by
  intro h
  by_cases a1 : (w.buffers self)._state = .ACTIVE
  swap
  · simp [BufferState.fallbackResize, a1] at h
  cases a2 : (w.buffers self)._typeHandler with
  | none => simp [BufferState.fallbackResize, a1, a2] at h
  | some th =>
    by_cases a3 : holdBuffer = none
    swap
    · simp [BufferState.fallbackResize, a1, a2, a3] at h
    cases hc : calcClustersToAlloc w th bufferId sizeNeeded maxClusters with
    | error e =>
      simp only [BufferState.fallbackResize, a1, a2, a3, hc, ne_eq, not_true_eq_false,
        if_false, Except.error.injEq] at h
      rcases calcClustersToAlloc_faults w th bufferId sizeNeeded maxClusters e hc
        with h1 | h1 | h1 <;> rw [h1] at h <;> cases h
    | ok c =>
      have hs := hsize th c a2 hc
      by_cases a5 : (w.buffers self)._allocElems < mul64 c (w.types th)._clusterSize
      swap
      · simp [BufferState.fallbackResize, a1, a2, a3, hc, hs, a5] at h
      cases hcp : fallbackCopy mem
          (create (mul64 (mul64 c (w.types th)._clusterSize) (elementSize th)))
          buffer (w.buffers self)._usedElems with
      | error e =>
        simp only [BufferState.fallbackResize, a1, a2, a3, hc, hs, a5, hcp, ne_eq,
          not_true_eq_false, if_false, ge_iff_le, gt_iff_lt, not_le, not_lt,
          Except.error.injEq] at h
        unfold fallbackCopy at hcp
        split_ifs at hcp
        split at hcp
        · cases hcp
        · simp only [Except.error.injEq] at hcp
          rw [← hcp] at h
          simp at h
      | ok m =>
        simp [BufferState.fallbackResize, a1, a2, a3, hc, hs, a5, hcp] at h

/-- The pending references stay with `ACTIVE` buffers under an operation that leaves the
pending reference of every type entry and the state and the type handler of every
buffer. -/
theorem pendingIsActive_congr (w w' : Store) (hinv : PendingIsActive w)
    (ht : ∀ th, (w'.types th)._lastUsedElems = (w.types th)._lastUsedElems)
    (hall : ∀ b, (w'.buffers b)._state = (w.buffers b)._state ∧
      (w'.buffers b)._typeHandler = (w.buffers b)._typeHandler) :
    PendingIsActive w' := by
  intro th p hp
  rw [ht] at hp
  rw [(hall p).1, (hall p).2]
  exact hinv th p hp

/-- A store of freshly constructed buffers and freshly constructed type entries has no
pending reference. -/
theorem pendingIsActive_fresh (clusterSize minClusters maxClusters : Nat) :
    PendingIsActive (Store.fresh (BufferTypeBase.new clusterSize minClusters maxClusters)) := by
  intro th p hp
  simp [Store.fresh, BufferTypeBase.new] at hp

/-- A successful `onActive` keeps the pending references with `ACTIVE` buffers. -/
theorem onActive_pending (w : Store) (self bufferId typeId typeHandler : Nat)
    (sizeNeeded maxClusters : Nat) (buffer : Option Nat) (elementSize : Nat)
    (create : Nat → Option Nat) (w' : Store) (p' : Option Nat)
    (h : BufferState.onActive w self bufferId typeId typeHandler sizeNeeded maxClusters buffer
      elementSize create = .ok (w', p'))
    (hinv : PendingIsActive w) : PendingIsActive w' := by
  obtain ⟨ht, htne⟩ := onActive_types w self bufferId typeId typeHandler sizeNeeded
    maxClusters buffer elementSize create w' p' h
  obtain ⟨c, q, -, -, -, hfree, hne, -, hself⟩ := onActive_frame w self bufferId typeId
    typeHandler sizeNeeded maxClusters buffer elementSize create w' p' h
  intro th p hp
  by_cases hth : th = typeHandler
  · subst hth
    rw [ht] at hp
    simp only [Option.some.injEq] at hp
    subst hp
    rw [hself]
    exact ⟨rfl, rfl⟩
  · rw [htne th hth] at hp
    obtain ⟨h1, h2⟩ := hinv th p hp
    have hps : p ≠ self := by
      intro e
      rw [e, hfree.1] at h1
      cases h1
    rw [hne p hps]
    exact ⟨h1, h2⟩

/-- A successful `onHold` keeps the pending references with `ACTIVE` buffers, and clears
the reference to the buffer that is put on hold. -/
theorem onHold_pending (w : Store) (self : Nat) (w' : Store)
    (h : BufferState.onHold w self = .ok w') (hinv : PendingIsActive w) :
    PendingIsActive w' ∧
    ∀ th, (w.types th)._lastUsedElems = some self → (w'.types th)._lastUsedElems = none := by
  obtain ⟨th0, hth0, -, ht, htne⟩ := onHold_types w self w' h
  obtain ⟨-, -, -, hne, -⟩ := onHold_frame w self w' h
  constructor
  · intro th p hp
    have hold : (w.types th)._lastUsedElems = some p ∧ p ≠ self := by
      by_cases hth : th = th0
      · subst hth
        rw [ht] at hp
        simp only [] at hp
        by_cases hs : some self = (w.types th)._lastUsedElems
        · rw [if_pos hs] at hp
          cases hp
        · rw [if_neg hs] at hp
          refine ⟨hp, ?_⟩
          intro e
          rw [e] at hp
          exact hs hp.symm
      · rw [htne th hth] at hp
        refine ⟨hp, ?_⟩
        intro e
        rw [e] at hp
        have := (hinv th self hp).2
        rw [hth0] at this
        simp only [Option.some.injEq] at this
        exact hth this.symm
    obtain ⟨hp0, hps⟩ := hold
    obtain ⟨h1, h2, -⟩ := core_of_sansLinks _ _ (hne p hps)
    rw [h1, h2]
    exact hinv th p hp0
  · intro th hp
    have hth : th = th0 := by
      have := (hinv th self hp).2
      rw [hth0] at this
      simp only [Option.some.injEq] at this
      exact this.symm
    subst hth
    rw [ht]
    simp only []
    rw [if_pos hp.symm]

/-- A successful `onFree` keeps the pending references with `ACTIVE` buffers. -/
theorem onFree_pending (w : Store) (self : Nat) (buffer : Option Nat) (w' : Store)
    (p' : Option Nat) (h : BufferState.onFree w self buffer = .ok (w', p'))
    (hinv : PendingIsActive w) : PendingIsActive w' := by
  obtain ⟨th0, -, -, ht, htne⟩ := onFree_types w self buffer w' p' h
  obtain ⟨hs, -, hne, -, -⟩ := onFree_frame w self buffer w' p' h
  intro th p hp
  have hp0 : (w.types th)._lastUsedElems = some p := by
    by_cases hth : th = th0
    · subst hth
      rw [ht] at hp
      exact hp
    · rw [htne th hth] at hp
      exact hp
  obtain ⟨h1, h2⟩ := hinv th p hp0
  have hps : p ≠ self := by
    intro e
    rw [e, hs] at h1
    cases h1
  rw [hne p hps]
  exact ⟨h1, h2⟩

/-- A successful `fallbackResize` leaves the type handler of every buffer. -/
theorem fallbackResize_typeHandler (w : Store) (mem : Memory) (self bufferId : Nat)
    (sizeNeeded maxClusters : Nat) (buffer holdBuffer : Option Nat)
    (elementSize : Nat → Nat) (create : Nat → Option Nat)
    (r : Store × Memory × Option Nat × Option Nat)
    (h : BufferState.fallbackResize w mem self bufferId sizeNeeded maxClusters buffer
      holdBuffer elementSize create = .ok r) :
    ∀ x, (r.1.buffers x)._typeHandler = (w.buffers x)._typeHandler := by
  obtain ⟨-, -, th, c, mem', -, -, -, -, -, hr⟩ :=
    fallbackResize_ok_inv w mem self bufferId sizeNeeded maxClusters buffer holdBuffer
      elementSize create r h
  intro x
  rw [hr]
  by_cases hx : x = self
  · subst hx
    simp
  · simp [upd_ne _ _ _ _ hx]

/-- Every successful operation keeps the pending references with `ACTIVE` buffers, also in
the store it passes through. -/
theorem run_pending (op : BufferOp) (w : Store) (mem : Memory) (w1 : Store) (mem1 : Memory)
    (h : op.run w mem = .ok (w1, mem1)) (hinv : PendingIsActive w) :
    (∀ v, v ∈ op.between w → PendingIsActive v) ∧ PendingIsActive w1 := by
  cases op with
  | onActive self bufferId typeId typeHandler sizeNeeded maxClusters buffer elementSize
      create =>
    simp only [BufferOp.run] at h
    cases hr : BufferState.onActive w self bufferId typeId typeHandler sizeNeeded
        maxClusters buffer elementSize create with
    | error e => simp [hr] at h
    | ok r =>
      obtain ⟨w2, p2⟩ := r
      simp only [hr, Except.ok.injEq, Prod.mk.injEq] at h
      obtain ⟨hw, -⟩ := h
      subst hw
      refine ⟨?_, onActive_pending w self bufferId typeId typeHandler sizeNeeded
        maxClusters buffer elementSize create _ _ hr hinv⟩
      intro v hv
      simp [BufferOp.between] at hv
  | onHold self =>
    simp only [BufferOp.run] at h
    cases hr : BufferState.onHold w self with
    | error e => simp [hr] at h
    | ok w2 =>
      simp only [hr, Except.ok.injEq, Prod.mk.injEq] at h
      obtain ⟨hw, -⟩ := h
      subst hw
      refine ⟨?_, (onHold_pending w self _ hr hinv).1⟩
      intro v hv
      simp [BufferOp.between] at hv
  | onFree self buffer =>
    simp only [BufferOp.run] at h
    cases hr : BufferState.onFree w self buffer with
    | error e => simp [hr] at h
    | ok r =>
      obtain ⟨w2, p2⟩ := r
      simp only [hr, Except.ok.injEq, Prod.mk.injEq] at h
      obtain ⟨hw, -⟩ := h
      subst hw
      refine ⟨?_, onFree_pending w self buffer _ _ hr hinv⟩
      intro v hv
      simp [BufferOp.between] at hv
  | dropBuffer self buffer =>
    simp only [BufferOp.run] at h
    cases hr : BufferState.dropBuffer w self buffer with
    | error e => simp [hr] at h
    | ok r =>
      obtain ⟨w2, p2⟩ := r
      simp only [hr, Except.ok.injEq, Prod.mk.injEq] at h
      obtain ⟨hw, -⟩ := h
      subst hw
      rcases dropBuffer_ok_inv w self buffer _ _ hr with
        ⟨hs, hw, -, -⟩ | ⟨hs, hf⟩ | ⟨hs, wm, hh, hf⟩
      · subst hw
        have hna : ¬ (w2.buffers self)._state = .ACTIVE := by
          rw [hs]
          decide
        refine ⟨?_, hinv⟩
        intro v hv
        simp [BufferOp.between, hna] at hv
      · have hna : ¬ (w.buffers self)._state = .ACTIVE := by
          rw [hs]
          decide
        refine ⟨?_, onFree_pending w self buffer _ _ hf hinv⟩
        intro v hv
        simp [BufferOp.between, hna] at hv
      · have hm := (onHold_pending w self wm hh hinv).1
        refine ⟨?_, onFree_pending wm self buffer _ _ hf hm⟩
        intro v hv
        simp only [BufferOp.between, hs, if_true, hh, List.mem_singleton] at hv
        rw [hv]
        exact hm
  | setFreeListList self fll =>
    simp only [BufferOp.run] at h
    cases hr : setFreeListList w self fll with
    | error e => simp [hr] at h
    | ok w2 =>
      simp only [hr, Except.ok.injEq, Prod.mk.injEq] at h
      obtain ⟨hw, -⟩ := h
      subst hw
      obtain ⟨ht, -, hsf, -⟩ := setFreeListList_frame w self fll _ hr
      refine ⟨?_, pendingIsActive_congr w _ hinv (fun th => by rw [ht]) (fun b => ?_)⟩
      · intro v hv
        simp [BufferOp.between] at hv
      · obtain ⟨h1, h2, -⟩ := core_of_sansFreeList _ _ (hsf b)
        exact ⟨h1, h2⟩
  | fallbackResize self bufferId sizeNeeded maxClusters buffer holdBuffer elementSize
      create =>
    simp only [BufferOp.run] at h
    cases hr : BufferState.fallbackResize w mem self bufferId sizeNeeded maxClusters buffer
        holdBuffer elementSize create with
    | error e => simp [hr] at h
    | ok r =>
      obtain ⟨w2, m2, p2, q2⟩ := r
      simp only [hr, Except.ok.injEq, Prod.mk.injEq] at h
      obtain ⟨hw, -⟩ := h
      subst hw
      have ht := fallbackResize_types w mem self bufferId sizeNeeded maxClusters buffer
        holdBuffer elementSize create _ hr
      have hs := fallbackResize_state w mem self bufferId sizeNeeded maxClusters buffer
        holdBuffer elementSize create _ hr
      have hh := fallbackResize_typeHandler w mem self bufferId sizeNeeded maxClusters
        buffer holdBuffer elementSize create _ hr
      simp only at ht hs hh
      refine ⟨?_, pendingIsActive_congr w _ hinv (fun th => by rw [ht])
        (fun b => ⟨hs b, hh b⟩)⟩
      intro v hv
      simp [BufferOp.between] at hv
  | disableElemHoldList self =>
    simp only [BufferOp.run, Except.ok.injEq, Prod.mk.injEq] at h
    obtain ⟨hw, -⟩ := h
    subst hw
    refine ⟨?_, pendingIsActive_congr w _ hinv (fun th => rfl) (fun b => ?_)⟩
    · intro v hv
      simp [BufferOp.between] at hv
    · by_cases hb : b = self
      · subst hb
        simp [BufferState.disableElemHoldList, Store.setBuffer]
      · simp [BufferState.disableElemHoldList, Store.setBuffer, upd_ne _ _ _ _ hb]

/-- Every successful step of the owner keeps the pending references with `ACTIVE`
buffers, also in the store it passes through. -/
theorem step_pending (s : Step) (w : Store) (mem : Memory) (w1 : Store) (mem1 : Memory)
    (h : s.run w mem = .ok (w1, mem1)) (hinv : PendingIsActive w) :
    (∀ v, v ∈ s.between w → PendingIsActive v) ∧ PendingIsActive w1 := by
  cases s with
  | used b n =>
    simp only [Step.run, Except.ok.injEq, Prod.mk.injEq] at h
    obtain ⟨hw, -⟩ := h
    subst hw
    refine ⟨?_, pendingIsActive_congr w _ hinv (fun th => rfl) (fun x => ?_)⟩
    · intro v hv
      simp [Step.between] at hv
    · by_cases hx : x = b
      · subst hx
        simp [Store.setBuffer]
      · simp [Store.setBuffer, upd_ne _ _ _ _ hx]
  | call op =>
    simp only [Step.run] at h
    exact run_pending op w mem w1 mem1 h hinv

/-- The pending references are with `ACTIVE` buffers in every store of a successful
sequence of steps. -/
theorem drive_pending (steps : List Step) :
    ∀ (w : Store) (mem : Memory) (ws : List Store), PendingIsActive w →
      drive steps w mem = .ok ws → ∀ v, v ∈ ws → PendingIsActive v := by
  induction steps with
  | nil =>
    intro w mem ws hinv hrun v hv
    simp only [drive, Except.ok.injEq] at hrun
    subst hrun
    simp only [List.mem_singleton] at hv
    rw [hv]
    exact hinv
  | cons s rest ih =>
    intro w mem ws hinv hrun v hv
    simp only [drive] at hrun
    cases hr : s.run w mem with
    | error e => simp [hr] at hrun
    | ok r =>
      obtain ⟨w1, mem1⟩ := r
      simp only [hr] at hrun
      cases hrest : drive rest w1 mem1 with
      | error e => simp [hrest] at hrun
      | ok ws1 =>
        simp only [hrest, Except.ok.injEq] at hrun
        subst hrun
        obtain ⟨hb, h1⟩ := step_pending s w mem w1 mem1 hr hinv
        rcases List.mem_cons.1 hv with e | e
        · rw [e]
          exact hinv
        · rcases List.mem_append.1 e with e2 | e2
          · exact hb v e2
          · exact ih w1 mem1 ws1 h1 hrest v e2

/-! ## The size assertions of `fallbackResize` and `onActive` -/

/-- C31 as stated fails.  Scenario D: buffer 0 is `ACTIVE` with `used_elems = 100` and
`alloc_elems = 100`, its used count is the pending one, so that the effective used count
of its type entry (`cluster_size = 1`, `min_clusters = 4`, `max_clusters = 1000`) is 100.
For `size_needed = 50` `calcClustersToAlloc` returns 104, which exceeds `alloc_elems`,
but `104 < 100 + 50` and `fallbackResize` ends at the assertion of line 339.  For
`size_needed = 3` and `cluster_ref_limit = 102` the wanted 104 clusters are capped:
`calcClustersToAlloc` returns 102, which exceeds `alloc_elems`, but `102 < 100 + 3` and
`fallbackResize` ends at the assertion of line 339. -/
theorem fallbackResize_asserts_although_calc_grows :
    (scenarioD.buffers 0)._state = .ACTIVE ∧
    (scenarioD.buffers 0)._typeHandler = some 0 ∧
    (scenarioD.buffers 0)._usedElems = 100 ∧
    (scenarioD.buffers 0)._allocElems = 100 ∧
    (scenarioD.types 0)._clusterSize = 1 ∧
    effectiveUsedElems scenarioD 0 = 100 ∧
    calcClustersToAlloc scenarioD 0 1 50 (2 ^ 32) = .ok 104 ∧
    ¬ (104 * (scenarioD.types 0)._clusterSize ≥ (scenarioD.buffers 0)._usedElems + 50) ∧
    BufferState.fallbackResize scenarioD memoryD 0 1 50 (2 ^ 32) (some 4096) none
      (fun _ => 4) always8192 = .error (.assertion 339) ∧
    calcClustersToAlloc scenarioD 0 1 3 102 = .ok 102 ∧
    ¬ (102 * (scenarioD.types 0)._clusterSize ≥ (scenarioD.buffers 0)._usedElems + 3) ∧
    BufferState.fallbackResize scenarioD memoryD 0 1 3 102 (some 4096) none
      (fun _ => 4) always8192 = .error (.assertion 339) := by
  refine ⟨by rfl, by rfl, by rfl, by rfl, by rfl, by decide, by decide, by decide, ?_,
    by decide, by decide, ?_⟩
  · rfl
  · rfl

/-- C31, amended: for every `ACTIVE` buffer whose `used_elems` is at most the effective
used count `U` of its type entry, and every `size_needed` and `cluster_ref_limit` for
which `calcClustersToAlloc` returns `c` with `c * cluster_size` greater than the current
`alloc_elems`: if `size_needed ≤ min(min_clusters, M) * cluster_size` and
`U / cluster_size + min(min_clusters, M) ≤ M`, where
`M = min(SIZE_MAX / cluster_size, cluster_ref_limit, max_clusters)`, then
`c * cluster_size ≥ used_elems + size_needed`, also in `size_t` arithmetic, no run of
`fallbackResize` ends at the size assertion of line 339, and `fallbackResize` completes
when the hold slot is empty and the copy hook has its blocks. -/
theorem fallbackResize_size_assertion_holds (w : Store)
    (self th bufferId sizeNeeded maxClusters c : Nat)
    (hstate : (w.buffers self)._state = .ACTIVE)
    (hth : (w.buffers self)._typeHandler = some th)
    (hincl : (w.buffers self)._usedElems ≤ effectiveUsedElems w th)
    (hcalc : calcClustersToAlloc w th bufferId sizeNeeded maxClusters = .ok c)
    (hgrow : (w.buffers self)._allocElems < c * (w.types th)._clusterSize)
    (hfits : sizeNeeded
      ≤ min (w.types th)._minClusters (maxAddressableClusters (w.types th) maxClusters)
        * (w.types th)._clusterSize)
    (hroom : effectiveUsedElems w th / (w.types th)._clusterSize
        + min (w.types th)._minClusters (maxAddressableClusters (w.types th) maxClusters)
      ≤ maxAddressableClusters (w.types th) maxClusters) :
    (w.buffers self)._usedElems + sizeNeeded ≤ c * (w.types th)._clusterSize ∧
    add64 (w.buffers self)._usedElems sizeNeeded ≤ mul64 c (w.types th)._clusterSize ∧
    (∀ (mem : Memory) (buffer holdBuffer : Option Nat) (elementSize : Nat → Nat)
        (create : Nat → Option Nat),
      BufferState.fallbackResize w mem self bufferId sizeNeeded maxClusters buffer
        holdBuffer elementSize create ≠ .error (.assertion 339)) ∧
    (∀ (mem : Memory) (buffer : Option Nat) (elementSize : Nat → Nat)
        (create : Nat → Option Nat) (mem' : Memory),
      fallbackCopy mem (create (mul64 (c * (w.types th)._clusterSize) (elementSize th)))
        buffer (w.buffers self)._usedElems = .ok mem' →
      ∃ r, BufferState.fallbackResize w mem self bufferId sizeNeeded maxClusters buffer
        none elementSize create = .ok r) := by
  obtain ⟨hcs, hU⟩ := calcClustersToAlloc_ok_inv w th bufferId sizeNeeded maxClusters c hcalc
  have hle := calcClustersToAlloc_le_max w th bufferId sizeNeeded maxClusters c hcalc
  have hmul := calcClustersToAlloc_mul64 w th bufferId sizeNeeded maxClusters c hcalc
  have hM : maxAddressableClusters (w.types th) maxClusters < 2 ^ 64 := by
    have h1 : maxAddressableClusters (w.types th) maxClusters
        ≤ SIZE_MAX / (w.types th)._clusterSize := by
      unfold maxAddressableClusters
      omega
    have h2 : SIZE_MAX / (w.types th)._clusterSize ≤ SIZE_MAX := Nat.div_le_self _ _
    unfold SIZE_MAX at h2 h1
    omega
  have hwant : effectiveUsedElems w th / (w.types th)._clusterSize
      + min (w.types th)._minClusters (maxAddressableClusters (w.types th) maxClusters)
      ≤ c := by
    have h := hcalc
    rw [calcClustersToAlloc_eq w th bufferId sizeNeeded maxClusters hcs hU] at h
    split_ifs at h with hn
    simp only [Except.ok.injEq] at h
    have ha : add64 (effectiveUsedElems w th / (w.types th)._clusterSize)
        (min (w.types th)._minClusters (maxAddressableClusters (w.types th) maxClusters))
        = effectiveUsedElems w th / (w.types th)._clusterSize
          + min (w.types th)._minClusters
            (maxAddressableClusters (w.types th) maxClusters) := by
      unfold add64
      exact Nat.mod_eq_of_lt (by omega)
    rw [ha] at h
    omega
  have hUeq : effectiveUsedElems w th / (w.types th)._clusterSize
      * (w.types th)._clusterSize = effectiveUsedElems w th :=
    Nat.div_mul_cancel (Nat.dvd_of_mod_eq_zero hU)
  have hprod : (effectiveUsedElems w th / (w.types th)._clusterSize
      + min (w.types th)._minClusters (maxAddressableClusters (w.types th) maxClusters))
        * (w.types th)._clusterSize ≤ c * (w.types th)._clusterSize :=
    Nat.mul_le_mul_right _ hwant
  rw [Nat.add_mul, hUeq] at hprod
  have hnat : (w.buffers self)._usedElems + sizeNeeded ≤ c * (w.types th)._clusterSize := by
    omega
  have hadd : add64 (w.buffers self)._usedElems sizeNeeded
      ≤ (w.buffers self)._usedElems + sizeNeeded := by
    unfold add64
    exact Nat.mod_le _ _
  have hmach : add64 (w.buffers self)._usedElems sizeNeeded
      ≤ mul64 c (w.types th)._clusterSize := by
    rw [hmul]
    omega
  refine ⟨hnat, hmach, ?_, ?_⟩
  · intro mem buffer holdBuffer elementSize create
    apply fallbackResize_not_339
    intro th' c' hth' hc'
    rw [hth] at hth'
    cases hth'
    rw [hcalc] at hc'
    cases hc'
    exact hmach
  · intro mem buffer elementSize create mem' hcopy
    exact fallbackResize_ok w mem self bufferId sizeNeeded maxClusters buffer elementSize
      create th c mem' hstate hth hcalc (by rw [hmul] at hmach; exact hmach) hgrow hcopy

/-- Scenario D with `size_needed = 3`: `calcClustersToAlloc` returns 104,
`100 + 3 ≤ 104`, and `fallbackResize` completes. -/
theorem fallbackResize_size_assertion_holds_witness :
    calcClustersToAlloc scenarioD 0 1 3 (2 ^ 32) = .ok 104 ∧
    (scenarioD.buffers 0)._usedElems + 3 ≤ 104 * (scenarioD.types 0)._clusterSize ∧
    BufferState.fallbackResize scenarioD memoryD 0 1 3 (2 ^ 32) (some 4096) none
      (fun _ => 4) always8192 ≠ .error (.assertion 339) ∧
    ∃ r, BufferState.fallbackResize scenarioD memoryD 0 1 3 (2 ^ 32) (some 4096) none
      (fun _ => 4) always8192 = .ok r :=
  ⟨by decide,
    (fallbackResize_size_assertion_holds scenarioD 0 0 1 3 (2 ^ 32) 104 (by rfl) (by rfl)
      (by decide) (by decide) (by decide) (by decide) (by decide)).1,
    (fallbackResize_size_assertion_holds scenarioD 0 0 1 3 (2 ^ 32) 104 (by rfl) (by rfl)
      (by decide) (by decide) (by decide) (by decide) (by decide)).2.2.1 memoryD
      (some 4096) none (fun _ => 4) always8192,
    (fallbackResize_size_assertion_holds scenarioD 0 0 1 3 (2 ^ 32) 104 (by rfl) (by rfl)
      (by decide) (by decide) (by decide) (by decide) (by decide)).2.2.2 memoryD
      (some 4096) (fun _ => 4) always8192 _ (by rfl)⟩

/-- C32: for every type entry with `cluster_size > 0` and all `buffer_id`, `size_needed`
and `cluster_ref_limit` such that `size_needed + reserved_elements(buffer_id) +
cluster_size - 1` does not wrap: whenever `calcClustersToAlloc` returns `c`,
`c * cluster_size ≥ reserved_elements(buffer_id) + size_needed`, also in `size_t`
arithmetic, so that no run of `BufferState::onActive` with these arguments ends at the
assertion of line 179; and on a Free buffer `onActive` completes when the allocator hands
out memory. -/
theorem onActive_size_assertion_unreachable (w : Store)
    (th bufferId sizeNeeded maxClusters c : Nat)
    (hcs : 0 < (w.types th)._clusterSize)
    (hnowrap : sizeNeeded + getReservedElements (w.types th) bufferId
      + (w.types th)._clusterSize - 1 < 2 ^ 64)
    (hcalc : calcClustersToAlloc w th bufferId sizeNeeded maxClusters = .ok c) :
    getReservedElements (w.types th) bufferId + sizeNeeded
      ≤ c * (w.types th)._clusterSize ∧
    add64 (getReservedElements (w.types th) bufferId) sizeNeeded
      ≤ mul64 c (w.types th)._clusterSize ∧
    (∀ (self typeId : Nat) (buffer : Option Nat) (elementSize : Nat)
        (create : Nat → Option Nat),
      BufferState.onActive w self bufferId typeId th sizeNeeded maxClusters buffer
        elementSize create ≠ .error (.assertion 179)) ∧
    (∀ (self typeId elementSize : Nat) (create : Nat → Option Nat) (p : Nat),
      FreeBuffer w self →
      create (mul64 (c * (w.types th)._clusterSize) elementSize) = some p →
      ∃ w', BufferState.onActive w self bufferId typeId th sizeNeeded maxClusters none
        elementSize create = .ok (w', some p)) := by
  have hneed := calcClustersToAlloc_ge_need w th bufferId sizeNeeded maxClusters c hcalc
  rw [needClusters_eq (w.types th) bufferId sizeNeeded hcs hnowrap] at hneed
  unfold neededClusters at hneed
  rw [ceilDiv_le_iff _ _ _ hcs] at hneed
  have hnat : getReservedElements (w.types th) bufferId + sizeNeeded
      ≤ c * (w.types th)._clusterSize := by omega
  have hmul := calcClustersToAlloc_mul64 w th bufferId sizeNeeded maxClusters c hcalc
  have hadd : add64 (getReservedElements (w.types th) bufferId) sizeNeeded
      = getReservedElements (w.types th) bufferId + sizeNeeded := by
    unfold add64
    exact Nat.mod_eq_of_lt (by omega)
  have hmach : add64 (getReservedElements (w.types th) bufferId) sizeNeeded
      ≤ mul64 c (w.types th)._clusterSize := by
    rw [hadd, hmul]
    exact hnat
  refine ⟨hnat, hmach, ?_, ?_⟩
  · intro self typeId buffer elementSize create
    apply onActive_not_179
    intro c' hc'
    rw [hcalc] at hc'
    cases hc'
    exact hmach
  · intro self typeId elementSize create p hfree hcreate
    refine ⟨_, onActive_eq w self bufferId typeId th sizeNeeded maxClusters elementSize
      create c p hfree hcalc ?_ hcreate⟩
    rw [hadd]
    exact hnat

/-- Scenario A: for `buffer_id = 1` and `size_needed = 10` `calcClustersToAlloc` returns
10, `0 + 10 ≤ 10`, and `onActive` completes on the Free buffer 0. -/
theorem onActive_size_assertion_unreachable_witness :
    calcClustersToAlloc scenarioA 0 1 10 (2 ^ 32) = .ok 10 ∧
    getReservedElements (scenarioA.types 0) 1 + 10 ≤ 10 * (scenarioA.types 0)._clusterSize ∧
    BufferState.onActive scenarioA 0 1 7 0 10 (2 ^ 32) none 4 always4096
      ≠ .error (.assertion 179) ∧
    ∃ w', BufferState.onActive scenarioA 0 1 7 0 10 (2 ^ 32) none 4 always4096
      = .ok (w', some 4096) :=
  ⟨by decide,
    (onActive_size_assertion_unreachable scenarioA 0 1 10 (2 ^ 32) 10 (by decide)
      (by decide) (by decide)).1,
    (onActive_size_assertion_unreachable scenarioA 0 1 10 (2 ^ 32) 10 (by decide)
      (by decide) (by decide)).2.2.1 0 7 none 4 always4096,
    (onActive_size_assertion_unreachable scenarioA 0 1 10 (2 ^ 32) 10 (by decide)
      (by decide) (by decide)).2.2.2 0 7 4 always4096 4096 (by decide) (by rfl)⟩

/-! ## The pending reference of a type entry -/

/-- C33: in every store of a successful sequence of operations (activations, holds,
frees, drops, and the other operations of a buffer and writes of the owner to a used
count as well) that starts from freshly constructed type entries and buffers, the pending
reference of every type entry is null or points to the used count of a buffer that is
`ACTIVE` and bound to the entry; it never points to a `HOLD` or `FREE` buffer; and when
`onHold` completes on the buffer it points to, the reference is null afterwards and that
buffer is in state `HOLD`. -/
theorem pending_refers_to_active (clusterSize minClusters maxClusters : Nat)
    (steps : List Step) (mem : Memory) (ws : List Store)
    (hrun : drive steps
      (Store.fresh (BufferTypeBase.new clusterSize minClusters maxClusters)) mem = .ok ws) :
    ∀ v, v ∈ ws → ∀ th,
      ((v.types th)._lastUsedElems = none ∨
        ∃ p, (v.types th)._lastUsedElems = some p ∧ (v.buffers p)._state = .ACTIVE ∧
          (v.buffers p)._typeHandler = some th) ∧
      (∀ p, (v.types th)._lastUsedElems = some p →
        (v.buffers p)._state ≠ .HOLD ∧ (v.buffers p)._state ≠ .FREE) ∧
      (∀ self v', BufferState.onHold v self = .ok v' →
        (v.types th)._lastUsedElems = some self →
        (v'.types th)._lastUsedElems = none ∧ (v'.buffers self)._state = .HOLD) := by
  intro v hv th
  have hinv := drive_pending steps _ mem ws
    (pendingIsActive_fresh clusterSize minClusters maxClusters) hrun v hv
  refine ⟨?_, ?_, ?_⟩
  · cases hl : (v.types th)._lastUsedElems with
    | none => exact Or.inl rfl
    | some p => exact Or.inr ⟨p, rfl, hinv th p hl⟩
  · intro p hp
    obtain ⟨h1, -⟩ := hinv th p hp
    rw [h1]
    exact ⟨by decide, by decide⟩
  · intro self v' h hp
    exact ⟨(onHold_pending v self v' h hinv).2 th hp, (onHold_state v self v' h).2.1⟩

/-- Two buffers are activated, held and freed: after the second activation the pending
reference points to buffer 1, which is `ACTIVE` and not `HOLD`, and after the hold of
buffer 1 the reference is null. -/
theorem pending_refers_to_active_witness :
    drive lifeSteps (Store.fresh (BufferTypeBase.new 1 4 1000)) memoryD
      = .ok (storesOf (drive lifeSteps (Store.fresh (BufferTypeBase.new 1 4 1000))
          memoryD)) ∧
    ((storeAt (storesOf (drive lifeSteps (Store.fresh (BufferTypeBase.new 1 4 1000))
        memoryD)) 3 scenarioA).types 0)._lastUsedElems = some 1 ∧
    ((storeAt (storesOf (drive lifeSteps (Store.fresh (BufferTypeBase.new 1 4 1000))
        memoryD)) 3 scenarioA).buffers 1)._state = .ACTIVE ∧
    ((storeAt (storesOf (drive lifeSteps (Store.fresh (BufferTypeBase.new 1 4 1000))
        memoryD)) 3 scenarioA).buffers 1)._state ≠ .HOLD ∧
    ((storeAt (storesOf (drive lifeSteps (Store.fresh (BufferTypeBase.new 1 4 1000))
        memoryD)) 5 scenarioA).types 0)._lastUsedElems = none :=
  ⟨by rfl, by rfl, by rfl,
    ((pending_refers_to_active 1 4 1000 lifeSteps memoryD _ (by rfl)
      (storeAt (storesOf (drive lifeSteps (Store.fresh (BufferTypeBase.new 1 4 1000))
        memoryD)) 3 scenarioA)
      (List.getElem?_mem (n := 3) (by rfl)) 0).2.1 1 (by rfl)).1,
    by rfl⟩

/-- C34: for every state of the store and all arguments, `calcClustersToAlloc` on a type
entry gives the same result (returned count or failed assertion) before and after
`flushLastUsed` on that entry, and also after `flushLastUsed` on any other entry:
flushing moves the pending count into `active_used_elems` and clears the reference, which
leaves the used count the sizing works with and the limits of the entry.
`calcClustersToAlloc` is a `const` member function that assigns to locals only; its
embedding returns the count and no store, so the type entry after it is the one before
it. -/
theorem calcClustersToAlloc_flush_independent (w : Store)
    (th bufferId sizeNeeded clusterRefSize : Nat) :
    calcClustersToAlloc (flushLastUsed w th) th bufferId sizeNeeded clusterRefSize
      = calcClustersToAlloc w th bufferId sizeNeeded clusterRefSize ∧
    (∀ x, calcClustersToAlloc (flushLastUsed w x) th bufferId sizeNeeded clusterRefSize
      = calcClustersToAlloc w th bufferId sizeNeeded clusterRefSize) ∧
    ((flushLastUsed w th).types th)._activeUsedElems = effectiveUsedElems w th ∧
    ((flushLastUsed w th).types th)._lastUsedElems = none ∧
    effectiveUsedElems (flushLastUsed w th) th = effectiveUsedElems w th ∧
    ((flushLastUsed w th).types th).limits = (w.types th).limits := by
  have key : ∀ x, calcClustersToAlloc (flushLastUsed w x) th bufferId sizeNeeded
      clusterRefSize = calcClustersToAlloc w th bufferId sizeNeeded clusterRefSize := by
    intro x
    have hl : ((flushLastUsed w x).types th)._clusterSize = (w.types th)._clusterSize ∧
        ((flushLastUsed w x).types th)._minClusters = (w.types th)._minClusters ∧
        ((flushLastUsed w x).types th)._maxClusters = (w.types th)._maxClusters := by
      by_cases hx : th = x
      · subst hx
        rw [flushLastUsed_type]
        exact ⟨rfl, rfl, rfl⟩
      · rw [flushLastUsed_type_ne w x th hx]
        exact ⟨rfl, rfl, rfl⟩
    obtain ⟨h1, h2, h3⟩ := hl
    unfold calcClustersToAlloc
    simp only [effectiveUsedElems_flush, h1, h2, h3, getReservedElements]
  refine ⟨key th, key, ?_, ?_, effectiveUsedElems_flush w th th, ?_⟩
  · rw [flushLastUsed_type]
  · rw [flushLastUsed_type]
  · rw [flushLastUsed_type]
    simp [BufferTypeBase.limits]

/-- Scenario C, where the used count of buffer 1 is pending: `calcClustersToAlloc` for
`buffer_id = 1` and `size_needed = 10` returns 18 before and after `flushLastUsed`. -/
theorem calcClustersToAlloc_flush_independent_witness :
    (scenarioC.types 0)._lastUsedElems = some 1 ∧
    calcClustersToAlloc scenarioC 0 1 10 (2 ^ 32) = .ok 18 ∧
    calcClustersToAlloc (flushLastUsed scenarioC 0) 0 1 10 (2 ^ 32) = .ok 18 :=
  ⟨by rfl, by decide,
    ((calcClustersToAlloc_flush_independent scenarioC 0 1 10 (2 ^ 32)).1).trans (by decide)⟩

/-! ## `disableElemHoldList` -/

/-- C35: `disableElemHoldList` sets `_disableElemHoldList` of the buffer to true and
leaves every other member of the buffer (state, the counts, the free list, the anchor, both
links, type handler, type id, cluster size, compacting flag and memory), every other
buffer, the type entries, the anchors, the allocations and the memory contents; calling
it twice gives the same store as calling it once, and on a buffer whose flag is already
set it changes nothing. -/
theorem disableElemHoldList_effect (w : Store) (self : Nat) :
    ((BufferState.disableElemHoldList w self).buffers self)._disableElemHoldList = true ∧
    (BufferState.disableElemHoldList w self).buffers self
      = { w.buffers self with _disableElemHoldList := true } ∧
    ((BufferState.disableElemHoldList w self).buffers self)._state
      = (w.buffers self)._state ∧
    ((BufferState.disableElemHoldList w self).buffers self)._usedElems
      = (w.buffers self)._usedElems ∧
    ((BufferState.disableElemHoldList w self).buffers self)._allocElems
      = (w.buffers self)._allocElems ∧
    ((BufferState.disableElemHoldList w self).buffers self)._deadElems
      = (w.buffers self)._deadElems ∧
    ((BufferState.disableElemHoldList w self).buffers self)._holdElems
      = (w.buffers self)._holdElems ∧
    ((BufferState.disableElemHoldList w self).buffers self)._freeList
      = (w.buffers self)._freeList ∧
    ((BufferState.disableElemHoldList w self).buffers self)._freeListList
      = (w.buffers self)._freeListList ∧
    ((BufferState.disableElemHoldList w self).buffers self)._nextHasFree
      = (w.buffers self)._nextHasFree ∧
    ((BufferState.disableElemHoldList w self).buffers self)._prevHasFree
      = (w.buffers self)._prevHasFree ∧
    ((BufferState.disableElemHoldList w self).buffers self)._typeHandler
      = (w.buffers self)._typeHandler ∧
    ((BufferState.disableElemHoldList w self).buffers self)._typeId
      = (w.buffers self)._typeId ∧
    ((BufferState.disableElemHoldList w self).buffers self)._clusterSize
      = (w.buffers self)._clusterSize ∧
    ((BufferState.disableElemHoldList w self).buffers self)._compacting
      = (w.buffers self)._compacting ∧
    ((BufferState.disableElemHoldList w self).buffers self)._buffer
      = (w.buffers self)._buffer ∧
    (∀ x, x ≠ self → (BufferState.disableElemHoldList w self).buffers x = w.buffers x) ∧
    (BufferState.disableElemHoldList w self).types = w.types ∧
    (BufferState.disableElemHoldList w self).lists = w.lists ∧
    (BufferState.disableElemHoldList w self).allocated = w.allocated ∧
    (∀ mem, (BufferOp.disableElemHoldList self).run w mem
      = .ok (BufferState.disableElemHoldList w self, mem)) ∧
    BufferState.disableElemHoldList (BufferState.disableElemHoldList w self) self
      = BufferState.disableElemHoldList w self ∧
    ((w.buffers self)._disableElemHoldList = true →
      BufferState.disableElemHoldList w self = w) := by
  have hb : (BufferState.disableElemHoldList w self).buffers self
      = { w.buffers self with _disableElemHoldList := true } := by
    simp [BufferState.disableElemHoldList, Store.setBuffer]
  refine ⟨by rw [hb], hb, by rw [hb], by rw [hb], by rw [hb], by rw [hb], by rw [hb],
    by rw [hb], by rw [hb], by rw [hb], by rw [hb], by rw [hb], by rw [hb], by rw [hb],
    by rw [hb], by rw [hb], ?_, rfl, rfl, rfl, fun _ => rfl, ?_, ?_⟩
  · intro x hx
    simp [BufferState.disableElemHoldList, Store.setBuffer, upd_ne _ _ _ _ hx]
  · simp [BufferState.disableElemHoldList, Store.setBuffer]
  · intro h
    have e : ({ w.buffers self with _disableElemHoldList := true } : BufferState)
        = w.buffers self := by
      cases hbs : w.buffers self with
      | mk a b c d e f g h1 i j k l m n o =>
        rw [hbs] at h
        simp only at h
        subst h
        rfl
    simp only [BufferState.disableElemHoldList, Store.setBuffer, e]
    rw [upd_self _ _ _ rfl]

/-- Scenario C: after `disableElemHoldList` on buffer 0 the flag is set, the buffer is
still `ACTIVE` with the free list `[3, 5, 7]`, and a second call changes nothing. -/
theorem disableElemHoldList_effect_witness :
    ((BufferState.disableElemHoldList scenarioC 0).buffers 0)._disableElemHoldList = true ∧
    ((BufferState.disableElemHoldList scenarioC 0).buffers 0)._state = .ACTIVE ∧
    ((BufferState.disableElemHoldList scenarioC 0).buffers 0)._freeList = [3, 5, 7] ∧
    BufferState.disableElemHoldList (BufferState.disableElemHoldList scenarioC 0) 0
      = BufferState.disableElemHoldList scenarioC 0 :=
  ⟨(disableElemHoldList_effect scenarioC 0).1,
    (disableElemHoldList_effect scenarioC 0).2.2.1.trans (by rfl),
    (disableElemHoldList_effect scenarioC 0).2.2.2.2.2.2.2.1.trans (by rfl),
    (disableElemHoldList_effect scenarioC 0).2.2.2.2.2.2.2.2.2.2.2.2.2.2.2.2.2.2.2.2.2.1⟩

end search.datastore
